import Mathlib

/-!
# fdfault: block partitioning, grid metric construction, right-hand side and interfaces

A shallow embedding of `block::calc_process_info`, the index setup of the
`block` constructor, `block::set_grid` and the kernels behind `block::calc_df`
(src/block.cpp), and of the constructor, `allocate_normals` and `apply_bcs` of
class `interface` (src/interface.cpp).  C++ `int` values are unbounded integers (grid indices stay far
below the 32-bit range), C++ `double` values are exact rationals, and a
fixed-size C array `int a[3]` is a function on indices together with a
one-slot store operation.
-/

namespace fdfault

/-- Array store `a[i] = v`. -/
def setAt {α : Type} (a : Nat → α) (i : Nat) (v : α) : Nat → α :=
  fun j => if j = i then v else a j

/-- Coordinate descriptor of a block (class `coord`): one entry per dimension
for the global point count, global minimum index, local point count, local
minimum index and the two ghost-layer counts. -/
structure coord where
  nx : Nat → Int
  xm : Nat → Int
  nx_loc : Nat → Int
  xm_loc : Nat → Int
  xm_ghost : Nat → Int
  xp_ghost : Nat → Int

/-- Modelled from the spec: the accessor `coord::get_xp` lives in coord.hpp,
which is not among the sources; the global maximum index of a range of `nx`
points starting at `xm` is `xm + nx - 1`. -/
def coord.get_xp (c : coord) (i : Nat) : Int := c.xm i + c.nx i - 1

/-- Modelled from the spec: the accessor `coord::get_xp_loc` lives in
coord.hpp, which is not among the sources; the local maximum index is
`xm_loc + nx_loc - 1`. -/
def coord.get_xp_loc (c : coord) (i : Nat) : Int := c.xm_loc i + c.nx_loc i - 1

/-- The values the process topology (class `cartesian`) supplies per
dimension. -/
structure cartesian where
  nx_tot : Nat → Int
  xm_loc : Nat → Int
  nx_loc : Nat → Int
  xm_ghost : Nat → Int

/-- The members of class `block` that the partitioning and grid routines use. -/
structure block where
  ndim : Nat
  mode : Nat
  c : coord
  no_data : Bool
  nxd : Nat → Int
  mlb : Nat → Int
  mc : Nat → Int
  mrb : Nat → Int
  prb : Nat → Int
  dx : Nat → ℚ

/-- Body of the first loop of `calc_process_info` (block.cpp 327-343): the
intersection of the block range with the process range in dimension `i`.
`c0` is the descriptor on entry, from which the locals `nx`, `xm`, `xp` were
read. -/
def intersect_body (cart : cartesian) (c0 : coord) (c : coord) (i : Nat) : coord :=
  let xm_loc_d := cart.xm_loc i
  let nx_loc_d := cart.nx_loc i
  let nx := c0.nx i
  let xm := c0.xm i
  let xp := c0.get_xp i
  if xm_loc_d ≤ xm ∧ xm_loc_d + nx_loc_d - 1 ≥ xp then
    { c with nx_loc := setAt c.nx_loc i nx, xm_loc := setAt c.xm_loc i xm }
  else if xm_loc_d > xm ∧ xm_loc_d ≤ xp ∧ xm_loc_d + nx_loc_d - 1 ≥ xp then
    { c with nx_loc := setAt c.nx_loc i (xp - xm_loc_d + 1),
             xm_loc := setAt c.xm_loc i xm_loc_d }
  else if xm_loc_d ≤ xm ∧ xm_loc_d + nx_loc_d - 1 < xp ∧ xm_loc_d + nx_loc_d - 1 ≥ xm then
    { c with nx_loc := setAt c.nx_loc i (xm_loc_d + nx_loc_d - xm),
             xm_loc := setAt c.xm_loc i xm }
  else if xm_loc_d > xm ∧ xm_loc_d + nx_loc_d - 1 < xp then
    { c with nx_loc := setAt c.nx_loc i nx_loc_d,
             xm_loc := setAt c.xm_loc i xm_loc_d }
  else
    { c with nx_loc := setAt c.nx_loc i 0 }

/-- First `if` of the ghost loop (block.cpp 348-352). -/
def ghost_low (cart : cartesian) (c0 : coord) (sbporder : Int) (c : coord) (i : Nat) : coord :=
  let xm_loc_d := cart.xm_loc i
  let xm := c0.xm i
  let xp := c0.get_xp i
  if xm_loc_d > xm ∧ xm_loc_d < xp then
    { c with xm_ghost := setAt c.xm_ghost i (sbporder - 1) }
  else if xm_loc_d = xp + 1 then
    { c with xp_ghost := setAt c.xp_ghost i 1 }
  else c

/-- Second `if` of the ghost loop (block.cpp 354-358). -/
def ghost_high (cart : cartesian) (c0 : coord) (sbporder : Int) (c : coord) (i : Nat) : coord :=
  let xm_loc_d := cart.xm_loc i
  let nx_loc_d := cart.nx_loc i
  let xm := c0.xm i
  let xp := c0.get_xp i
  if xm_loc_d + nx_loc_d - 1 > xm ∧ xm_loc_d + nx_loc_d - 1 < xp then
    { c with xp_ghost := setAt c.xp_ghost i (sbporder - 1) }
  else if xm_loc_d + nx_loc_d - 1 = xm - 1 then
    { c with xm_ghost := setAt c.xm_ghost i 1 }
  else c

/-- Body of the ghost loop of `calc_process_info` (block.cpp 347-359). -/
def ghost_body (cart : cartesian) (c0 : coord) (sbporder : Int) (c : coord) (i : Nat) : coord :=
  ghost_high cart c0 sbporder (ghost_low cart c0 sbporder c i) i

/-- Body of the last loop of `calc_process_info` (block.cpp 365-375), acting on
the pair (descriptor, `no_data`). -/
def collapse_body (s : coord × Bool) (i : Nat) : coord × Bool :=
  if s.1.nx_loc i = 0 then
    ({ s.1 with
        nx_loc := setAt (setAt (setAt s.1.nx_loc 0 0) 1 0) 2 0,
        xm_loc := setAt (setAt (setAt s.1.xm_loc 0 (s.1.xm 0)) 1 (s.1.xm 1)) 2 (s.1.xm 2) },
     true)
  else s

/-- Embedding of `block::calc_process_info` (block.cpp 308-376). -/
def calc_process_info (b : block) (cart : cartesian) (sbporder : Int) : block :=
  let c1 := (List.range b.ndim).foldl (intersect_body cart b.c) b.c
  let c2 := (List.range b.ndim).foldl (ghost_body cart b.c sbporder) c1
  let r := (List.range b.ndim).foldl collapse_body (c2, false)
  { b with c := r.1, no_data := r.2 }

/-- The block range and the process-owned range overlap in dimension `i`. -/
def overlaps (b : block) (cart : cartesian) (i : Nat) : Prop :=
  cart.xm_loc i ≤ b.c.get_xp i ∧ b.c.xm i ≤ cart.xm_loc i + cart.nx_loc i - 1

instance (b : block) (cart : cartesian) (i : Nat) : Decidable (overlaps b cart i) := by
  unfold overlaps; infer_instance

/-- A coordinate descriptor with the same six values in every dimension. -/
def coord.uniform (nx xm nx_loc xm_loc xm_ghost xp_ghost : Int) : coord :=
  ⟨fun _ => nx, fun _ => xm, fun _ => nx_loc, fun _ => xm_loc, fun _ => xm_ghost,
   fun _ => xp_ghost⟩

/-- A block of dimension `ndim` whose descriptor is `c`; the index members are
not yet set. -/
def block.ofCoord (ndim : Nat) (c : coord) : block :=
  ⟨ndim, 2, c, false, fun _ => 0, fun _ => 0, fun _ => 0, fun _ => 0, fun _ => 0, fun _ => 0⟩

/-- A 2D block of 4 points per dimension starting at index 0 (so `xp = 3`),
with the ghost counts at zero. -/
def blockA : block := block.ofCoord 2 (coord.uniform 4 0 1 0 0 0)

/-- A process that owns the 4 points starting at index `a0` in dimension 0 and
the 4 points starting at index `a1` in the other dimensions. -/
def cartAt (a0 a1 : Int) : cartesian :=
  ⟨fun _ => 16, fun i => if i = 0 then a0 else a1, fun _ => 4, fun _ => 0⟩

/-- A 2D block of 4 points per dimension starting at index 4 (so `xp = 7`),
with the ghost counts at zero. -/
def blockB : block := block.ofCoord 2 (coord.uniform 4 4 1 0 0 0)

/-! ## Grid and metric construction (`block::set_grid`) -/

/-- Memory store `m[a] = v` on an array addressed by `ι`. -/
def store {ι α : Type} [DecidableEq ι] (m : ι → α) (a : ι) (v : α) : ι → α :=
  fun j => if j = a then v else m j

/-- The values `lo, lo+1, ..., hi-1` a C loop `for (i = lo; i < hi; i++)` visits. -/
def irange (lo hi : Int) : List Int :=
  (List.range (hi - lo).toNat).map (fun (t : Nat) => lo + (t : Int))

/-- The C loop `for (int i = lo; i < hi; i++) s = body(i, s)`. -/
def forRange {σ : Type} (lo hi : Int) (body : Int → σ → σ) (s : σ) : σ :=
  (irange lo hi).foldl (fun s i => body i s) s

/-- A boundary surface as `set_grid` uses it: the accessor
`get_x(component, j, k)` of class `surface` (surface.hpp is not among the
sources). -/
structure surface where
  get_x : Int → Int → Int → ℚ

/-- The finite-difference provider `fd_type` as the block uses it: the stencil
order and the coefficient table `fdcoeff[row][n]` (row 0 interior, rows
`1 .. 2(order-1)` boundary closure). -/
structure fd_type where
  sbporder : Int
  fdcoeff : Int → Int → ℚ

/-- The flat arrays of class `fields`, addressed by their flat offset. -/
structure fields where
  x : Int → ℚ
  metric : Int → ℚ
  jac : Int → ℚ
  f : Int → ℚ
  df : Int → ℚ

/-- The scratch tensor `double***** xp` of `set_grid`, addressed by its five
indices `[l][m][i][j][k]`. -/
abbrev XP := Int × Int × Int × Int × Int → ℚ

/-- The assignment `dx[i] = 1./(double)(c.get_nx(i)-1)` for `i < 3`
(block.cpp 381-383).  For a dimension of one point the C value is `+inf`,
which in a 2D block reaches the results of `set_grid` only as the divisor of
finite stencil terms (quotient zero); with rationals `1/0 = 0` and a division
by zero is zero, which gives the same quotients. -/
def set_dx (b : block) : block :=
  { b with dx := ((List.range 3).foldl
      (fun dx i => setAt dx i (1 / (((b.c.nx i - 1 : Int)) : ℚ))) b.dx) }

/-- Flat offset of coordinate component `i` at array point `(j,k,l)`:
`i*nxd[0]+j*nxd[1]+k*nxd[2]+l`. -/
def xidx (b : block) (i j k l : Int) : Int :=
  i * b.nxd 0 + j * b.nxd 1 + k * b.nxd 2 + l

/-- Flat offset of the Jacobian at array point `(i,j,k)`:
`i*nxd[1]+j*nxd[2]+k`. -/
def jidx (b : block) (i j k : Int) : Int :=
  i * b.nxd 1 + j * b.nxd 2 + k

/-- Flat offset of metric entry `(l,m)` at array point `(i,j,k)`:
`l*ndim*nxd[0]+m*nxd[0]+i*nxd[1]+j*nxd[2]+k`. -/
def midx (b : block) (l m i j k : Int) : Int :=
  l * (b.ndim : Int) * b.nxd 0 + m * b.nxd 0 + i * b.nxd 1 + j * b.nxd 2 + k

/-- Body of the transfinite interpolation loops (block.cpp 411-437) for
component `i` at array point `(j,k,l)`. -/
def interp_point (b : block) (surf : Nat → surface) (i j k l : Int) (x : Int → ℚ) :
    Int → ℚ :=
  let ny := b.c.nx 1
  let nz := b.c.nx 2
  let xm_loc := b.c.xm_loc 0 - b.c.xm 0
  let ym_loc := b.c.xm_loc 1 - b.c.xm 1
  let zm_loc := b.c.xm_loc 2 - b.c.xm 2
  let nxm := b.c.xm_ghost 0
  let nym := b.c.xm_ghost 1
  let nzm := b.c.xm_ghost 2
  let jj := xm_loc + j - nxm
  let kk := ym_loc + k - nym
  let ll := zm_loc + l - nzm
  let p : ℚ := (jj : ℚ) * b.dx 0
  let q : ℚ := (kk : ℚ) * b.dx 1
  let r : ℚ := (ll : ℚ) * b.dx 2
  let a := xidx b i j k l
  let x1 := store x a
    ((1 - p) * (surf 0).get_x i kk ll + p * (surf 1).get_x i kk ll
      + (1 - q) * (surf 2).get_x i jj ll + q * (surf 3).get_x i jj ll)
  let x2 := if b.ndim = 3 then
      store x1 a (x1 a + ((1 - r) * (surf 4).get_x i jj kk + r * (surf 5).get_x i jj kk))
    else x1
  let x3 := store x2 a
    (x2 a - ((1 - q) * (1 - p) * (surf 0).get_x i 0 ll + (1 - q) * p * (surf 1).get_x i 0 ll
      + q * (1 - p) * (surf 0).get_x i (ny - 1) ll + q * p * (surf 1).get_x i (ny - 1) ll))
  if b.ndim = 3 then
    let x4 := store x3 a
      (x3 a - ((1 - p) * (1 - r) * (surf 0).get_x i kk 0 + p * (1 - r) * (surf 1).get_x i kk 0
        + (1 - q) * (1 - r) * (surf 2).get_x i jj 0 + q * (1 - r) * (surf 3).get_x i jj 0
        + (1 - p) * r * (surf 0).get_x i kk (nz - 1) + p * r * (surf 1).get_x i kk (nz - 1)
        + (1 - q) * r * (surf 2).get_x i jj (nz - 1) + q * r * (surf 3).get_x i jj (nz - 1)))
    store x4 a
      (x4 a + ((1 - p) * (1 - q) * (1 - r) * (surf 0).get_x i 0 0
        + p * (1 - q) * (1 - r) * (surf 1).get_x i 0 0
        + (1 - p) * q * (1 - r) * (surf 0).get_x i (ny - 1) 0
        + (1 - p) * (1 - q) * r * (surf 0).get_x i 0 (nz - 1)
        + p * q * (1 - r) * (surf 1).get_x i (ny - 1) 0
        + p * (1 - q) * r * (surf 1).get_x i 0 (nz - 1)
        + (1 - p) * q * r * (surf 0).get_x i (ny - 1) (nz - 1)
        + p * q * r * (surf 1).get_x i (ny - 1) (nz - 1)))
  else x3

/-- The transfinite interpolation loop nest (block.cpp 407-441). -/
def interpolate (b : block) (surf : Nat → surface) (x : Int → ℚ) : Int → ℚ :=
  forRange 0 b.ndim (fun i x =>
    forRange (b.mlb 0 - b.c.xm_ghost 0) (b.prb 0 + b.c.xp_ghost 0) (fun j x =>
      forRange (b.mlb 1 - b.c.xm_ghost 1) (b.prb 1 + b.c.xp_ghost 1) (fun k x =>
        forRange (b.mlb 2 - b.c.xm_ghost 2) (b.prb 2 + b.c.xp_ghost 2) (fun l x =>
          interp_point b surf i j k l x) x) x) x) x

/-- Initialisation of the scratch tensor to the identity (block.cpp 478-492). -/
def xp_init (b : block) (xp : XP) : XP :=
  forRange 0 3 (fun i xp =>
    forRange 0 3 (fun j xp =>
      forRange 0 (b.c.nx_loc 0) (fun k xp =>
        forRange 0 (b.c.nx_loc 1) (fun l xp =>
          forRange 0 (b.c.nx_loc 2) (fun m xp =>
            store xp (i, j, k, l, m) (if i = j then 1 else 0)) xp) xp) xp) xp) xp

/-- The statement pair `xp[t] = 0.; for (n = 0; n < N; n++) xp[t] += c[n]*g[n]/h;`
used by the left-closure and interior stencils. -/
def accum_plus (t : Int × Int × Int × Int × Int) (N : Int) (c g : Int → ℚ) (h : ℚ)
    (xp : XP) : XP :=
  forRange 0 N (fun n xp => store xp t (xp t + c n * g n / h)) (store xp t 0)

/-- The statement pair `xp[t] = 0.; for (n = 0; n < N; n++) xp[t] -= c[n]*g[n]/h;`
used by the right-closure stencil. -/
def accum_minus (t : Int × Int × Int × Int × Int) (N : Int) (c g : Int → ℚ) (h : ℚ)
    (xp : XP) : XP :=
  forRange 0 N (fun n xp => store xp t (xp t - c n * g n / h)) (store xp t 0)

/-- Left-closure stencil loop of direction `d` (block.cpp 498-506, 532-540,
566-574): for `i` in `[mlb[d], mc[d])` and every component `l < ndim`, the
entry `xp[tup l i]` becomes the sum over `n < 3(order-1)` of
`fdcoeff[i-mlb[d]+1][n] * x[addr l (mlb[d]+n)] / dx[d]`.  `tup` and `addr`
are the tensor index and the flat offset the direction uses. -/
def stencil_left (b : block) (fd : fd_type) (x : Int → ℚ) (d : Nat)
    (tup : Int → Int → Int × Int × Int × Int × Int) (addr : Int → Int → Int) (xp : XP) : XP :=
  forRange (b.mlb d) (b.mc d) (fun i xp =>
    forRange 0 b.ndim (fun l xp =>
      accum_plus (tup l i) (3 * (fd.sbporder - 1)) (fd.fdcoeff (i - b.mlb d + 1))
        (fun n => x (addr l (b.mlb d + n))) (b.dx d) xp) xp) xp

/-- Interior stencil loop of direction `d` (block.cpp 507-515, 541-549,
575-583): for `i` in `[mc[d], mrb[d])` the entry becomes the sum over
`n < 2*order-1` of `fdcoeff[0][n] * x[addr l (i-order+1+n)] / dx[d]`. -/
def stencil_interior (b : block) (fd : fd_type) (x : Int → ℚ) (d : Nat)
    (tup : Int → Int → Int × Int × Int × Int × Int) (addr : Int → Int → Int) (xp : XP) : XP :=
  forRange (b.mc d) (b.mrb d) (fun i xp =>
    forRange 0 b.ndim (fun l xp =>
      accum_plus (tup l i) (2 * fd.sbporder - 1) (fd.fdcoeff 0)
        (fun n => x (addr l (i - fd.sbporder + 1 + n))) (b.dx d) xp) xp) xp

/-- Right-closure stencil loop of direction `d` (block.cpp 516-524, 550-558,
584-592): for `i` in `[mrb[d], prb[d])` the entry becomes minus the sum over
`n < 3(order-1)` of `fdcoeff[prb[d]-i][n] * x[addr l (prb[d]-1-n)] / dx[d]`. -/
def stencil_right (b : block) (fd : fd_type) (x : Int → ℚ) (d : Nat)
    (tup : Int → Int → Int × Int × Int × Int × Int) (addr : Int → Int → Int) (xp : XP) : XP :=
  forRange (b.mrb d) (b.prb d) (fun i xp =>
    forRange 0 b.ndim (fun l xp =>
      accum_minus (tup l i) (3 * (fd.sbporder - 1)) (fd.fdcoeff (b.prb d - i))
        (fun n => x (addr l (b.prb d - 1 - n))) (b.dx d) xp) xp) xp

/-- The three stencil loops of direction `d` in source order: left closure,
interior, right closure. -/
def stencil_regions (b : block) (fd : fd_type) (x : Int → ℚ) (d : Nat)
    (tup : Int → Int → Int × Int × Int × Int × Int) (addr : Int → Int → Int) (xp : XP) : XP :=
  stencil_right b fd x d tup addr
    (stencil_interior b fd x d tup addr (stencil_left b fd x d tup addr xp))

/-- The x-derivative loop nest (block.cpp 496-526): `j`, `k` run over
dimensions 1 and 2, the stencil runs along dimension 0 and fills
`xp[l][0][i-mlb[0]][j-mlb[1]][k-mlb[2]]` from
`f.x[l*nxd[0]+a*nxd[1]+j*nxd[2]+k]`. -/
def x_derivatives (b : block) (fd : fd_type) (x : Int → ℚ) (xp : XP) : XP :=
  forRange (b.mlb 1) (b.prb 1) (fun j xp =>
    forRange (b.mlb 2) (b.prb 2) (fun k xp =>
      stencil_regions b fd x 0
        (fun l i => (l, 0, i - b.mlb 0, j - b.mlb 1, k - b.mlb 2))
        (fun l a => l * b.nxd 0 + a * b.nxd 1 + j * b.nxd 2 + k) xp) xp) xp

/-- The y-derivative loop nest (block.cpp 530-560): `j`, `k` run over
dimensions 0 and 2, the stencil runs along dimension 1 and fills
`xp[l][1][j-mlb[0]][i-mlb[1]][k-mlb[2]]` from
`f.x[l*nxd[0]+j*nxd[1]+a*nxd[2]+k]`. -/
def y_derivatives (b : block) (fd : fd_type) (x : Int → ℚ) (xp : XP) : XP :=
  forRange (b.mlb 0) (b.prb 0) (fun j xp =>
    forRange (b.mlb 2) (b.prb 2) (fun k xp =>
      stencil_regions b fd x 1
        (fun l i => (l, 1, j - b.mlb 0, i - b.mlb 1, k - b.mlb 2))
        (fun l a => l * b.nxd 0 + j * b.nxd 1 + a * b.nxd 2 + k) xp) xp) xp

/-- The z-derivative loop nest (block.cpp 564-594): `j`, `k` run over
dimensions 0 and 1, the stencil runs along dimension 2 and fills
`xp[l][2][j-mlb[0]][k-mlb[1]][i-mlb[2]]` from
`f.x[l*nxd[0]+j*nxd[1]+k*nxd[2]+a]`. -/
def z_derivatives (b : block) (fd : fd_type) (x : Int → ℚ) (xp : XP) : XP :=
  forRange (b.mlb 0) (b.prb 0) (fun j xp =>
    forRange (b.mlb 1) (b.prb 1) (fun k xp =>
      stencil_regions b fd x 2
        (fun l i => (l, 2, j - b.mlb 0, k - b.mlb 1, i - b.mlb 2))
        (fun l a => l * b.nxd 0 + j * b.nxd 1 + k * b.nxd 2 + a) xp) xp) xp

/-- The Jacobian expression of block.cpp 601-609 on the nine entries `X l m`
of the coordinate-derivative tensor at one point. -/
def jac_value (X : Int → Int → ℚ) : ℚ :=
  X 0 0 * (X 1 1 * X 2 2 - X 1 2 * X 2 1)
    - X 1 0 * (X 0 1 * X 2 2 - X 0 2 * X 2 1)
    + X 2 0 * (X 0 1 * X 1 2 - X 0 2 * X 1 1)

/-- The metric expression of block.cpp 612-616 for entry `(l,m)`, on the nine
entries `X l m` of the coordinate-derivative tensor and the stored Jacobian. -/
def metric_value (X : Int → Int → ℚ) (jac : ℚ) (l m : Int) : ℚ :=
  (X ((m + 1) % 3) ((l + 1) % 3) * X ((m + 2) % 3) ((l + 2) % 3)
    - X ((m + 1) % 3) ((l + 2) % 3) * X ((m + 1) % 3) ((l + 1) % 3)) / jac

/-- Body of the metric loop nest (block.cpp 601-618) at array point `(i,j,k)`. -/
def metric_point (b : block) (xp : XP) (i j k : Int) (f : fields) : fields :=
  let X : Int → Int → ℚ := fun l m => xp (l, m, i - b.mlb 0, j - b.mlb 1, k - b.mlb 2)
  let f1 : fields := { f with jac := store f.jac (jidx b i j k) (jac_value X) }
  forRange 0 b.ndim (fun l f =>
    forRange 0 b.ndim (fun m f =>
      { f with metric := (store f.metric (midx b l m i j k)
          (metric_value X (f.jac (jidx b i j k)) l m)) }) f) f1

/-- The metric loop nest (block.cpp 598-621). -/
def metric_loop (b : block) (xp : XP) (f : fields) : fields :=
  forRange (b.mlb 0) (b.prb 0) (fun i f =>
    forRange (b.mlb 1) (b.prb 1) (fun j f =>
      forRange (b.mlb 2) (b.prb 2) (fun k f =>
        metric_point b xp i j k f) f) f) f

/-- The scratch tensor `xp` of `set_grid` after the three derivative loop
nests; `xp0` is the content of the freshly allocated memory. -/
def set_grid_xp (b : block) (surf : Nat → surface) (f : fields) (fd : fd_type) (xp0 : XP) :
    XP :=
  let b1 := set_dx b
  let x1 := interpolate b1 surf f.x
  z_derivatives b1 fd x1 (y_derivatives b1 fd x1 (x_derivatives b1 fd x1 (xp_init b1 xp0)))

/-- Embedding of `block::set_grid` (block.cpp 378-656): returns the block
(whose `dx` is assigned) and the fields.  `exchange_grid` is the ghost
exchange of the fields collaborator called last; `xp0` is the content of the
freshly allocated scratch memory. -/
def set_grid (b : block) (surf : Nat → surface) (f : fields) (fd : fd_type) (xp0 : XP)
    (exchange_grid : fields → fields) : block × fields :=
  let b1 := set_dx b
  let f1 : fields := { f with x := interpolate b1 surf f.x }
  let xp := z_derivatives b1 fd f1.x (y_derivatives b1 fd f1.x
    (x_derivatives b1 fd f1.x (xp_init b1 xp0)))
  (b1, exchange_grid (metric_loop b1 xp f1))

/-- The index members the `block` constructor computes for a block with data
(block.cpp 55-73): the strides `nxd` and, per dimension, the bounds `mlb`,
`mc`, `mrb`, `prb` of the left-closure, interior and right-closure regions. -/
def init_indices (b : block) (cart : cartesian) (fd : fd_type) : block :=
  let nxd : Nat → Int :=
    setAt (setAt (setAt b.nxd 0 (cart.nx_tot 0 * cart.nx_tot 1 * cart.nx_tot 2))
      1 (cart.nx_tot 1 * cart.nx_tot 2)) 2 (cart.nx_tot 2)
  (List.range 3).foldl (fun b i =>
    let mlb := setAt b.mlb i (b.c.xm_loc i - cart.xm_loc i + cart.xm_ghost i)
    let mc := if b.c.xm_loc i = b.c.xm i ∧ b.c.nx i > 1 then
        setAt b.mc i (mlb i + 2 * (fd.sbporder - 1))
      else setAt b.mc i (mlb i)
    if b.c.get_xp_loc i = b.c.get_xp i ∧ b.c.nx i > 1 then
      let mrb := setAt b.mrb i (mlb i + b.c.nx_loc i - 2 * (fd.sbporder - 1))
      { b with mlb := mlb, mc := mc, mrb := mrb,
               prb := setAt b.prb i (mrb i + 2 * (fd.sbporder - 1)) }
    else
      let mrb := setAt b.mrb i (mlb i + b.c.nx_loc i)
      { b with mlb := mlb, mc := mc, mrb := mrb, prb := setAt b.prb i (mrb i) })
    { b with nxd := nxd }

/-! ## The right-hand-side kernels (`block::calc_df`) -/

/-- The material of a block as the kernels use it: the accessors `get_rho`,
`get_lambda`, `get_g` of class `material` (material.hpp is not among the
sources). -/
structure material where
  rho : ℚ
  lambda : ℚ
  g : ℚ

/-- The read `f.metric[l*ndim*nxd[0]+m*nxd[0]+a]`: metric entry `(l,m)` at the
point with flat offset `a`. -/
def metric_at (b : block) (f : fields) (l m a : Int) : ℚ :=
  f.metric (l * (b.ndim : Int) * b.nxd 0 + m * b.nxd 0 + a)

/-- The read `f.f[r*nxd[0]+a]`: field component `r` at the point with flat
offset `a`. -/
def f_at (b : block) (f : fields) (r a : Int) : ℚ := f.f (r * b.nxd 0 + a)

/-- A run of statements `f.df[a] += v`, executed in order. -/
def add_all (st : List (Int × ℚ)) (df : Int → ℚ) : Int → ℚ :=
  st.foldl (fun df s => store df s.1 (df s.1 + s.2)) df

/-- A run of statements `f.df[a] -= v`, executed in order. -/
def sub_all (st : List (Int × ℚ)) (df : Int → ℚ) : Int → ℚ :=
  st.foldl (fun df s => store df s.1 (df s.1 - s.2)) df

/-- The loop nest `for n < N / for i in [lo0,hi0) / for j in [lo1,hi1)` of the
2D kernels. -/
def loop_nij (N lo0 hi0 lo1 hi1 : Int) (body : Int → Int → Int → (Int → ℚ) → Int → ℚ)
    (df : Int → ℚ) : Int → ℚ :=
  forRange 0 N (fun n df => forRange lo0 hi0 (fun i df => forRange lo1 hi1 (fun j df =>
    body n i j df) df) df) df

/-- The loop nest `for j in [lo,hi) / for n < N` inside the `i` loop of the y
pass of the 2D kernels. -/
def loop_jn (lo hi N : Int) (body : Int → Int → (Int → ℚ) → Int → ℚ)
    (df : Int → ℚ) : Int → ℚ :=
  forRange lo hi (fun j df => forRange 0 N (fun n df => body n j df) df) df

/-- The loop nest `for n < N / for i / for j / for k` of the 3D kernel. -/
def loop_nijk (N lo0 hi0 lo1 hi1 lo2 hi2 : Int)
    (body : Int → Int → Int → Int → (Int → ℚ) → Int → ℚ) (df : Int → ℚ) : Int → ℚ :=
  forRange 0 N (fun n df => forRange lo0 hi0 (fun i df => forRange lo1 hi1 (fun j df =>
    forRange lo2 hi2 (fun k df => body n i j k df) df) df) df) df

/-- The statements `f.df[a] += v` of the left-closure loop body of the x pass of
`calc_df_mode2` (block.cpp 669-691), in source order, as pairs `(a, v)`; `P` is the
offset of the evaluation point, `Q` that of the stencil point, `c` the coefficient. -/
def df_mode2_x_left (b : block) (mat : material) (fd : fd_type) (dt : ℚ) (f : fields)
    (n i j : Int) : List (Int × ℚ) :=
  let invrho : ℚ := 1 / mat.rho
  let P : Int := i * b.nxd 1 + j
  let Q : Int := (b.mlb 0 + n) * b.nxd 1 + j
  let c : ℚ := fd.fdcoeff (i - b.mlb 0 + 1) n
  [
    (0 * b.nxd 0 + P,
      dt * invrho / f.jac P * c * (f.jac Q * metric_at b f 0 0 Q * f_at b f 2 Q + f.jac Q
        * metric_at b f 0 1 Q * f_at b f 3 Q) / b.dx 0),
    (1 * b.nxd 0 + P,
      dt * invrho / f.jac P * c * (f.jac Q * metric_at b f 0 0 Q * f_at b f 3 Q + f.jac Q
        * metric_at b f 0 1 Q * f_at b f 4 Q) / b.dx 0),
    (2 * b.nxd 0 + P,
      dt * ((mat.g * 2 + mat.lambda) * metric_at b f 0 0 P * c * f_at b f 0 Q + mat.lambda
        * metric_at b f 0 1 P * c * f_at b f 1 Q) / b.dx 0),
    (3 * b.nxd 0 + P,
      dt * mat.g * (metric_at b f 0 0 P * c * f_at b f 1 Q + metric_at b f 0 1 P * c
        * f_at b f 0 Q) / b.dx 0),
    (4 * b.nxd 0 + P,
      dt * ((mat.g * 2 + mat.lambda) * metric_at b f 0 1 P * c * f_at b f 1 Q + mat.lambda
        * metric_at b f 0 0 P * c * f_at b f 0 Q) / b.dx 0)
  ]

/-- The statements `f.df[a] += v` of the interior loop body of the x pass of
`calc_df_mode2` (block.cpp 699-724), in source order, as pairs `(a, v)`; `P` is the
offset of the evaluation point, `Q` that of the stencil point, `c` the coefficient. -/
def df_mode2_x_interior (b : block) (mat : material) (fd : fd_type) (dt : ℚ) (f : fields)
    (n i j : Int) : List (Int × ℚ) :=
  let P : Int := i * b.nxd 1 + j
  let Q : Int := (i - fd.sbporder + 1 + n) * b.nxd 1 + j
  let c : ℚ := fd.fdcoeff 0 n
  [
    (0 * b.nxd 0 + P,
      dt / mat.rho / f.jac P * c * (f.jac Q * metric_at b f 0 0 Q * f_at b f 2 Q + f.jac Q
        * metric_at b f 0 1 Q * f_at b f 3 Q) / b.dx 0),
    (1 * b.nxd 0 + P,
      dt / mat.rho / f.jac P * c * (f.jac Q * metric_at b f 0 0 Q * f_at b f 3 Q + f.jac Q
        * metric_at b f 0 1 Q * f_at b f 4 Q) / b.dx 0),
    (2 * b.nxd 0 + P,
      dt * ((mat.g * 2 + mat.lambda) * metric_at b f 0 0 P * c * f_at b f 0 Q + mat.lambda
        * metric_at b f 0 1 P * c * f_at b f 1 Q) / b.dx 0),
    (3 * b.nxd 0 + P,
      dt * mat.g * (metric_at b f 0 0 P * c * f_at b f 1 Q + metric_at b f 0 1 P * c
        * f_at b f 0 Q) / b.dx 0),
    (4 * b.nxd 0 + P,
      dt * ((mat.g * 2 + mat.lambda) * metric_at b f 0 1 P * c * f_at b f 1 Q + mat.lambda
        * metric_at b f 0 0 P * c * f_at b f 0 Q) / b.dx 0)
  ]

/-- The statements `f.df[a] -= v` of the right-closure loop body of the x pass of
`calc_df_mode2` (block.cpp 732-757), in source order, as pairs `(a, v)`; `P` is the
offset of the evaluation point, `Q` that of the stencil point, `c` the coefficient. -/
def df_mode2_x_right (b : block) (mat : material) (fd : fd_type) (dt : ℚ) (f : fields)
    (n i j : Int) : List (Int × ℚ) :=
  let P : Int := i * b.nxd 1 + j
  let Q : Int := (b.prb 0 - 1 - n) * b.nxd 1 + j
  let c : ℚ := fd.fdcoeff (b.prb 0 - i) n
  [
    (0 * b.nxd 0 + P,
      dt / mat.rho / f.jac P * c * (f.jac Q * metric_at b f 0 0 Q * f_at b f 2 Q + f.jac Q
        * metric_at b f 0 1 Q * f_at b f 3 Q) / b.dx 0),
    (1 * b.nxd 0 + P,
      dt / mat.rho / f.jac P * c * (f.jac Q * metric_at b f 0 0 Q * f_at b f 3 Q + f.jac Q
        * metric_at b f 0 1 Q * f_at b f 4 Q) / b.dx 0),
    (2 * b.nxd 0 + P,
      dt * ((mat.g * 2 + mat.lambda) * metric_at b f 0 0 P * c * f_at b f 0 Q + mat.lambda
        * metric_at b f 0 1 P * c * f_at b f 1 Q) / b.dx 0),
    (3 * b.nxd 0 + P,
      dt * mat.g * (metric_at b f 0 0 P * c * f_at b f 1 Q + metric_at b f 0 1 P * c
        * f_at b f 0 Q) / b.dx 0),
    (4 * b.nxd 0 + P,
      dt * ((mat.g * 2 + mat.lambda) * metric_at b f 0 1 P * c * f_at b f 1 Q + mat.lambda
        * metric_at b f 0 0 P * c * f_at b f 0 Q) / b.dx 0)
  ]

/-- The statements `f.df[a] += v` of the left-closure loop body of the y pass of
`calc_df_mode2` (block.cpp 767-792), in source order, as pairs `(a, v)`; `P` is the
offset of the evaluation point, `Q` that of the stencil point, `c` the coefficient. -/
def df_mode2_y_left (b : block) (mat : material) (fd : fd_type) (dt : ℚ) (f : fields)
    (n i j : Int) : List (Int × ℚ) :=
  let P : Int := i * b.nxd 1 + j
  let Q : Int := i * b.nxd 1 + (b.mlb 1 + n)
  let c : ℚ := fd.fdcoeff (j - b.mlb 1 + 1) n
  [
    (0 * b.nxd 0 + P,
      dt / mat.rho / f.jac P * c * (f.jac Q * metric_at b f 1 0 Q * f_at b f 2 Q + f.jac Q
        * metric_at b f 1 1 Q * f_at b f 3 Q) / b.dx 1),
    (1 * b.nxd 0 + P,
      dt / mat.rho / f.jac P * c * (f.jac Q * metric_at b f 1 0 Q * f_at b f 3 Q + f.jac Q
        * metric_at b f 1 1 Q * f_at b f 4 Q) / b.dx 1),
    (2 * b.nxd 0 + P,
      dt * ((mat.g * 2 + mat.lambda) * metric_at b f 1 0 P * c * f_at b f 0 Q + mat.lambda
        * metric_at b f 1 1 P * c * f_at b f 1 Q) / b.dx 1),
    (3 * b.nxd 0 + P,
      dt * mat.g * (metric_at b f 1 0 P * c * f_at b f 1 Q + metric_at b f 1 1 P * c
        * f_at b f 0 Q) / b.dx 1),
    (4 * b.nxd 0 + P,
      dt * ((mat.g * 2 + mat.lambda) * metric_at b f 1 1 P * c * f_at b f 1 Q + mat.lambda
        * metric_at b f 1 0 P * c * f_at b f 0 Q) / b.dx 1)
  ]

/-- The statements `f.df[a] += v` of the interior loop body of the y pass of
`calc_df_mode2` (block.cpp 798-823), in source order, as pairs `(a, v)`; `P` is the
offset of the evaluation point, `Q` that of the stencil point, `c` the coefficient. -/
def df_mode2_y_interior (b : block) (mat : material) (fd : fd_type) (dt : ℚ) (f : fields)
    (n i j : Int) : List (Int × ℚ) :=
  let P : Int := i * b.nxd 1 + j
  let Q : Int := i * b.nxd 1 + (j - fd.sbporder + 1 + n)
  let c : ℚ := fd.fdcoeff 0 n
  [
    (0 * b.nxd 0 + P,
      dt / mat.rho / f.jac P * c * (f.jac Q * metric_at b f 1 0 Q * f_at b f 2 Q + f.jac Q
        * metric_at b f 1 1 Q * f_at b f 3 Q) / b.dx 1),
    (1 * b.nxd 0 + P,
      dt / mat.rho / f.jac P * c * (f.jac Q * metric_at b f 1 0 Q * f_at b f 3 Q + f.jac Q
        * metric_at b f 1 1 Q * f_at b f 4 Q) / b.dx 1),
    (2 * b.nxd 0 + P,
      dt * ((mat.g * 2 + mat.lambda) * metric_at b f 1 0 P * c * f_at b f 0 Q + mat.lambda
        * metric_at b f 1 1 P * c * f_at b f 1 Q) / b.dx 1),
    (3 * b.nxd 0 + P,
      dt * mat.g * (metric_at b f 1 0 P * c * f_at b f 1 Q + metric_at b f 1 1 P * c
        * f_at b f 0 Q) / b.dx 1),
    (4 * b.nxd 0 + P,
      dt * ((mat.g * 2 + mat.lambda) * metric_at b f 1 1 P * c * f_at b f 1 Q + mat.lambda
        * metric_at b f 1 0 P * c * f_at b f 0 Q) / b.dx 1)
  ]

/-- The statements `f.df[a] -= v` of the right-closure loop body of the y pass of
`calc_df_mode2` (block.cpp 829-854), in source order, as pairs `(a, v)`; `P` is the
offset of the evaluation point, `Q` that of the stencil point, `c` the coefficient. -/
def df_mode2_y_right (b : block) (mat : material) (fd : fd_type) (dt : ℚ) (f : fields)
    (n i j : Int) : List (Int × ℚ) :=
  let P : Int := i * b.nxd 1 + j
  let Q : Int := i * b.nxd 1 + (b.prb 1 - 1 - n)
  let c : ℚ := fd.fdcoeff (b.prb 1 - j) n
  [
    (0 * b.nxd 0 + P,
      dt / mat.rho / f.jac P * c * (f.jac Q * metric_at b f 1 0 Q * f_at b f 2 Q + f.jac ((b.prb 0
        - 1 - n) * b.nxd 1 + j) * metric_at b f 1 1 Q * f_at b f 3 Q) / b.dx 1),
    (1 * b.nxd 0 + P,
      dt / mat.rho / f.jac P * c * (f.jac Q * metric_at b f 1 0 Q * f_at b f 3 Q + f.jac Q
        * metric_at b f 1 1 Q * f_at b f 4 Q) / b.dx 1),
    (2 * b.nxd 0 + P,
      dt * ((mat.g * 2 + mat.lambda) * metric_at b f 1 0 P * c * f_at b f 0 Q + mat.lambda
        * metric_at b f 1 1 P * c * f_at b f 1 Q) / b.dx 1),
    (3 * b.nxd 0 + P,
      dt * mat.g * (metric_at b f 1 0 P * c * f_at b f 1 Q + metric_at b f 1 1 P * c
        * f_at b f 0 Q) / b.dx 1),
    (4 * b.nxd 0 + P,
      dt * ((mat.g * 2 + mat.lambda) * metric_at b f 1 1 P * c * f_at b f 1 Q + mat.lambda
        * metric_at b f 1 0 P * c * f_at b f 0 Q) / b.dx 1)
  ]

/-- The statements `f.df[a] += v` of the left-closure loop body of the x pass of
`calc_df_mode3` (block.cpp 871-880), in source order, as pairs `(a, v)`; `P` is the
offset of the evaluation point, `Q` that of the stencil point, `c` the coefficient. -/
def df_mode3_x_left (b : block) (mat : material) (fd : fd_type) (dt : ℚ) (f : fields)
    (n i j : Int) : List (Int × ℚ) :=
  let invrho : ℚ := 1 / mat.rho
  let P : Int := i * b.nxd 1 + j
  let Q : Int := (b.mlb 0 + n) * b.nxd 1 + j
  let c : ℚ := fd.fdcoeff (i - b.mlb 0 + 1) n
  [
    (0 * b.nxd 0 + P,
      dt * invrho / f.jac P * c * (f.jac Q * metric_at b f 0 0 Q * f_at b f 1 Q + f.jac Q
        * metric_at b f 0 1 Q * f_at b f 2 Q) / b.dx 0),
    (1 * b.nxd 0 + P,
      dt * mat.g * (metric_at b f 0 0 P * c * f_at b f 0 Q) / b.dx 0),
    (2 * b.nxd 0 + P,
      dt * mat.g * (metric_at b f 0 1 P * c * f_at b f 0 Q) / b.dx 0)
  ]

/-- The statements `f.df[a] += v` of the interior loop body of the x pass of
`calc_df_mode3` (block.cpp 888-898), in source order, as pairs `(a, v)`; `P` is the
offset of the evaluation point, `Q` that of the stencil point, `c` the coefficient. -/
def df_mode3_x_interior (b : block) (mat : material) (fd : fd_type) (dt : ℚ) (f : fields)
    (n i j : Int) : List (Int × ℚ) :=
  let P : Int := i * b.nxd 1 + j
  let Q : Int := (i - fd.sbporder + 1 + n) * b.nxd 1 + j
  let c : ℚ := fd.fdcoeff 0 n
  [
    (0 * b.nxd 0 + P,
      dt / mat.rho / f.jac P * c * (f.jac Q * metric_at b f 0 0 Q * f_at b f 1 Q + f.jac Q
        * metric_at b f 0 1 Q * f_at b f 2 Q) / b.dx 0),
    (1 * b.nxd 0 + P,
      dt * mat.g * (metric_at b f 0 0 P * c * f_at b f 0 Q) / b.dx 0),
    (2 * b.nxd 0 + P,
      dt * mat.g * (metric_at b f 0 1 P * c * f_at b f 0 Q) / b.dx 0)
  ]

/-- The statements `f.df[a] -= v` of the right-closure loop body of the x pass of
`calc_df_mode3` (block.cpp 906-916), in source order, as pairs `(a, v)`; `P` is the
offset of the evaluation point, `Q` that of the stencil point, `c` the coefficient. -/
def df_mode3_x_right (b : block) (mat : material) (fd : fd_type) (dt : ℚ) (f : fields)
    (n i j : Int) : List (Int × ℚ) :=
  let P : Int := i * b.nxd 1 + j
  let Q : Int := (b.prb 0 - 1 - n) * b.nxd 1 + j
  let c : ℚ := fd.fdcoeff (b.prb 0 - i) n
  [
    (0 * b.nxd 0 + P,
      dt / mat.rho / f.jac P * c * (f.jac Q * metric_at b f 0 0 Q * f_at b f 1 Q + f.jac Q
        * metric_at b f 0 1 Q * f_at b f 2 Q) / b.dx 0),
    (1 * b.nxd 0 + P,
      dt * mat.g * (metric_at b f 0 0 P * c * f_at b f 0 Q) / b.dx 0),
    (2 * b.nxd 0 + P,
      dt * mat.g * (metric_at b f 0 1 P * c * f_at b f 0 Q) / b.dx 0)
  ]

/-- The statements `f.df[a] += v` of the left-closure loop body of the y pass of
`calc_df_mode3` (block.cpp 926-936), in source order, as pairs `(a, v)`; `P` is the
offset of the evaluation point, `Q` that of the stencil point, `c` the coefficient. -/
def df_mode3_y_left (b : block) (mat : material) (fd : fd_type) (dt : ℚ) (f : fields)
    (n i j : Int) : List (Int × ℚ) :=
  let P : Int := i * b.nxd 1 + j
  let Q : Int := i * b.nxd 1 + (b.mlb 1 + n)
  let c : ℚ := fd.fdcoeff (j - b.mlb 1 + 1) n
  [
    (0 * b.nxd 0 + P,
      dt / mat.rho / f.jac P * c * (f.jac Q * metric_at b f 1 0 Q * f_at b f 1 Q + f.jac Q
        * metric_at b f 1 1 Q * f_at b f 2 Q) / b.dx 1),
    (1 * b.nxd 0 + P,
      dt * mat.g * (metric_at b f 1 0 P * c * f_at b f 0 Q) / b.dx 1),
    (2 * b.nxd 0 + P,
      dt * mat.g * (metric_at b f 1 1 P * c * f_at b f 0 Q) / b.dx 1)
  ]

/-- The statements `f.df[a] += v` of the interior loop body of the y pass of
`calc_df_mode3` (block.cpp 942-952), in source order, as pairs `(a, v)`; `P` is the
offset of the evaluation point, `Q` that of the stencil point, `c` the coefficient. -/
def df_mode3_y_interior (b : block) (mat : material) (fd : fd_type) (dt : ℚ) (f : fields)
    (n i j : Int) : List (Int × ℚ) :=
  let P : Int := i * b.nxd 1 + j
  let Q : Int := i * b.nxd 1 + (j - fd.sbporder + 1 + n)
  let c : ℚ := fd.fdcoeff 0 n
  [
    (0 * b.nxd 0 + P,
      dt / mat.rho / f.jac P * c * (f.jac Q * metric_at b f 1 0 Q * f_at b f 1 Q + f.jac Q
        * metric_at b f 1 1 Q * f_at b f 2 Q) / b.dx 1),
    (1 * b.nxd 0 + P,
      dt * mat.g * (metric_at b f 1 0 P * c * f_at b f 0 Q) / b.dx 1),
    (2 * b.nxd 0 + P,
      dt * mat.g * (metric_at b f 1 1 P * c * f_at b f 0 Q) / b.dx 1)
  ]

/-- The statements `f.df[a] -= v` of the right-closure loop body of the y pass of
`calc_df_mode3` (block.cpp 958-968), in source order, as pairs `(a, v)`; `P` is the
offset of the evaluation point, `Q` that of the stencil point, `c` the coefficient. -/
def df_mode3_y_right (b : block) (mat : material) (fd : fd_type) (dt : ℚ) (f : fields)
    (n i j : Int) : List (Int × ℚ) :=
  let P : Int := i * b.nxd 1 + j
  let Q : Int := i * b.nxd 1 + (b.prb 1 - 1 - n)
  let c : ℚ := fd.fdcoeff (b.prb 1 - j) n
  [
    (0 * b.nxd 0 + P,
      dt / mat.rho / f.jac P * c * (f.jac Q * metric_at b f 1 0 Q * f_at b f 1 Q + f.jac ((b.prb 0
        - 1 - n) * b.nxd 1 + j) * metric_at b f 1 1 Q * f_at b f 2 Q) / b.dx 1),
    (1 * b.nxd 0 + P,
      dt * mat.g * (metric_at b f 1 0 P * c * f_at b f 0 Q) / b.dx 1),
    (2 * b.nxd 0 + P,
      dt * mat.g * (metric_at b f 1 1 P * c * f_at b f 0 Q) / b.dx 1)
  ]

/-- The statements `f.df[a] += v` of the left-closure loop body of the x pass of
`calc_df_3d` (block.cpp 986-1036), in source order, as pairs `(a, v)`; `P` is the
offset of the evaluation point, `Q` that of the stencil point, `c` the coefficient. -/
def df_3d_x_left (b : block) (mat : material) (fd : fd_type) (dt : ℚ) (f : fields)
    (n i j k : Int) : List (Int × ℚ) :=
  let invrho : ℚ := 1 / mat.rho
  let P : Int := i * b.nxd 1 + j * b.nxd 2 + k
  let Q : Int := (b.mlb 0 + n) * b.nxd 1 + j * b.nxd 2 + k
  let c : ℚ := fd.fdcoeff (i - b.mlb 0 + 1) n
  [
    (0 * b.nxd 0 + P,
      dt * invrho / f.jac P * c * (f.jac Q * metric_at b f 0 0 Q * f_at b f 3 Q + f.jac Q
        * metric_at b f 0 1 Q * f_at b f 4 Q + f.jac Q * metric_at b f 0 2 Q * f_at b f 5 Q)
        / b.dx 0),
    (1 * b.nxd 0 + P,
      dt * invrho / f.jac P * c * (f.jac Q * metric_at b f 0 0 Q * f_at b f 4 Q + f.jac Q
        * metric_at b f 0 1 Q * f_at b f 6 Q + f.jac Q * metric_at b f 0 2 Q * f_at b f 7 Q)
        / b.dx 0),
    (2 * b.nxd 0 + P,
      dt * invrho / f.jac P * c * (f.jac Q * metric_at b f 0 0 Q * f_at b f 5 Q + f.jac Q
        * metric_at b f 0 1 Q * f_at b f 7 Q + f.jac Q * metric_at b f 0 2 Q * f_at b f 8 Q)
        / b.dx 0),
    (3 * b.nxd 0 + P,
      dt * ((mat.g * 2 + mat.lambda) * metric_at b f 0 0 P * c * f_at b f 0 Q + mat.lambda
        * (metric_at b f 0 1 P * c * f_at b f 1 Q + metric_at b f 0 2 P * c * f_at b f 2 Q))
        / b.dx 0),
    (4 * b.nxd 0 + P,
      dt * mat.g * (metric_at b f 0 0 P * c * f_at b f 1 Q + metric_at b f 0 1 P * c
        * f_at b f 0 Q) / b.dx 0),
    (5 * b.nxd 0 + P,
      dt * mat.g * (metric_at b f 0 0 P * c * f_at b f 2 Q + metric_at b f 0 2 P * c
        * f_at b f 0 Q) / b.dx 0),
    (6 * b.nxd 0 + P,
      dt * ((mat.g * 2 + mat.lambda) * metric_at b f 0 1 P * c * f_at b f 1 Q + mat.lambda
        * (metric_at b f 0 0 P * c * f_at b f 0 Q + metric_at b f 0 2 P * c * f_at b f 2 Q))
        / b.dx 0),
    (7 * b.nxd 0 + P,
      dt * mat.g * (metric_at b f 0 1 P * c * f_at b f 2 Q + metric_at b f 0 2 P * c
        * f_at b f 2 Q) / b.dx 0),
    (8 * b.nxd 0 + P,
      dt * ((mat.g * 2 + mat.lambda) * metric_at b f 0 2 P * c * f_at b f 2 Q + mat.lambda
        * (metric_at b f 0 0 P * c * f_at b f 0 Q + metric_at b f 0 1 P * c * f_at b f 1 Q))
        / b.dx 0)
  ]

/-- The statements `f.df[a] += v` of the interior loop body of the x pass of
`calc_df_3d` (block.cpp 1046-1096), in source order, as pairs `(a, v)`; `P` is the
offset of the evaluation point, `Q` that of the stencil point, `c` the coefficient. -/
def df_3d_x_interior (b : block) (mat : material) (fd : fd_type) (dt : ℚ) (f : fields)
    (n i j k : Int) : List (Int × ℚ) :=
  let invrho : ℚ := 1 / mat.rho
  let P : Int := i * b.nxd 1 + j * b.nxd 2 + k
  let Q : Int := (i - fd.sbporder + 1 + n) * b.nxd 1 + j * b.nxd 2 + k
  let c : ℚ := fd.fdcoeff 0 n
  [
    (0 * b.nxd 0 + P,
      dt * invrho / f.jac P * c * (f.jac Q * metric_at b f 0 0 Q * f_at b f 3 Q + f.jac Q
        * metric_at b f 0 1 Q * f_at b f 4 Q + f.jac Q * metric_at b f 0 2 Q * f_at b f 5 Q)
        / b.dx 0),
    (1 * b.nxd 0 + P,
      dt * invrho / f.jac P * c * (f.jac Q * metric_at b f 0 0 Q * f_at b f 4 Q + f.jac Q
        * metric_at b f 0 1 Q * f_at b f 6 Q + f.jac Q * metric_at b f 0 2 Q * f_at b f 7 Q)
        / b.dx 0),
    (2 * b.nxd 0 + P,
      dt * invrho / f.jac P * c * (f.jac Q * metric_at b f 0 0 Q * f_at b f 5 Q + f.jac Q
        * metric_at b f 0 1 Q * f_at b f 7 Q + f.jac Q * metric_at b f 0 2 Q * f_at b f 8 Q)
        / b.dx 0),
    (3 * b.nxd 0 + P,
      dt * ((mat.g * 2 + mat.lambda) * metric_at b f 0 0 P * c * f_at b f 0 Q + mat.lambda
        * (metric_at b f 0 1 P * c * f_at b f 1 Q + metric_at b f 0 2 P * c * f_at b f 2 Q))
        / b.dx 0),
    (4 * b.nxd 0 + P,
      dt * mat.g * (metric_at b f 0 0 P * c * f_at b f 1 Q + metric_at b f 0 1 P * c
        * f_at b f 0 Q) / b.dx 0),
    (5 * b.nxd 0 + P,
      dt * mat.g * (metric_at b f 0 0 P * c * f_at b f 2 Q + metric_at b f 0 2 P * c
        * f_at b f 0 Q) / b.dx 0),
    (6 * b.nxd 0 + P,
      dt * ((mat.g * 2 + mat.lambda) * metric_at b f 0 1 P * c * f_at b f 1 Q + mat.lambda
        * (metric_at b f 0 0 P * c * f_at b f 0 Q + metric_at b f 0 2 P * c * f_at b f 2 Q))
        / b.dx 0),
    (7 * b.nxd 0 + P,
      dt * mat.g * (metric_at b f 0 1 P * c * f_at b f 2 Q + metric_at b f 0 2 P * c
        * f_at b f 2 Q) / b.dx 0),
    (8 * b.nxd 0 + P,
      dt * ((mat.g * 2 + mat.lambda) * metric_at b f 0 2 P * c * f_at b f 2 Q + mat.lambda
        * (metric_at b f 0 0 P * c * f_at b f 0 Q + metric_at b f 0 1 P * c * f_at b f 1 Q))
        / b.dx 0)
  ]

/-- The statements `f.df[a] -= v` of the right-closure loop body of the x pass of
`calc_df_3d` (block.cpp 1106-1156), in source order, as pairs `(a, v)`; `P` is the
offset of the evaluation point, `Q` that of the stencil point, `c` the coefficient. -/
def df_3d_x_right (b : block) (mat : material) (fd : fd_type) (dt : ℚ) (f : fields)
    (n i j k : Int) : List (Int × ℚ) :=
  let invrho : ℚ := 1 / mat.rho
  let P : Int := i * b.nxd 1 + j * b.nxd 2 + k
  let Q : Int := (b.prb 0 - 1 - n) * b.nxd 1 + j * b.nxd 2 + k
  let c : ℚ := fd.fdcoeff (b.prb 0 - i) n
  [
    (0 * b.nxd 0 + P,
      dt * invrho / f.jac P * c * (f.jac Q * metric_at b f 0 0 Q * f_at b f 3 Q + f.jac Q
        * metric_at b f 0 1 Q * f_at b f 4 Q + f.jac Q * metric_at b f 0 2 Q * f_at b f 5 Q)
        / b.dx 0),
    (1 * b.nxd 0 + P,
      dt * invrho / f.jac P * c * (f.jac Q * metric_at b f 0 0 Q * f_at b f 4 Q + f.jac Q
        * metric_at b f 0 1 Q * f_at b f 6 Q + f.jac Q * metric_at b f 0 2 Q * f_at b f 7 Q)
        / b.dx 0),
    (2 * b.nxd 0 + P,
      dt * invrho / f.jac P * c * (f.jac Q * metric_at b f 0 0 Q * f_at b f 5 Q + f.jac Q
        * metric_at b f 0 1 Q * f_at b f 7 Q + f.jac Q * metric_at b f 0 2 Q * f_at b f 8 Q)
        / b.dx 0),
    (3 * b.nxd 0 + P,
      dt * ((mat.g * 2 + mat.lambda) * metric_at b f 0 0 P * c * f_at b f 0 Q + mat.lambda
        * (metric_at b f 0 1 P * c * f_at b f 1 Q + metric_at b f 0 2 P * c * f_at b f 2 Q))
        / b.dx 0),
    (4 * b.nxd 0 + P,
      dt * mat.g * (metric_at b f 0 0 P * c * f_at b f 1 Q + metric_at b f 0 1 P * c
        * f_at b f 0 Q) / b.dx 0),
    (5 * b.nxd 0 + P,
      dt * mat.g * (metric_at b f 0 0 P * c * f_at b f 2 Q + metric_at b f 0 2 P * c
        * f_at b f 0 Q) / b.dx 0),
    (6 * b.nxd 0 + P,
      dt * ((mat.g * 2 + mat.lambda) * metric_at b f 0 1 P * c * f_at b f 1 Q + mat.lambda
        * (metric_at b f 0 0 P * c * f_at b f 0 Q + metric_at b f 0 2 P * c * f_at b f 2 Q))
        / b.dx 0),
    (7 * b.nxd 0 + P,
      dt * mat.g * (metric_at b f 0 1 P * c * f_at b f 2 Q + metric_at b f 0 2 P * c
        * f_at b f 2 Q) / b.dx 0),
    (8 * b.nxd 0 + P,
      dt * ((mat.g * 2 + mat.lambda) * metric_at b f 0 2 P * c * f_at b f 2 Q + mat.lambda
        * (metric_at b f 0 0 P * c * f_at b f 0 Q + metric_at b f 0 1 P * c * f_at b f 1 Q))
        / b.dx 0)
  ]

/-- The statements `f.df[a] += v` of the left-closure loop body of the y pass of
`calc_df_3d` (block.cpp 1168-1218), in source order, as pairs `(a, v)`; `P` is the
offset of the evaluation point, `Q` that of the stencil point, `c` the coefficient. -/
def df_3d_y_left (b : block) (mat : material) (fd : fd_type) (dt : ℚ) (f : fields)
    (n i j k : Int) : List (Int × ℚ) :=
  let invrho : ℚ := 1 / mat.rho
  let P : Int := i * b.nxd 1 + j * b.nxd 2 + k
  let Q : Int := i * b.nxd 1 + (b.mlb 1 + n) * b.nxd 2 + k
  let c : ℚ := fd.fdcoeff (j - b.mlb 1 + 1) n
  [
    (0 * b.nxd 0 + P,
      dt * invrho / f.jac P * c * (f.jac Q * metric_at b f 1 0 Q * f_at b f 3 Q + f.jac Q
        * metric_at b f 1 1 Q * f_at b f 4 Q + f.jac Q * metric_at b f 1 2 Q * f_at b f 5 Q)
        / b.dx 1),
    (1 * b.nxd 0 + P,
      dt * invrho / f.jac P * c * (f.jac Q * metric_at b f 1 0 Q * f_at b f 4 Q + f.jac Q
        * metric_at b f 1 1 Q * f_at b f 6 Q + f.jac Q * metric_at b f 1 2 Q * f_at b f 7 Q)
        / b.dx 1),
    (2 * b.nxd 0 + P,
      dt * invrho / f.jac P * c * (f.jac Q * metric_at b f 1 0 Q * f_at b f 5 Q + f.jac Q
        * metric_at b f 1 1 Q * f_at b f 7 Q + f.jac Q * metric_at b f 1 2 Q * f_at b f 8 Q)
        / b.dx 1),
    (3 * b.nxd 0 + P,
      dt * ((mat.g * 2 + mat.lambda) * metric_at b f 1 0 P * c * f_at b f 0 Q + mat.lambda
        * (metric_at b f 1 1 P * c * f_at b f 1 Q + metric_at b f 1 2 P * c * f_at b f 2 Q))
        / b.dx 1),
    (4 * b.nxd 0 + P,
      dt * mat.g * (metric_at b f 1 0 P * c * f_at b f 1 Q + metric_at b f 1 1 P * c
        * f_at b f 0 Q) / b.dx 1),
    (5 * b.nxd 0 + P,
      dt * mat.g * (metric_at b f 1 0 (i * b.nxd 1 + i * b.nxd 2 + k) * c * f_at b f 2 Q
        + metric_at b f 1 2 P * c * f_at b f 0 Q) / b.dx 1),
    (6 * b.nxd 0 + P,
      dt * ((mat.g * 2 + mat.lambda) * metric_at b f 1 1 P * c * f_at b f 1 Q + mat.lambda
        * (metric_at b f 1 0 P * c * f_at b f 0 Q + metric_at b f 1 2 P * c * f_at b f 2 Q))
        / b.dx 1),
    (7 * b.nxd 0 + P,
      dt * mat.g * (metric_at b f 1 1 P * c * f_at b f 2 Q + metric_at b f 1 2 P * c
        * f_at b f 2 Q) / b.dx 1),
    (8 * b.nxd 0 + P,
      dt * ((mat.g * 2 + mat.lambda) * metric_at b f 1 2 P * c * f_at b f 2 Q + mat.lambda
        * (metric_at b f 1 0 P * c * f_at b f 0 Q + metric_at b f 1 1 P * c * f_at b f 1 Q))
        / b.dx 1)
  ]

/-- The statements `f.df[a] += v` of the interior loop body of the y pass of
`calc_df_3d` (block.cpp 1228-1278), in source order, as pairs `(a, v)`; `P` is the
offset of the evaluation point, `Q` that of the stencil point, `c` the coefficient. -/
def df_3d_y_interior (b : block) (mat : material) (fd : fd_type) (dt : ℚ) (f : fields)
    (n i j k : Int) : List (Int × ℚ) :=
  let invrho : ℚ := 1 / mat.rho
  let P : Int := i * b.nxd 1 + j * b.nxd 2 + k
  let Q : Int := i * b.nxd 1 + (j - fd.sbporder + 1 + n) * b.nxd 2 + k
  let c : ℚ := fd.fdcoeff 0 n
  [
    (0 * b.nxd 0 + P,
      dt * invrho / f.jac P * c * (f.jac P * metric_at b f 1 0 Q * f_at b f 3 Q + f.jac Q
        * metric_at b f 1 1 Q * f_at b f 4 Q + f.jac Q * metric_at b f 1 2 Q * f_at b f 5 Q)
        / b.dx 1),
    (1 * b.nxd 0 + P,
      dt * invrho / f.jac P * c * (f.jac Q * metric_at b f 1 0 Q * f_at b f 4 Q + f.jac Q
        * metric_at b f 1 1 Q * f_at b f 6 Q + f.jac Q * metric_at b f 1 2 Q * f_at b f 7 Q)
        / b.dx 1),
    (2 * b.nxd 0 + P,
      dt * invrho / f.jac P * c * (f.jac Q * metric_at b f 1 0 Q * f_at b f 5 Q + f.jac Q
        * metric_at b f 1 1 Q * f_at b f 7 Q + f.jac Q * metric_at b f 1 2 Q * f_at b f 8 Q)
        / b.dx 1),
    (3 * b.nxd 0 + P,
      dt * ((mat.g * 2 + mat.lambda) * metric_at b f 1 0 P * c * f_at b f 0 Q + mat.lambda
        * (metric_at b f 1 1 P * c * f_at b f 1 Q + metric_at b f 1 2 P * c * f_at b f 2 Q))
        / b.dx 1),
    (4 * b.nxd 0 + P,
      dt * mat.g * (metric_at b f 1 0 P * c * f_at b f 1 Q + metric_at b f 1 1 P * c
        * f_at b f 0 Q) / b.dx 1),
    (5 * b.nxd 0 + P,
      dt * mat.g * (metric_at b f 1 0 P * c * f_at b f 2 Q + metric_at b f 1 2 P * c
        * f_at b f 0 Q) / b.dx 1),
    (6 * b.nxd 0 + P,
      dt * ((mat.g * 2 + mat.lambda) * metric_at b f 1 1 P * c * f_at b f 1 Q + mat.lambda
        * (metric_at b f 1 0 P * c * f_at b f 0 Q + metric_at b f 1 2 P * c * f_at b f 2 Q))
        / b.dx 1),
    (7 * b.nxd 0 + P,
      dt * mat.g * (metric_at b f 1 1 P * c * f_at b f 2 Q + metric_at b f 1 2 P * c
        * f_at b f 2 Q) / b.dx 1),
    (8 * b.nxd 0 + P,
      dt * ((mat.g * 2 + mat.lambda) * metric_at b f 1 2 P * c * f_at b f 2 Q + mat.lambda
        * (metric_at b f 1 0 P * c * f_at b f 0 Q + metric_at b f 1 1 P * c * f_at b f 1 Q))
        / b.dx 1)
  ]

/-- The statements `f.df[a] -= v` of the right-closure loop body of the y pass of
`calc_df_3d` (block.cpp 1288-1338), in source order, as pairs `(a, v)`; `P` is the
offset of the evaluation point, `Q` that of the stencil point, `c` the coefficient. -/
def df_3d_y_right (b : block) (mat : material) (fd : fd_type) (dt : ℚ) (f : fields)
    (n i j k : Int) : List (Int × ℚ) :=
  let invrho : ℚ := 1 / mat.rho
  let P : Int := i * b.nxd 1 + j * b.nxd 2 + k
  let Q : Int := i * b.nxd 1 + (b.prb 1 - 1 - n) * b.nxd 2 + k
  let c : ℚ := fd.fdcoeff (b.prb 1 - j) n
  [
    (0 * b.nxd 0 + P,
      dt * invrho / f.jac P * c * (f.jac Q * metric_at b f 1 0 Q * f_at b f 3 Q + f.jac Q
        * metric_at b f 1 1 Q * f_at b f 4 Q + f.jac Q * metric_at b f 1 2 Q * f_at b f 5 Q)
        / b.dx 1),
    (1 * b.nxd 0 + P,
      dt * invrho / f.jac P * c * (f.jac Q * metric_at b f 1 0 Q * f_at b f 4 Q + f.jac Q
        * metric_at b f 1 1 Q * f_at b f 6 Q + f.jac Q * metric_at b f 1 2 Q * f_at b f 7 Q)
        / b.dx 1),
    (2 * b.nxd 0 + P,
      dt * invrho / f.jac P * c * (f.jac Q * metric_at b f 1 0 Q * f_at b f 5 Q + f.jac Q
        * metric_at b f 1 1 Q * f_at b f 7 Q + f.jac Q * metric_at b f 1 2 Q * f_at b f 8 Q)
        / b.dx 1),
    (3 * b.nxd 0 + P,
      dt * ((mat.g * 2 + mat.lambda) * metric_at b f 1 0 P * c * f_at b f 0 Q + mat.lambda
        * (metric_at b f 1 1 P * c * f_at b f 1 Q + metric_at b f 1 2 P * c * f_at b f 2 Q))
        / b.dx 1),
    (4 * b.nxd 0 + P,
      dt * mat.g * (metric_at b f 1 0 P * c * f_at b f 1 Q + metric_at b f 1 1 P * c
        * f_at b f 0 Q) / b.dx 1),
    (5 * b.nxd 0 + P,
      dt * mat.g * (metric_at b f 1 0 P * c * f_at b f 2 Q + metric_at b f 1 2 P * c
        * f_at b f 0 Q) / b.dx 1),
    (6 * b.nxd 0 + P,
      dt * ((mat.g * 2 + mat.lambda) * metric_at b f 1 1 P * c * f_at b f 1 Q + mat.lambda
        * (metric_at b f 1 0 P * c * f_at b f 0 Q + metric_at b f 1 2 P * c * f_at b f 2 Q))
        / b.dx 1),
    (7 * b.nxd 0 + P,
      dt * mat.g * (metric_at b f 1 1 P * c * f_at b f 2 Q + metric_at b f 1 2 P * c
        * f_at b f 2 Q) / b.dx 1),
    (8 * b.nxd 0 + P,
      dt * ((mat.g * 2 + mat.lambda) * metric_at b f 1 2 P * c * f_at b f 2 Q + mat.lambda
        * (metric_at b f 1 0 P * c * f_at b f 0 Q + metric_at b f 1 1 P * c * f_at b f 1 Q))
        / b.dx 1)
  ]

/-- The statements `f.df[a] += v` of the left-closure loop body of the z pass of
`calc_df_3d` (block.cpp 1350-1400), in source order, as pairs `(a, v)`; `P` is the
offset of the evaluation point, `Q` that of the stencil point, `c` the coefficient. -/
def df_3d_z_left (b : block) (mat : material) (fd : fd_type) (dt : ℚ) (f : fields)
    (n i j k : Int) : List (Int × ℚ) :=
  let invrho : ℚ := 1 / mat.rho
  let P : Int := i * b.nxd 1 + j * b.nxd 2 + k
  let Q : Int := i * b.nxd 1 + j * b.nxd 2 + (b.mlb 2 + n)
  let c : ℚ := fd.fdcoeff (k - b.mlb 2 + 1) n
  [
    (0 * b.nxd 0 + P,
      dt * invrho / f.jac P * c * (f.jac Q * metric_at b f 2 0 Q * f_at b f 3 Q + f.jac Q
        * metric_at b f 2 1 Q * f_at b f 4 Q + f.jac Q * metric_at b f 2 2 Q * f_at b f 5 Q)
        / b.dx 2),
    (1 * b.nxd 0 + P,
      dt * invrho / f.jac P * c * (f.jac Q * metric_at b f 2 0 Q * f_at b f 4 Q + f.jac Q
        * metric_at b f 2 1 Q * f_at b f 6 Q + f.jac Q * metric_at b f 2 2 Q * f_at b f 7 Q)
        / b.dx 2),
    (2 * b.nxd 0 + P,
      dt * invrho / f.jac P * c * (f.jac Q * metric_at b f 2 0 Q * f_at b f 5 Q + f.jac Q
        * metric_at b f 2 1 Q * f_at b f 7 Q + f.jac Q * metric_at b f 2 2 Q * f_at b f 8 Q)
        / b.dx 2),
    (3 * b.nxd 0 + P,
      dt * ((mat.g * 2 + mat.lambda) * metric_at b f 2 0 P * c * f_at b f 0 Q + mat.lambda
        * (metric_at b f 2 1 P * c * f_at b f 1 Q + metric_at b f 2 2 P * c * f_at b f 2 Q))
        / b.dx 2),
    (4 * b.nxd 0 + P,
      dt * mat.g * (metric_at b f 2 0 P * c * f_at b f 1 Q + metric_at b f 2 1 P * c
        * f_at b f 0 Q) / b.dx 2),
    (5 * b.nxd 0 + P,
      dt * mat.g * (metric_at b f 2 0 P * c * f_at b f 2 Q + metric_at b f 2 2 P * c
        * f_at b f 0 Q) / b.dx 2),
    (6 * b.nxd 0 + P,
      dt * ((mat.g * 2 + mat.lambda) * metric_at b f 2 1 P * c * f_at b f 1 Q + mat.lambda
        * (metric_at b f 2 0 P * c * f_at b f 0 Q + metric_at b f 2 2 P * c * f_at b f 2 Q))
        / b.dx 2),
    (7 * b.nxd 0 + P,
      dt * mat.g * (metric_at b f 2 1 P * c * f_at b f 2 Q + metric_at b f 2 2 P * c
        * f_at b f 2 Q) / b.dx 2),
    (8 * b.nxd 0 + P,
      dt * ((mat.g * 2 + mat.lambda) * metric_at b f 2 2 P * c * f_at b f 2 Q + mat.lambda
        * (metric_at b f 2 0 P * c * f_at b f 0 Q + metric_at b f 2 1 P * c * f_at b f 1 Q))
        / b.dx 2)
  ]

/-- The statements `f.df[a] += v` of the interior loop body of the z pass of
`calc_df_3d` (block.cpp 1410-1460), in source order, as pairs `(a, v)`; `P` is the
offset of the evaluation point, `Q` that of the stencil point, `c` the coefficient. -/
def df_3d_z_interior (b : block) (mat : material) (fd : fd_type) (dt : ℚ) (f : fields)
    (n i j k : Int) : List (Int × ℚ) :=
  let invrho : ℚ := 1 / mat.rho
  let P : Int := i * b.nxd 1 + j * b.nxd 2 + k
  let Q : Int := i * b.nxd 1 + j * b.nxd 2 + (k - fd.sbporder + 1 + n)
  let c : ℚ := fd.fdcoeff 0 n
  [
    (0 * b.nxd 0 + P,
      dt * invrho / f.jac P * c * (f.jac Q * metric_at b f 2 0 Q * f_at b f 3 Q + f.jac Q
        * metric_at b f 2 1 Q * f_at b f 4 Q + f.jac Q * metric_at b f 2 2 Q * f_at b f 5 Q)
        / b.dx 2),
    (1 * b.nxd 0 + P,
      dt * invrho / f.jac P * c * (f.jac Q * metric_at b f 2 0 Q * f_at b f 4 Q + f.jac Q
        * metric_at b f 2 1 Q * f_at b f 6 Q + f.jac Q * metric_at b f 2 2 Q * f_at b f 7 Q)
        / b.dx 2),
    (2 * b.nxd 0 + P,
      dt * invrho / f.jac P * c * (f.jac Q * metric_at b f 2 0 Q * f_at b f 5 Q + f.jac Q
        * metric_at b f 2 1 Q * f_at b f 7 Q + f.jac Q * metric_at b f 2 2 Q * f_at b f 8 Q)
        / b.dx 2),
    (3 * b.nxd 0 + P,
      dt * ((mat.g * 2 + mat.lambda) * metric_at b f 2 0 P * c * f_at b f 0 Q + mat.lambda
        * (metric_at b f 2 1 P * c * f_at b f 1 Q + metric_at b f 2 2 P * c * f_at b f 2 Q))
        / b.dx 2),
    (4 * b.nxd 0 + P,
      dt * mat.g * (metric_at b f 2 0 P * c * f_at b f 1 Q + metric_at b f 2 1 P * c
        * f_at b f 0 Q) / b.dx 2),
    (5 * b.nxd 0 + P,
      dt * mat.g * (metric_at b f 2 0 P * c * f_at b f 2 Q + metric_at b f 2 2 P * c
        * f_at b f 0 Q) / b.dx 2),
    (6 * b.nxd 0 + P,
      dt * ((mat.g * 2 + mat.lambda) * metric_at b f 2 1 P * c * f_at b f 1 Q + mat.lambda
        * (metric_at b f 2 0 P * c * f_at b f 0 Q + metric_at b f 2 2 P * c * f_at b f 2 Q))
        / b.dx 2),
    (7 * b.nxd 0 + P,
      dt * mat.g * (metric_at b f 2 1 P * c * f_at b f 2 Q + metric_at b f 2 2 P * c
        * f_at b f 2 Q) / b.dx 2),
    (8 * b.nxd 0 + P,
      dt * ((mat.g * 2 + mat.lambda) * metric_at b f 2 2 P * c * f_at b f 2 Q + mat.lambda
        * (metric_at b f 2 0 P * c * f_at b f 0 Q + metric_at b f 2 1 P * c * f_at b f 1 Q))
        / b.dx 2)
  ]

/-- The statements `f.df[a] -= v` of the right-closure loop body of the z pass of
`calc_df_3d` (block.cpp 1470-1520), in source order, as pairs `(a, v)`; `P` is the
offset of the evaluation point, `Q` that of the stencil point, `c` the coefficient. -/
def df_3d_z_right (b : block) (mat : material) (fd : fd_type) (dt : ℚ) (f : fields)
    (n i j k : Int) : List (Int × ℚ) :=
  let invrho : ℚ := 1 / mat.rho
  let P : Int := i * b.nxd 1 + j * b.nxd 2 + k
  let Q : Int := i * b.nxd 1 + j * b.nxd 2 + (b.prb 2 - 1 - n)
  let c : ℚ := fd.fdcoeff (b.prb 2 - k) n
  [
    (0 * b.nxd 0 + P,
      dt * invrho / f.jac P * c * (f.jac Q * metric_at b f 2 0 Q * f_at b f 3 Q + f.jac Q
        * metric_at b f 2 1 Q * f_at b f 4 Q + f.jac Q * metric_at b f 2 2 Q * f_at b f 5 Q)
        / b.dx 2),
    (1 * b.nxd 0 + P,
      dt * invrho / f.jac P * c * (f.jac Q * metric_at b f 2 0 Q * f_at b f 4 Q + f.jac Q
        * metric_at b f 2 1 Q * f_at b f 6 Q + f.jac Q * metric_at b f 2 2 Q * f_at b f 7 Q)
        / b.dx 2),
    (2 * b.nxd 0 + P,
      dt * invrho / f.jac P * c * (f.jac Q * metric_at b f 2 0 Q * f_at b f 5 Q + f.jac Q
        * metric_at b f 2 1 Q * f_at b f 7 Q + f.jac Q * metric_at b f 2 2 Q * f_at b f 8 Q)
        / b.dx 2),
    (3 * b.nxd 0 + P,
      dt * ((mat.g * 2 + mat.lambda) * metric_at b f 2 0 P * c * f_at b f 0 Q + mat.lambda
        * (metric_at b f 2 1 P * c * f_at b f 1 Q + metric_at b f 2 2 P * c * f_at b f 2 Q))
        / b.dx 2),
    (4 * b.nxd 0 + P,
      dt * mat.g * (metric_at b f 2 0 P * c * f_at b f 1 Q + metric_at b f 2 1 P * c
        * f_at b f 0 Q) / b.dx 2),
    (5 * b.nxd 0 + P,
      dt * mat.g * (metric_at b f 2 0 P * c * f_at b f 2 Q + metric_at b f 2 2 P * c
        * f_at b f 0 Q) / b.dx 2),
    (6 * b.nxd 0 + P,
      dt * ((mat.g * 2 + mat.lambda) * metric_at b f 2 1 P * c * f_at b f 1 Q + mat.lambda
        * (metric_at b f 2 0 P * c * f_at b f 0 Q + metric_at b f 2 2 P * c * f_at b f 2 Q))
        / b.dx 2),
    (7 * b.nxd 0 + P,
      dt * mat.g * (metric_at b f 2 1 P * c * f_at b f 2 Q + metric_at b f 2 2 P * c
        * f_at b f 2 Q) / b.dx 2),
    (8 * b.nxd 0 + P,
      dt * ((mat.g * 2 + mat.lambda) * metric_at b f 2 2 P * c * f_at b f 2 Q + mat.lambda
        * (metric_at b f 2 0 P * c * f_at b f 0 Q + metric_at b f 2 1 P * c * f_at b f 1 Q))
        / b.dx 2)
  ]

/-- The x pass of `calc_df_mode2` (block.cpp 666-760): left-closure, interior and
right-closure loop nests in source order, acting on the array `f.df`. -/
def calc_df_mode2_x (b : block) (mat : material) (fd : fd_type) (dt : ℚ) (f : fields)
    (df : Int → ℚ) : Int → ℚ :=
  let df1 := loop_nij (3 * (fd.sbporder - 1)) (b.mlb 0) (b.mc 0) (b.mlb 1) (b.prb 1)
    (fun n i j => add_all (df_mode2_x_left b mat fd dt f n i j)) df
  let df2 := loop_nij (2 * fd.sbporder - 1) (b.mc 0) (b.mrb 0) (b.mlb 1) (b.prb 1)
    (fun n i j => add_all (df_mode2_x_interior b mat fd dt f n i j)) df1
  loop_nij (3 * (fd.sbporder - 1)) (b.mrb 0) (b.prb 0) (b.mlb 1) (b.prb 1)
    (fun n i j => sub_all (df_mode2_x_right b mat fd dt f n i j)) df2

/-- The y pass of `calc_df_mode2` (block.cpp 764-857): for every `i`, the
left-closure, interior and right-closure loops over `j` in source order. -/
def calc_df_mode2_y (b : block) (mat : material) (fd : fd_type) (dt : ℚ) (f : fields)
    (df : Int → ℚ) : Int → ℚ :=
  forRange (b.mlb 0) (b.prb 0) (fun i df =>
    let df1 := loop_jn (b.mlb 1) (b.mc 1) (3 * (fd.sbporder - 1))
      (fun n j => add_all (df_mode2_y_left b mat fd dt f n i j)) df
    let df2 := loop_jn (b.mc 1) (b.mrb 1) (2 * fd.sbporder - 1)
      (fun n j => add_all (df_mode2_y_interior b mat fd dt f n i j)) df1
    loop_jn (b.mrb 1) (b.prb 1) (3 * (fd.sbporder - 1))
      (fun n j => sub_all (df_mode2_y_right b mat fd dt f n i j)) df2) df

/-- Embedding of `block::calc_df_mode2` (block.cpp 659-859): the passes in source
order; only the array `f.df` is written. -/
def calc_df_mode2 (b : block) (mat : material) (fd : fd_type) (dt : ℚ) (f : fields) : fields :=
  { f with df := (calc_df_mode2_y b mat fd dt f (calc_df_mode2_x b mat fd dt f f.df)) }

/-- The x pass of `calc_df_mode3` (block.cpp 868-919): left-closure, interior and
right-closure loop nests in source order, acting on the array `f.df`. -/
def calc_df_mode3_x (b : block) (mat : material) (fd : fd_type) (dt : ℚ) (f : fields)
    (df : Int → ℚ) : Int → ℚ :=
  let df1 := loop_nij (3 * (fd.sbporder - 1)) (b.mlb 0) (b.mc 0) (b.mlb 1) (b.prb 1)
    (fun n i j => add_all (df_mode3_x_left b mat fd dt f n i j)) df
  let df2 := loop_nij (2 * fd.sbporder - 1) (b.mc 0) (b.mrb 0) (b.mlb 1) (b.prb 1)
    (fun n i j => add_all (df_mode3_x_interior b mat fd dt f n i j)) df1
  loop_nij (3 * (fd.sbporder - 1)) (b.mrb 0) (b.prb 0) (b.mlb 1) (b.prb 1)
    (fun n i j => sub_all (df_mode3_x_right b mat fd dt f n i j)) df2

/-- The y pass of `calc_df_mode3` (block.cpp 923-971): for every `i`, the
left-closure, interior and right-closure loops over `j` in source order. -/
def calc_df_mode3_y (b : block) (mat : material) (fd : fd_type) (dt : ℚ) (f : fields)
    (df : Int → ℚ) : Int → ℚ :=
  forRange (b.mlb 0) (b.prb 0) (fun i df =>
    let df1 := loop_jn (b.mlb 1) (b.mc 1) (3 * (fd.sbporder - 1))
      (fun n j => add_all (df_mode3_y_left b mat fd dt f n i j)) df
    let df2 := loop_jn (b.mc 1) (b.mrb 1) (2 * fd.sbporder - 1)
      (fun n j => add_all (df_mode3_y_interior b mat fd dt f n i j)) df1
    loop_jn (b.mrb 1) (b.prb 1) (3 * (fd.sbporder - 1))
      (fun n j => sub_all (df_mode3_y_right b mat fd dt f n i j)) df2) df

/-- Embedding of `block::calc_df_mode3` (block.cpp 861-973): the passes in source
order; only the array `f.df` is written. -/
def calc_df_mode3 (b : block) (mat : material) (fd : fd_type) (dt : ℚ) (f : fields) : fields :=
  { f with df := (calc_df_mode3_y b mat fd dt f (calc_df_mode3_x b mat fd dt f f.df)) }

/-- The x pass of `calc_df_3d` (block.cpp 982-1160): left-closure, interior and
right-closure loop nests in source order, acting on the array `f.df`. -/
def calc_df_3d_x (b : block) (mat : material) (fd : fd_type) (dt : ℚ) (f : fields)
    (df : Int → ℚ) : Int → ℚ :=
  let df1 := loop_nijk (3 * (fd.sbporder - 1)) (b.mlb 0) (b.mc 0) (b.mlb 1) (b.prb 1) (b.mlb 2) (b.prb 2)
    (fun n i j k => add_all (df_3d_x_left b mat fd dt f n i j k)) df
  let df2 := loop_nijk (2 * fd.sbporder - 1) (b.mc 0) (b.mrb 0) (b.mlb 1) (b.prb 1) (b.mlb 2) (b.prb 2)
    (fun n i j k => add_all (df_3d_x_interior b mat fd dt f n i j k)) df1
  loop_nijk (3 * (fd.sbporder - 1)) (b.mrb 0) (b.prb 0) (b.mlb 1) (b.prb 1) (b.mlb 2) (b.prb 2)
    (fun n i j k => sub_all (df_3d_x_right b mat fd dt f n i j k)) df2

/-- The y pass of `calc_df_3d` (block.cpp 1164-1342): left-closure, interior and
right-closure loop nests in source order, acting on the array `f.df`. -/
def calc_df_3d_y (b : block) (mat : material) (fd : fd_type) (dt : ℚ) (f : fields)
    (df : Int → ℚ) : Int → ℚ :=
  let df1 := loop_nijk (3 * (fd.sbporder - 1)) (b.mlb 0) (b.prb 0) (b.mlb 1) (b.mc 1) (b.mlb 2) (b.prb 2)
    (fun n i j k => add_all (df_3d_y_left b mat fd dt f n i j k)) df
  let df2 := loop_nijk (2 * fd.sbporder - 1) (b.mlb 0) (b.prb 0) (b.mc 1) (b.mrb 1) (b.mlb 2) (b.prb 2)
    (fun n i j k => add_all (df_3d_y_interior b mat fd dt f n i j k)) df1
  loop_nijk (3 * (fd.sbporder - 1)) (b.mlb 0) (b.prb 0) (b.mrb 1) (b.prb 1) (b.mlb 2) (b.prb 2)
    (fun n i j k => sub_all (df_3d_y_right b mat fd dt f n i j k)) df2

/-- The z pass of `calc_df_3d` (block.cpp 1346-1524): left-closure, interior and
right-closure loop nests in source order, acting on the array `f.df`. -/
def calc_df_3d_z (b : block) (mat : material) (fd : fd_type) (dt : ℚ) (f : fields)
    (df : Int → ℚ) : Int → ℚ :=
  let df1 := loop_nijk (3 * (fd.sbporder - 1)) (b.mlb 0) (b.prb 0) (b.mlb 1) (b.prb 1) (b.mlb 2) (b.mc 2)
    (fun n i j k => add_all (df_3d_z_left b mat fd dt f n i j k)) df
  let df2 := loop_nijk (2 * fd.sbporder - 1) (b.mlb 0) (b.prb 0) (b.mlb 1) (b.prb 1) (b.mc 2) (b.mrb 2)
    (fun n i j k => add_all (df_3d_z_interior b mat fd dt f n i j k)) df1
  loop_nijk (3 * (fd.sbporder - 1)) (b.mlb 0) (b.prb 0) (b.mlb 1) (b.prb 1) (b.mrb 2) (b.prb 2)
    (fun n i j k => sub_all (df_3d_z_right b mat fd dt f n i j k)) df2

/-- Embedding of `block::calc_df_3d` (block.cpp 975-1526): the passes in source
order; only the array `f.df` is written. -/
def calc_df_3d (b : block) (mat : material) (fd : fd_type) (dt : ℚ) (f : fields) : fields :=
  { f with df := (calc_df_3d_z b mat fd dt f (calc_df_3d_y b mat fd dt f (calc_df_3d_x b mat fd dt f f.df))) }

/-- Embedding of `block::calc_df` (block.cpp 254-273): nothing is done on a
process without data; otherwise the kernel is chosen by `ndim` and `mode`. -/
def calc_df (b : block) (mat : material) (fd : fd_type) (dt : ℚ) (f : fields) : fields :=
  if b.no_data then f
  else if b.ndim = 3 then calc_df_3d b mat fd dt f
  else if b.ndim = 2 then
    (if b.mode = 2 then calc_df_mode2 b mat fd dt f
     else if b.mode = 3 then calc_df_mode3 b mat fd dt f
     else f)
  else f

/-! ## Helper definitions for the proofs -/

/-- Local count produced by the intersection step in dimension `i`. -/
def interNx (cart : cartesian) (c0 : coord) (i : Nat) : Int :=
  (intersect_body cart c0 c0 i).nx_loc i

/-- Local minimum produced by the intersection step in dimension `i`, when the
slot held `old` before. -/
def interXm (cart : cartesian) (c0 : coord) (old : Int) (i : Nat) : Int :=
  (intersect_body cart c0 { c0 with xm_loc := fun _ => old } i).xm_loc i

/-- Low ghost count after the ghost step in dimension `i`, when the slot held
`old` before. -/
def ghostXm (cart : cartesian) (c0 : coord) (sbporder old : Int) (i : Nat) : Int :=
  (ghost_body cart c0 sbporder { c0 with xm_ghost := fun _ => old } i).xm_ghost i

/-- High ghost count after the ghost step in dimension `i`, when the slot held
`old` before. -/
def ghostXp (cart : cartesian) (c0 : coord) (sbporder old : Int) (i : Nat) : Int :=
  (ghost_body cart c0 sbporder { c0 with xp_ghost := fun _ => old } i).xp_ghost i

/-- The descriptor written by the no-data branch (block.cpp 368-373). -/
def collapsed (c : coord) : coord :=
  { c with
      nx_loc := setAt (setAt (setAt c.nx_loc 0 0) 1 0) 2 0,
      xm_loc := setAt (setAt (setAt c.xm_loc 0 (c.xm 0)) 1 (c.xm 1)) 2 (c.xm 2) }

/-- The descriptor after the intersection and ghost loops, before the no-data
collapse. -/
def ghosted (b : block) (cart : cartesian) (sbporder : Int) : coord :=
  (List.range b.ndim).foldl (ghost_body cart b.c sbporder)
    ((List.range b.ndim).foldl (intersect_body cart b.c) b.c)

/-- The block's owned-plus-ghost window lies inside the process array of
`n0 × n1 × n2` points that the flat offsets address row-major: the strides are
`nxd = (n0*n1*n2, n1*n2, n2)`, the ghost counts are non-negative and in every
dimension `0 ≤ mlb - xm_ghost` and `prb + xp_ghost ≤ n`. -/
def in_array (b : block) (n0 n1 n2 : Int) : Prop :=
  (b.nxd 0 = n0 * n1 * n2 ∧ b.nxd 1 = n1 * n2 ∧ b.nxd 2 = n2) ∧
  (0 ≤ b.c.xm_ghost 0 ∧ 0 ≤ b.c.xp_ghost 0 ∧ 0 ≤ b.mlb 0 - b.c.xm_ghost 0 ∧
    b.prb 0 + b.c.xp_ghost 0 ≤ n0) ∧
  (0 ≤ b.c.xm_ghost 1 ∧ 0 ≤ b.c.xp_ghost 1 ∧ 0 ≤ b.mlb 1 - b.c.xm_ghost 1 ∧
    b.prb 1 + b.c.xp_ghost 1 ≤ n1) ∧
  (0 ≤ b.c.xm_ghost 2 ∧ 0 ≤ b.c.xp_ghost 2 ∧ 0 ≤ b.mlb 2 - b.c.xm_ghost 2 ∧
    b.prb 2 + b.c.xp_ghost 2 ≤ n2)

instance (b : block) (n0 n1 n2 : Int) : Decidable (in_array b n0 n1 n2) := by
  unfold in_array; infer_instance

/-- The array point `(i,j,k)` is one of the block's locally owned points. -/
def owned (b : block) (i j k : Int) : Prop :=
  (b.mlb 0 ≤ i ∧ i < b.prb 0) ∧ (b.mlb 1 ≤ j ∧ j < b.prb 1) ∧ (b.mlb 2 ≤ k ∧ k < b.prb 2)

instance (b : block) (i j k : Int) : Decidable (owned b i j k) := by
  unfold owned; infer_instance

/-- The nine entries of the scratch tensor at array point `(i,j,k)`. -/
def xp_at (b : block) (xp : XP) (i j k : Int) : Int → Int → ℚ :=
  fun l m => xp (l, m, i - b.mlb 0, j - b.mlb 1, k - b.mlb 2)

/-- The value the interpolation body leaves at its own offset. -/
def tfi_value (b : block) (surf : Nat → surface) (i j k l : Int) : ℚ :=
  interp_point b surf i j k l (fun _ => 0) (xidx b i j k l)

/-- The array point `(j,k,l)` lies in the block's owned-plus-ghost window, the
range of the interpolation loops. -/
def in_window (b : block) (j k l : Int) : Prop :=
  (b.mlb 0 - b.c.xm_ghost 0 ≤ j ∧ j < b.prb 0 + b.c.xp_ghost 0) ∧
  (b.mlb 1 - b.c.xm_ghost 1 ≤ k ∧ k < b.prb 1 + b.c.xp_ghost 1) ∧
  (b.mlb 2 - b.c.xm_ghost 2 ≤ l ∧ l < b.prb 2 + b.c.xp_ghost 2)

instance (b : block) (j k l : Int) : Decidable (in_window b j k l) := by
  unfold in_window; infer_instance

/-- The reference coordinate `(xm_loc - xm + j - xm_ghost) * dx` that the
interpolation body uses in dimension `d` at array index `j`. -/
def ref_coord (b : block) (d : Nat) (j : Int) : ℚ :=
  ((b.c.xm_loc d - b.c.xm d + j - b.c.xm_ghost d : Int) : ℚ) * b.dx d

/-- The six surfaces are the faces of the image of the reference cube under
the affine map `ξ ↦ o + A ξ`, sampled with the grid spacings `dx` of the
block, for every coordinate component `0 ≤ i < ndim`. -/
def affine_surfaces (b : block) (surf : Nat → surface) (o : Int → ℚ)
    (A : Int → Int → ℚ) : Prop :=
  ∀ i u v : Int, 0 ≤ i → i < b.ndim →
    (surf 0).get_x i u v = o i + A i 1 * (u * b.dx 1) + A i 2 * (v * b.dx 2) ∧
    (surf 1).get_x i u v = o i + A i 0 + A i 1 * (u * b.dx 1) + A i 2 * (v * b.dx 2) ∧
    (surf 2).get_x i u v = o i + A i 0 * (u * b.dx 0) + A i 2 * (v * b.dx 2) ∧
    (surf 3).get_x i u v = o i + A i 0 * (u * b.dx 0) + A i 1 + A i 2 * (v * b.dx 2) ∧
    (b.ndim = 3 →
      (surf 4).get_x i u v = o i + A i 0 * (u * b.dx 0) + A i 1 * (v * b.dx 1) ∧
      (surf 5).get_x i u v = o i + A i 0 * (u * b.dx 0) + A i 1 * (v * b.dx 1) + A i 2)

/-- The stencil sum `term 0 + term 1 + ... + term (N-1)`. -/
def stencil_sum (N : Int) (term : Int → ℚ) : ℚ := ((irange 0 N).map term).sum

/-- The coefficient rows differentiate linear functions exactly: the interior
row (row 0, `2*order-1` entries, evaluation point `order-1`) and every closure
row `r` in `1 .. 2(order-1)` (`3(order-1)` entries, evaluation point `r-1`)
sum to zero and have unit first moment about their evaluation point. -/
def fd_exact (fd : fd_type) : Prop :=
  (stencil_sum (2 * fd.sbporder - 1) (fd.fdcoeff 0) = 0 ∧
    stencil_sum (2 * fd.sbporder - 1)
      (fun n => fd.fdcoeff 0 n * ((n : ℚ) - ((fd.sbporder : ℚ) - 1))) = 1) ∧
  ∀ r : Int, 1 ≤ r → r ≤ 2 * (fd.sbporder - 1) →
    stencil_sum (3 * (fd.sbporder - 1)) (fd.fdcoeff r) = 0 ∧
    stencil_sum (3 * (fd.sbporder - 1)) (fun n => fd.fdcoeff r n * ((n : ℚ) - ((r : ℚ) - 1))) = 1

/-- The stencil regions of dimension `d` fit the block's window: the regions
are ordered (`mlb ≤ mc`, `mrb ≤ prb`), each closure has at most `2(order-1)`
rows, and every coordinate a non-empty region reads lies between
`mlb - xm_ghost` and `prb + xp_ghost`. -/
def stencil_window (b : block) (s : Int) (d : Nat) : Prop :=
  b.mlb d ≤ b.mc d ∧ b.mrb d ≤ b.prb d ∧
  b.mc d - b.mlb d ≤ 2 * (s - 1) ∧ b.prb d - b.mrb d ≤ 2 * (s - 1) ∧
  (b.mlb d < b.mc d → b.mlb d + 3 * (s - 1) ≤ b.prb d + b.c.xp_ghost d) ∧
  (b.mrb d < b.prb d → b.mlb d - b.c.xm_ghost d ≤ b.prb d - 3 * (s - 1)) ∧
  (b.mc d < b.mrb d → b.mlb d - b.c.xm_ghost d ≤ b.mc d - (s - 1) ∧
    b.mrb d + (s - 1) ≤ b.prb d + b.c.xp_ghost d)

instance (b : block) (s : Int) (d : Nat) : Decidable (stencil_window b s d) := by
  unfold stencil_window; infer_instance

/-- Value the left-closure stencil of direction `d` stores for component `l`
at index `i`. -/
def left_value (b : block) (fd : fd_type) (x : Int → ℚ) (d : Nat) (addr : Int → Int → Int)
    (l i : Int) : ℚ :=
  stencil_sum (3 * (fd.sbporder - 1))
    (fun n => fd.fdcoeff (i - b.mlb d + 1) n * x (addr l (b.mlb d + n)) / b.dx d)

/-- Value the interior stencil of direction `d` stores for component `l` at
index `i`. -/
def interior_value (b : block) (fd : fd_type) (x : Int → ℚ) (d : Nat)
    (addr : Int → Int → Int) (l i : Int) : ℚ :=
  stencil_sum (2 * fd.sbporder - 1)
    (fun n => fd.fdcoeff 0 n * x (addr l (i - fd.sbporder + 1 + n)) / b.dx d)

/-- Value the right-closure stencil of direction `d` stores for component `l`
at index `i`. -/
def right_value (b : block) (fd : fd_type) (x : Int → ℚ) (d : Nat) (addr : Int → Int → Int)
    (l i : Int) : ℚ :=
  -stencil_sum (3 * (fd.sbporder - 1))
    (fun n => fd.fdcoeff (b.prb d - i) n * x (addr l (b.prb d - 1 - n)) / b.dx d)

/-- The coordinate-derivative tensor of the affine map `ξ ↦ o + A ξ` on a block
of dimension `ndim`: the entries with both indices below `ndim` are those of
`A`, the others those of the identity. -/
def affine_tensor (ndim : Nat) (A : Int → Int → ℚ) (l m : Int) : ℚ :=
  if l < (ndim : Int) ∧ m < (ndim : Int) then A l m else if l = m then 1 else 0

/-- The surfaces are the six faces of the unit cube, sampled with the grid
spacings of the block: the transfinite map is the identity. -/
def unit_cube_surfaces (b : block) (surf : Nat → surface) : Prop :=
  affine_surfaces b surf (fun _ => 0) (fun l m => if l = m then 1 else 0)

/-- The six faces of the image of the unit cube under the linear map `A`,
sampled with the spacings `h`: surfaces 0, 1 are the faces `ξ = 0, 1`,
surfaces 2, 3 the faces `η = 0, 1`, surfaces 4, 5 the faces `ζ = 0, 1`. -/
def affine_faces (A : Int → Int → ℚ) (h : Nat → ℚ) (s : Nat) : surface :=
  ⟨fun i u v =>
    if s = 0 then 0 + A i 1 * (u * h 1) + A i 2 * (v * h 2)
    else if s = 1 then 0 + A i 0 + A i 1 * (u * h 1) + A i 2 * (v * h 2)
    else if s = 2 then 0 + A i 0 * (u * h 0) + A i 2 * (v * h 2)
    else if s = 3 then 0 + A i 0 * (u * h 0) + A i 1 + A i 2 * (v * h 2)
    else if s = 4 then 0 + A i 0 * (u * h 0) + A i 1 * (v * h 1)
    else 0 + A i 0 * (u * h 0) + A i 1 * (v * h 1) + A i 2⟩

/-- The identity map. -/
def unit_map : Int → Int → ℚ := fun l m => if l = m then 1 else 0

/-- The shear `x = ξ + η, y = η, z = ζ`. -/
def shear_map : Int → Int → ℚ := fun l m => if l = m then 1 else if l = 0 ∧ m = 1 then 1 else 0

/-- Second-order coefficient table: interior row `(-1/2, 0, 1/2)`, closure
rows `(-1, 1, 0)` and `(-1/2, 0, 1/2)`. -/
def fd2 : fd_type :=
  ⟨2, fun r n =>
    if r = 1 then (if n = 0 then -1 else if n = 1 then 1 else 0)
    else (if n = 0 then -1 / 2 else if n = 2 then 1 / 2 else 0)⟩

/-- A single process owning a grid of `4 × 4 × n2` points. -/
def cartOne (n2 : Int) : cartesian :=
  ⟨fun i => if i = 2 then n2 else 4, fun _ => 0, fun i => if i = 2 then n2 else 4, fun _ => 0⟩

/-- A block of `4 × 4 × n2` points at the origin, before `calc_process_info`;
the local members hold count 1 and minimum 0. -/
def blockOne (ndim : Nat) (n2 : Int) : block :=
  block.ofCoord ndim ⟨fun i => if i = 2 then n2 else 4, fun _ => 0, fun _ => 1, fun _ => 0,
    fun _ => 0, fun _ => 0⟩

/-- The 3D block of `4 × 4 × 4` points on one process, as the constructor
leaves it for second-order stencils. -/
def block3 : block := init_indices (calc_process_info (blockOne 3 4) (cartOne 4) 2) (cartOne 4) fd2

/-- The 2D block of `4 × 4` points on one process, as the constructor leaves
it for second-order stencils. -/
def block2 : block := init_indices (calc_process_info (blockOne 2 1) (cartOne 1) 2) (cartOne 1) fd2

/-- Fields with every array at zero. -/
def fields0 : fields := ⟨fun _ => 0, fun _ => 0, fun _ => 0, fun _ => 0, fun _ => 0⟩

/-- The result of `set_grid` on block `b` for the faces of the image of the unit
cube under `A`, with second-order stencils, zero-filled memory and a ghost
exchange that changes nothing (a single process). -/
def grid_of (b : block) (A : Int → Int → ℚ) : block × fields :=
  set_grid b (affine_faces A (set_dx b).dx) fields0 fd2 (fun _ => 0) id

/-- The scratch tensor of the call `grid_of b A`. -/
def tensor_of (b : block) (A : Int → Int → ℚ) : XP :=
  set_grid_xp b (affine_faces A (set_dx b).dx) fields0 fd2 (fun _ => 0)

/-- One iteration of the constructor's index loop (block.cpp 59-73). -/
def index_body (cart : cartesian) (fd : fd_type) (b : block) (i : Nat) : block :=
  let mlb := setAt b.mlb i (b.c.xm_loc i - cart.xm_loc i + cart.xm_ghost i)
  let mc := if b.c.xm_loc i = b.c.xm i ∧ b.c.nx i > 1 then
      setAt b.mc i (mlb i + 2 * (fd.sbporder - 1))
    else setAt b.mc i (mlb i)
  if b.c.get_xp_loc i = b.c.get_xp i ∧ b.c.nx i > 1 then
    let mrb := setAt b.mrb i (mlb i + b.c.nx_loc i - 2 * (fd.sbporder - 1))
    { b with mlb := mlb, mc := mc, mrb := mrb,
             prb := setAt b.prb i (mrb i + 2 * (fd.sbporder - 1)) }
  else
    let mrb := setAt b.mrb i (mlb i + b.c.nx_loc i)
    { b with mlb := mlb, mc := mc, mrb := mrb, prb := setAt b.prb i (mrb i) }

/-- The array point obtained from `(i,j,k)` by replacing the index along
dimension `d` by `t`: the points of the grid line through `(i,j,k)` in
direction `d`. -/
def along (d : Nat) (i j k t : Int) : Int × Int × Int :=
  if d = 0 then (t, j, k) else if d = 1 then (i, t, k) else (i, j, t)

/-- The coordinate field on the grid line through `(i,j,k)` in direction `d`,
as a function of the index along the line. -/
def line_data (b : block) (x : Int → ℚ) (l : Int) (d : Nat) (i j k t : Int) : ℚ :=
  x (xidx b l (along d i j k t).1 (along d i j k t).2.1 (along d i j k t).2.2)

/-- The full-block index `jj = xm_loc - xm + j - xm_ghost` that the
interpolation body of `set_grid` computes from the array index `j` in
dimension `d` (block.cpp 411-413). -/
def block_index (b : block) (d : Nat) (j : Int) : Int :=
  b.c.xm_loc d - b.c.xm d + j - b.c.xm_ghost d

/-- The six surfaces agree along their shared edges: surfaces 0, 1 (faces
`ξ = 0, 1`, indexed by `(η, ζ)`), 2, 3 (faces `η = 0, 1`, indexed by `(ξ, ζ)`)
and, in 3D, 4, 5 (faces `ζ = 0, 1`, indexed by `(ξ, η)`) give the same point
on each common edge. -/
def edges_agree (b : block) (surf : Nat → surface) : Prop :=
  ∀ i u : Int,
    ((surf 2).get_x i 0 u = (surf 0).get_x i 0 u ∧
      (surf 2).get_x i (b.c.nx 0 - 1) u = (surf 1).get_x i 0 u ∧
      (surf 3).get_x i 0 u = (surf 0).get_x i (b.c.nx 1 - 1) u ∧
      (surf 3).get_x i (b.c.nx 0 - 1) u = (surf 1).get_x i (b.c.nx 1 - 1) u) ∧
    (b.ndim = 3 →
      (surf 4).get_x i 0 u = (surf 0).get_x i u 0 ∧
      (surf 4).get_x i (b.c.nx 0 - 1) u = (surf 1).get_x i u 0 ∧
      (surf 5).get_x i 0 u = (surf 0).get_x i u (b.c.nx 2 - 1) ∧
      (surf 5).get_x i (b.c.nx 0 - 1) u = (surf 1).get_x i u (b.c.nx 2 - 1) ∧
      (surf 4).get_x i u 0 = (surf 2).get_x i u 0 ∧
      (surf 4).get_x i u (b.c.nx 1 - 1) = (surf 3).get_x i u 0 ∧
      (surf 5).get_x i u 0 = (surf 2).get_x i u (b.c.nx 2 - 1) ∧
      (surf 5).get_x i u (b.c.nx 1 - 1) = (surf 3).get_x i u (b.c.nx 2 - 1))

/-- Total of the values of the statements of `st` that address `a`. -/
def hits (st : List (Int × ℚ)) (a : Int) : ℚ :=
  (st.map (fun s => if s.1 = a then s.2 else 0)).sum

/-- The sum of `v i` over `lo ≤ i < hi`. -/
def range_sum (lo hi : Int) (v : Int → ℚ) : ℚ := ((irange lo hi).map v).sum

/-- The statements of `st` address the rows `0, 1, 2, ...` of the point with
offset `P`: the `s`-th address is `s*w + P`. -/
def row_layout (st : List (Int × ℚ)) (w P : Int) : Prop :=
  st.map Prod.fst = (List.range st.length).map (fun s : Nat => (s : Int) * w + P)

/-- The value of the `r`-th statement of `st` (zero past the end). -/
def row_value (st : List (Int × ℚ)) (r : Nat) : ℚ := (st.map Prod.snd).getD r 0

/-- The 2D array point `(i,j)` is one of the block's locally owned points. -/
def owned2 (b : block) (i j : Int) : Prop :=
  (b.mlb 0 ≤ i ∧ i < b.prb 0) ∧ (b.mlb 1 ≤ j ∧ j < b.prb 1)

instance (b : block) (i j : Int) : Decidable (owned2 b i j) := by
  unfold owned2; infer_instance

/-- The three stencil regions of dimension `d` lie inside the owned range
`[mlb, prb)`. -/
def regions_inside (b : block) (d : Nat) : Prop :=
  b.mlb d ≤ b.mc d ∧ b.mc d ≤ b.prb d ∧ b.mlb d ≤ b.mrb d ∧ b.mrb d ≤ b.prb d

instance (b : block) (d : Nat) : Decidable (regions_inside b d) := by
  unfold regions_inside; infer_instance

/-- The contribution of the three stencil regions of dimension `d` to a point
with index `p` along `d`: `L` in the left closure, `I` in the interior, minus
`R` in the right closure. -/
def region_total (b : block) (d : Nat) (p : Int) (L I R : ℚ) : ℚ :=
  (if b.mlb d ≤ p ∧ p < b.mc d then L else 0) + (if b.mc d ≤ p ∧ p < b.mrb d then I else 0)
    - (if b.mrb d ≤ p ∧ p < b.prb d then R else 0)

/-- The transformer `T` of the array `df` changes every entry by an amount that
does not depend on the array it starts from. -/
def Shift (T : (Int → ℚ) → Int → ℚ) : Prop :=
  ∀ (df df' : Int → ℚ) (a : Int), T df a - df a = T df' a - df' a

/-- The stencil sum `D` of the values `g` along dimension `d` at a point with
index `p`: the row `p-mlb+1` applied to `g(mlb+n)` in the left closure, the
interior row applied to `g(p-order+1+n)` in the interior, and minus the row
`prb-p` applied in reversed order to `g(prb-1-n)` in the right closure. -/
def sbp_sum (b : block) (fd : fd_type) (d : Nat) (p : Int) (g : Int → ℚ) : ℚ :=
  region_total b d p
    (stencil_sum (3 * (fd.sbporder - 1))
      (fun n => fd.fdcoeff (p - b.mlb d + 1) n * g (b.mlb d + n)))
    (stencil_sum (2 * fd.sbporder - 1)
      (fun n => fd.fdcoeff 0 n * g (p - fd.sbporder + 1 + n)))
    (stencil_sum (3 * (fd.sbporder - 1))
      (fun n => fd.fdcoeff (b.prb d - p) n * g (b.prb d - 1 - n)))

/-- The increment of a velocity row by direction `d` of a 2D kernel as the
specification states it: `dt/(rho*J(P)*dx[d])` times the stencil sum over the
stencil points `Q` of `c*J(Q)*(metric[d][0](Q)*s0(Q) + metric[d][1](Q)*s1(Q))`,
with every factor inside the sum taken at the stencil point.  `r0`, `r1` are
the rows of the two stress components in `f`. -/
def velocity_increment2 (b : block) (mat : material) (fd : fd_type) (dt : ℚ) (f : fields)
    (d : Nat) (r0 r1 i0 j0 : Int) : ℚ :=
  dt / (mat.rho * f.jac (i0 * b.nxd 1 + j0) * b.dx d)
    * sbp_sum b fd d (if d = 0 then i0 else j0)
        (fun a => f.jac (if d = 0 then a * b.nxd 1 + j0 else i0 * b.nxd 1 + a)
          * (metric_at b f d 0 (if d = 0 then a * b.nxd 1 + j0 else i0 * b.nxd 1 + a)
              * f_at b f r0 (if d = 0 then a * b.nxd 1 + j0 else i0 * b.nxd 1 + a)
            + metric_at b f d 1 (if d = 0 then a * b.nxd 1 + j0 else i0 * b.nxd 1 + a)
              * f_at b f r1 (if d = 0 then a * b.nxd 1 + j0 else i0 * b.nxd 1 + a)))

/-- Unit material: `rho = lambda = g = 1`. -/
def mat1 : material := ⟨1, 1, 1⟩

/-- Fields with Jacobian `J` and state `F`, every metric entry 1 and the other
arrays zero. -/
def fields_of (J F : Int → ℚ) : fields := ⟨fun _ => 0, fun _ => 1, J, F, fun _ => 0⟩

/-- A Jacobian that is 1 except at the point with flat offset `a0`, where it is
`v`. -/
def jac_spike (a0 : Int) (v : ℚ) : Int → ℚ := fun a => if a = a0 then v else 1

/-- A state that is zero except at the flat offset `a0`, where it is `v`. -/
def state_spike (a0 : Int) (v : ℚ) : Int → ℚ := fun a => if a = a0 then v else 0

/-- The flat offset of the point of the grid line through `(i0,j0,k0)` in
direction `d` with index `a` along the line. -/
def line_offset (b : block) (d : Nat) (i0 j0 k0 a : Int) : Int :=
  if d = 0 then a * b.nxd 1 + j0 * b.nxd 2 + k0
  else if d = 1 then i0 * b.nxd 1 + a * b.nxd 2 + k0
  else i0 * b.nxd 1 + j0 * b.nxd 2 + a

/-- The increment of a velocity row by direction `d` of the 3D kernel as the
specification states it: `dt/(rho*J(P)*dx[d])` times the stencil sum over the
stencil points `Q` of `c*J(Q)*(metric[d][0](Q)*s0(Q) + metric[d][1](Q)*s1(Q) +
metric[d][2](Q)*s2(Q))`, with every factor inside the sum taken at the stencil
point.  `r0`, `r1`, `r2` are the rows of the three stress components in `f`. -/
def velocity_increment3 (b : block) (mat : material) (fd : fd_type) (dt : ℚ) (f : fields)
    (d : Nat) (r0 r1 r2 i0 j0 k0 : Int) : ℚ :=
  dt / (mat.rho * f.jac (i0 * b.nxd 1 + j0 * b.nxd 2 + k0) * b.dx d)
    * sbp_sum b fd d (if d = 0 then i0 else if d = 1 then j0 else k0)
        (fun a => f.jac (line_offset b d i0 j0 k0 a)
          * (metric_at b f d 0 (line_offset b d i0 j0 k0 a)
              * f_at b f r0 (line_offset b d i0 j0 k0 a)
            + metric_at b f d 1 (line_offset b d i0 j0 k0 a)
              * f_at b f r1 (line_offset b d i0 j0 k0 a)
            + metric_at b f d 2 (line_offset b d i0 j0 k0 a)
              * f_at b f r2 (line_offset b d i0 j0 k0 a)))

/-- The increment of the shear stress row `s_ab` by direction `d` of the 3D
kernel as the specification states it: `dt*mu/dx[d]` times
`metric[d][a](P)*D(v_b) + metric[d][b](P)*D(v_a)`, both metric entries taken
at the evaluation point `P`. -/
def shear_increment3 (b : block) (mat : material) (fd : fd_type) (dt : ℚ) (f : fields)
    (d : Nat) (a1 a2 i0 j0 k0 : Int) : ℚ :=
  dt * mat.g / b.dx d
    * (metric_at b f d a1 (i0 * b.nxd 1 + j0 * b.nxd 2 + k0)
        * sbp_sum b fd d (if d = 0 then i0 else if d = 1 then j0 else k0)
            (fun a => f_at b f a2 (line_offset b d i0 j0 k0 a))
      + metric_at b f d a2 (i0 * b.nxd 1 + j0 * b.nxd 2 + k0)
        * sbp_sum b fd d (if d = 0 then i0 else if d = 1 then j0 else k0)
            (fun a => f_at b f a1 (line_offset b d i0 j0 k0 a)))

/-- A single process owning a grid of `n0 × n1 × n2` points. -/
def cartBox (n0 n1 n2 : Int) : cartesian :=
  ⟨fun i => if i = 0 then n0 else if i = 1 then n1 else n2, fun _ => 0,
   fun i => if i = 0 then n0 else if i = 1 then n1 else n2, fun _ => 0⟩

/-- A block of `n0 × n1 × n2` points at the origin, before `calc_process_info`;
the local members hold count 1 and minimum 0. -/
def blockBox (ndim : Nat) (n0 n1 n2 : Int) : block :=
  block.ofCoord ndim ⟨fun i => if i = 0 then n0 else if i = 1 then n1 else n2, fun _ => 0,
    fun _ => 1, fun _ => 0, fun _ => 0, fun _ => 0⟩

/-- The 3D block of `4 × 5 × 4` points on one process, as the constructor
leaves it for second-order stencils: its y interior region is the single index
`2`. -/
def block3y : block :=
  init_indices (calc_process_info (blockBox 3 4 5 4) (cartBox 4 5 4) 2) (cartBox 4 5 4) fd2

/-! ## Assertions, boundaries and interfaces (`block::block`, `interface`) -/

/-- The assertions at the head of the block constructor (block.cpp 21-26), in
source order: `assert(ndim_in == 2 || ndim_in == 3)`,
`assert(mode_in == 2 || mode_in == 3)` and, for `i` in `[0, ndim_in)`,
`assert(nx_in[i] > 0)` then `assert(xm_in[i] >= 0)`.  The result is `none`
when an assertion fails and `some ()` when all of them hold. -/
def block_asserts (ndim_in mode_in : Int) (nx_in xm_in : Nat → Int) : Option Unit :=
  if ¬ (ndim_in = 2 ∨ ndim_in = 3) then none
  else if ¬ (mode_in = 2 ∨ mode_in = 3) then none
  else forRange 0 ndim_in (fun i r => r.bind (fun _ =>
    if ¬ (nx_in i.toNat > 0) then none
    else if ¬ (xm_in i.toNat ≥ 0) then none
    else some ())) (some ())

/-- Embedding of `block::set_boundaries` (block.cpp 275-286): nothing is done
on a process without data; otherwise `bound[i]->apply_bcs(dt,f)` runs for
`i` in `[0, nbound)`.  The member `nbound` and the boundary objects' routine
(boundary.cpp is not among the sources) are parameters. -/
def set_boundaries (b : block) (nbound : Int) (bound : Int → ℚ → fields → fields)
    (dt : ℚ) (f : fields) : fields :=
  if b.no_data then f else forRange 0 nbound (fun i f => bound i dt f) f

/-- The nine state components at a point (struct `boundfields`,
boundary.hpp 12-14). -/
structure boundfields where
  v1 : ℚ
  v2 : ℚ
  v3 : ℚ
  s11 : ℚ
  s12 : ℚ
  s13 : ℚ
  s22 : ℚ
  s23 : ℚ
  s33 : ℚ

/-- The target values of an interface point (struct `iffields`; interface.hpp
is not among the sources, the members are the ones interface.cpp reads). -/
structure iffields where
  v11 : ℚ
  v12 : ℚ
  v13 : ℚ
  s111 : ℚ
  s112 : ℚ
  s113 : ℚ
  v21 : ℚ
  v22 : ℚ
  v23 : ℚ
  s211 : ℚ
  s212 : ℚ
  s213 : ℚ

/-- The members of class `interface` that interface.cpp uses.  `location`,
`d1`, `nn`, `t1`, `ifhat` and `ufhat` are names the routines read or write
without declaring them locally (interface.cpp 261, 320, 341-356, 514-527);
they are carried as members whose contents the caller supplies. -/
structure interface where
  ndim : Int
  mode : Int
  direction : Int
  location : Int
  no_data : Bool
  nxd : Nat → Int
  n : Nat → Int
  n_loc : Nat → Int
  mlb : Nat → Int
  prb : Nat → Int
  delta : Nat → Int
  cp1 : ℚ
  cs1 : ℚ
  cp2 : ℚ
  cs2 : ℚ
  nx : Int × Int × Int → ℚ
  dl1 : Int × Int → ℚ
  dl2 : Int × Int → ℚ
  d1 : Int × Int → ℚ
  nn : Int → ℚ
  t1 : Int → ℚ
  ifhat : iffields
  ufhat : iffields

/-- A block accessor `get_*(index)` (block.cpp 191-225): it asserts
`index >= 0 && index < ndim` and returns the entry `v[index]` of the
coordinate descriptor; `none` when the assertion fails. -/
def block.get (b : block) (v : Nat → Int) (index : Int) : Option Int :=
  if 0 ≤ index ∧ index < (b.ndim : Int) then some (v index.toNat) else none

/-- The accessor `block::get_nx` (block.cpp 191-195). -/
def block.get_nx (b : block) (index : Int) : Option Int := b.get b.c.nx index

/-- The accessor `block::get_nx_loc` (block.cpp 197-201). -/
def block.get_nx_loc (b : block) (index : Int) : Option Int := b.get b.c.nx_loc index

/-- The accessor `block::get_xm` (block.cpp 203-207). -/
def block.get_xm (b : block) (index : Int) : Option Int := b.get b.c.xm index

/-- The accessor `block::get_xm_loc` (block.cpp 209-213). -/
def block.get_xm_loc (b : block) (index : Int) : Option Int := b.get b.c.xm_loc index

/-- The accessor `block::get_xp` (block.cpp 215-219). -/
def block.get_xp (b : block) (index : Int) : Option Int := b.get b.c.get_xp index

/-- The accessor `block::get_xp_loc` (block.cpp 221-225). -/
def block.get_xp_loc (b : block) (index : Int) : Option Int := b.get b.c.get_xp_loc index

/-- The test `b1.get_nx_loc(d) != 0 && b1.get_xp(d) == b1.get_xp_loc(d)` of
the interface constructor (interface.cpp 25, 49, 59): the negative-side block
has points in this process and its upper face is here.  The right operand is
evaluated only when the left one holds. -/
def minus_side_here (b1 : block) (d : Int) : Option Bool :=
  (b1.get_nx_loc d).bind fun n =>
    if n ≠ 0 then
      (b1.get_xp d).bind fun a => (b1.get_xp_loc d).bind fun c => some (decide (a = c))
    else some false

/-- The test `b2.get_nx_loc(d) != 0 && b2.get_xm(d) == b2.get_xm_loc(d)` of
the interface constructor (interface.cpp 26, 50): the positive-side block has
points in this process and its lower face is here. -/
def plus_side_here (b2 : block) (d : Int) : Option Bool :=
  (b2.get_nx_loc d).bind fun n =>
    if n ≠ 0 then
      (b2.get_xm d).bind fun a => (b2.get_xm_loc d).bind fun c => some (decide (a = c))
    else some false

/-- The condition of interface.cpp 25-26, `(minus side) || (plus side)`; the
second test is evaluated only when the first fails. -/
def either_side_here (b1 b2 : block) (d : Int) : Option Bool :=
  (minus_side_here b1 d).bind fun p => if p then some true else plus_side_here b2 d

/-- The condition of interface.cpp 49-50, `(minus side) && (plus side)`; the
second test is evaluated only when the first holds. -/
def both_sides_here (b1 b2 : block) (d : Int) : Option Bool :=
  (minus_side_here b1 d).bind fun p => if p then plus_side_here b2 d else some false

/-- The statement `assert(x == y)` on two accessor results. -/
def assert_eq (x y : Option Int) : Option Unit :=
  x.bind fun a => y.bind fun c => if a = c then some () else none

/-- Five accessor results in evaluation order. -/
def five (a b c d e : Option Int) : Option (Int × Int × Int × Int × Int) :=
  a.bind fun a => b.bind fun b => c.bind fun c => d.bind fun d => e.bind fun e =>
    some (a, b, c, d, e)

/-- The assignments `n_loc[0] = v0; n_loc[1] = v1;
mlb[e] = ve - cart.get_xm_loc(e) + cart.get_xm_ghost(e) + s[e]` of one branch
of the constructor, for the accessor values `v = (v0, v1, w0, w1, w2)`; the
shift `s[e]` is `-1` where the source subtracts one and `0` elsewhere. -/
def set_window (I : interface) (cart : cartesian) (v : Int × Int × Int × Int × Int)
    (s : Nat → Int) : interface :=
  { I with
    n_loc := setAt (setAt I.n_loc 0 v.1) 1 v.2.1,
    mlb := setAt (setAt (setAt I.mlb
      0 (v.2.2.1 - cart.xm_loc 0 + cart.xm_ghost 0 + s 0))
      1 (v.2.2.2.1 - cart.xm_loc 1 + cart.xm_ghost 1 + s 1))
      2 (v.2.2.2.2 - cart.xm_loc 2 + cart.xm_ghost 2 + s 2) }

/-- Case `direction == 0` of the constructor's switch (interface.cpp 43-80):
the first transverse index is y, the second z. -/
def interface_case0 (I : interface) (b1 b2 : block) (cart : cartesian) : Option interface :=
  (assert_eq (b1.get_nx 1) (b2.get_nx 1)).bind fun _ =>
  (assert_eq (b1.get_nx 2) (b2.get_nx 2)).bind fun _ =>
  (b1.get_nx 1).bind fun n0 =>
  (b2.get_nx 2).bind fun n1 =>
  (both_sides_here b1 b2 I.direction).bind fun both =>
  (if both then
    (assert_eq (b1.get_nx_loc 1) (b2.get_nx_loc 1)).bind fun _ =>
    (assert_eq (b1.get_nx_loc 2) (b2.get_nx_loc 2)).bind fun _ =>
    (five (b1.get_nx_loc 1) (b1.get_nx_loc 2) (b1.get_xp_loc 0) (b1.get_xm_loc 1)
      (b1.get_xm_loc 2)).bind fun v => some (set_window I cart v (fun _ => 0))
  else
    (minus_side_here b1 I.direction).bind fun m =>
    if m then
      (five (b1.get_nx_loc 1) (b1.get_nx_loc 2) (b1.get_xp_loc 0) (b1.get_xm_loc 1)
        (b1.get_xm_loc 2)).bind fun v => some (set_window I cart v (fun _ => 0))
    else
      (five (b2.get_nx_loc 1) (b2.get_nx_loc 2) (b2.get_xm_loc 0) (b2.get_xm_loc 1)
        (b2.get_xm_loc 2)).bind fun v =>
          some (set_window I cart v (fun e => if e = 0 then -1 else 0))).bind fun J =>
  some { J with
    n := setAt (setAt J.n 0 n0) 1 n1,
    prb := setAt (setAt (setAt J.prb 0 (J.mlb 0 + 1)) 1 (J.mlb 1 + J.n_loc 0))
      2 (J.mlb 2 + J.n_loc 1),
    delta := setAt (setAt (setAt J.delta 0 1) 1 0) 2 0 }

/-- Case `direction == 1` of the constructor's switch (interface.cpp 81-118):
the first transverse index is x, the second z. -/
def interface_case1 (I : interface) (b1 b2 : block) (cart : cartesian) : Option interface :=
  (assert_eq (b1.get_nx 0) (b2.get_nx 0)).bind fun _ =>
  (assert_eq (b1.get_nx 2) (b2.get_nx 2)).bind fun _ =>
  (b1.get_nx 0).bind fun n0 =>
  (b2.get_nx 2).bind fun n1 =>
  (both_sides_here b1 b2 I.direction).bind fun both =>
  (if both then
    (assert_eq (b1.get_nx_loc 0) (b2.get_nx_loc 0)).bind fun _ =>
    (assert_eq (b1.get_nx_loc 2) (b2.get_nx_loc 2)).bind fun _ =>
    (five (b1.get_nx_loc 0) (b1.get_nx_loc 2) (b1.get_xm_loc 0) (b1.get_xp_loc 1)
      (b1.get_xm_loc 2)).bind fun v => some (set_window I cart v (fun _ => 0))
  else
    (minus_side_here b1 I.direction).bind fun m =>
    if m then
      (five (b1.get_nx_loc 0) (b1.get_nx_loc 2) (b1.get_xm_loc 0) (b1.get_xp_loc 1)
        (b1.get_xm_loc 2)).bind fun v => some (set_window I cart v (fun _ => 0))
    else
      (five (b2.get_nx_loc 0) (b2.get_nx_loc 2) (b2.get_xm_loc 0) (b2.get_xp_loc 1)
        (b2.get_xm_loc 2)).bind fun v =>
          some (set_window I cart v (fun e => if e = 1 then -1 else 0))).bind fun J =>
  some { J with
    n := setAt (setAt J.n 0 n0) 1 n1,
    prb := setAt (setAt (setAt J.prb 0 (J.mlb 0 + J.n_loc 0)) 1 (J.mlb 1 + 1))
      2 (J.mlb 2 + J.n_loc 1),
    delta := setAt (setAt (setAt J.delta 0 0) 1 1) 2 0 }

/-- Case `direction == 2` of the constructor's switch (interface.cpp 119-156):
the first transverse index is x, the second y. -/
def interface_case2 (I : interface) (b1 b2 : block) (cart : cartesian) : Option interface :=
  (assert_eq (b1.get_nx 0) (b2.get_nx 0)).bind fun _ =>
  (assert_eq (b1.get_nx 1) (b2.get_nx 1)).bind fun _ =>
  (b1.get_nx 0).bind fun n0 =>
  (b2.get_nx 1).bind fun n1 =>
  (both_sides_here b1 b2 I.direction).bind fun both =>
  (if both then
    (assert_eq (b1.get_nx_loc 0) (b2.get_nx_loc 0)).bind fun _ =>
    (assert_eq (b1.get_nx_loc 1) (b2.get_nx_loc 1)).bind fun _ =>
    (five (b1.get_nx_loc 0) (b1.get_nx_loc 1) (b1.get_xm_loc 0) (b1.get_xm_loc 1)
      (b1.get_xp_loc 2)).bind fun v => some (set_window I cart v (fun _ => 0))
  else
    (minus_side_here b1 I.direction).bind fun m =>
    if m then
      (five (b1.get_nx_loc 0) (b1.get_nx_loc 1) (b1.get_xm_loc 0) (b1.get_xm_loc 1)
        (b1.get_xp_loc 2)).bind fun v => some (set_window I cart v (fun _ => 0))
    else
      (five (b2.get_nx_loc 0) (b2.get_nx_loc 1) (b2.get_xm_loc 0) (b2.get_xm_loc 1)
        (b2.get_xm_loc 2)).bind fun v =>
          some (set_window I cart v (fun e => if e = 2 then -1 else 0))).bind fun J =>
  some { J with
    n := setAt (setAt J.n 0 n0) 1 n1,
    prb := setAt (setAt (setAt J.prb 0 (J.mlb 0 + J.n_loc 0)) 1 (J.mlb 1 + J.n_loc 1))
      2 (J.mlb 2 + 1),
    delta := setAt (setAt (setAt J.delta 0 0) 1 0) 2 1 }

/-- Embedding of the interface constructor up to the index set-up
(interface.cpp 9-157), on an object with prior contents `p`; `none` when an
assertion fails.  The third assertion reads the members `direction` and `ndim`
before they are assigned (line 15), the statement `no_data == true;` of line 23
is a comparison and changes nothing, lines 25-28 clear `no_data` when either
side is here, and line 32 returns when `no_data` holds.  The material members
and the normal arrays, assigned afterwards (159-172), stay as in `p`. -/
def interface_new (p : interface) (ndim_in mode_in direction_in : Int) (b1 b2 : block)
    (cart : cartesian) : Option interface :=
  if ¬ (ndim_in = 2 ∨ ndim_in = 3) then none
  else if ¬ (mode_in = 2 ∨ mode_in = 3) then none
  else if ¬ (p.direction ≥ 0 ∧ p.direction < p.ndim) then none
  else
    (either_side_here b1 b2 direction_in).bind fun here =>
    let I : interface :=
      { p with ndim := ndim_in, mode := mode_in, direction := direction_in,
               no_data := if here then false else p.no_data }
    if I.no_data then some I
    else
      let I : interface :=
        { I with nxd := setAt (setAt (setAt I.nxd
            0 (cart.nx_tot 0 * cart.nx_tot 1 * cart.nx_tot 2))
            1 (cart.nx_tot 1 * cart.nx_tot 2)) 2 (cart.nx_tot 2) }
      if direction_in = 0 then interface_case0 I b1 b2 cart
      else if direction_in = 1 then interface_case1 I b1 b2 cart
      else if direction_in = 2 then interface_case2 I b1 b2 cart
      else some I

/-- The process owns part of the adjoining faces along `dir`: the negative
side's upper face or the positive side's lower face is here, as the
specification states the condition. -/
def owns_face (b1 b2 : block) (dir : Nat) : Prop :=
  (b1.c.nx_loc dir ≠ 0 ∧ b1.c.get_xp dir = b1.c.get_xp_loc dir) ∨
  (b2.c.nx_loc dir ≠ 0 ∧ b2.c.xm dir = b2.c.xm_loc dir)

instance (b1 b2 : block) (dir : Nat) : Decidable (owns_face b1 b2 dir) := by
  unfold owns_face; infer_instance

/-- One pass of the spacing loop body of `interface::allocate_normals` at the
overlap point `(i,j)` (interface.cpp 250-273).  `sqrt` stands for the C library
routine, `h0` for `fd.get_h0()` (fd.hpp is not among the sources) and `dx` for
the grid spacings passed in.  In the branch `direction == 1` the first
accumulation goes to the name `d1` (line 261); in the last branch the second
accumulation adds one to the metric entry read at side 1's point (line 269). -/
def spacing_body (sqrt : ℚ → ℚ) (h0 : ℚ) (dx : Nat → ℚ) (f : fields) (i j : Int)
    (I : interface) : interface :=
  let I : interface := { I with dl1 := store I.dl1 (i, j) 0 }
  let I : interface := { I with dl2 := store I.dl2 (i, j) 0 }
  if I.direction = 0 then
    let I : interface := forRange 0 I.ndim (fun k (I : interface) =>
      let I : interface := { I with dl1 := store I.dl1 (i, j) (I.dl1 (i, j)
        + (f.metric (0 * I.ndim * I.nxd 0 + k * I.nxd 0 + I.mlb 0 * I.nxd 1
            + (i + I.mlb 1) * I.nxd 2 + j + I.mlb 2)) ^ 2) }
      { I with dl2 := store I.dl2 (i, j) (I.dl2 (i, j)
        + (f.metric (0 * I.ndim * I.nxd 0 + k * I.nxd 0 + (I.mlb 0 + 1) * I.nxd 1
            + (i + I.mlb 1) * I.nxd 2 + j + I.mlb 2)) ^ 2) }) I
    let I : interface := { I with dl1 := (store I.dl1 (i, j)
      (f.jac (I.mlb 0 * I.nxd 1 + (i + I.mlb 1) * I.nxd 2 + j + I.mlb 2)
        * sqrt (I.dl1 (i, j)) / h0 / dx 0)) }
    { I with dl2 := (store I.dl2 (i, j)
      (f.jac ((I.mlb 0 + 1) * I.nxd 1 + (i + I.mlb 1) * I.nxd 2 + j + I.mlb 2)
        * sqrt (I.dl2 (i, j)) / h0 / dx 0)) }
  else if I.direction = 1 then
    let I : interface := forRange 0 I.ndim (fun k (I : interface) =>
      let I : interface := { I with d1 := store I.d1 (i, j) (I.d1 (i, j)
        + (f.metric (1 * I.ndim * I.nxd 0 + k * I.nxd 0 + (i + I.mlb 0) * I.nxd 1
            + (I.mlb 1) * I.nxd 2 + j + I.mlb 2)) ^ 2) }
      { I with dl2 := store I.dl2 (i, j) (I.dl2 (i, j)
        + (f.metric (1 * I.ndim * I.nxd 0 + k * I.nxd 0 + (i + I.mlb 0) * I.nxd 1
            + (I.mlb 1 + 1) * I.nxd 2 + j + I.mlb 2)) ^ 2) }) I
    let I : interface := { I with dl1 := (store I.dl1 (i, j)
      (f.jac ((i + I.mlb 0) * I.nxd 1 + (I.mlb 1) * I.nxd 2 + j + I.mlb 2)
        * sqrt (I.dl1 (i, j)) / h0 / dx 1)) }
    { I with dl2 := (store I.dl2 (i, j)
      (f.jac ((i + I.mlb 0) * I.nxd 1 + (I.mlb 1 + 1) * I.nxd 2 + j + I.mlb 2)
        * sqrt (I.dl2 (i, j)) / h0 / dx 1)) }
  else
    let I : interface := forRange 0 I.ndim (fun k (I : interface) =>
      let I : interface := { I with dl1 := store I.dl1 (i, j) (I.dl1 (i, j)
        + (f.metric (2 * I.ndim * I.nxd 0 + k * I.nxd 0 + (i + I.mlb 0) * I.nxd 1
            + (j + I.mlb 1) * I.nxd 2 + I.mlb 2)) ^ 2) }
      { I with dl2 := store I.dl2 (i, j) (I.dl2 (i, j)
        + (f.metric (2 * I.ndim * I.nxd 0 + k * I.nxd 0 + (i + I.mlb 0) * I.nxd 1
            + (j + I.mlb 1) * I.nxd 2 + I.mlb 2) + 1) ^ 2) }) I
    let I : interface := { I with dl1 := (store I.dl1 (i, j)
      (f.jac ((i + I.mlb 0) * I.nxd 1 + (j + I.mlb 1) * I.nxd 2 + I.mlb 2)
        * sqrt (I.dl1 (i, j)) / h0 / dx 2)) }
    { I with dl2 := (store I.dl2 (i, j)
      (f.jac ((i + I.mlb 0) * I.nxd 1 + (j + I.mlb 1) * I.nxd 2 + I.mlb 2 + 1)
        * sqrt (I.dl2 (i, j)) / h0 / dx 2)) }

/-- Embedding of `interface::allocate_normals` (interface.cpp 211-277): the
normals are copied from the surface (`surf_nx` stands for `surf.get_nx`,
surface.hpp is not among the sources), then the spacing loop runs over the
overlap points. -/
def allocate_normals (sqrt : ℚ → ℚ) (h0 : ℚ) (dx : Nat → ℚ) (f : fields)
    (surf_nx : Int → Int → Int → ℚ) (I : interface) : interface :=
  let I : interface := forRange 0 I.ndim (fun i (I : interface) =>
    forRange 0 (I.n_loc 0) (fun j (I : interface) =>
      forRange 0 (I.n_loc 1) (fun k (I : interface) =>
        { I with nx := store I.nx (i, j, k) (surf_nx i j k) }) I) I) I
  forRange 0 (I.n_loc 0) (fun i (I : interface) =>
    forRange 0 (I.n_loc 1) (fun j (I : interface) =>
      spacing_body sqrt h0 dx f i j I) I) I

/-- The scale factor as the specification states it for the block whose face
point has flat offset `P`: `J(P) * sqrt(sum over k < ndim of
metric[dir][k](P)^2) / (h0 * dx[dir])`. -/
def scale_factor (sqrt : ℚ → ℚ) (h0 : ℚ) (dx : Nat → ℚ) (f : fields) (I : interface)
    (dir : Nat) (P : Int) : ℚ :=
  f.jac P * sqrt (stencil_sum I.ndim
      (fun k => (f.metric ((dir : Int) * I.ndim * I.nxd 0 + k * I.nxd 0 + P)) ^ 2))
    / (h0 * dx dir)

/-- What `interface::apply_bcs` takes from outside interface.cpp: the C
library `sqrt`, the rotation routines declared in boundary.hpp 20-22 (their
bodies are not among the sources), the result of `solve_interface` (its body
in interface.cpp 590-593 is empty, so the value it yields is not determined by
the source), and the indeterminate initial values of the locals `b1`, `b2`
(`b_init`) and `h1`, `h2` (`h_init`). -/
structure bcs_env where
  sqrt : ℚ → ℚ
  rotate_xy_nt : boundfields → (Int → ℚ) → (Int → ℚ) → (Int → ℚ) → boundfields
  rotate_nt_xy : boundfields → (Int → ℚ) → (Int → ℚ) → (Int → ℚ) → boundfields
  solve_interface : boundfields → boundfields → iffields
  b_init : boundfields
  h_init : ℚ

/-- The locals of `interface::apply_bcs` that live across the loop iterations
(interface.cpp 311), together with the derivative buffer. -/
structure bcs_state where
  df : Int → ℚ
  nn1 : Int → ℚ
  nn2 : Int → ℚ
  h1 : ℚ
  h2 : ℚ

/-- The loop over `l < ndim` of interface.cpp 319-339: the normals of the two
sides and the two scale factors are read according to `location`. -/
def read_normal (I : interface) (i j k : Int) (s : bcs_state) : bcs_state :=
  forRange 0 I.ndim (fun l s =>
    if I.location = 0 then
      { s with nn1 := store s.nn1 l (I.nx (l, j - I.mlb 1, k - I.mlb 2)),
               nn2 := store s.nn2 l (-(I.nx (l, j - I.mlb 1, k - I.mlb 2))),
               h1 := I.dl1 (j - I.mlb 1, k - I.mlb 2),
               h2 := I.dl2 (j - I.mlb 1, k - I.mlb 2) }
    else if I.location = 1 then
      { s with nn1 := store s.nn1 l (I.nx (l, i - I.mlb 0, k - I.mlb 2)),
               nn2 := store s.nn2 l (-(I.nx (l, i - I.mlb 0, k - I.mlb 2))),
               h1 := I.dl1 (i - I.mlb 0, k - I.mlb 2),
               h2 := I.dl2 (i - I.mlb 0, k - I.mlb 2) }
    else if I.location = 2 then
      { s with nn1 := store s.nn1 l (I.nx (l, i - I.mlb 0, j - I.mlb 1)),
               nn2 := store s.nn2 l (-(I.nx (l, i - I.mlb 0, j - I.mlb 1))),
               h1 := I.dl1 (i - I.mlb 0, j - I.mlb 1),
               h2 := I.dl2 (i - I.mlb 0, j - I.mlb 1) }
    else s) s

/-- The pivot rule of interface.cpp 341-353 applied to the vector `nn`: the
first tangent, assigned entry by entry in source order. -/
def pivot_t11 (sqrt : ℚ → ℚ) (nn : Int → ℚ) : Int → ℚ :=
  if |nn 0| > |nn 1| ∧ |nn 0| > |nn 2| then
    store (store (store (fun _ => 0) 2 0)
      1 (nn 0 / sqrt (nn 0 ^ 2 + nn 1 ^ 2))) 0 (-nn 1 / sqrt (nn 0 ^ 2 + nn 1 ^ 2))
  else if |nn 1| > |nn 2| then
    store (store (store (fun _ => 0) 2 0)
      0 (nn 1 / sqrt (nn 0 ^ 2 + nn 1 ^ 2))) 1 (-nn 0 / sqrt (nn 0 ^ 2 + nn 1 ^ 2))
  else
    store (store (store (fun _ => 0) 1 0)
      0 (nn 2 / sqrt (nn 0 ^ 2 + nn 2 ^ 2))) 2 (-nn 0 / sqrt (nn 0 ^ 2 + nn 2 ^ 2))

/-- The second tangent of interface.cpp 354-356: the cross product of the
vectors the source names `nn` and `t1`. -/
def cross_t12 (nn t1 : Int → ℚ) : Int → ℚ :=
  store (store (store (fun _ => 0) 0 (nn 1 * t1 2 - nn 2 * t1 1))
    1 (nn 2 * t1 0 - nn 0 * t1 2)) 2 (nn 0 * t1 1 - nn 1 * t1 0)

/-- The loop `for l < 3: t21[l] = -t11[l]` of interface.cpp 360-363. -/
def negate3 (t : Int → ℚ) : Int → ℚ :=
  forRange 0 3 (fun l r => store r l (-(t l))) (fun _ => 0)

/-- The loop `for l < 3: t22[l] = t12[l]` of interface.cpp 360-363. -/
def copy3 (t : Int → ℚ) : Int → ℚ :=
  forRange 0 3 (fun l r => store r l (t l)) (fun _ => 0)

/-- The nine reads `f.f[r*nxd[0]+P]`, `r = 0..8`, of the 3D case (interface.cpp
371-388). -/
def load_3d (I : interface) (f : fields) (P : Int) : boundfields :=
  { v1 := f.f (0 * I.nxd 0 + P), v2 := f.f (1 * I.nxd 0 + P), v3 := f.f (2 * I.nxd 0 + P),
    s11 := f.f (3 * I.nxd 0 + P), s12 := f.f (4 * I.nxd 0 + P), s13 := f.f (5 * I.nxd 0 + P),
    s22 := f.f (6 * I.nxd 0 + P), s23 := f.f (7 * I.nxd 0 + P), s33 := f.f (8 * I.nxd 0 + P) }

/-- The reads of the mode II case (interface.cpp 393-410). -/
def load_mode2 (I : interface) (f : fields) (P : Int) : boundfields :=
  { v1 := f.f (0 * I.nxd 0 + P), v2 := f.f (1 * I.nxd 0 + P), v3 := 0,
    s11 := f.f (2 * I.nxd 0 + P), s12 := f.f (3 * I.nxd 0 + P), s13 := 0,
    s22 := f.f (4 * I.nxd 0 + P), s23 := 0, s33 := 0 }

/-- The reads of the mode III case (interface.cpp 413-430). -/
def load_mode3 (I : interface) (f : fields) (P : Int) : boundfields :=
  { v1 := 0, v2 := 0, v3 := f.f (0 * I.nxd 0 + P),
    s11 := 0, s12 := 0, s13 := f.f (1 * I.nxd 0 + P),
    s22 := 0, s23 := f.f (2 * I.nxd 0 + P), s33 := 0 }

/-- The local `b1` after the switch of interface.cpp 369-432: side 1's state
at `(i,j,k)`; in mode III the source reads the shifted point for `b1` as well
(lines 413-421). -/
def load_b1 (I : interface) (f : fields) (u : boundfields) (i j k : Int) : boundfields :=
  if I.ndim = 3 then load_3d I f (i * I.nxd 1 + j * I.nxd 2 + k)
  else if I.ndim = 2 then
    (if I.mode = 2 then load_mode2 I f (i * I.nxd 1 + j * I.nxd 2 + k)
     else if I.mode = 3 then
      load_mode3 I f ((i + I.delta 0) * I.nxd 1 + (j + I.delta 1) * I.nxd 2 + k + I.delta 2)
     else u)
  else u

/-- The local `b2` after the switch of interface.cpp 369-432: side 2's state
at the point shifted by `delta`. -/
def load_b2 (I : interface) (f : fields) (u : boundfields) (i j k : Int) : boundfields :=
  if I.ndim = 3 then
    load_3d I f ((i + I.delta 0) * I.nxd 1 + (j + I.delta 1) * I.nxd 2 + k + I.delta 2)
  else if I.ndim = 2 then
    (if I.mode = 2 then
      load_mode2 I f ((i + I.delta 0) * I.nxd 1 + (j + I.delta 1) * I.nxd 2 + k + I.delta 2)
     else if I.mode = 3 then
      load_mode3 I f ((i + I.delta 0) * I.nxd 1 + (j + I.delta 1) * I.nxd 2 + k + I.delta 2)
     else u)
  else u

/-- The assignments of interface.cpp 450-458 (and 459-467): the rotated state
keeps the mismatch of the normal velocity and the normal traction, the other
components are cleared. -/
def normal_part (r : boundfields) (v s : ℚ) : boundfields :=
  { v1 := r.v1 - v, v2 := 0, v3 := 0, s11 := r.s11 - s, s12 := 0, s13 := 0,
    s22 := 0, s23 := 0, s33 := 0 }

/-- The assignments of interface.cpp 513-521 (and 522-530): the rotated state
keeps the mismatch of the tangential velocities and shear tractions, the other
components are cleared. -/
def tangential_part (r : boundfields) (v2 v3 s12 s13 : ℚ) : boundfields :=
  { v1 := 0, v2 := r.v2 - v2, v3 := r.v3 - v3, s11 := 0, s12 := r.s12 - s12,
    s13 := r.s13 - s13, s22 := 0, s23 := 0, s33 := 0 }

/-- The eighteen statements `f.df[a] -= dt*w*h*b.component` of a 3D penalty
block (interface.cpp 476-493 with `w = cp`, 539-556 with `w = cs`), in source
order, as pairs `(a, v)`: nine rows at side 1's point `(i,j,k)` with `w1`,
`h1`, `b1`, then nine rows at the point shifted by `delta` with `w2`, `h2`,
`b2`. -/
def sat_3d (I : interface) (dt w1 w2 h1 h2 : ℚ) (b1 b2 : boundfields) (i j k : Int) :
    List (Int × ℚ) :=
  let P : Int := i * I.nxd 1 + j * I.nxd 2 + k
  let Q : Int := (i + I.delta 0) * I.nxd 1 + (j + I.delta 1) * I.nxd 2 + k + I.delta 2
  [ (0 * I.nxd 0 + P, dt * w1 * h1 * b1.v1),
    (1 * I.nxd 0 + P, dt * w1 * h1 * b1.v2),
    (2 * I.nxd 0 + P, dt * w1 * h1 * b1.v3),
    (3 * I.nxd 0 + P, dt * w1 * h1 * b1.s11),
    (4 * I.nxd 0 + P, dt * w1 * h1 * b1.s12),
    (5 * I.nxd 0 + P, dt * w1 * h1 * b1.s13),
    (6 * I.nxd 0 + P, dt * w1 * h1 * b1.s22),
    (7 * I.nxd 0 + P, dt * w1 * h1 * b1.s23),
    (8 * I.nxd 0 + P, dt * w1 * h1 * b1.s33),
    (0 * I.nxd 0 + Q, dt * w2 * h2 * b2.v1),
    (1 * I.nxd 0 + Q, dt * w2 * h2 * b2.v2),
    (2 * I.nxd 0 + Q, dt * w2 * h2 * b2.v3),
    (3 * I.nxd 0 + Q, dt * w2 * h2 * b2.s11),
    (4 * I.nxd 0 + Q, dt * w2 * h2 * b2.s12),
    (5 * I.nxd 0 + Q, dt * w2 * h2 * b2.s13),
    (6 * I.nxd 0 + Q, dt * w2 * h2 * b2.s22),
    (7 * I.nxd 0 + Q, dt * w2 * h2 * b2.s23),
    (8 * I.nxd 0 + Q, dt * w2 * h2 * b2.s33) ]

/-- The ten statements of a mode II penalty block (interface.cpp 498-507 with
`w = cp`, 561-570 with `w = cs`), in source order. -/
def sat_mode2 (I : interface) (dt w1 w2 h1 h2 : ℚ) (b1 b2 : boundfields) (i j k : Int) :
    List (Int × ℚ) :=
  let P : Int := i * I.nxd 1 + j * I.nxd 2 + k
  let Q : Int := (i + I.delta 0) * I.nxd 1 + (j + I.delta 1) * I.nxd 2 + k + I.delta 2
  [ (0 * I.nxd 0 + P, dt * w1 * h1 * b1.v1),
    (1 * I.nxd 0 + P, dt * w1 * h1 * b1.v2),
    (2 * I.nxd 0 + P, dt * w1 * h1 * b1.s11),
    (3 * I.nxd 0 + P, dt * w1 * h1 * b1.s12),
    (4 * I.nxd 0 + P, dt * w1 * h1 * b1.s22),
    (0 * I.nxd 0 + Q, dt * w2 * h2 * b2.v1),
    (1 * I.nxd 0 + Q, dt * w2 * h2 * b2.v2),
    (2 * I.nxd 0 + Q, dt * w2 * h2 * b2.s11),
    (3 * I.nxd 0 + Q, dt * w2 * h2 * b2.s12),
    (4 * I.nxd 0 + Q, dt * w2 * h2 * b2.s22) ]

/-- The six statements of the mode III penalty block (interface.cpp 573-578),
in source order. -/
def sat_mode3 (I : interface) (dt w1 w2 h1 h2 : ℚ) (b1 b2 : boundfields) (i j k : Int) :
    List (Int × ℚ) :=
  let P : Int := i * I.nxd 1 + j * I.nxd 2 + k
  let Q : Int := (i + I.delta 0) * I.nxd 1 + (j + I.delta 1) * I.nxd 2 + k + I.delta 2
  [ (0 * I.nxd 0 + P, dt * w1 * h1 * b1.v3),
    (1 * I.nxd 0 + P, dt * w1 * h1 * b1.s13),
    (2 * I.nxd 0 + P, dt * w1 * h1 * b1.s23),
    (0 * I.nxd 0 + Q, dt * w2 * h2 * b2.v3),
    (1 * I.nxd 0 + Q, dt * w2 * h2 * b2.s13),
    (2 * I.nxd 0 + Q, dt * w2 * h2 * b2.s23) ]

/-- The penalty statements for the normal characteristics (interface.cpp
474-509): the 3D block, the mode II block, nothing otherwise. -/
def sat_normal (I : interface) (dt h1 h2 : ℚ) (b1 b2 : boundfields) (i j k : Int) :
    List (Int × ℚ) :=
  if I.ndim = 3 then sat_3d I dt I.cp1 I.cp2 h1 h2 b1 b2 i j k
  else if I.ndim = 2 then
    (if I.mode = 2 then sat_mode2 I dt I.cp1 I.cp2 h1 h2 b1 b2 i j k else [])
  else []

/-- The penalty statements for the tangential characteristics (interface.cpp
537-580): the 3D block, the mode II block, the mode III block, nothing
otherwise. -/
def sat_tangential (I : interface) (dt h1 h2 : ℚ) (b1 b2 : boundfields) (i j k : Int) :
    List (Int × ℚ) :=
  if I.ndim = 3 then sat_3d I dt I.cs1 I.cs2 h1 h2 b1 b2 i j k
  else if I.ndim = 2 then
    (if I.mode = 2 then sat_mode2 I dt I.cs1 I.cs2 h1 h2 b1 b2 i j k
     else if I.mode = 3 then sat_mode3 I dt I.cs1 I.cs2 h1 h2 b1 b2 i j k
     else [])
  else []

/-- The assignment `x = v` to a variable that holds `old`: the old value is
lost. -/
def overwrite {α : Type} (_old v : α) : α := v

/-- The body of the point loop of `interface::apply_bcs` at `(i,j,k)`
(interface.cpp 316-580).  The pivot rule reads the member `nn` and the cross
product the members `nn` and `t1` (lines 341-356); both back-rotations of
lines 469-470 are assigned to `b1`, so the normal penalty uses side 2's
back-rotated mismatch for side 1 and the state loaded at lines 369-432 for
side 2; the tangential targets are read from `ifhat` and `ufhat` (lines
514-527). -/
def bcs_point (E : bcs_env) (I : interface) (dt : ℚ) (f : fields) (i j k : Int)
    (s : bcs_state) : bcs_state :=
  let s := read_normal I i j k s
  let t11 := pivot_t11 E.sqrt I.nn
  let t12 := cross_t12 I.nn I.t1
  let t21 := negate3 t11
  let t22 := copy3 t12
  let b1 := load_b1 I f E.b_init i j k
  let b2 := load_b2 I f E.b_init i j k
  let b_rot1 := E.rotate_xy_nt b1 s.nn1 t11 t12
  let b_rot2 := E.rotate_xy_nt b2 s.nn2 t21 t22
  let b_rots1 := b_rot1
  let b_rots2 := b_rot2
  let iffhat := E.solve_interface b_rot1 b_rot2
  let b_rot1 := normal_part b_rot1 iffhat.v11 iffhat.s111
  let b_rot2 := normal_part b_rot2 iffhat.v21 iffhat.s211
  let b1 := E.rotate_nt_xy b_rot1 s.nn1 t11 t12
  let b1 := overwrite b1 (E.rotate_nt_xy b_rot2 s.nn2 t21 t22)
  let df := sub_all (sat_normal I dt s.h1 s.h2 b1 b2 i j k) s.df
  let b_rots1 := tangential_part b_rots1 I.ifhat.v12 I.ifhat.v13 I.ifhat.s112 I.ifhat.s113
  let b_rots2 := tangential_part b_rots2 I.ifhat.v22 I.ifhat.v23 I.ifhat.s212 I.ufhat.s213
  let b1 := E.rotate_nt_xy b_rots1 s.nn1 t11 t12
  let b2 := E.rotate_nt_xy b_rots2 s.nn2 t21 t22
  { s with df := sub_all (sat_tangential I dt s.h1 s.h2 b1 b2 i j k) df }

/-- Embedding of `interface::apply_bcs` (interface.cpp 304-588): nothing is
done when the interface has no data in this process; otherwise the point body
runs over `[mlb, prb)` in the three dimensions, starting from zero normals
(line 311). -/
def interface.apply_bcs (E : bcs_env) (I : interface) (dt : ℚ) (f : fields) : fields :=
  if I.no_data then f
  else
    { f with df :=
      (forRange (I.mlb 0) (I.prb 0) (fun i s =>
        forRange (I.mlb 1) (I.prb 1) (fun j s =>
          forRange (I.mlb 2) (I.prb 2) (fun k s => bcs_point E I dt f i j k s) s) s)
        ⟨f.df, fun _ => 0, fun _ => 0, E.h_init, E.h_init⟩).df }

/-- The scalar product of two vectors with three entries. -/
def dot3 (a b : Int → ℚ) : ℚ := a 0 * b 0 + a 1 * b 1 + a 2 * b 2

/-- The state with all nine components zero. -/
def boundfields.zero : boundfields := ⟨0, 0, 0, 0, 0, 0, 0, 0, 0⟩

/-- The locals after the normal has been read at the first point of the
interface's window (interface.cpp 311-339). -/
def first_state (E : bcs_env) (I : interface) (f : fields) : bcs_state :=
  read_normal I (I.mlb 0) (I.mlb 1) (I.mlb 2)
    ⟨f.df, fun _ => 0, fun _ => 0, E.h_init, E.h_init⟩

/-- Side 1's rotated state `b_rot1` at the first point of the interface's
window (interface.cpp 434). -/
def rotated1 (E : bcs_env) (I : interface) (f : fields) : boundfields :=
  E.rotate_xy_nt (load_b1 I f E.b_init (I.mlb 0) (I.mlb 1) (I.mlb 2))
    (first_state E I f).nn1 (pivot_t11 E.sqrt I.nn) (cross_t12 I.nn I.t1)

/-- Side 2's rotated state `b_rot2` at the first point of the interface's
window (interface.cpp 435). -/
def rotated2 (E : bcs_env) (I : interface) (f : fields) : boundfields :=
  E.rotate_xy_nt (load_b2 I f E.b_init (I.mlb 0) (I.mlb 1) (I.mlb 2))
    (first_state E I f).nn2 (negate3 (pivot_t11 E.sqrt I.nn))
    (copy3 (cross_t12 I.nn I.t1))

/-- The back-rotation of a rotated state with side 1's triad
`(nn1, t11, t12)`. -/
def back1 (E : bcs_env) (I : interface) (f : fields) (r : boundfields) : boundfields :=
  E.rotate_nt_xy r (first_state E I f).nn1 (pivot_t11 E.sqrt I.nn) (cross_t12 I.nn I.t1)

/-- The back-rotation of a rotated state with side 2's triad
`(nn2, t21, t22)`. -/
def back2 (E : bcs_env) (I : interface) (f : fields) (r : boundfields) : boundfields :=
  E.rotate_nt_xy r (first_state E I f).nn2 (negate3 (pivot_t11 E.sqrt I.nn))
    (copy3 (cross_t12 I.nn I.t1))

/-- A 3D interface normal to x with the single point `(0,0,0)` in a process
array of 2×2×2 points: side 1's point has flat offset 0, side 2's point
`(1,0,0)` has flat offset 4.  The wave speeds are `cp1 = 2`, `cs1 = 1`,
`cp2 = 3`, `cs2 = 1`, both scale factors are 1 and the normal is `(1,0,0)`;
the members `nn`, `t1` and the tangential targets are given. -/
def face3 (nn t1 : Int → ℚ) (h : iffields) : interface :=
  { ndim := 3, mode := 2, direction := 0, location := 0, no_data := false,
    nxd := fun d => if d = 0 then 8 else if d = 1 then 4 else 2,
    n := fun _ => 1, n_loc := fun _ => 1, mlb := fun _ => 0, prb := fun _ => 1,
    delta := fun d => if d = 0 then 1 else 0,
    cp1 := 2, cs1 := 1, cp2 := 3, cs2 := 1,
    nx := fun t => if t.1 = 0 then 1 else 0,
    dl1 := fun _ => 1, dl2 := fun _ => 1, d1 := fun _ => 0,
    nn := nn, t1 := t1, ifhat := h, ufhat := h }

/-- Externals with rotations that return the state unchanged, targets equal to
the rotated states, and `sqrt` constantly 1. -/
def env_id : bcs_env :=
  { sqrt := fun _ => 1,
    rotate_xy_nt := fun b _ _ _ => b,
    rotate_nt_xy := fun b _ _ _ => b,
    solve_interface := fun r1 r2 =>
      ⟨r1.v1, r1.v2, r1.v3, r1.s11, r1.s12, r1.s13, r2.v1, r2.v2, r2.v3, r2.s11, r2.s12,
        r2.s13⟩,
    b_init := boundfields.zero, h_init := 0 }

/-- Coordinate descriptor with the given global counts and minima and the given
local counts and minima, without ghost layers. -/
def coord.box (nx xm nx_loc xm_loc : Nat → Int) : coord :=
  ⟨nx, xm, nx_loc, xm_loc, fun _ => 0, fun _ => 0⟩

/-- An interface object with every member zero and `no_data` false, except
`ndim = 3`: the prior contents of an object under construction. -/
def interface0 : interface :=
  { ndim := 3, mode := 0, direction := 0, location := 0, no_data := false,
    nxd := fun _ => 0, n := fun _ => 0, n_loc := fun _ => 0, mlb := fun _ => 0,
    prb := fun _ => 0, delta := fun _ => 0, cp1 := 0, cs1 := 0, cp2 := 0, cs2 := 0,
    nx := fun _ => 0, dl1 := fun _ => 0, dl2 := fun _ => 0, d1 := fun _ => 0,
    nn := fun _ => 0, t1 := fun _ => 0,
    ifhat := ⟨0, 0, 0, 0, 0, 0, 0, 0, 0, 0, 0, 0⟩, ufhat := ⟨0, 0, 0, 0, 0, 0, 0, 0, 0, 0, 0, 0⟩ }

/-- A 3D block of `4 × n1 × 4` points whose x range starts at `xm0`, with
`nloc` points along every dimension in this process, starting at the block's
minimum. -/
def side_block (xm0 n1 nloc : Int) : block :=
  block.ofCoord 3 (coord.box (fun d => if d = 1 then n1 else 4)
    (fun d => if d = 0 then xm0 else 0) (fun _ => nloc) (fun d => if d = 0 then xm0 else 0))





/-- A 3D block of `4 × 4 × 4` points whose y range starts at index 4, before
`calc_process_info`; the local members hold count 1 and minimum 0. -/
def blockUp0 : block :=
  block.ofCoord 3 ⟨fun _ => 4, fun i => if i = 1 then 4 else 0, fun _ => 1, fun _ => 0,
    fun _ => 0, fun _ => 0⟩

/-- The block of `4 × 4 × 4` points with y range `[4, 8)` on a single process
that holds an array of `4 × 8 × 4` points (the block shares the process with a
neighbour below it in y), as the constructor leaves it for second-order
stencils: `mlb = (0,4,0)`, `prb = (4,8,4)`, no ghost layers, strides
`nxd = (128, 32, 4)`. -/
def blockUp : block :=
  init_indices (calc_process_info blockUp0 (cartBox 4 8 4) 2) (cartBox 4 8 4) fd2

/-- Fields with unit Jacobian, state `F`, zero coordinates and derivative
buffer, and a metric that is 1 except at the flat offset `a0`, where it is
`v`. -/
def fields_metric (a0 : Int) (v : ℚ) (F : Int → ℚ) : fields :=
  ⟨fun _ => 0, fun a => if a = a0 then v else 1, fun _ => 1, F, fun _ => 0⟩



/-! ## Initial fields and the edge check of the constructor -/

/-- The value `-exp(-pow(x0-0.5,2)/0.005 - pow(x1-0.5,2)/0.005 -
pow(x2-0.5,2)/0.005)` that `init_fields` computes from the three coordinate
entries `f.x[c*nxd[0]+i*nxd[1]+j*nxd[2]+k]`, `c = 0, 1, 2` (block.cpp
1532-1534); `exp` stands for the C library routine. -/
def init_value (exp : ℚ → ℚ) (b : block) (f : fields) (i j k : Int) : ℚ :=
  -exp (-(f.x (0 * b.nxd 0 + i * b.nxd 1 + j * b.nxd 2 + k) - 1 / 2) ^ 2 / (1 / 200)
        - (f.x (1 * b.nxd 0 + i * b.nxd 1 + j * b.nxd 2 + k) - 1 / 2) ^ 2 / (1 / 200)
        - (f.x (2 * b.nxd 0 + i * b.nxd 1 + j * b.nxd 2 + k) - 1 / 2) ^ 2 / (1 / 200))

/-- Body of the loop nest of `init_fields` at the point `(i,j,k)` (block.cpp
1532-1537): the assignments to `f.f[2*nxd[0]+...]` and `f.f[8*nxd[0]+...]`. -/
def init_point (exp : ℚ → ℚ) (b : block) (i j k : Int) (f : fields) : fields :=
  let f1 : fields :=
    { f with f := (store f.f (2 * b.nxd 0 + i * b.nxd 1 + j * b.nxd 2 + k)
        (init_value exp b f i j k)) }
  { f1 with f := (store f1.f (8 * b.nxd 0 + i * b.nxd 1 + j * b.nxd 2 + k)
      (init_value exp b f1 i j k)) }

/-- Embedding of `block::init_fields` (block.cpp 1528-1541). -/
def init_fields (exp : ℚ → ℚ) (b : block) (f : fields) : fields :=
  forRange (b.mlb 0) (b.prb 0) (fun i f =>
    forRange (b.mlb 1) (b.prb 1) (fun j f =>
      forRange (b.mlb 2) (b.prb 2) (fun k f => init_point exp b i j k f) f) f) f

/-- The edge check of the block constructor (block.cpp 120-132): the tables
`surf1`, `surf2`, `edge1`, `edge2` and the loop `for (int i=0; i<0; i++)`
whose body aborts when `surf[surf1[i]]->has_same_edge(edge1[i], edge2[i],
*(surf[surf2[i]]))` fails.  `same_edge s1 e1 e2 s2` stands for that call
(surface.cpp is not among the sources); `none` is the abort. -/
def edge_check (same_edge : Int → Int → Int → Int → Bool) : Option Unit :=
  let surf1 : List Int := [0, 0, 1, 1, 0, 0, 1, 1, 2, 2, 3, 3]
  let surf2 : List Int := [2, 3, 2, 3, 4, 5, 4, 5, 4, 5, 4, 5]
  let edge1 : List Int := [0, 2, 0, 2, 1, 3, 1, 3, 1, 3, 1, 3]
  let edge2 : List Int := [1, 0, 2, 2, 0, 0, 2, 2, 1, 1, 3, 3]
  forRange 0 0 (fun i r => r.bind (fun _ =>
    if ¬ same_edge (surf1.getD i.toNat 0) (edge1.getD i.toNat 0) (edge2.getD i.toNat 0)
        (surf2.getD i.toNat 0) = true then none
    else some ())) (some ())

/-- Embedding of the block constructor up to the call of `set_grid`
(block.cpp 17-138), on an object with prior contents `b0`; `none` when an
assertion fails or the edge check aborts.  The six surfaces `surf` (built by
class `surface` from `x_in`, `l_in`), their edge comparison `same_edge`, the
scratch memory `xp0` and the ghost exchange are parameters; the material
members are passed to the kernels separately.  A block without data returns
at line 51; the boundary objects and `init_fields` follow `set_grid`. -/
def block_new (b0 : block) (ndim_in mode_in : Int) (nx_in xm_in : Nat → Int)
    (cart : cartesian) (fd : fd_type) (f : fields) (surf : Nat → surface)
    (same_edge : Int → Int → Int → Int → Bool) (xp0 : XP)
    (exchange_grid : fields → fields) : Option (block × fields) :=
  (block_asserts ndim_in mode_in nx_in xm_in).bind fun _ =>
    let b1 : block := { b0 with ndim := ndim_in.toNat, mode := mode_in.toNat }
    let b2 : block :=
      { b1 with c := ((List.range b1.ndim).foldl (fun c i =>
          { c with nx := setAt c.nx i (nx_in i), xm := setAt c.xm i (xm_in i) }) b1.c) }
    let b3 := calc_process_info b2 cart fd.sbporder
    if b3.no_data then some (b3, f)
    else
      (edge_check same_edge).bind fun _ =>
        some (set_grid (init_indices b3 cart fd) surf f fd xp0 exchange_grid)

/-- A 3D block of `4 × 4 × 4` points whose x range starts at index 4, before
`calc_process_info`; the local members hold count 1 and minimum 0. -/
def blockEast0 : block :=
  block.ofCoord 3 ⟨fun _ => 4, fun i => if i = 0 then 4 else 0, fun _ => 1, fun _ => 0,
    fun _ => 0, fun _ => 0⟩

/-- The block of `4 × 4 × 4` points with x range `[4, 8)` on a single process
that holds an array of `8 × 4 × 4` points (the block shares the process with a
neighbour to its left), as the constructor leaves it for second-order
stencils: `mlb = (4,0,0)`, `prb = (8,4,4)`, no ghost layers. -/
def blockEast : block :=
  init_indices (calc_process_info blockEast0 (cartBox 8 4 4) 2) (cartBox 8 4 4) fd2

/-- A 3D block of `4 × 4 × 4` points at the origin without local points in
this process (the local members collapsed to count 0 at the block's minimum):
the negative side of an interface whose positive side is here. -/
def lower_block : block :=
  block.ofCoord 3 (coord.box (fun _ => 4) (fun _ => 0) (fun _ => 0) (fun _ => 0))

/-- A 3D block of `4 × 4 × 4` points whose range along `dir` is `[4, 8)`, with
all its points in this process: the positive side of the interface. -/
def upper_block (dir : Nat) : block :=
  block.ofCoord 3 (coord.box (fun _ => 4) (fun d => if d = dir then 4 else 0) (fun _ => 4)
    (fun d => if d = dir then 4 else 0))

/-- The process that owns exactly the points of `upper_block dir`, with one
ghost layer below it along `dir`: its array has 5 points along `dir`, and the
global index `g` along `dir` has array index `g - 4 + 1`. -/
def upper_cart (dir : Nat) : cartesian :=
  ⟨fun d => if d = dir then 5 else 4, fun d => if d = dir then 4 else 0, fun _ => 4,
   fun d => if d = dir then 1 else 0⟩







/-- The single-point interface of `face3` (array of 2×2×2 points, `nxd = (8,4,2)`,
`delta = (1,0,0)`) taken as a 2D mode III interface with zero normals and
targets. -/
def face2_mode3 : interface :=
  { face3 (fun _ => 0) (fun _ => 0) ⟨0, 0, 0, 0, 0, 0, 0, 0, 0, 0, 0, 0⟩ with
    ndim := 2, mode := 3 }

/-- The state transformer `T` preserves the invariant `I`. -/
def Pres {σ : Type} (I : σ → Prop) (T : σ → σ) : Prop := ∀ s, I s → I (T s)

/-- On states satisfying `I`, the transformer `T` leaves the observed value
unchanged. -/
def Keeps {σ β : Type} (I : σ → Prop) (T : σ → σ) (obs : σ → β) : Prop :=
  ∀ s, I s → obs (T s) = obs s

/-- On states satisfying `I`, the transformer `T` leaves the observed value
equal to `v`. -/
def Sets {σ β : Type} (I : σ → Prop) (T : σ → σ) (obs : σ → β) (v : β) : Prop :=
  ∀ s, I s → obs (T s) = v

/-- On states satisfying `I`, the transformer `T` either leaves the observed
value equal to `v` or leaves it unchanged. -/
def MaySet {σ β : Type} (I : σ → Prop) (T : σ → σ) (obs : σ → β) (v : β) : Prop :=
  ∀ s, I s → obs (T s) = v ∨ obs (T s) = obs s

/-! ## Pointwise description of the loop bodies -/

@[simp] theorem setAt_same {α : Type} (a : Nat → α) (i : Nat) (v : α) : setAt a i v i = v := by
  simp [setAt]

theorem setAt_ne {α : Type} (a : Nat → α) (i j : Nat) (v : α) (h : j ≠ i) :
    setAt a i v j = a j := by
  simp [setAt, h]

theorem intersect_body_nx_loc (cart : cartesian) (c0 c : coord) (i j : Nat) :
    (intersect_body cart c0 c i).nx_loc j
      = if j = i then interNx cart c0 i else c.nx_loc j := by
  unfold interNx intersect_body
  by_cases h : j = i
  · subst h; simp only [if_true]; split_ifs <;> simp
  · simp only [h, if_false]; split_ifs <;> simp [setAt, h]

theorem intersect_body_xm_loc (cart : cartesian) (c0 c : coord) (i j : Nat) :
    (intersect_body cart c0 c i).xm_loc j
      = if j = i then interXm cart c0 (c.xm_loc i) i else c.xm_loc j := by
  unfold interXm intersect_body
  by_cases h : j = i
  · subst h; simp only [if_true]; split_ifs <;> simp
  · simp only [h, if_false]; split_ifs <;> simp [setAt, h]

@[simp] theorem intersect_body_nx (cart : cartesian) (c0 c : coord) (i : Nat) :
    (intersect_body cart c0 c i).nx = c.nx := by
  unfold intersect_body; simp only []; split_ifs <;> rfl

@[simp] theorem intersect_body_xm (cart : cartesian) (c0 c : coord) (i : Nat) :
    (intersect_body cart c0 c i).xm = c.xm := by
  unfold intersect_body; simp only []; split_ifs <;> rfl

@[simp] theorem intersect_body_xm_ghost (cart : cartesian) (c0 c : coord) (i : Nat) :
    (intersect_body cart c0 c i).xm_ghost = c.xm_ghost := by
  unfold intersect_body; simp only []; split_ifs <;> rfl

@[simp] theorem intersect_body_xp_ghost (cart : cartesian) (c0 c : coord) (i : Nat) :
    (intersect_body cart c0 c i).xp_ghost = c.xp_ghost := by
  unfold intersect_body; simp only []; split_ifs <;> rfl

/-- With well-formed ranges, the intersection step returns a zero count exactly
when the ranges are disjoint. -/
theorem interNx_eq_zero_iff (b : block) (cart : cartesian) (i : Nat)
    (hnx : 1 ≤ b.c.nx i) (hn : 1 ≤ cart.nx_loc i) :
    interNx cart b.c i = 0 ↔ ¬ overlaps b cart i := by
  unfold interNx intersect_body overlaps coord.get_xp
  simp only []
  split_ifs <;> simp <;> omega

theorem interNx_of_overlaps (b : block) (cart : cartesian) (i : Nat)
    (hnx : 1 ≤ b.c.nx i) (hn : 1 ≤ cart.nx_loc i) (ho : overlaps b cart i) :
    interNx cart b.c i
      = min (b.c.get_xp i) (cart.xm_loc i + cart.nx_loc i - 1)
          - max (b.c.xm i) (cart.xm_loc i) + 1 := by
  unfold overlaps coord.get_xp at ho
  unfold interNx intersect_body coord.get_xp
  simp only []
  split_ifs <;> simp <;> omega

theorem interXm_of_overlaps (b : block) (cart : cartesian) (old : Int) (i : Nat)
    (ho : overlaps b cart i) :
    interXm cart b.c old i = max (b.c.xm i) (cart.xm_loc i) := by
  unfold overlaps coord.get_xp at ho
  unfold interXm intersect_body coord.get_xp
  simp only []
  split_ifs <;> simp <;> omega

theorem ghost_body_xm_ghost (cart : cartesian) (c0 c : coord) (s : Int) (i j : Nat) :
    (ghost_body cart c0 s c i).xm_ghost j
      = if j = i then ghostXm cart c0 s (c.xm_ghost i) i else c.xm_ghost j := by
  unfold ghostXm ghost_body ghost_high ghost_low
  by_cases h : j = i
  · subst h; simp only [if_true]; split_ifs <;> simp
  · simp only [h, if_false]; split_ifs <;> simp [setAt, h]

theorem ghost_body_xp_ghost (cart : cartesian) (c0 c : coord) (s : Int) (i j : Nat) :
    (ghost_body cart c0 s c i).xp_ghost j
      = if j = i then ghostXp cart c0 s (c.xp_ghost i) i else c.xp_ghost j := by
  unfold ghostXp ghost_body ghost_high ghost_low
  by_cases h : j = i
  · subst h; simp only [if_true]; split_ifs <;> simp
  · simp only [h, if_false]; split_ifs <;> simp [setAt, h]

@[simp] theorem ghost_body_nx (cart : cartesian) (c0 c : coord) (s : Int) (i : Nat) :
    (ghost_body cart c0 s c i).nx = c.nx := by
  unfold ghost_body ghost_high ghost_low; simp only []; split_ifs <;> rfl

@[simp] theorem ghost_body_xm (cart : cartesian) (c0 c : coord) (s : Int) (i : Nat) :
    (ghost_body cart c0 s c i).xm = c.xm := by
  unfold ghost_body ghost_high ghost_low; simp only []; split_ifs <;> rfl

@[simp] theorem ghost_body_nx_loc (cart : cartesian) (c0 c : coord) (s : Int) (i : Nat) :
    (ghost_body cart c0 s c i).nx_loc = c.nx_loc := by
  unfold ghost_body ghost_high ghost_low; simp only []; split_ifs <;> rfl

@[simp] theorem ghost_body_xm_loc (cart : cartesian) (c0 c : coord) (s : Int) (i : Nat) :
    (ghost_body cart c0 s c i).xm_loc = c.xm_loc := by
  unfold ghost_body ghost_high ghost_low; simp only []; split_ifs <;> rfl

/-! ## The three loops of `calc_process_info` -/

theorem inter_fold_nx_loc (cart : cartesian) (c0 c : coord) (k j : Nat) :
    ((List.range k).foldl (intersect_body cart c0) c).nx_loc j
      = if j < k then interNx cart c0 j else c.nx_loc j := by
  induction k with
  | zero => simp
  | succ k ih =>
    rw [List.range_succ, List.foldl_append, List.foldl_cons, List.foldl_nil,
      intersect_body_nx_loc, ih]
    by_cases h : j = k
    · subst h; simp
    · have h1 : j < k + 1 ↔ j < k := by omega
      simp [h, h1]

theorem inter_fold_xm_loc (cart : cartesian) (c0 c : coord) (k j : Nat) :
    ((List.range k).foldl (intersect_body cart c0) c).xm_loc j
      = if j < k then interXm cart c0 (c.xm_loc j) j else c.xm_loc j := by
  induction k generalizing j with
  | zero => simp
  | succ k ih =>
    rw [List.range_succ, List.foldl_append, List.foldl_cons, List.foldl_nil, intersect_body_xm_loc]
    simp only [ih]
    by_cases h : j = k
    · subst h; simp
    · have h1 : j < k + 1 ↔ j < k := by omega
      simp [h, h1]

theorem inter_fold_xm (cart : cartesian) (c0 c : coord) (k : Nat) :
    ((List.range k).foldl (intersect_body cart c0) c).xm = c.xm := by
  induction k with
  | zero => simp
  | succ k ih => simp [List.range_succ, List.foldl_append, ih]

theorem inter_fold_xm_ghost (cart : cartesian) (c0 c : coord) (k : Nat) :
    ((List.range k).foldl (intersect_body cart c0) c).xm_ghost = c.xm_ghost := by
  induction k with
  | zero => simp
  | succ k ih => simp [List.range_succ, List.foldl_append, ih]

theorem inter_fold_xp_ghost (cart : cartesian) (c0 c : coord) (k : Nat) :
    ((List.range k).foldl (intersect_body cart c0) c).xp_ghost = c.xp_ghost := by
  induction k with
  | zero => simp
  | succ k ih => simp [List.range_succ, List.foldl_append, ih]

theorem ghost_fold_nx_loc (cart : cartesian) (c0 c : coord) (s : Int) (k : Nat) :
    ((List.range k).foldl (ghost_body cart c0 s) c).nx_loc = c.nx_loc := by
  induction k with
  | zero => simp
  | succ k ih => simp [List.range_succ, List.foldl_append, ih]

theorem ghost_fold_xm_loc (cart : cartesian) (c0 c : coord) (s : Int) (k : Nat) :
    ((List.range k).foldl (ghost_body cart c0 s) c).xm_loc = c.xm_loc := by
  induction k with
  | zero => simp
  | succ k ih => simp [List.range_succ, List.foldl_append, ih]

theorem ghost_fold_xm (cart : cartesian) (c0 c : coord) (s : Int) (k : Nat) :
    ((List.range k).foldl (ghost_body cart c0 s) c).xm = c.xm := by
  induction k with
  | zero => simp
  | succ k ih => simp [List.range_succ, List.foldl_append, ih]

theorem ghost_fold_xm_ghost (cart : cartesian) (c0 c : coord) (s : Int) (k j : Nat) :
    ((List.range k).foldl (ghost_body cart c0 s) c).xm_ghost j
      = if j < k then ghostXm cart c0 s (c.xm_ghost j) j else c.xm_ghost j := by
  induction k generalizing j with
  | zero => simp
  | succ k ih =>
    rw [List.range_succ, List.foldl_append, List.foldl_cons, List.foldl_nil, ghost_body_xm_ghost]
    simp only [ih]
    by_cases h : j = k
    · subst h; simp
    · have h1 : j < k + 1 ↔ j < k := by omega
      simp [h, h1]

theorem ghost_fold_xp_ghost (cart : cartesian) (c0 c : coord) (s : Int) (k j : Nat) :
    ((List.range k).foldl (ghost_body cart c0 s) c).xp_ghost j
      = if j < k then ghostXp cart c0 s (c.xp_ghost j) j else c.xp_ghost j := by
  induction k generalizing j with
  | zero => simp
  | succ k ih =>
    rw [List.range_succ, List.foldl_append, List.foldl_cons, List.foldl_nil, ghost_body_xp_ghost]
    simp only [ih]
    by_cases h : j = k
    · subst h; simp
    · have h1 : j < k + 1 ↔ j < k := by omega
      simp [h, h1]

theorem collapsed_collapsed (c : coord) : collapsed (collapsed c) = collapsed c := by
  unfold collapsed
  congr 1 <;> funext j <;> simp only [setAt] <;> split_ifs <;> rfl

theorem collapse_fold_none (c : coord) (k : Nat) (h : ∀ i, i < k → c.nx_loc i ≠ 0) :
    (List.range k).foldl collapse_body (c, false) = (c, false) := by
  induction k with
  | zero => simp
  | succ k ih =>
    rw [List.range_succ, List.foldl_append, ih (fun i hi => h i (by omega))]
    simp [collapse_body, h k (by omega)]

theorem collapse_body_collapsed (c : coord) (i : Nat) :
    collapse_body (collapsed c, true) i = (collapsed c, true) := by
  unfold collapse_body
  split_ifs
  · exact congrArg (fun x => (x, true)) (collapsed_collapsed c)
  · rfl

theorem collapse_fold_from (c : coord) (k : Nat) :
    (List.range k).foldl collapse_body (collapsed c, true) = (collapsed c, true) := by
  induction k with
  | zero => simp
  | succ k ih =>
    rw [List.range_succ, List.foldl_append, ih, List.foldl_cons, List.foldl_nil,
      collapse_body_collapsed]

theorem collapse_fold_some (c : coord) (k : Nat) (h : ∃ i, i < k ∧ c.nx_loc i = 0) :
    (List.range k).foldl collapse_body (c, false) = (collapsed c, true) := by
  induction k with
  | zero => obtain ⟨i, hi, _⟩ := h; omega
  | succ k ih =>
    rw [List.range_succ, List.foldl_append]
    by_cases hk : ∃ i, i < k ∧ c.nx_loc i = 0
    · rw [ih hk, List.foldl_cons, List.foldl_nil, collapse_body_collapsed]
    · have hnone : ∀ i, i < k → c.nx_loc i ≠ 0 := fun i hi h0 => hk ⟨i, hi, h0⟩
      rw [collapse_fold_none c k hnone]
      obtain ⟨i, hi, h0⟩ := h
      have : i = k := by
        by_contra hne
        exact hnone i (by omega) h0
      subst this
      simp [collapse_body, h0, collapsed]

theorem ghosted_nx_loc (b : block) (cart : cartesian) (s : Int) (j : Nat) :
    (ghosted b cart s).nx_loc j = if j < b.ndim then interNx cart b.c j else b.c.nx_loc j := by
  unfold ghosted; rw [ghost_fold_nx_loc, inter_fold_nx_loc]

theorem ghosted_xm_loc (b : block) (cart : cartesian) (s : Int) (j : Nat) :
    (ghosted b cart s).xm_loc j
      = if j < b.ndim then interXm cart b.c (b.c.xm_loc j) j else b.c.xm_loc j := by
  unfold ghosted; rw [ghost_fold_xm_loc, inter_fold_xm_loc]

theorem ghosted_xm (b : block) (cart : cartesian) (s : Int) :
    (ghosted b cart s).xm = b.c.xm := by
  unfold ghosted; rw [ghost_fold_xm, inter_fold_xm]

theorem ghosted_xm_ghost (b : block) (cart : cartesian) (s : Int) (j : Nat) :
    (ghosted b cart s).xm_ghost j
      = if j < b.ndim then ghostXm cart b.c s (b.c.xm_ghost j) j else b.c.xm_ghost j := by
  unfold ghosted; rw [ghost_fold_xm_ghost, inter_fold_xm_ghost]

theorem ghosted_xp_ghost (b : block) (cart : cartesian) (s : Int) (j : Nat) :
    (ghosted b cart s).xp_ghost j
      = if j < b.ndim then ghostXp cart b.c s (b.c.xp_ghost j) j else b.c.xp_ghost j := by
  unfold ghosted; rw [ghost_fold_xp_ghost, inter_fold_xp_ghost]

/-- When no dimension has a zero count the collapse loop changes nothing. -/
theorem calc_process_info_data (b : block) (cart : cartesian) (s : Int)
    (h : ∀ i, i < b.ndim → interNx cart b.c i ≠ 0) :
    (calc_process_info b cart s).c = ghosted b cart s ∧
    (calc_process_info b cart s).no_data = false := by
  have hn : ∀ i, i < b.ndim → (ghosted b cart s).nx_loc i ≠ 0 := by
    intro i hi; rw [ghosted_nx_loc, if_pos hi]; exact h i hi
  have hf := collapse_fold_none (ghosted b cart s) b.ndim hn
  unfold ghosted at hf
  simp only [calc_process_info, hf, ghosted, and_self]

/-- When some dimension has a zero count the whole descriptor collapses. -/
theorem calc_process_info_no_data (b : block) (cart : cartesian) (s : Int)
    (h : ∃ i, i < b.ndim ∧ interNx cart b.c i = 0) :
    (calc_process_info b cart s).c = collapsed (ghosted b cart s) ∧
    (calc_process_info b cart s).no_data = true := by
  have hn : ∃ i, i < b.ndim ∧ (ghosted b cart s).nx_loc i = 0 := by
    obtain ⟨i, hi, h0⟩ := h
    exact ⟨i, hi, by rw [ghosted_nx_loc, if_pos hi]; exact h0⟩
  have hf := collapse_fold_some (ghosted b cart s) b.ndim hn
  unfold ghosted at hf
  simp only [calc_process_info, hf, ghosted, and_self]

theorem collapsed_nx_loc (c : coord) (j : Nat) (hj : j < 3) : (collapsed c).nx_loc j = 0 := by
  unfold collapsed
  interval_cases j <;> simp [setAt]

theorem collapsed_xm_loc (c : coord) (j : Nat) (hj : j < 3) :
    (collapsed c).xm_loc j = c.xm j := by
  unfold collapsed
  interval_cases j <;> simp [setAt]

theorem collapsed_xm_ghost (c : coord) : (collapsed c).xm_ghost = c.xm_ghost := rfl

theorem collapsed_xp_ghost (c : coord) : (collapsed c).xp_ghost = c.xp_ghost := rfl

/-- Either way the ghost counts of the result are those of the ghost loop. -/
theorem calc_process_info_ghosts (b : block) (cart : cartesian) (s : Int) :
    (calc_process_info b cart s).c.xm_ghost = (ghosted b cart s).xm_ghost ∧
    (calc_process_info b cart s).c.xp_ghost = (ghosted b cart s).xp_ghost := by
  by_cases h : ∃ i, i < b.ndim ∧ interNx cart b.c i = 0
  · rw [(calc_process_info_no_data b cart s h).1]; exact ⟨rfl, rfl⟩
  · have h2 : ∀ i, i < b.ndim → interNx cart b.c i ≠ 0 := fun i hi h0 => h ⟨i, hi, h0⟩
    rw [(calc_process_info_data b cart s h2).1]; exact ⟨rfl, rfl⟩

/-! ## Claims on `calc_process_info` -/

/-- C1: when the block range and the process-owned range overlap in every
dimension, `calc_process_info` leaves in each dimension `i < ndim` the exact
intersection: `xm_loc(i) = max(xm, a)` and
`nx_loc(i) = min(xp, a+n-1) - max(xm, a) + 1`. -/
theorem calc_process_info_exact_intersection (b : block) (cart : cartesian) (sbporder : Int)
    (hnx : ∀ i, i < b.ndim → 1 ≤ b.c.nx i)
    (hn : ∀ i, i < b.ndim → 1 ≤ cart.nx_loc i)
    (hov : ∀ i, i < b.ndim → overlaps b cart i) (i : Nat) (hi : i < b.ndim) :
    (calc_process_info b cart sbporder).c.xm_loc i = max (b.c.xm i) (cart.xm_loc i) ∧
    (calc_process_info b cart sbporder).c.nx_loc i
      = min (b.c.get_xp i) (cart.xm_loc i + cart.nx_loc i - 1)
          - max (b.c.xm i) (cart.xm_loc i) + 1 := by
  have hz : ∀ j, j < b.ndim → interNx cart b.c j ≠ 0 := fun j hj =>
    (interNx_eq_zero_iff b cart j (hnx j hj) (hn j hj)).not.mpr (not_not.mpr (hov j hj))
  rw [(calc_process_info_data b cart sbporder hz).1, ghosted_xm_loc, ghosted_nx_loc,
    if_pos hi, if_pos hi]
  exact ⟨interXm_of_overlaps b cart _ i (hov i hi),
    interNx_of_overlaps b cart i (hnx i hi) (hn i hi) (hov i hi)⟩

theorem calc_process_info_exact_intersection_witness :
    (∀ i, i < blockA.ndim → overlaps blockA (cartAt 2 0) i) ∧
    (calc_process_info blockA (cartAt 2 0) 2).c.xm_loc 0 = max (blockA.c.xm 0) 2 ∧
    (calc_process_info blockA (cartAt 2 0) 2).c.nx_loc 0
      = min (blockA.c.get_xp 0) (2 + 4 - 1) - max (blockA.c.xm 0) 2 + 1 :=
  ⟨by decide,
   calc_process_info_exact_intersection blockA (cartAt 2 0) 2 (by decide) (by decide)
     (by decide) 0 (by decide)⟩

theorem interNx_overlaps_of_ne_zero (b : block) (cart : cartesian) (i : Nat)
    (hnx : 1 ≤ b.c.nx i) (hn : 1 ≤ cart.nx_loc i) (h : interNx cart b.c i ≠ 0) :
    overlaps b cart i := by
  by_contra hno
  exact h ((interNx_eq_zero_iff b cart i hnx hn).mpr hno)

theorem collapsed_nx_loc_ge (c : coord) (j : Nat) (hj : 3 ≤ j) :
    (collapsed c).nx_loc j = c.nx_loc j := by
  unfold collapsed
  simp only [setAt]
  rw [if_neg (by omega), if_neg (by omega), if_neg (by omega)]

theorem collapsed_xm_loc_ge (c : coord) (j : Nat) (hj : 3 ≤ j) :
    (collapsed c).xm_loc j = c.xm_loc j := by
  unfold collapsed
  simp only [setAt]
  rw [if_neg (by omega), if_neg (by omega), if_neg (by omega)]

/-- In each dimension the final count is zero, or count and minimum are the
ones the intersection loop computed. -/
theorem calc_process_info_loc_cases (b : block) (cart : cartesian) (s : Int) (i : Nat)
    (hi : i < b.ndim) :
    (calc_process_info b cart s).c.nx_loc i = 0 ∨
    ((calc_process_info b cart s).c.nx_loc i = interNx cart b.c i ∧
     (calc_process_info b cart s).c.xm_loc i = interXm cart b.c (b.c.xm_loc i) i) := by
  by_cases h : ∃ j, j < b.ndim ∧ interNx cart b.c j = 0
  · rw [(calc_process_info_no_data b cart s h).1]
    by_cases h3 : i < 3
    · exact Or.inl (collapsed_nx_loc _ i h3)
    · right
      rw [collapsed_nx_loc_ge _ i (by omega), collapsed_xm_loc_ge _ i (by omega),
        ghosted_nx_loc, ghosted_xm_loc, if_pos hi, if_pos hi]
      exact ⟨rfl, rfl⟩
  · have h2 : ∀ j, j < b.ndim → interNx cart b.c j ≠ 0 := fun j hj h0 => h ⟨j, hj, h0⟩
    right
    rw [(calc_process_info_data b cart s h2).1, ghosted_nx_loc, ghosted_xm_loc, if_pos hi,
      if_pos hi]
    exact ⟨rfl, rfl⟩

/-- C2: for well-formed extents (`nx ≥ 1`, `n ≥ 1`), whenever the local count
returned by `calc_process_info` in dimension `i < ndim` is positive, the local
extent lies inside the block range: `xm(i) ≤ xm_loc(i)` and
`xm_loc(i) + nx_loc(i) - 1 ≤ xp(i)`. -/
theorem calc_process_info_local_subset (b : block) (cart : cartesian) (sbporder : Int)
    (i : Nat) (hi : i < b.ndim) (hnx : 1 ≤ b.c.nx i) (hn : 1 ≤ cart.nx_loc i)
    (hpos : 0 < (calc_process_info b cart sbporder).c.nx_loc i) :
    b.c.xm i ≤ (calc_process_info b cart sbporder).c.xm_loc i ∧
    (calc_process_info b cart sbporder).c.xm_loc i
      + (calc_process_info b cart sbporder).c.nx_loc i - 1 ≤ b.c.get_xp i := by
  rcases calc_process_info_loc_cases b cart sbporder i hi with h0 | ⟨h1, h2⟩
  · omega
  · have hne : interNx cart b.c i ≠ 0 := by omega
    have ho := interNx_overlaps_of_ne_zero b cart i hnx hn hne
    rw [h1, h2, interNx_of_overlaps b cart i hnx hn ho, interXm_of_overlaps b cart _ i ho]
    unfold overlaps at ho
    omega

theorem calc_process_info_local_subset_witness :
    0 < (calc_process_info blockA (cartAt 2 0) 2).c.nx_loc 0 ∧
    blockA.c.xm 0 ≤ (calc_process_info blockA (cartAt 2 0) 2).c.xm_loc 0 ∧
    (calc_process_info blockA (cartAt 2 0) 2).c.xm_loc 0
      + (calc_process_info blockA (cartAt 2 0) 2).c.nx_loc 0 - 1 ≤ blockA.c.get_xp 0 :=
  ⟨by decide,
   calc_process_info_local_subset blockA (cartAt 2 0) 2 0 (by decide) (by decide) (by decide)
     (by decide)⟩

/-- C3, as stated, fails: with dimension 0 overlapping and dimension 1
disjoint, the returned count in dimension 0 is zero although the ranges of
dimension 0 overlap. -/
theorem calc_process_info_zero_count_counterexample :
    1 ≤ blockA.c.nx 0 ∧ 1 ≤ (cartAt 2 10).nx_loc 0 ∧ overlaps blockA (cartAt 2 10) 0 ∧
    (calc_process_info blockA (cartAt 2 10) 2).c.nx_loc 0 = 0 := by
  decide

/-- C3, amended: for well-formed extents and `ndim ≤ 3`, the count returned by
`calc_process_info` in a dimension `i < ndim` is zero if and only if the block
range and the process-owned range are disjoint in at least one dimension
`j < ndim`. -/
theorem calc_process_info_zero_count_iff (b : block) (cart : cartesian) (sbporder : Int)
    (hnd : b.ndim ≤ 3)
    (hnx : ∀ j, j < b.ndim → 1 ≤ b.c.nx j)
    (hn : ∀ j, j < b.ndim → 1 ≤ cart.nx_loc j) (i : Nat) (hi : i < b.ndim) :
    (calc_process_info b cart sbporder).c.nx_loc i = 0
      ↔ ∃ j, j < b.ndim ∧ ¬ overlaps b cart j := by
  constructor
  · intro h0
    by_contra hall
    have hz : ∀ j, j < b.ndim → interNx cart b.c j ≠ 0 := fun j hj hj0 =>
      hall ⟨j, hj, (interNx_eq_zero_iff b cart j (hnx j hj) (hn j hj)).mp hj0⟩
    rw [(calc_process_info_data b cart sbporder hz).1, ghosted_nx_loc, if_pos hi] at h0
    exact hz i hi h0
  · rintro ⟨j, hj, hno⟩
    have hz : ∃ j, j < b.ndim ∧ interNx cart b.c j = 0 :=
      ⟨j, hj, (interNx_eq_zero_iff b cart j (hnx j hj) (hn j hj)).mpr hno⟩
    rw [(calc_process_info_no_data b cart sbporder hz).1]
    exact collapsed_nx_loc _ i (by omega)

theorem calc_process_info_zero_count_iff_witness :
    ((calc_process_info blockA (cartAt 2 10) 2).c.nx_loc 0 = 0
      ↔ ∃ j, j < blockA.ndim ∧ ¬ overlaps blockA (cartAt 2 10) j) :=
  calc_process_info_zero_count_iff blockA (cartAt 2 10) 2 (by decide) (by decide) (by decide)
    0 (by decide)

/-- C4: for well-formed extents, `calc_process_info` sets `no_data` to true if
and only if some dimension `i < ndim` has an empty intersection of block range
and process-owned range; and whenever `no_data` is true, `nx_loc` is 0 and
`xm_loc` equals the block minimum `xm` in all three dimensions. -/
theorem calc_process_info_no_data_iff (b : block) (cart : cartesian) (sbporder : Int)
    (hnx : ∀ j, j < b.ndim → 1 ≤ b.c.nx j)
    (hn : ∀ j, j < b.ndim → 1 ≤ cart.nx_loc j) :
    ((calc_process_info b cart sbporder).no_data = true
      ↔ ∃ i, i < b.ndim ∧ ¬ overlaps b cart i) ∧
    ((calc_process_info b cart sbporder).no_data = true →
      ∀ j, j < 3 → (calc_process_info b cart sbporder).c.nx_loc j = 0 ∧
        (calc_process_info b cart sbporder).c.xm_loc j
          = (calc_process_info b cart sbporder).c.xm j ∧
        (calc_process_info b cart sbporder).c.xm j = b.c.xm j) := by
  by_cases h : ∃ j, j < b.ndim ∧ interNx cart b.c j = 0
  · obtain ⟨hc, hd⟩ := calc_process_info_no_data b cart sbporder h
    refine ⟨⟨fun _ => ?_, fun _ => hd⟩, fun _ j hj => ?_⟩
    · obtain ⟨j, hj, h0⟩ := h
      exact ⟨j, hj, (interNx_eq_zero_iff b cart j (hnx j hj) (hn j hj)).mp h0⟩
    · rw [hc]
      refine ⟨collapsed_nx_loc _ j hj, ?_, ?_⟩
      · rw [collapsed_xm_loc _ j hj]; rfl
      · show (ghosted b cart sbporder).xm j = b.c.xm j
        rw [ghosted_xm]
  · have h2 : ∀ j, j < b.ndim → interNx cart b.c j ≠ 0 := fun j hj h0 => h ⟨j, hj, h0⟩
    obtain ⟨_, hd⟩ := calc_process_info_data b cart sbporder h2
    refine ⟨⟨fun ht => ?_, fun hex => ?_⟩, fun ht => ?_⟩
    · rw [hd] at ht; cases ht
    · obtain ⟨j, hj, hno⟩ := hex
      exact absurd ((interNx_eq_zero_iff b cart j (hnx j hj) (hn j hj)).mpr hno) (h2 j hj)
    · rw [hd] at ht; cases ht

theorem calc_process_info_no_data_iff_witness :
    (calc_process_info blockA (cartAt 2 10) 2).no_data = true ∧
    (∃ i, i < blockA.ndim ∧ ¬ overlaps blockA (cartAt 2 10) i) ∧
    (∀ j, j < 3 → (calc_process_info blockA (cartAt 2 10) 2).c.nx_loc j = 0 ∧
        (calc_process_info blockA (cartAt 2 10) 2).c.xm_loc j
          = (calc_process_info blockA (cartAt 2 10) 2).c.xm j ∧
        (calc_process_info blockA (cartAt 2 10) 2).c.xm j = blockA.c.xm j) :=
  have h := calc_process_info_no_data_iff blockA (cartAt 2 10) 2 (by decide) (by decide)
  have hd : (calc_process_info blockA (cartAt 2 10) 2).no_data = true := by decide
  ⟨hd, h.1.mp hd, h.2 hd⟩

/-- C5 fails on the code at the block's own edge points.  Block A has range
`[0, 3]`; a process whose range starts at `a = 3 = xp` (so `xm < a ≤ xp`, an
interior cut with one owned point) gets `xm_ghost = 0`, not `order - 1 = 1`.
Block B has range `[4, 7]`; a process whose range `[1, 4]` ends at `e = 4 = xm`
(so `xm ≤ e < xp`) gets `xp_ghost = 0`, not `order - 1 = 1`. -/
theorem calc_process_info_ghost_at_edge_point :
    (blockA.c.xm 0 < (cartAt 3 0).xm_loc 0 ∧ (cartAt 3 0).xm_loc 0 ≤ blockA.c.get_xp 0 ∧
      (calc_process_info blockA (cartAt 3 0) 2).no_data = false ∧
      (calc_process_info blockA (cartAt 3 0) 2).c.nx_loc 0 = 1 ∧
      (calc_process_info blockA (cartAt 3 0) 2).c.xm_ghost 0 = 0 ∧
      (calc_process_info blockA (cartAt 3 0) 2).c.xm_ghost 0 ≠ 2 - 1) ∧
    (blockB.c.xm 0 ≤ (cartAt 1 4).xm_loc 0 + (cartAt 1 4).nx_loc 0 - 1 ∧
      (cartAt 1 4).xm_loc 0 + (cartAt 1 4).nx_loc 0 - 1 < blockB.c.get_xp 0 ∧
      (calc_process_info blockB (cartAt 1 4) 2).no_data = false ∧
      (calc_process_info blockB (cartAt 1 4) 2).c.nx_loc 0 = 1 ∧
      (calc_process_info blockB (cartAt 1 4) 2).c.xp_ghost 0 = 0 ∧
      (calc_process_info blockB (cartAt 1 4) 2).c.xp_ghost 0 ≠ 2 - 1) := by
  decide

theorem ghostXp_one_past (b : block) (cart : cartesian) (s old : Int) (i : Nat)
    (hnx : 1 ≤ b.c.nx i) (hn : 1 ≤ cart.nx_loc i)
    (ha : cart.xm_loc i = b.c.get_xp i + 1) :
    ghostXp cart b.c s old i = 1 := by
  unfold coord.get_xp at ha
  unfold ghostXp ghost_body ghost_high ghost_low coord.get_xp
  simp only []
  split_ifs <;> simp <;> omega

theorem ghostXm_one_before (b : block) (cart : cartesian) (s old : Int) (i : Nat)
    (he : cart.xm_loc i + cart.nx_loc i - 1 = b.c.xm i - 1) :
    ghostXm cart b.c s old i = 1 := by
  unfold ghostXm ghost_body ghost_high ghost_low coord.get_xp
  simp only []
  split_ifs <;> simp <;> omega

/-- The final count is zero in every dimension below 3 as soon as one
dimension below `ndim` is disjoint. -/
theorem calc_process_info_zero_of_disjoint (b : block) (cart : cartesian) (s : Int)
    (i : Nat) (hi : i < b.ndim) (hnx : 1 ≤ b.c.nx i) (hn : 1 ≤ cart.nx_loc i)
    (hno : ¬ overlaps b cart i) (j : Nat) (hj : j < 3) :
    (calc_process_info b cart s).c.nx_loc j = 0 := by
  have hz : ∃ k, k < b.ndim ∧ interNx cart b.c k = 0 :=
    ⟨i, hi, (interNx_eq_zero_iff b cart i hnx hn).mpr hno⟩
  rw [(calc_process_info_no_data b cart s hz).1]
  exact collapsed_nx_loc _ j hj

/-- C6: the single safety ghost layer has width 1.  For well-formed extents in
a dimension `i < ndim ≤ 3`: if the process range starts exactly one past the
block's high edge (`a = xp + 1`) then `xp_ghost(i) = 1`, and if it ends exactly
one before the block's low edge (`a + n - 1 = xm - 1`) then `xm_ghost(i) = 1`;
in both situations the local count of that dimension is zero. -/
theorem calc_process_info_safety_ghost (b : block) (cart : cartesian) (sbporder : Int)
    (hnd : b.ndim ≤ 3) (i : Nat) (hi : i < b.ndim)
    (hnx : 1 ≤ b.c.nx i) (hn : 1 ≤ cart.nx_loc i) :
    (cart.xm_loc i = b.c.get_xp i + 1 →
      (calc_process_info b cart sbporder).c.xp_ghost i = 1 ∧
      (calc_process_info b cart sbporder).c.nx_loc i = 0) ∧
    (cart.xm_loc i + cart.nx_loc i - 1 = b.c.xm i - 1 →
      (calc_process_info b cart sbporder).c.xm_ghost i = 1 ∧
      (calc_process_info b cart sbporder).c.nx_loc i = 0) := by
  constructor
  · intro ha
    have hno : ¬ overlaps b cart i := by
      unfold overlaps; omega
    refine ⟨?_, calc_process_info_zero_of_disjoint b cart sbporder i hi hnx hn hno i (by omega)⟩
    rw [(calc_process_info_ghosts b cart sbporder).2, ghosted_xp_ghost, if_pos hi]
    exact ghostXp_one_past b cart sbporder _ i hnx hn ha
  · intro he
    have hno : ¬ overlaps b cart i := by
      unfold overlaps; omega
    refine ⟨?_, calc_process_info_zero_of_disjoint b cart sbporder i hi hnx hn hno i (by omega)⟩
    rw [(calc_process_info_ghosts b cart sbporder).1, ghosted_xm_ghost, if_pos hi]
    exact ghostXm_one_before b cart sbporder _ i he

theorem calc_process_info_safety_ghost_witness :
    ((cartAt 4 0).xm_loc 0 = blockA.c.get_xp 0 + 1 ∧
      (calc_process_info blockA (cartAt 4 0) 2).c.xp_ghost 0 = 1 ∧
      (calc_process_info blockA (cartAt 4 0) 2).c.nx_loc 0 = 0) ∧
    ((cartAt 0 4).xm_loc 0 + (cartAt 0 4).nx_loc 0 - 1 = blockB.c.xm 0 - 1 ∧
      (calc_process_info blockB (cartAt 0 4) 2).c.xm_ghost 0 = 1 ∧
      (calc_process_info blockB (cartAt 0 4) 2).c.nx_loc 0 = 0) :=
  ⟨⟨by decide,
    (calc_process_info_safety_ghost blockA (cartAt 4 0) 2 (by decide) 0 (by decide) (by decide)
      (by decide)).1 (by decide)⟩,
   ⟨by decide,
    (calc_process_info_safety_ghost blockB (cartAt 0 4) 2 (by decide) 0 (by decide) (by decide)
      (by decide)).2 (by decide)⟩⟩

/-! ## Loops as state transformers -/

theorem mem_irange (lo hi i : Int) : i ∈ irange lo hi ↔ lo ≤ i ∧ i < hi := by
  unfold irange
  simp only [List.mem_map, List.mem_range]
  constructor
  · rintro ⟨t, ht, rfl⟩
    omega
  · rintro ⟨h1, h2⟩
    exact ⟨(i - lo).toNat, by omega, by omega⟩

theorem keeps_maySet {σ β : Type} {I : σ → Prop} {T : σ → σ} {obs : σ → β} (v : β)
    (h : Keeps I T obs) : MaySet I T obs v :=
  fun s hs => Or.inr (h s hs)

theorem sets_maySet {σ β : Type} {I : σ → Prop} {T : σ → σ} {obs : σ → β} {v : β}
    (h : Sets I T obs v) : MaySet I T obs v :=
  fun s hs => Or.inl (h s hs)

theorem foldl_pres {σ : Type} {I : σ → Prop} (L : List Int) (body : Int → σ → σ)
    (hp : ∀ i, i ∈ L → Pres I (body i)) :
    Pres I (fun s => L.foldl (fun s i => body i s) s) := by
  induction L with
  | nil => intro s hs; exact hs
  | cons a L ih =>
    intro s hs
    simp only [List.foldl_cons]
    exact ih (fun i hi => hp i (List.mem_cons_of_mem _ hi)) _
      (hp a (List.mem_cons_self _ _) s hs)

theorem foldl_keeps {σ β : Type} {I : σ → Prop} {obs : σ → β} (L : List Int)
    (body : Int → σ → σ) (hp : ∀ i, i ∈ L → Pres I (body i))
    (hk : ∀ i, i ∈ L → Keeps I (body i) obs) :
    Keeps I (fun s => L.foldl (fun s i => body i s) s) obs := by
  induction L with
  | nil => intro s _; rfl
  | cons a L ih =>
    intro s hs
    simp only [List.foldl_cons]
    rw [ih (fun i hi => hp i (List.mem_cons_of_mem _ hi))
      (fun i hi => hk i (List.mem_cons_of_mem _ hi)) _ (hp a (List.mem_cons_self _ _) s hs)]
    exact hk a (List.mem_cons_self _ _) s hs

theorem foldl_maySet {σ β : Type} {I : σ → Prop} {obs : σ → β} {v : β} (L : List Int)
    (body : Int → σ → σ) (hp : ∀ i, i ∈ L → Pres I (body i))
    (hm : ∀ i, i ∈ L → MaySet I (body i) obs v) :
    MaySet I (fun s => L.foldl (fun s i => body i s) s) obs v := by
  induction L with
  | nil => intro s _; exact Or.inr rfl
  | cons a L ih =>
    intro s hs
    simp only [List.foldl_cons]
    have hs1 := hp a (List.mem_cons_self _ _) s hs
    rcases ih (fun i hi => hp i (List.mem_cons_of_mem _ hi))
      (fun i hi => hm i (List.mem_cons_of_mem _ hi)) _ hs1 with h | h
    · exact Or.inl h
    · rcases hm a (List.mem_cons_self _ _) s hs with h1 | h1
      · exact Or.inl (h.trans h1)
      · exact Or.inr (h.trans h1)

theorem foldl_sets {σ β : Type} {I : σ → Prop} {obs : σ → β} {v : β} (L : List Int)
    (body : Int → σ → σ) (hp : ∀ i, i ∈ L → Pres I (body i))
    (hm : ∀ i, i ∈ L → MaySet I (body i) obs v)
    (hs : ∃ i, i ∈ L ∧ Sets I (body i) obs v) :
    Sets I (fun s => L.foldl (fun s i => body i s) s) obs v := by
  induction L with
  | nil => obtain ⟨i, hi, _⟩ := hs; cases hi
  | cons a L ih =>
    intro s hI
    simp only [List.foldl_cons]
    have hs1 := hp a (List.mem_cons_self _ _) s hI
    have hpL : ∀ i, i ∈ L → Pres I (body i) := fun i hi => hp i (List.mem_cons_of_mem _ hi)
    have hmL : ∀ i, i ∈ L → MaySet I (body i) obs v :=
      fun i hi => hm i (List.mem_cons_of_mem _ hi)
    by_cases hex : ∃ i, i ∈ L ∧ Sets I (body i) obs v
    · exact ih hpL hmL hex _ hs1
    · obtain ⟨i, hi, hset⟩ := hs
      have hia : i = a := by
        rcases List.mem_cons.mp hi with h | h
        · exact h
        · exact absurd ⟨i, h, hset⟩ hex
      subst hia
      rcases foldl_maySet L body hpL hmL _ hs1 with h | h
      · exact h
      · exact h.trans (hset s hI)

theorem forRange_pres {σ : Type} {I : σ → Prop} (lo hi : Int) (body : Int → σ → σ)
    (hp : ∀ i, lo ≤ i → i < hi → Pres I (body i)) : Pres I (forRange lo hi body) :=
  foldl_pres (irange lo hi) body (fun i hi => hp i ((mem_irange _ _ _).mp hi).1
    ((mem_irange _ _ _).mp hi).2)

theorem forRange_keeps {σ β : Type} {I : σ → Prop} {obs : σ → β} (lo hi : Int)
    (body : Int → σ → σ) (hp : ∀ i, lo ≤ i → i < hi → Pres I (body i))
    (hk : ∀ i, lo ≤ i → i < hi → Keeps I (body i) obs) :
    Keeps I (forRange lo hi body) obs :=
  foldl_keeps (irange lo hi) body
    (fun i hi => hp i ((mem_irange _ _ _).mp hi).1 ((mem_irange _ _ _).mp hi).2)
    (fun i hi => hk i ((mem_irange _ _ _).mp hi).1 ((mem_irange _ _ _).mp hi).2)

theorem forRange_maySet {σ β : Type} {I : σ → Prop} {obs : σ → β} {v : β} (lo hi : Int)
    (body : Int → σ → σ) (hp : ∀ i, lo ≤ i → i < hi → Pres I (body i))
    (hm : ∀ i, lo ≤ i → i < hi → MaySet I (body i) obs v) :
    MaySet I (forRange lo hi body) obs v :=
  foldl_maySet (irange lo hi) body
    (fun i hi => hp i ((mem_irange _ _ _).mp hi).1 ((mem_irange _ _ _).mp hi).2)
    (fun i hi => hm i ((mem_irange _ _ _).mp hi).1 ((mem_irange _ _ _).mp hi).2)

theorem forRange_sets {σ β : Type} {I : σ → Prop} {obs : σ → β} {v : β} (lo hi : Int)
    (body : Int → σ → σ) (hp : ∀ i, lo ≤ i → i < hi → Pres I (body i))
    (hm : ∀ i, lo ≤ i → i < hi → MaySet I (body i) obs v)
    (i0 : Int) (h0 : lo ≤ i0) (h1 : i0 < hi) (hs : Sets I (body i0) obs v) :
    Sets I (forRange lo hi body) obs v :=
  foldl_sets (irange lo hi) body
    (fun i hi => hp i ((mem_irange _ _ _).mp hi).1 ((mem_irange _ _ _).mp hi).2)
    (fun i hi => hm i ((mem_irange _ _ _).mp hi).1 ((mem_irange _ _ _).mp hi).2)
    ⟨i0, (mem_irange _ _ _).mpr ⟨h0, h1⟩, hs⟩

theorem pres_true {σ : Type} (T : σ → σ) : Pres (fun _ => True) T := fun _ _ => trivial

@[simp] theorem store_same {ι α : Type} [DecidableEq ι] (m : ι → α) (a : ι) (v : α) :
    store m a v a = v := by
  simp [store]

theorem store_ne {ι α : Type} [DecidableEq ι] (m : ι → α) (a j : ι) (v : α) (h : j ≠ a) :
    store m a v j = m j := by
  simp [store, h]

/-! ## Row-major addressing -/

theorem radix_inj (n a b a' b' : Int) (hb : 0 ≤ b) (hb' : b < n) (hc : 0 ≤ b')
    (hc' : b' < n) (h : a * n + b = a' * n + b') : a = a' ∧ b = b' := by
  have hn : 0 ≤ n := by omega
  have ha : a = a' := by
    rcases lt_trichotomy a a' with h1 | h1 | h1
    · exfalso
      have := mul_le_mul_of_nonneg_right (show 1 ≤ a' - a by omega) hn
      nlinarith
    · exact h1
    · exfalso
      have := mul_le_mul_of_nonneg_right (show 1 ≤ a - a' by omega) hn
      nlinarith
  subst ha
  exact ⟨rfl, by omega⟩

theorem jidx_inj (b : block) (n0 n1 n2 : Int) (h : in_array b n0 n1 n2)
    (i j k i' j' k' : Int) (ho : owned b i j k) (ho' : owned b i' j' k')
    (he : jidx b i j k = jidx b i' j' k') : i = i' ∧ j = j' ∧ k = k' := by
  obtain ⟨⟨_, h1, h2⟩, _, ⟨_, _, _, _⟩, ⟨_, _, _, _⟩⟩ := h
  obtain ⟨_, ⟨_, _⟩, ⟨_, _⟩⟩ := ho
  obtain ⟨_, ⟨_, _⟩, ⟨_, _⟩⟩ := ho'
  unfold jidx at he
  rw [h1, h2] at he
  have e1 := radix_inj n2 (i * n1 + j) k (i' * n1 + j') k' (by omega) (by omega) (by omega)
    (by omega) (by linarith)
  have e2 := radix_inj n1 i j i' j' (by omega) (by omega) (by omega) (by omega) e1.1
  exact ⟨e2.1, e2.2, e1.2⟩

theorem midx_inj (b : block) (n0 n1 n2 : Int) (h : in_array b n0 n1 n2)
    (l m i j k l' m' i' j' k' : Int) (ho : owned b i j k) (ho' : owned b i' j' k')
    (hm : 0 ≤ m ∧ m < b.ndim) (hm' : 0 ≤ m' ∧ m' < b.ndim)
    (he : midx b l m i j k = midx b l' m' i' j' k') :
    l = l' ∧ m = m' ∧ i = i' ∧ j = j' ∧ k = k' := by
  obtain ⟨⟨h0, h1, h2⟩, ⟨_, _, _, _⟩, ⟨_, _, _, _⟩, ⟨_, _, _, _⟩⟩ := h
  obtain ⟨⟨_, _⟩, ⟨_, _⟩, ⟨_, _⟩⟩ := ho
  obtain ⟨⟨_, _⟩, ⟨_, _⟩, ⟨_, _⟩⟩ := ho'
  unfold midx at he
  rw [h0, h1, h2] at he
  have e1 := radix_inj n2 (((l * b.ndim + m) * n0 + i) * n1 + j) k
    (((l' * b.ndim + m') * n0 + i') * n1 + j') k' (by omega) (by omega) (by omega) (by omega)
    (by linarith)
  have e2 := radix_inj n1 ((l * b.ndim + m) * n0 + i) j ((l' * b.ndim + m') * n0 + i') j'
    (by omega) (by omega) (by omega) (by omega) e1.1
  have e3 := radix_inj n0 (l * b.ndim + m) i (l' * b.ndim + m') i'
    (by omega) (by omega) (by omega) (by omega) e2.1
  have e4 := radix_inj b.ndim l m l' m' hm.1 hm.2 hm'.1 hm'.2 e3.1
  exact ⟨e4.1, e4.2, e3.2, e2.2, e1.2⟩

/-! ## The metric loop nest -/

theorem metric_point_jac (b : block) (xp : XP) (i j k : Int) (f : fields) :
    (metric_point b xp i j k f).jac
      = store f.jac (jidx b i j k) (jac_value (xp_at b xp i j k)) := by
  have hk : Keeps (fun _ => True)
      (forRange 0 b.ndim (fun l f =>
        forRange 0 b.ndim (fun m f =>
          ({ f with metric := (store f.metric (midx b l m i j k)
              (metric_value (xp_at b xp i j k) (f.jac (jidx b i j k)) l m)) } : fields)) f))
      (fun f => f.jac) :=
    forRange_keeps _ _ _ (fun _ _ _ => pres_true _)
      (fun l _ _ => forRange_keeps _ _ _ (fun _ _ _ => pres_true _) (fun m _ _ s _ => rfl))
  exact hk _ trivial

theorem metric_point_metric_keeps (b : block) (xp : XP) (i j k : Int) (a : Int)
    (hne : ∀ l m : Int, 0 ≤ l → l < b.ndim → 0 ≤ m → m < b.ndim → midx b l m i j k ≠ a)
    (f : fields) : (metric_point b xp i j k f).metric a = f.metric a := by
  have hk : Keeps (fun _ => True)
      (forRange 0 b.ndim (fun l f =>
        forRange 0 b.ndim (fun m f =>
          ({ f with metric := (store f.metric (midx b l m i j k)
              (metric_value (xp_at b xp i j k) (f.jac (jidx b i j k)) l m)) } : fields)) f))
      (fun f => f.metric a) :=
    forRange_keeps _ _ _ (fun _ _ _ => pres_true _)
      (fun l hl0 hl1 => forRange_keeps _ _ _ (fun _ _ _ => pres_true _)
        (fun m hm0 hm1 s _ => store_ne _ _ _ _ (fun h => hne l m hl0 hl1 hm0 hm1 h.symm)))
  exact hk _ trivial

theorem metric_point_metric_sets (b : block) (xp : XP) (i j k l0 m0 : Int)
    (hl0 : 0 ≤ l0 ∧ l0 < b.ndim) (hm0 : 0 ≤ m0 ∧ m0 < b.ndim)
    (hinj : ∀ l m : Int, 0 ≤ l → l < b.ndim → 0 ≤ m → m < b.ndim →
      midx b l m i j k = midx b l0 m0 i j k → l = l0 ∧ m = m0)
    (f : fields) :
    (metric_point b xp i j k f).metric (midx b l0 m0 i j k)
      = metric_value (xp_at b xp i j k) (jac_value (xp_at b xp i j k)) l0 m0 := by
  let I : fields → Prop := fun f => f.jac (jidx b i j k) = jac_value (xp_at b xp i j k)
  let T : Int → Int → fields → fields := fun l m f =>
    { f with metric := (store f.metric (midx b l m i j k)
        (metric_value (xp_at b xp i j k) (f.jac (jidx b i j k)) l m)) }
  have hp : ∀ l m, Pres I (T l m) := fun l m s hs => hs
  have hm : ∀ l m : Int, 0 ≤ l → l < b.ndim → 0 ≤ m → m < b.ndim →
      MaySet I (T l m) (fun f => f.metric (midx b l0 m0 i j k))
        (metric_value (xp_at b xp i j k) (jac_value (xp_at b xp i j k)) l0 m0) := by
    intro l m h1 h2 h3 h4 s hs
    by_cases he : midx b l m i j k = midx b l0 m0 i j k
    · left
      obtain ⟨rfl, rfl⟩ := hinj l m h1 h2 h3 h4 he
      show store s.metric _ _ _ = _
      rw [store_same, hs]
    · right
      exact store_ne _ _ _ _ (fun h => he h.symm)
  have hs : Sets I (T l0 m0) (fun f => f.metric (midx b l0 m0 i j k))
      (metric_value (xp_at b xp i j k) (jac_value (xp_at b xp i j k)) l0 m0) := by
    intro s hs
    show store s.metric _ _ _ = _
    rw [store_same, hs]
  have hall : Sets I (forRange 0 b.ndim (fun l f => forRange 0 b.ndim (fun m f => T l m f) f))
      (fun f => f.metric (midx b l0 m0 i j k))
      (metric_value (xp_at b xp i j k) (jac_value (xp_at b xp i j k)) l0 m0) :=
    forRange_sets _ _ _ (fun l _ _ => forRange_pres _ _ _ (fun m _ _ => hp l m))
      (fun l h1 h2 => forRange_maySet _ _ _ (fun m _ _ => hp l m)
        (fun m h3 h4 => hm l m h1 h2 h3 h4))
      l0 hl0.1 hl0.2
      (forRange_sets _ _ _ (fun m _ _ => hp l0 m)
        (fun m h3 h4 => hm l0 m hl0.1 hl0.2 h3 h4) m0 hm0.1 hm0.2 hs)
  exact hall _ (store_same _ _ _)

/-- The Jacobian entry of an owned point after the metric loop nest. -/
theorem metric_loop_jac (b : block) (xp : XP) (f : fields) (n0 n1 n2 : Int)
    (h : in_array b n0 n1 n2) (i j k : Int) (ho : owned b i j k) :
    (metric_loop b xp f).jac (jidx b i j k) = jac_value (xp_at b xp i j k) := by
  have hm : ∀ i' j' k', owned b i' j' k' →
      MaySet (fun _ => True) (metric_point b xp i' j' k') (fun f => f.jac (jidx b i j k))
        (jac_value (xp_at b xp i j k)) := by
    intro i' j' k' ho' s _
    show (metric_point b xp i' j' k' s).jac _ = _ ∨ (metric_point b xp i' j' k' s).jac _ = _
    rw [metric_point_jac]
    by_cases he : jidx b i j k = jidx b i' j' k'
    · obtain ⟨rfl, rfl, rfl⟩ := jidx_inj b n0 n1 n2 h i j k i' j' k' ho ho' he
      exact Or.inl (store_same _ _ _)
    · exact Or.inr (store_ne _ _ _ _ he)
  have hs : Sets (fun _ => True) (metric_point b xp i j k) (fun f => f.jac (jidx b i j k))
      (jac_value (xp_at b xp i j k)) := by
    intro s _
    show (metric_point b xp i j k s).jac _ = _
    rw [metric_point_jac, store_same]
  obtain ⟨hi, hj, hk⟩ := ho
  have hall : Sets (fun _ => True) (metric_loop b xp) (fun f => f.jac (jidx b i j k))
      (jac_value (xp_at b xp i j k)) :=
    forRange_sets _ _ _ (fun _ _ _ => pres_true _)
      (fun i' hi0 hi1 => forRange_maySet _ _ _ (fun _ _ _ => pres_true _)
        (fun j' hj0 hj1 => forRange_maySet _ _ _ (fun _ _ _ => pres_true _)
          (fun k' hk0 hk1 => hm i' j' k' ⟨⟨hi0, hi1⟩, ⟨hj0, hj1⟩, ⟨hk0, hk1⟩⟩)))
      i hi.1 hi.2
      (forRange_sets _ _ _ (fun _ _ _ => pres_true _)
        (fun j' hj0 hj1 => forRange_maySet _ _ _ (fun _ _ _ => pres_true _)
          (fun k' hk0 hk1 => hm i j' k' ⟨hi, ⟨hj0, hj1⟩, ⟨hk0, hk1⟩⟩))
        j hj.1 hj.2
        (forRange_sets _ _ _ (fun _ _ _ => pres_true _)
          (fun k' hk0 hk1 => hm i j k' ⟨hi, hj, ⟨hk0, hk1⟩⟩) k hk.1 hk.2 hs))
  exact hall f trivial

/-- The metric entry `(l,m)` of an owned point after the metric loop nest. -/
theorem metric_loop_metric (b : block) (xp : XP) (f : fields) (n0 n1 n2 : Int)
    (h : in_array b n0 n1 n2) (i j k : Int) (ho : owned b i j k) (l m : Int)
    (hl : 0 ≤ l ∧ l < b.ndim) (hm : 0 ≤ m ∧ m < b.ndim) :
    (metric_loop b xp f).metric (midx b l m i j k)
      = metric_value (xp_at b xp i j k) (jac_value (xp_at b xp i j k)) l m := by
  have hms : ∀ i' j' k', owned b i' j' k' →
      MaySet (fun _ => True) (metric_point b xp i' j' k')
        (fun f => f.metric (midx b l m i j k))
        (metric_value (xp_at b xp i j k) (jac_value (xp_at b xp i j k)) l m) := by
    intro i' j' k' ho' s _
    by_cases he : i' = i ∧ j' = j ∧ k' = k
    · obtain ⟨rfl, rfl, rfl⟩ := he
      left
      exact metric_point_metric_sets b xp _ _ _ l m hl hm
        (fun l' m' _ _ h3 h4 e =>
          let r := midx_inj b n0 n1 n2 h l' m' _ _ _ l m _ _ _ ho ho ⟨h3, h4⟩ hm e
          ⟨r.1, r.2.1⟩) s
    · right
      refine metric_point_metric_keeps b xp i' j' k' _ (fun l' m' _ _ h3 h4 e => he ?_) s
      have r := midx_inj b n0 n1 n2 h l' m' i' j' k' l m i j k ho' ho ⟨h3, h4⟩ hm e
      exact ⟨r.2.2.1, r.2.2.2.1, r.2.2.2.2⟩
  have hs : Sets (fun _ => True) (metric_point b xp i j k)
      (fun f => f.metric (midx b l m i j k))
      (metric_value (xp_at b xp i j k) (jac_value (xp_at b xp i j k)) l m) :=
    fun s _ => metric_point_metric_sets b xp i j k l m hl hm
      (fun l' m' _ _ h3 h4 e =>
        let r := midx_inj b n0 n1 n2 h l' m' _ _ _ l m _ _ _ ho ho ⟨h3, h4⟩ hm e
        ⟨r.1, r.2.1⟩) s
  obtain ⟨hi, hj, hk⟩ := ho
  have hall : Sets (fun _ => True) (metric_loop b xp)
      (fun f => f.metric (midx b l m i j k))
      (metric_value (xp_at b xp i j k) (jac_value (xp_at b xp i j k)) l m) :=
    forRange_sets _ _ _ (fun _ _ _ => pres_true _)
      (fun i' hi0 hi1 => forRange_maySet _ _ _ (fun _ _ _ => pres_true _)
        (fun j' hj0 hj1 => forRange_maySet _ _ _ (fun _ _ _ => pres_true _)
          (fun k' hk0 hk1 => hms i' j' k' ⟨⟨hi0, hi1⟩, ⟨hj0, hj1⟩, ⟨hk0, hk1⟩⟩)))
      i hi.1 hi.2
      (forRange_sets _ _ _ (fun _ _ _ => pres_true _)
        (fun j' hj0 hj1 => forRange_maySet _ _ _ (fun _ _ _ => pres_true _)
          (fun k' hk0 hk1 => hms i j' k' ⟨hi, ⟨hj0, hj1⟩, ⟨hk0, hk1⟩⟩))
        j hj.1 hj.2
        (forRange_sets _ _ _ (fun _ _ _ => pres_true _)
          (fun k' hk0 hk1 => hms i j k' ⟨hi, hj, ⟨hk0, hk1⟩⟩) k hk.1 hk.2 hs))
  exact hall f trivial

/-! ## Transfinite interpolation -/

theorem store_store {ι α : Type} [DecidableEq ι] (m : ι → α) (a : ι) (v w : α) :
    store (store m a v) a w = store m a w := by
  funext j; unfold store; split_ifs <;> rfl

theorem interp_point_eq (b : block) (surf : Nat → surface) (i j k l : Int) (x : Int → ℚ) :
    interp_point b surf i j k l x = store x (xidx b i j k l) (tfi_value b surf i j k l) := by
  unfold tfi_value interp_point
  by_cases h3 : b.ndim = 3
  · simp only [h3, if_true, store_same, store_store]
  · simp only [h3, if_false, store_same, store_store]

theorem xidx_inj (b : block) (n0 n1 n2 : Int) (h : in_array b n0 n1 n2)
    (i j k l i' j' k' l' : Int) (hw : in_window b j k l) (hw' : in_window b j' k' l')
    (he : xidx b i j k l = xidx b i' j' k' l') : i = i' ∧ j = j' ∧ k = k' ∧ l = l' := by
  obtain ⟨⟨h0, h1, h2⟩, ⟨_, _, _, _⟩, ⟨_, _, _, _⟩, ⟨_, _, _, _⟩⟩ := h
  obtain ⟨⟨_, _⟩, ⟨_, _⟩, ⟨_, _⟩⟩ := hw
  obtain ⟨⟨_, _⟩, ⟨_, _⟩, ⟨_, _⟩⟩ := hw'
  unfold xidx at he
  rw [h0, h1, h2] at he
  have e1 := radix_inj n2 ((i * n0 + j) * n1 + k) l ((i' * n0 + j') * n1 + k') l'
    (by omega) (by omega) (by omega) (by omega) (by linarith)
  have e2 := radix_inj n1 (i * n0 + j) k (i' * n0 + j') k'
    (by omega) (by omega) (by omega) (by omega) e1.1
  have e3 := radix_inj n0 i j i' j' (by omega) (by omega) (by omega) (by omega) e2.1
  exact ⟨e3.1, e3.2, e2.2, e1.2⟩

/-- After the interpolation loops every window point holds the value its own
loop iteration computed. -/
theorem interpolate_at (b : block) (surf : Nat → surface) (x : Int → ℚ) (n0 n1 n2 : Int)
    (h : in_array b n0 n1 n2) (i j k l : Int) (hi : 0 ≤ i ∧ i < b.ndim)
    (hw : in_window b j k l) :
    interpolate b surf x (xidx b i j k l) = tfi_value b surf i j k l := by
  have hm : ∀ i' j' k' l', in_window b j' k' l' →
      MaySet (fun _ => True) (interp_point b surf i' j' k' l')
        (fun x => x (xidx b i j k l)) (tfi_value b surf i j k l) := by
    intro i' j' k' l' hw' s _
    show interp_point b surf i' j' k' l' s _ = _ ∨ interp_point b surf i' j' k' l' s _ = _
    rw [interp_point_eq]
    by_cases he : xidx b i j k l = xidx b i' j' k' l'
    · obtain ⟨rfl, rfl, rfl, rfl⟩ := xidx_inj b n0 n1 n2 h i j k l i' j' k' l' hw hw' he
      exact Or.inl (store_same _ _ _)
    · exact Or.inr (store_ne _ _ _ _ he)
  have hs : Sets (fun _ => True) (interp_point b surf i j k l)
      (fun x => x (xidx b i j k l)) (tfi_value b surf i j k l) := by
    intro s _
    show interp_point b surf i j k l s _ = _
    rw [interp_point_eq, store_same]
  obtain ⟨hj, hk, hl⟩ := hw
  have hall : Sets (fun _ => True) (interpolate b surf)
      (fun x => x (xidx b i j k l)) (tfi_value b surf i j k l) :=
    forRange_sets _ _ _ (fun _ _ _ => pres_true _)
      (fun i' _ _ => forRange_maySet _ _ _ (fun _ _ _ => pres_true _)
        (fun j' a1 a2 => forRange_maySet _ _ _ (fun _ _ _ => pres_true _)
          (fun k' a3 a4 => forRange_maySet _ _ _ (fun _ _ _ => pres_true _)
            (fun l' a5 a6 => hm i' j' k' l' ⟨⟨a1, a2⟩, ⟨a3, a4⟩, ⟨a5, a6⟩⟩))))
      i hi.1 hi.2
      (forRange_sets _ _ _ (fun _ _ _ => pres_true _)
        (fun j' a1 a2 => forRange_maySet _ _ _ (fun _ _ _ => pres_true _)
          (fun k' a3 a4 => forRange_maySet _ _ _ (fun _ _ _ => pres_true _)
            (fun l' a5 a6 => hm i j' k' l' ⟨⟨a1, a2⟩, ⟨a3, a4⟩, ⟨a5, a6⟩⟩)))
        j hj.1 hj.2
        (forRange_sets _ _ _ (fun _ _ _ => pres_true _)
          (fun k' a3 a4 => forRange_maySet _ _ _ (fun _ _ _ => pres_true _)
            (fun l' a5 a6 => hm i j k' l' ⟨hj, ⟨a3, a4⟩, ⟨a5, a6⟩⟩))
          k hk.1 hk.2
          (forRange_sets _ _ _ (fun _ _ _ => pres_true _)
            (fun l' a5 a6 => hm i j k l' ⟨hj, hk, ⟨a5, a6⟩⟩) l hl.1 hl.2 hs)))
  exact hall x trivial

/-- Transfinite interpolation reproduces an affine map: with affine surfaces
and unit-length reference edges the interpolated value is
`o + A (p, q, r)`. -/
theorem tfi_value_affine (b : block) (surf : Nat → surface) (o : Int → ℚ)
    (A : Int → Int → ℚ) (ha : affine_surfaces b surf o A)
    (h1 : ((b.c.nx 1 - 1 : Int) : ℚ) * b.dx 1 = 1)
    (h2 : b.ndim = 3 → ((b.c.nx 2 - 1 : Int) : ℚ) * b.dx 2 = 1)
    (i j k l : Int) (hi : 0 ≤ i ∧ i < b.ndim) :
    tfi_value b surf i j k l
      = o i + A i 0 * ref_coord b 0 j + A i 1 * ref_coord b 1 k + A i 2 * ref_coord b 2 l := by
  unfold tfi_value interp_point ref_coord
  by_cases h3 : b.ndim = 3
  · have h2' := h2 h3
    simp only [h3, if_true, store_same, store_store]
    simp only [(ha i _ _ hi.1 hi.2).1, (ha i _ _ hi.1 hi.2).2.1, (ha i _ _ hi.1 hi.2).2.2.1,
      (ha i _ _ hi.1 hi.2).2.2.2.1, ((ha i _ _ hi.1 hi.2).2.2.2.2 h3).1,
      ((ha i _ _ hi.1 hi.2).2.2.2.2 h3).2]
    push_cast at h1 h2' ⊢
    linear_combination
      (-(A i 2 * ((b.c.xm_loc 2 : ℚ) - b.c.xm 2 + l - b.c.xm_ghost 2) * b.dx 2)) * h2'
  · simp only [h3, if_false, store_same, store_store]
    simp only [(ha i _ _ hi.1 hi.2).1, (ha i _ _ hi.1 hi.2).2.1, (ha i _ _ hi.1 hi.2).2.2.1,
      (ha i _ _ hi.1 hi.2).2.2.2.1]
    push_cast at h1 ⊢
    linear_combination
      (-(A i 1 * ((b.c.xm_loc 1 : ℚ) - b.c.xm 1 + k - b.c.xm_ghost 1) * b.dx 1)) * h1

/-! ## Stencil sums -/

theorem foldl_accum_plus (L : List Int) (t : Int × Int × Int × Int × Int) (term : Int → ℚ)
    (xp : XP) (v : ℚ) :
    L.foldl (fun xp n => store xp t (xp t + term n)) (store xp t v)
      = store xp t (v + (L.map term).sum) := by
  induction L generalizing v with
  | nil => simp
  | cons a L ih =>
    simp only [List.foldl_cons, List.map_cons, List.sum_cons, store_same, store_store]
    rw [ih, add_assoc]

theorem foldl_accum_minus (L : List Int) (t : Int × Int × Int × Int × Int) (term : Int → ℚ)
    (xp : XP) (v : ℚ) :
    L.foldl (fun xp n => store xp t (xp t - term n)) (store xp t v)
      = store xp t (v - (L.map term).sum) := by
  induction L generalizing v with
  | nil => simp
  | cons a L ih =>
    simp only [List.foldl_cons, List.map_cons, List.sum_cons, store_same, store_store]
    rw [ih, sub_sub]

theorem accum_plus_eq (t : Int × Int × Int × Int × Int) (N : Int) (c g : Int → ℚ) (h : ℚ)
    (xp : XP) :
    accum_plus t N c g h xp = store xp t (stencil_sum N (fun n => c n * g n / h)) := by
  unfold accum_plus forRange stencil_sum
  rw [foldl_accum_plus, zero_add]

theorem accum_minus_eq (t : Int × Int × Int × Int × Int) (N : Int) (c g : Int → ℚ) (h : ℚ)
    (xp : XP) :
    accum_minus t N c g h xp = store xp t (-stencil_sum N (fun n => c n * g n / h)) := by
  unfold accum_minus forRange stencil_sum
  rw [foldl_accum_minus, zero_sub]

theorem list_sum_affine (L : List Int) (c w : Int → ℚ) (α β h : ℚ) :
    (L.map (fun n => c n * (α + β * w n) / h)).sum
      = (α * (L.map c).sum + β * (L.map (fun n => c n * w n)).sum) / h := by
  induction L with
  | nil => simp
  | cons a L ih =>
    simp only [List.map_cons, List.sum_cons, ih]
    ring

theorem stencil_sum_congr (N : Int) (f g : Int → ℚ)
    (h : ∀ n, 0 ≤ n → n < N → f n = g n) : stencil_sum N f = stencil_sum N g := by
  unfold stencil_sum
  congr 1
  apply List.map_congr_left
  intro n hn
  exact h n ((mem_irange _ _ _).mp hn).1 ((mem_irange _ _ _).mp hn).2

/-- A row that sums to zero and has unit first moment about `w = 0` returns the
slope of data that are affine in `w`. -/
theorem stencil_sum_affine (N : Int) (c g w : Int → ℚ) (α β h : ℚ)
    (hg : ∀ n, 0 ≤ n → n < N → g n = α + β * w n)
    (h0 : stencil_sum N c = 0) (h1 : stencil_sum N (fun n => c n * w n) = 1) :
    stencil_sum N (fun n => c n * g n / h) = β / h := by
  rw [stencil_sum_congr N _ (fun n => c n * (α + β * w n) / h)
    (fun n a1 a2 => by rw [hg n a1 a2])]
  unfold stencil_sum at *
  rw [list_sum_affine, h0, h1]
  ring

theorem stencil_sum_div_zero (N : Int) (c g : Int → ℚ) :
    stencil_sum N (fun n => c n * g n / 0) = 0 := by
  unfold stencil_sum
  simp

/-! ## The stencil loops -/

theorem stencil_left_keeps (b : block) (fd : fd_type) (x : Int → ℚ) (d : Nat)
    (tup : Int → Int → Int × Int × Int × Int × Int) (addr : Int → Int → Int)
    (t0 : Int × Int × Int × Int × Int)
    (hne : ∀ l i : Int, b.mlb d ≤ i → i < b.mc d → 0 ≤ l → l < b.ndim → tup l i ≠ t0)
    (xp : XP) :
    stencil_left b fd x d tup addr xp t0 = xp t0 := by
  have hk : Keeps (fun _ => True) (stencil_left b fd x d tup addr) (fun xp => xp t0) :=
    forRange_keeps _ _ _ (fun _ _ _ => pres_true _)
      (fun i h1 h2 => forRange_keeps _ _ _ (fun _ _ _ => pres_true _)
        (fun l h3 h4 s _ => by
          show accum_plus _ _ _ _ _ s t0 = s t0
          rw [accum_plus_eq]
          exact store_ne _ _ _ _ (fun h => hne l i h1 h2 h3 h4 h.symm)))
  exact hk xp trivial

theorem stencil_interior_keeps (b : block) (fd : fd_type) (x : Int → ℚ) (d : Nat)
    (tup : Int → Int → Int × Int × Int × Int × Int) (addr : Int → Int → Int)
    (t0 : Int × Int × Int × Int × Int)
    (hne : ∀ l i : Int, b.mc d ≤ i → i < b.mrb d → 0 ≤ l → l < b.ndim → tup l i ≠ t0)
    (xp : XP) :
    stencil_interior b fd x d tup addr xp t0 = xp t0 := by
  have hk : Keeps (fun _ => True) (stencil_interior b fd x d tup addr) (fun xp => xp t0) :=
    forRange_keeps _ _ _ (fun _ _ _ => pres_true _)
      (fun i h1 h2 => forRange_keeps _ _ _ (fun _ _ _ => pres_true _)
        (fun l h3 h4 s _ => by
          show accum_plus _ _ _ _ _ s t0 = s t0
          rw [accum_plus_eq]
          exact store_ne _ _ _ _ (fun h => hne l i h1 h2 h3 h4 h.symm)))
  exact hk xp trivial

theorem stencil_right_keeps (b : block) (fd : fd_type) (x : Int → ℚ) (d : Nat)
    (tup : Int → Int → Int × Int × Int × Int × Int) (addr : Int → Int → Int)
    (t0 : Int × Int × Int × Int × Int)
    (hne : ∀ l i : Int, b.mrb d ≤ i → i < b.prb d → 0 ≤ l → l < b.ndim → tup l i ≠ t0)
    (xp : XP) :
    stencil_right b fd x d tup addr xp t0 = xp t0 := by
  have hk : Keeps (fun _ => True) (stencil_right b fd x d tup addr) (fun xp => xp t0) :=
    forRange_keeps _ _ _ (fun _ _ _ => pres_true _)
      (fun i h1 h2 => forRange_keeps _ _ _ (fun _ _ _ => pres_true _)
        (fun l h3 h4 s _ => by
          show accum_minus _ _ _ _ _ s t0 = s t0
          rw [accum_minus_eq]
          exact store_ne _ _ _ _ (fun h => hne l i h1 h2 h3 h4 h.symm)))
  exact hk xp trivial

/-- A doubly nested loop whose leaves store `val l i` at `tup l i` leaves the
entry `t0` either untouched or at `v`, when every leaf addressing `t0` stores
`v`. -/
theorem leaf_loop_maySet (lo hi : Int) (ndim : Nat) (leaf : Int → Int → XP → XP)
    (tup : Int → Int → Int × Int × Int × Int × Int) (val : Int → Int → ℚ)
    (hleaf : ∀ i l xp, leaf i l xp = store xp (tup l i) (val l i))
    (t0 : Int × Int × Int × Int × Int) (v : ℚ)
    (hval : ∀ i l : Int, lo ≤ i → i < hi → 0 ≤ l → l < ndim → tup l i = t0 → val l i = v) :
    MaySet (fun _ => True)
      (forRange lo hi (fun i xp => forRange 0 ndim (fun l xp => leaf i l xp) xp))
      (fun xp : XP => xp t0) v := by
  refine forRange_maySet _ _ _ (fun _ _ _ => pres_true _) (fun i h1 h2 => ?_)
  refine forRange_maySet _ _ _ (fun _ _ _ => pres_true _) (fun l h3 h4 => ?_)
  intro s _
  show leaf i l s t0 = v ∨ leaf i l s t0 = s t0
  rw [hleaf]
  by_cases he : tup l i = t0
  · left; rw [← hval i l h1 h2 h3 h4 he, ← he, store_same]
  · right; exact store_ne _ _ _ _ (fun h => he h.symm)

/-- A doubly nested loop whose leaves store `val l i` at `tup l i` leaves `v`
at the entry `t0` when some leaf addresses `t0` and every leaf addressing `t0`
stores `v`. -/
theorem leaf_loop_sets (lo hi : Int) (ndim : Nat) (leaf : Int → Int → XP → XP)
    (tup : Int → Int → Int × Int × Int × Int × Int) (val : Int → Int → ℚ)
    (hleaf : ∀ i l xp, leaf i l xp = store xp (tup l i) (val l i))
    (t0 : Int × Int × Int × Int × Int) (v : ℚ)
    (hval : ∀ i l : Int, lo ≤ i → i < hi → 0 ≤ l → l < ndim → tup l i = t0 → val l i = v)
    (i0 l0 : Int) (hi0 : lo ≤ i0 ∧ i0 < hi) (hl0 : 0 ≤ l0 ∧ l0 < ndim)
    (ht : tup l0 i0 = t0) :
    Sets (fun _ => True)
      (forRange lo hi (fun i xp => forRange 0 ndim (fun l xp => leaf i l xp) xp))
      (fun xp : XP => xp t0) v := by
  have hm : ∀ i l : Int, lo ≤ i → i < hi → 0 ≤ l → l < ndim →
      MaySet (fun _ => True) (leaf i l) (fun xp : XP => xp t0) v := by
    intro i l h1 h2 h3 h4 s _
    show leaf i l s t0 = v ∨ leaf i l s t0 = s t0
    rw [hleaf]
    by_cases he : tup l i = t0
    · left; rw [← hval i l h1 h2 h3 h4 he, ← he, store_same]
    · right; exact store_ne _ _ _ _ (fun h => he h.symm)
  have hs : Sets (fun _ => True) (leaf i0 l0) (fun xp : XP => xp t0) v := by
    intro s _
    show leaf i0 l0 s t0 = v
    rw [hleaf, ← hval i0 l0 hi0.1 hi0.2 hl0.1 hl0.2 ht, ← ht, store_same]
  exact forRange_sets _ _ _ (fun _ _ _ => pres_true _)
      (fun i h1 h2 => forRange_maySet _ _ _ (fun _ _ _ => pres_true _)
        (fun l h3 h4 => hm i l h1 h2 h3 h4))
      i0 hi0.1 hi0.2
      (forRange_sets _ _ _ (fun _ _ _ => pres_true _)
        (fun l h3 h4 => hm i0 l hi0.1 hi0.2 h3 h4) l0 hl0.1 hl0.2 hs)

/-- Value the left-closure loop stores for component `l` at index `i`. -/
theorem stencil_left_leaf (b : block) (fd : fd_type) (x : Int → ℚ) (d : Nat)
    (tup : Int → Int → Int × Int × Int × Int × Int) (addr : Int → Int → Int)
    (i l : Int) (xp : XP) :
    accum_plus (tup l i) (3 * (fd.sbporder - 1)) (fd.fdcoeff (i - b.mlb d + 1))
        (fun n => x (addr l (b.mlb d + n))) (b.dx d) xp
      = store xp (tup l i) (left_value b fd x d addr l i) := by
  rw [accum_plus_eq]; rfl

theorem stencil_interior_leaf (b : block) (fd : fd_type) (x : Int → ℚ) (d : Nat)
    (tup : Int → Int → Int × Int × Int × Int × Int) (addr : Int → Int → Int)
    (i l : Int) (xp : XP) :
    accum_plus (tup l i) (2 * fd.sbporder - 1) (fd.fdcoeff 0)
        (fun n => x (addr l (i - fd.sbporder + 1 + n))) (b.dx d) xp
      = store xp (tup l i) (interior_value b fd x d addr l i) := by
  rw [accum_plus_eq]; rfl

theorem stencil_right_leaf (b : block) (fd : fd_type) (x : Int → ℚ) (d : Nat)
    (tup : Int → Int → Int × Int × Int × Int × Int) (addr : Int → Int → Int)
    (i l : Int) (xp : XP) :
    accum_minus (tup l i) (3 * (fd.sbporder - 1)) (fd.fdcoeff (b.prb d - i))
        (fun n => x (addr l (b.prb d - 1 - n))) (b.dx d) xp
      = store xp (tup l i) (right_value b fd x d addr l i) := by
  rw [accum_minus_eq]; rfl

/-- The three stencil loops of one direction leave `v` at the entry `t0` when
some index `i0` of the direction's range and component `l0` address `t0` and
every region's leaf addressing `t0` stores `v`. -/
theorem stencil_regions_sets (b : block) (fd : fd_type) (x : Int → ℚ) (d : Nat)
    (tup : Int → Int → Int × Int × Int × Int × Int) (addr : Int → Int → Int)
    (t0 : Int × Int × Int × Int × Int) (v : ℚ)
    (hL : ∀ i l : Int, b.mlb d ≤ i → i < b.mc d → 0 ≤ l → l < b.ndim → tup l i = t0 →
      left_value b fd x d addr l i = v)
    (hM : ∀ i l : Int, b.mc d ≤ i → i < b.mrb d → 0 ≤ l → l < b.ndim → tup l i = t0 →
      interior_value b fd x d addr l i = v)
    (hR : ∀ i l : Int, b.mrb d ≤ i → i < b.prb d → 0 ≤ l → l < b.ndim → tup l i = t0 →
      right_value b fd x d addr l i = v)
    (i0 l0 : Int) (hi0 : b.mlb d ≤ i0 ∧ i0 < b.prb d) (hl0 : 0 ≤ l0 ∧ l0 < b.ndim)
    (ht : tup l0 i0 = t0) (xp : XP) :
    stencil_regions b fd x d tup addr xp t0 = v := by
  have mL := leaf_loop_maySet (b.mlb d) (b.mc d) b.ndim _ tup _
    (fun i l xp => stencil_left_leaf b fd x d tup addr i l xp) t0 v hL
  have mM := leaf_loop_maySet (b.mc d) (b.mrb d) b.ndim _ tup _
    (fun i l xp => stencil_interior_leaf b fd x d tup addr i l xp) t0 v hM
  have mR := leaf_loop_maySet (b.mrb d) (b.prb d) b.ndim _ tup _
    (fun i l xp => stencil_right_leaf b fd x d tup addr i l xp) t0 v hR
  have sL := fun h => leaf_loop_sets (b.mlb d) (b.mc d) b.ndim _ tup _
    (fun i l xp => stencil_left_leaf b fd x d tup addr i l xp) t0 v hL i0 l0 h hl0 ht
  have sM := fun h => leaf_loop_sets (b.mc d) (b.mrb d) b.ndim _ tup _
    (fun i l xp => stencil_interior_leaf b fd x d tup addr i l xp) t0 v hM i0 l0 h hl0 ht
  have sR := fun h => leaf_loop_sets (b.mrb d) (b.prb d) b.ndim _ tup _
    (fun i l xp => stencil_right_leaf b fd x d tup addr i l xp) t0 v hR i0 l0 h hl0 ht
  show stencil_right b fd x d tup addr
    (stencil_interior b fd x d tup addr (stencil_left b fd x d tup addr xp)) t0 = v
  by_cases h3 : b.mrb d ≤ i0
  · exact sR ⟨h3, hi0.2⟩ _ trivial
  · rcases mR (stencil_interior b fd x d tup addr (stencil_left b fd x d tup addr xp)) trivial
      with h | h
    · exact h
    · refine h.trans ?_
      by_cases h2 : b.mc d ≤ i0
      · exact sM ⟨h2, by omega⟩ _ trivial
      · rcases mM (stencil_left b fd x d tup addr xp) trivial with h | h
        · exact h
        · exact h.trans (sL ⟨hi0.1, by omega⟩ _ trivial)

/-- The three stencil loops of one direction leave alone every entry that none
of their leaves addresses. -/
theorem stencil_regions_keeps (b : block) (fd : fd_type) (x : Int → ℚ) (d : Nat)
    (tup : Int → Int → Int × Int × Int × Int × Int) (addr : Int → Int → Int)
    (t0 : Int × Int × Int × Int × Int)
    (hne : ∀ l i : Int, 0 ≤ l → l < b.ndim → tup l i ≠ t0) (xp : XP) :
    stencil_regions b fd x d tup addr xp t0 = xp t0 := by
  show stencil_right b fd x d tup addr
    (stencil_interior b fd x d tup addr (stencil_left b fd x d tup addr xp)) t0 = xp t0
  rw [stencil_right_keeps _ _ _ _ _ _ _ (fun l i _ _ => hne l i),
    stencil_interior_keeps _ _ _ _ _ _ _ (fun l i _ _ => hne l i),
    stencil_left_keeps _ _ _ _ _ _ _ (fun l i _ _ => hne l i)]

/-- The three stencil loops of one direction leave the entry `t0` untouched or
at `v`, when every leaf addressing `t0` stores `v`. -/
theorem stencil_regions_maySet (b : block) (fd : fd_type) (x : Int → ℚ) (d : Nat)
    (tup : Int → Int → Int × Int × Int × Int × Int) (addr : Int → Int → Int)
    (t0 : Int × Int × Int × Int × Int) (v : ℚ)
    (hL : ∀ i l : Int, b.mlb d ≤ i → i < b.mc d → 0 ≤ l → l < b.ndim → tup l i = t0 →
      left_value b fd x d addr l i = v)
    (hM : ∀ i l : Int, b.mc d ≤ i → i < b.mrb d → 0 ≤ l → l < b.ndim → tup l i = t0 →
      interior_value b fd x d addr l i = v)
    (hR : ∀ i l : Int, b.mrb d ≤ i → i < b.prb d → 0 ≤ l → l < b.ndim → tup l i = t0 →
      right_value b fd x d addr l i = v) :
    MaySet (fun _ => True) (stencil_regions b fd x d tup addr) (fun xp : XP => xp t0) v := by
  have mL := leaf_loop_maySet (b.mlb d) (b.mc d) b.ndim _ tup _
    (fun i l xp => stencil_left_leaf b fd x d tup addr i l xp) t0 v hL
  have mM := leaf_loop_maySet (b.mc d) (b.mrb d) b.ndim _ tup _
    (fun i l xp => stencil_interior_leaf b fd x d tup addr i l xp) t0 v hM
  have mR := leaf_loop_maySet (b.mrb d) (b.prb d) b.ndim _ tup _
    (fun i l xp => stencil_right_leaf b fd x d tup addr i l xp) t0 v hR
  intro xp _
  show stencil_right b fd x d tup addr
      (stencil_interior b fd x d tup addr (stencil_left b fd x d tup addr xp)) t0 = v
    ∨ stencil_right b fd x d tup addr
      (stencil_interior b fd x d tup addr (stencil_left b fd x d tup addr xp)) t0 = xp t0
  rcases mR (stencil_interior b fd x d tup addr (stencil_left b fd x d tup addr xp)) trivial
    with h | h
  · exact Or.inl h
  · rcases mM (stencil_left b fd x d tup addr xp) trivial with h2 | h2
    · exact Or.inl (h.trans h2)
    · rcases mL xp trivial with h3 | h3
      · exact Or.inl (h.trans (h2.trans h3))
      · exact Or.inr (h.trans (h2.trans h3))

/-- A derivative loop nest (two outer loops around the three stencil loops)
leaves `v` at the entry `t0` when some iteration addresses `t0` and every leaf
addressing `t0` stores `v`. -/
theorem nest_sets (b : block) (fd : fd_type) (x : Int → ℚ) (d : Nat) (a1 b1 a2 b2 : Int)
    (tupf : Int → Int → Int → Int → Int × Int × Int × Int × Int)
    (addrf : Int → Int → Int → Int → Int)
    (t0 : Int × Int × Int × Int × Int) (v : ℚ)
    (hL : ∀ j k i l : Int, a1 ≤ j → j < b1 → a2 ≤ k → k < b2 → b.mlb d ≤ i → i < b.mc d →
      0 ≤ l → l < b.ndim → tupf j k l i = t0 → left_value b fd x d (addrf j k) l i = v)
    (hM : ∀ j k i l : Int, a1 ≤ j → j < b1 → a2 ≤ k → k < b2 → b.mc d ≤ i → i < b.mrb d →
      0 ≤ l → l < b.ndim → tupf j k l i = t0 → interior_value b fd x d (addrf j k) l i = v)
    (hR : ∀ j k i l : Int, a1 ≤ j → j < b1 → a2 ≤ k → k < b2 → b.mrb d ≤ i → i < b.prb d →
      0 ≤ l → l < b.ndim → tupf j k l i = t0 → right_value b fd x d (addrf j k) l i = v)
    (j0 k0 i0 l0 : Int) (hj0 : a1 ≤ j0 ∧ j0 < b1) (hk0 : a2 ≤ k0 ∧ k0 < b2)
    (hi0 : b.mlb d ≤ i0 ∧ i0 < b.prb d) (hl0 : 0 ≤ l0 ∧ l0 < b.ndim)
    (ht : tupf j0 k0 l0 i0 = t0) (xp : XP) :
    forRange a1 b1 (fun j xp => forRange a2 b2 (fun k xp =>
      stencil_regions b fd x d (tupf j k) (addrf j k) xp) xp) xp t0 = v := by
  have hm : ∀ j k : Int, a1 ≤ j → j < b1 → a2 ≤ k → k < b2 →
      MaySet (fun _ => True) (stencil_regions b fd x d (tupf j k) (addrf j k))
        (fun xp : XP => xp t0) v :=
    fun j k h1 h2 h3 h4 => stencil_regions_maySet b fd x d _ _ t0 v
      (fun i l => hL j k i l h1 h2 h3 h4) (fun i l => hM j k i l h1 h2 h3 h4)
      (fun i l => hR j k i l h1 h2 h3 h4)
  have hs : Sets (fun _ => True) (stencil_regions b fd x d (tupf j0 k0) (addrf j0 k0))
      (fun xp : XP => xp t0) v :=
    fun s _ => stencil_regions_sets b fd x d _ _ t0 v
      (fun i l => hL j0 k0 i l hj0.1 hj0.2 hk0.1 hk0.2)
      (fun i l => hM j0 k0 i l hj0.1 hj0.2 hk0.1 hk0.2)
      (fun i l => hR j0 k0 i l hj0.1 hj0.2 hk0.1 hk0.2) i0 l0 hi0 hl0 ht s
  have hall : Sets (fun _ => True)
      (forRange a1 b1 (fun j xp => forRange a2 b2 (fun k xp =>
        stencil_regions b fd x d (tupf j k) (addrf j k) xp) xp))
      (fun xp : XP => xp t0) v :=
    forRange_sets _ _ _ (fun _ _ _ => pres_true _)
      (fun j h1 h2 => forRange_maySet _ _ _ (fun _ _ _ => pres_true _)
        (fun k h3 h4 => hm j k h1 h2 h3 h4))
      j0 hj0.1 hj0.2
      (forRange_sets _ _ _ (fun _ _ _ => pres_true _)
        (fun k h3 h4 => hm j0 k hj0.1 hj0.2 h3 h4) k0 hk0.1 hk0.2 hs)
  exact hall xp trivial

/-- A derivative loop nest leaves alone every entry none of its leaves
addresses. -/
theorem nest_keeps (b : block) (fd : fd_type) (x : Int → ℚ) (d : Nat) (a1 b1 a2 b2 : Int)
    (tupf : Int → Int → Int → Int → Int × Int × Int × Int × Int)
    (addrf : Int → Int → Int → Int → Int)
    (t0 : Int × Int × Int × Int × Int)
    (hne : ∀ j k l i : Int, 0 ≤ l → l < b.ndim → tupf j k l i ≠ t0) (xp : XP) :
    forRange a1 b1 (fun j xp => forRange a2 b2 (fun k xp =>
      stencil_regions b fd x d (tupf j k) (addrf j k) xp) xp) xp t0 = xp t0 := by
  have hall : Keeps (fun _ => True)
      (forRange a1 b1 (fun j xp => forRange a2 b2 (fun k xp =>
        stencil_regions b fd x d (tupf j k) (addrf j k) xp) xp))
      (fun xp : XP => xp t0) :=
    forRange_keeps _ _ _ (fun _ _ _ => pres_true _)
      (fun j _ _ => forRange_keeps _ _ _ (fun _ _ _ => pres_true _)
        (fun k _ _ s _ => stencil_regions_keeps b fd x d _ _ t0 (hne j k) s))
  exact hall xp trivial

/-! ## Stencils on affine data -/

/-- On data affine in the index, a left-closure row returns the slope over
`dx`. -/
theorem left_value_affine (b : block) (fd : fd_type) (x : Int → ℚ) (d : Nat)
    (addr : Int → Int → Int) (l i : Int) (α β : ℚ) (hfd : fd_exact fd)
    (hr : b.mlb d ≤ i ∧ i - b.mlb d + 1 ≤ 2 * (fd.sbporder - 1))
    (hg : ∀ a : Int, b.mlb d ≤ a → a < b.mlb d + 3 * (fd.sbporder - 1) →
      x (addr l a) = α + β * (a : ℚ)) :
    left_value b fd x d addr l i = β / b.dx d := by
  obtain ⟨h0, h1⟩ := hfd.2 (i - b.mlb d + 1) (by omega) hr.2
  unfold left_value
  refine stencil_sum_affine _ _ (fun n => x (addr l (b.mlb d + n)))
    (fun n => (n : ℚ) - (((i - b.mlb d + 1 : Int) : ℚ) - 1)) (α + β * (i : ℚ)) β _ ?_ h0 h1
  intro n hn0 hn1
  show x (addr l (b.mlb d + n)) = _
  rw [hg (b.mlb d + n) (by omega) (by omega)]
  push_cast
  ring

/-- On data affine in the index, the interior row returns the slope over
`dx`. -/
theorem interior_value_affine (b : block) (fd : fd_type) (x : Int → ℚ) (d : Nat)
    (addr : Int → Int → Int) (l i : Int) (α β : ℚ) (hfd : fd_exact fd)
    (hg : ∀ a : Int, i - (fd.sbporder - 1) ≤ a → a ≤ i + (fd.sbporder - 1) →
      x (addr l a) = α + β * (a : ℚ)) :
    interior_value b fd x d addr l i = β / b.dx d := by
  obtain ⟨h0, h1⟩ := hfd.1
  unfold interior_value
  refine stencil_sum_affine _ _ (fun n => x (addr l (i - fd.sbporder + 1 + n)))
    (fun n => (n : ℚ) - ((fd.sbporder : ℚ) - 1)) (α + β * (i : ℚ)) β _ ?_ h0 h1
  intro n hn0 hn1
  show x (addr l (i - fd.sbporder + 1 + n)) = _
  rw [hg (i - fd.sbporder + 1 + n) (by omega) (by omega)]
  push_cast
  ring

/-- On data affine in the index, a right-closure row (mirrored, with the sign
flipped by the subtraction) returns the slope over `dx`. -/
theorem right_value_affine (b : block) (fd : fd_type) (x : Int → ℚ) (d : Nat)
    (addr : Int → Int → Int) (l i : Int) (α β : ℚ) (hfd : fd_exact fd)
    (hr : i < b.prb d ∧ b.prb d - i ≤ 2 * (fd.sbporder - 1))
    (hg : ∀ a : Int, b.prb d - 3 * (fd.sbporder - 1) ≤ a → a < b.prb d →
      x (addr l a) = α + β * (a : ℚ)) :
    right_value b fd x d addr l i = β / b.dx d := by
  obtain ⟨h0, h1⟩ := hfd.2 (b.prb d - i) (by omega) hr.2
  unfold right_value
  rw [stencil_sum_affine _ _ (fun n => x (addr l (b.prb d - 1 - n)))
    (fun n => (n : ℚ) - (((b.prb d - i : Int) : ℚ) - 1)) (α + β * (i : ℚ)) (-β) _ ?_ h0 h1]
  · ring
  · intro n hn0 hn1
    show x (addr l (b.prb d - 1 - n)) = _
    rw [hg (b.prb d - 1 - n) (by omega) (by omega)]
    push_cast
    ring

/-- A derivative loop nest on data that are affine along the stencil
direction, with exact rows and regions that fit the window, leaves the slope
over `dx` at the entry of every point of the nest. -/
theorem nest_affine (b : block) (fd : fd_type) (x : Int → ℚ) (d : Nat) (a1 b1 a2 b2 : Int)
    (tupf : Int → Int → Int → Int → Int × Int × Int × Int × Int)
    (addrf : Int → Int → Int → Int → Int) (hfd : fd_exact fd)
    (hwin : stencil_window b fd.sbporder d)
    (hgh : 0 ≤ b.c.xm_ghost d ∧ 0 ≤ b.c.xp_ghost d)
    (j0 k0 i0 l0 : Int) (hj0 : a1 ≤ j0 ∧ j0 < b1) (hk0 : a2 ≤ k0 ∧ k0 < b2)
    (hi0 : b.mlb d ≤ i0 ∧ i0 < b.prb d) (hl0 : 0 ≤ l0 ∧ l0 < b.ndim)
    (hinj : ∀ j k l i : Int, tupf j k l i = tupf j0 k0 l0 i0 →
      j = j0 ∧ k = k0 ∧ l = l0 ∧ i = i0)
    (α β : ℚ)
    (hg : ∀ a : Int, b.mlb d - b.c.xm_ghost d ≤ a → a < b.prb d + b.c.xp_ghost d →
      x (addrf j0 k0 l0 a) = α + β * (a : ℚ)) (xp : XP) :
    forRange a1 b1 (fun j xp => forRange a2 b2 (fun k xp =>
      stencil_regions b fd x d (tupf j k) (addrf j k) xp) xp) xp (tupf j0 k0 l0 i0)
      = β / b.dx d := by
  obtain ⟨w1, w2, w3, w4, w5, w6, w7⟩ := hwin
  refine nest_sets b fd x d a1 b1 a2 b2 tupf addrf _ _ ?_ ?_ ?_ j0 k0 i0 l0 hj0 hk0 hi0 hl0
    rfl xp
  · intro j k i l _ _ _ _ h5 h6 _ _ ht
    obtain ⟨rfl, rfl, rfl, rfl⟩ := hinj j k l i ht
    exact left_value_affine b fd x d _ l i α β hfd ⟨h5, by omega⟩
      (fun a ha1 ha2 => hg a (by omega) (by have := w5 (by omega); omega))
  · intro j k i l _ _ _ _ h5 h6 _ _ ht
    obtain ⟨rfl, rfl, rfl, rfl⟩ := hinj j k l i ht
    exact interior_value_affine b fd x d _ l i α β hfd
      (fun a ha1 ha2 => by
        have := w7 (by omega)
        exact hg a (by omega) (by omega))
  · intro j k i l _ _ _ _ h5 h6 _ _ ht
    obtain ⟨rfl, rfl, rfl, rfl⟩ := hinj j k l i ht
    exact right_value_affine b fd x d _ l i α β hfd ⟨h6, by omega⟩
      (fun a ha1 ha2 => hg a (by have := w6 (by omega); omega) (by omega))

/-- With `dx = 0` every stencil value is zero, so a derivative loop nest leaves
zero at the entry of every point of the nest. -/
theorem nest_zero (b : block) (fd : fd_type) (x : Int → ℚ) (d : Nat) (a1 b1 a2 b2 : Int)
    (tupf : Int → Int → Int → Int → Int × Int × Int × Int × Int)
    (addrf : Int → Int → Int → Int → Int) (hdx : b.dx d = 0)
    (j0 k0 i0 l0 : Int) (hj0 : a1 ≤ j0 ∧ j0 < b1) (hk0 : a2 ≤ k0 ∧ k0 < b2)
    (hi0 : b.mlb d ≤ i0 ∧ i0 < b.prb d) (hl0 : 0 ≤ l0 ∧ l0 < b.ndim) (xp : XP) :
    forRange a1 b1 (fun j xp => forRange a2 b2 (fun k xp =>
      stencil_regions b fd x d (tupf j k) (addrf j k) xp) xp) xp (tupf j0 k0 l0 i0) = 0 := by
  refine nest_sets b fd x d a1 b1 a2 b2 tupf addrf _ _ ?_ ?_ ?_ j0 k0 i0 l0 hj0 hk0 hi0 hl0
    rfl xp
  · intro j k i l _ _ _ _ _ _ _ _ _
    unfold left_value; rw [hdx]; exact stencil_sum_div_zero _ _ _
  · intro j k i l _ _ _ _ _ _ _ _ _
    unfold interior_value; rw [hdx]; exact stencil_sum_div_zero _ _ _
  · intro j k i l _ _ _ _ _ _ _ _ _
    unfold right_value; rw [hdx, stencil_sum_div_zero, neg_zero]

/-! ## Initialisation of the scratch tensor and the grid spacings -/

theorem xp_init_at (b : block) (xp : XP) (i j k l m : Int) (hi : 0 ≤ i ∧ i < 3)
    (hj : 0 ≤ j ∧ j < 3) (hk : 0 ≤ k ∧ k < b.c.nx_loc 0) (hl : 0 ≤ l ∧ l < b.c.nx_loc 1)
    (hm : 0 ≤ m ∧ m < b.c.nx_loc 2) :
    xp_init b xp (i, j, k, l, m) = if i = j then 1 else 0 := by
  have hms : ∀ i' j' k' l' m' : Int,
      MaySet (fun _ => True)
        (fun xp : XP => store xp (i', j', k', l', m') (if i' = j' then (1 : ℚ) else 0))
        (fun xp : XP => xp (i, j, k, l, m)) (if i = j then 1 else 0) := by
    intro i' j' k' l' m' s _
    show store s _ _ (i, j, k, l, m) = _ ∨ store s _ _ (i, j, k, l, m) = _
    by_cases he : (i, j, k, l, m) = (i', j', k', l', m')
    · left
      rw [← he, store_same]
      simp only [Prod.mk.injEq] at he
      rw [he.1, he.2.1]
    · exact Or.inr (store_ne _ _ _ _ he)
  have hs : Sets (fun _ => True)
      (fun xp : XP => store xp (i, j, k, l, m) (if i = j then (1 : ℚ) else 0))
      (fun xp : XP => xp (i, j, k, l, m)) (if i = j then 1 else 0) :=
    fun s _ => store_same _ _ _
  have hall : Sets (fun _ => True) (xp_init b)
      (fun xp : XP => xp (i, j, k, l, m)) (if i = j then 1 else 0) :=
    forRange_sets _ _ _ (fun _ _ _ => pres_true _)
      (fun i' _ _ => forRange_maySet _ _ _ (fun _ _ _ => pres_true _)
        (fun j' _ _ => forRange_maySet _ _ _ (fun _ _ _ => pres_true _)
          (fun k' _ _ => forRange_maySet _ _ _ (fun _ _ _ => pres_true _)
            (fun l' _ _ => forRange_maySet _ _ _ (fun _ _ _ => pres_true _)
              (fun m' _ _ => hms i' j' k' l' m')))))
      i hi.1 hi.2
      (forRange_sets _ _ _ (fun _ _ _ => pres_true _)
        (fun j' _ _ => forRange_maySet _ _ _ (fun _ _ _ => pres_true _)
          (fun k' _ _ => forRange_maySet _ _ _ (fun _ _ _ => pres_true _)
            (fun l' _ _ => forRange_maySet _ _ _ (fun _ _ _ => pres_true _)
              (fun m' _ _ => hms i j' k' l' m'))))
        j hj.1 hj.2
        (forRange_sets _ _ _ (fun _ _ _ => pres_true _)
          (fun k' _ _ => forRange_maySet _ _ _ (fun _ _ _ => pres_true _)
            (fun l' _ _ => forRange_maySet _ _ _ (fun _ _ _ => pres_true _)
              (fun m' _ _ => hms i j k' l' m')))
          k hk.1 hk.2
          (forRange_sets _ _ _ (fun _ _ _ => pres_true _)
            (fun l' _ _ => forRange_maySet _ _ _ (fun _ _ _ => pres_true _)
              (fun m' _ _ => hms i j k l' m'))
            l hl.1 hl.2
            (forRange_sets _ _ _ (fun _ _ _ => pres_true _)
              (fun m' _ _ => hms i j k l m') m hm.1 hm.2 hs))))
  exact hall xp trivial

theorem set_dx_dx (b : block) (d : Nat) (hd : d < 3) :
    (set_dx b).dx d = 1 / ((b.c.nx d - 1 : Int) : ℚ) := by
  unfold set_dx
  interval_cases d <;> simp [List.range_succ, setAt]

theorem set_dx_dx_mul (b : block) (d : Nat) (hd : d < 3) (hnx : 2 ≤ b.c.nx d) :
    ((b.c.nx d - 1 : Int) : ℚ) * (set_dx b).dx d = 1 := by
  rw [set_dx_dx b d hd]
  have h : ((b.c.nx d - 1 : Int) : ℚ) ≠ 0 := by
    have : b.c.nx d - 1 ≠ 0 := by omega
    exact_mod_cast this
  rw [mul_one_div, div_self h]

theorem set_dx_dx_ne (b : block) (d : Nat) (hd : d < 3) (hnx : 2 ≤ b.c.nx d) :
    (set_dx b).dx d ≠ 0 := by
  intro h
  have := set_dx_dx_mul b d hd hnx
  rw [h, mul_zero] at this
  exact zero_ne_one this

theorem set_dx_dx_zero (b : block) (d : Nat) (hd : d < 3) (hnx : b.c.nx d = 1) :
    (set_dx b).dx d = 0 := by
  rw [set_dx_dx b d hd, hnx]
  simp

/-! ## The three derivative loop nests -/

/-- The x-derivative loop nest on data affine along dimension 0. -/
theorem x_derivatives_affine (b : block) (fd : fd_type) (x : Int → ℚ) (hfd : fd_exact fd)
    (hwin : stencil_window b fd.sbporder 0)
    (hgh : 0 ≤ b.c.xm_ghost 0 ∧ 0 ≤ b.c.xp_ghost 0)
    (i j k l : Int) (hown : owned b i j k) (hl : 0 ≤ l ∧ l < b.ndim) (α β : ℚ)
    (hg : ∀ a : Int, b.mlb 0 - b.c.xm_ghost 0 ≤ a → a < b.prb 0 + b.c.xp_ghost 0 →
      x (xidx b l a j k) = α + β * (a : ℚ)) (xp : XP) :
    x_derivatives b fd x xp (l, 0, i - b.mlb 0, j - b.mlb 1, k - b.mlb 2) = β / b.dx 0 :=
  nest_affine b fd x 0 _ _ _ _ (fun j k l i => (l, 0, i - b.mlb 0, j - b.mlb 1, k - b.mlb 2))
    (fun j k l a => l * b.nxd 0 + a * b.nxd 1 + j * b.nxd 2 + k) hfd hwin hgh
    j k i l hown.2.1 hown.2.2 hown.1 hl
    (fun j' k' l' i' h => by
      simp only [Prod.mk.injEq] at h
      refine ⟨?_, ?_, ?_, ?_⟩ <;> omega)
    α β hg xp

/-- With `dx[0] = 0` the x-derivative loop nest leaves zero. -/
theorem x_derivatives_zero (b : block) (fd : fd_type) (x : Int → ℚ) (hdx : b.dx 0 = 0)
    (i j k l : Int) (hown : owned b i j k) (hl : 0 ≤ l ∧ l < b.ndim) (xp : XP) :
    x_derivatives b fd x xp (l, 0, i - b.mlb 0, j - b.mlb 1, k - b.mlb 2) = 0 :=
  nest_zero b fd x 0 _ _ _ _ (fun j k l i => (l, 0, i - b.mlb 0, j - b.mlb 1, k - b.mlb 2))
    (fun j k l a => l * b.nxd 0 + a * b.nxd 1 + j * b.nxd 2 + k) hdx
    j k i l hown.2.1 hown.2.2 hown.1 hl xp

/-- The x-derivative loop nest writes only entries `xp[l][0]` with
`l < ndim`. -/
theorem x_derivatives_keeps (b : block) (fd : fd_type) (x : Int → ℚ)
    (t0 : Int × Int × Int × Int × Int)
    (h : t0.2.1 ≠ 0 ∨ t0.1 < 0 ∨ (b.ndim : Int) ≤ t0.1) (xp : XP) :
    x_derivatives b fd x xp t0 = xp t0 :=
  nest_keeps b fd x 0 _ _ _ _ (fun j k l i => (l, 0, i - b.mlb 0, j - b.mlb 1, k - b.mlb 2))
    (fun j k l a => l * b.nxd 0 + a * b.nxd 1 + j * b.nxd 2 + k) t0
    (fun j k l i h1 h2 he => by
      subst he
      simp only [ne_eq, not_true_eq_false, false_or] at h
      omega) xp

/-- The y-derivative loop nest on data affine along dimension 1. -/
theorem y_derivatives_affine (b : block) (fd : fd_type) (x : Int → ℚ) (hfd : fd_exact fd)
    (hwin : stencil_window b fd.sbporder 1)
    (hgh : 0 ≤ b.c.xm_ghost 1 ∧ 0 ≤ b.c.xp_ghost 1)
    (i j k l : Int) (hown : owned b i j k) (hl : 0 ≤ l ∧ l < b.ndim) (α β : ℚ)
    (hg : ∀ a : Int, b.mlb 1 - b.c.xm_ghost 1 ≤ a → a < b.prb 1 + b.c.xp_ghost 1 →
      x (xidx b l i a k) = α + β * (a : ℚ)) (xp : XP) :
    y_derivatives b fd x xp (l, 1, i - b.mlb 0, j - b.mlb 1, k - b.mlb 2) = β / b.dx 1 :=
  nest_affine b fd x 1 _ _ _ _ (fun j k l i => (l, 1, j - b.mlb 0, i - b.mlb 1, k - b.mlb 2))
    (fun j k l a => l * b.nxd 0 + j * b.nxd 1 + a * b.nxd 2 + k) hfd hwin hgh
    i k j l hown.1 hown.2.2 hown.2.1 hl
    (fun j' k' l' i' h => by
      simp only [Prod.mk.injEq] at h
      refine ⟨?_, ?_, ?_, ?_⟩ <;> omega)
    α β hg xp

/-- With `dx[1] = 0` the y-derivative loop nest leaves zero. -/
theorem y_derivatives_zero (b : block) (fd : fd_type) (x : Int → ℚ) (hdx : b.dx 1 = 0)
    (i j k l : Int) (hown : owned b i j k) (hl : 0 ≤ l ∧ l < b.ndim) (xp : XP) :
    y_derivatives b fd x xp (l, 1, i - b.mlb 0, j - b.mlb 1, k - b.mlb 2) = 0 :=
  nest_zero b fd x 1 _ _ _ _ (fun j k l i => (l, 1, j - b.mlb 0, i - b.mlb 1, k - b.mlb 2))
    (fun j k l a => l * b.nxd 0 + j * b.nxd 1 + a * b.nxd 2 + k) hdx
    i k j l hown.1 hown.2.2 hown.2.1 hl xp

/-- The y-derivative loop nest writes only entries `xp[l][1]` with
`l < ndim`. -/
theorem y_derivatives_keeps (b : block) (fd : fd_type) (x : Int → ℚ)
    (t0 : Int × Int × Int × Int × Int)
    (h : t0.2.1 ≠ 1 ∨ t0.1 < 0 ∨ (b.ndim : Int) ≤ t0.1) (xp : XP) :
    y_derivatives b fd x xp t0 = xp t0 :=
  nest_keeps b fd x 1 _ _ _ _ (fun j k l i => (l, 1, j - b.mlb 0, i - b.mlb 1, k - b.mlb 2))
    (fun j k l a => l * b.nxd 0 + j * b.nxd 1 + a * b.nxd 2 + k) t0
    (fun j k l i h1 h2 he => by
      subst he
      simp only [ne_eq, not_true_eq_false, false_or] at h
      omega) xp

/-- The z-derivative loop nest on data affine along dimension 2. -/
theorem z_derivatives_affine (b : block) (fd : fd_type) (x : Int → ℚ) (hfd : fd_exact fd)
    (hwin : stencil_window b fd.sbporder 2)
    (hgh : 0 ≤ b.c.xm_ghost 2 ∧ 0 ≤ b.c.xp_ghost 2)
    (i j k l : Int) (hown : owned b i j k) (hl : 0 ≤ l ∧ l < b.ndim) (α β : ℚ)
    (hg : ∀ a : Int, b.mlb 2 - b.c.xm_ghost 2 ≤ a → a < b.prb 2 + b.c.xp_ghost 2 →
      x (xidx b l i j a) = α + β * (a : ℚ)) (xp : XP) :
    z_derivatives b fd x xp (l, 2, i - b.mlb 0, j - b.mlb 1, k - b.mlb 2) = β / b.dx 2 :=
  nest_affine b fd x 2 _ _ _ _ (fun j k l i => (l, 2, j - b.mlb 0, k - b.mlb 1, i - b.mlb 2))
    (fun j k l a => l * b.nxd 0 + j * b.nxd 1 + k * b.nxd 2 + a) hfd hwin hgh
    i j k l hown.1 hown.2.1 hown.2.2 hl
    (fun j' k' l' i' h => by
      simp only [Prod.mk.injEq] at h
      refine ⟨?_, ?_, ?_, ?_⟩ <;> omega)
    α β hg xp

/-- With `dx[2] = 0` the z-derivative loop nest leaves zero. -/
theorem z_derivatives_zero (b : block) (fd : fd_type) (x : Int → ℚ) (hdx : b.dx 2 = 0)
    (i j k l : Int) (hown : owned b i j k) (hl : 0 ≤ l ∧ l < b.ndim) (xp : XP) :
    z_derivatives b fd x xp (l, 2, i - b.mlb 0, j - b.mlb 1, k - b.mlb 2) = 0 :=
  nest_zero b fd x 2 _ _ _ _ (fun j k l i => (l, 2, j - b.mlb 0, k - b.mlb 1, i - b.mlb 2))
    (fun j k l a => l * b.nxd 0 + j * b.nxd 1 + k * b.nxd 2 + a) hdx
    i j k l hown.1 hown.2.1 hown.2.2 hl xp

/-- The z-derivative loop nest writes only entries `xp[l][2]` with
`l < ndim`. -/
theorem z_derivatives_keeps (b : block) (fd : fd_type) (x : Int → ℚ)
    (t0 : Int × Int × Int × Int × Int)
    (h : t0.2.1 ≠ 2 ∨ t0.1 < 0 ∨ (b.ndim : Int) ≤ t0.1) (xp : XP) :
    z_derivatives b fd x xp t0 = xp t0 :=
  nest_keeps b fd x 2 _ _ _ _ (fun j k l i => (l, 2, j - b.mlb 0, k - b.mlb 1, i - b.mlb 2))
    (fun j k l a => l * b.nxd 0 + j * b.nxd 1 + k * b.nxd 2 + a) t0
    (fun j k l i h1 h2 he => by
      subst he
      simp only [ne_eq, not_true_eq_false, false_or] at h
      omega) xp

theorem owned_in_window (b : block) (n0 n1 n2 : Int) (h : in_array b n0 n1 n2)
    (i j k : Int) (hown : owned b i j k) : in_window b i j k := by
  obtain ⟨_, ⟨g1, g2, _, _⟩, ⟨g3, g4, _, _⟩, ⟨g5, g6, _, _⟩⟩ := h
  obtain ⟨⟨a1, a2⟩, ⟨a3, a4⟩, ⟨a5, a6⟩⟩ := hown
  exact ⟨⟨by omega, by omega⟩, ⟨by omega, by omega⟩, ⟨by omega, by omega⟩⟩

/-- Entries `xp[l][m]` with `l ≥ ndim` keep the identity value of the
initialisation through the three derivative loop nests. -/
theorem derivatives_untouched (b : block) (fd : fd_type) (x : Int → ℚ) (xp0 : XP)
    (hinit : ∀ d, d < 3 → b.prb d - b.mlb d ≤ b.c.nx_loc d)
    (i j k : Int) (hown : owned b i j k) (l m : Int) (hl : (b.ndim : Int) ≤ l ∧ l < 3)
    (hm : 0 ≤ m ∧ m < 3) :
    z_derivatives b fd x (y_derivatives b fd x (x_derivatives b fd x (xp_init b xp0)))
      (l, m, i - b.mlb 0, j - b.mlb 1, k - b.mlb 2) = if l = m then 1 else 0 := by
  obtain ⟨⟨a1, a2⟩, ⟨a3, a4⟩, ⟨a5, a6⟩⟩ := hown
  have i0 := hinit 0 (by decide)
  have i1 := hinit 1 (by decide)
  have i2 := hinit 2 (by decide)
  rw [z_derivatives_keeps _ _ _ _ (Or.inr (Or.inr hl.1)),
    y_derivatives_keeps _ _ _ _ (Or.inr (Or.inr hl.1)),
    x_derivatives_keeps _ _ _ _ (Or.inr (Or.inr hl.1))]
  exact xp_init_at b xp0 l m _ _ _ ⟨by omega, hl.2⟩ hm ⟨by omega, by omega⟩
    ⟨by omega, by omega⟩ ⟨by omega, by omega⟩

/-- The scratch tensor after the three derivative loop nests, for grid data
that are the affine map `ξ ↦ o + A ξ` of the reference coordinates on the
block's window: at every owned point it is the tensor of the affine map. -/
theorem derivatives_affine (b : block) (fd : fd_type) (x : Int → ℚ) (xp0 : XP)
    (n0 n1 n2 : Int) (o : Int → ℚ) (A : Int → Int → ℚ)
    (harr : in_array b n0 n1 n2) (hnd : b.ndim = 2 ∨ b.ndim = 3) (hfd : fd_exact fd)
    (hdx : ∀ d, d < b.ndim → b.dx d ≠ 0) (hdz : b.ndim = 2 → b.dx 2 = 0)
    (hwin : ∀ d, d < b.ndim → stencil_window b fd.sbporder d)
    (hinit : ∀ d, d < 3 → b.prb d - b.mlb d ≤ b.c.nx_loc d)
    (hx : ∀ l a j k : Int, 0 ≤ l → l < b.ndim → in_window b a j k →
      x (xidx b l a j k) = o l + A l 0 * ref_coord b 0 a + A l 1 * ref_coord b 1 j
        + A l 2 * ref_coord b 2 k)
    (i j k : Int) (hown : owned b i j k) (l m : Int) (hl : 0 ≤ l ∧ l < 3)
    (hm : 0 ≤ m ∧ m < 3) :
    xp_at b (z_derivatives b fd x (y_derivatives b fd x (x_derivatives b fd x
      (xp_init b xp0)))) i j k l m = affine_tensor b.ndim A l m := by
  have hw := owned_in_window b n0 n1 n2 harr i j k hown
  have hg := harr
  obtain ⟨_, ⟨g1, g2, _, _⟩, ⟨g3, g4, _, _⟩, ⟨g5, g6, _, _⟩⟩ := hg
  unfold xp_at affine_tensor
  by_cases hlt : l < (b.ndim : Int)
  swap
  · rw [derivatives_untouched b fd x xp0 hinit i j k hown l m ⟨by omega, hl.2⟩ hm,
      if_neg (show ¬ (l < (b.ndim : Int) ∧ m < (b.ndim : Int)) from fun h => hlt h.1)]
  have hm3 : m = 0 ∨ m = 1 ∨ m = 2 := by omega
  rcases hm3 with rfl | rfl | rfl
  · have h0 : (0 : Nat) < b.ndim := by omega
    rw [if_pos ⟨hlt, by omega⟩,
      z_derivatives_keeps _ _ _ _ (Or.inl (show (0 : Int) ≠ 2 by decide)),
      y_derivatives_keeps _ _ _ _ (Or.inl (show (0 : Int) ≠ 1 by decide)),
      x_derivatives_affine b fd x hfd (hwin 0 h0) ⟨g1, g2⟩ i j k l hown ⟨hl.1, hlt⟩
        (o l + A l 0 * (((b.c.xm_loc 0 - b.c.xm 0 - b.c.xm_ghost 0 : Int) : ℚ) * b.dx 0)
          + A l 1 * ref_coord b 1 j + A l 2 * ref_coord b 2 k) (A l 0 * b.dx 0)
        (fun a ha1 ha2 => by
          rw [hx l a j k hl.1 hlt ⟨⟨ha1, ha2⟩, hw.2.1, hw.2.2⟩]
          unfold ref_coord; push_cast; ring)]
    exact mul_div_cancel_right₀ _ (hdx 0 h0)
  · have h1 : (1 : Nat) < b.ndim := by omega
    rw [if_pos ⟨hlt, by omega⟩,
      z_derivatives_keeps _ _ _ _ (Or.inl (show (1 : Int) ≠ 2 by decide)),
      y_derivatives_affine b fd x hfd (hwin 1 h1) ⟨g3, g4⟩ i j k l hown ⟨hl.1, hlt⟩
        (o l + A l 0 * ref_coord b 0 i
          + A l 1 * (((b.c.xm_loc 1 - b.c.xm 1 - b.c.xm_ghost 1 : Int) : ℚ) * b.dx 1)
          + A l 2 * ref_coord b 2 k) (A l 1 * b.dx 1)
        (fun a ha1 ha2 => by
          rw [hx l i a k hl.1 hlt ⟨hw.1, ⟨ha1, ha2⟩, hw.2.2⟩]
          unfold ref_coord; push_cast; ring)]
    exact mul_div_cancel_right₀ _ (hdx 1 h1)
  · rcases hnd with h2 | h3
    · rw [if_neg (fun h => by have := h.2; omega),
        z_derivatives_zero b fd x (hdz h2) i j k l hown ⟨hl.1, hlt⟩,
        if_neg (by omega)]
    · have h2 : (2 : Nat) < b.ndim := by omega
      rw [if_pos ⟨hlt, by omega⟩,
        z_derivatives_affine b fd x hfd (hwin 2 h2) ⟨g5, g6⟩ i j k l hown ⟨hl.1, hlt⟩
          (o l + A l 0 * ref_coord b 0 i + A l 1 * ref_coord b 1 j
            + A l 2 * (((b.c.xm_loc 2 - b.c.xm 2 - b.c.xm_ghost 2 : Int) : ℚ) * b.dx 2))
          (A l 2 * b.dx 2)
          (fun a ha1 ha2 => by
            rw [hx l i j a hl.1 hlt ⟨hw.1, hw.2.1, ⟨ha1, ha2⟩⟩]
            unfold ref_coord; push_cast; ring)]
      exact mul_div_cancel_right₀ _ (hdx 2 h2)

/-! ## `set_grid` as a whole -/

theorem set_grid_jac_eq (b : block) (surf : Nat → surface) (f : fields) (fd : fd_type)
    (xp0 : XP) (exchange_grid : fields → fields) (n0 n1 n2 : Int)
    (harr : in_array b n0 n1 n2) (i j k : Int) (hown : owned b i j k)
    (hex : ∀ g : fields, (exchange_grid g).jac (jidx b i j k) = g.jac (jidx b i j k)) :
    (set_grid b surf f fd xp0 exchange_grid).2.jac (jidx b i j k)
      = jac_value (xp_at b (set_grid_xp b surf f fd xp0) i j k) := by
  show (exchange_grid _).jac _ = _
  rw [hex]
  exact metric_loop_jac (set_dx b) _ _ n0 n1 n2 harr i j k hown

theorem set_grid_metric_eq (b : block) (surf : Nat → surface) (f : fields) (fd : fd_type)
    (xp0 : XP) (exchange_grid : fields → fields) (n0 n1 n2 : Int)
    (harr : in_array b n0 n1 n2) (i j k : Int) (hown : owned b i j k) (l m : Int)
    (hl : 0 ≤ l ∧ l < b.ndim) (hm : 0 ≤ m ∧ m < b.ndim)
    (hex : ∀ g : fields, (exchange_grid g).metric (midx b l m i j k)
      = g.metric (midx b l m i j k)) :
    (set_grid b surf f fd xp0 exchange_grid).2.metric (midx b l m i j k)
      = metric_value (xp_at b (set_grid_xp b surf f fd xp0) i j k)
          (jac_value (xp_at b (set_grid_xp b surf f fd xp0) i j k)) l m := by
  show (exchange_grid _).metric _ = _
  rw [hex]
  exact metric_loop_metric (set_dx b) _ _ n0 n1 n2 harr i j k hown l m hl hm

/-- For surfaces that are the faces of an affine image of the reference cube,
exact stencil rows and a block whose stencil regions fit its window, the
scratch tensor of `set_grid` at every owned point is the tensor of the affine
map. -/
theorem set_grid_xp_affine (b : block) (surf : Nat → surface) (f : fields) (fd : fd_type)
    (xp0 : XP) (n0 n1 n2 : Int) (o : Int → ℚ) (A : Int → Int → ℚ)
    (harr : in_array b n0 n1 n2) (hnd : b.ndim = 2 ∨ b.ndim = 3) (hfd : fd_exact fd)
    (hnx : ∀ d, d < b.ndim → 2 ≤ b.c.nx d) (h2d : b.ndim = 2 → b.c.nx 2 = 1)
    (hwin : ∀ d, d < b.ndim → stencil_window b fd.sbporder d)
    (hinit : ∀ d, d < 3 → b.prb d - b.mlb d ≤ b.c.nx_loc d)
    (ha : affine_surfaces (set_dx b) surf o A)
    (i j k : Int) (hown : owned b i j k) (l m : Int) (hl : 0 ≤ l ∧ l < 3)
    (hm : 0 ≤ m ∧ m < 3) :
    xp_at b (set_grid_xp b surf f fd xp0) i j k l m = affine_tensor b.ndim A l m := by
  have h3 : ∀ d, d < b.ndim → d < 3 := fun d hd => by omega
  refine derivatives_affine (set_dx b) fd (interpolate (set_dx b) surf f.x) xp0 n0 n1 n2 o A
    harr hnd hfd (fun d hd => set_dx_dx_ne b d (h3 d hd) (hnx d hd))
    (fun h => set_dx_dx_zero b 2 (by decide) (h2d h)) hwin hinit ?_ i j k hown l m hl hm
  intro l' a j' k' hl0 hl1 hw
  rw [interpolate_at (set_dx b) surf f.x n0 n1 n2 harr l' a j' k' ⟨hl0, hl1⟩ hw]
  exact tfi_value_affine (set_dx b) surf o A ha
    (set_dx_dx_mul b 1 (by decide) (hnx 1 (by rcases hnd with h | h <;> omega)))
    (fun h => set_dx_dx_mul b 2 (by decide) (hnx 2 (by have h' : b.ndim = 3 := h; omega)))
    l' a j' k' ⟨hl0, hl1⟩

theorem affine_faces_affine (b : block) (A : Int → Int → ℚ) :
    affine_surfaces b (affine_faces A b.dx) (fun _ => 0) A := by
  intro i u v _ _
  simp [affine_faces]

theorem fd2_exact : fd_exact fd2 := by
  refine ⟨⟨?_, ?_⟩, ?_⟩
  · simp [stencil_sum, irange, fd2, List.range_succ]; norm_num
  · simp [stencil_sum, irange, fd2, List.range_succ]; norm_num
  · intro r h1 h2
    have hr : r = 1 ∨ r = 2 := by
      have : fd2.sbporder = 2 := rfl
      rw [this] at h2
      omega
    rcases hr with rfl | rfl
    · refine ⟨?_, ?_⟩
      · simp [stencil_sum, irange, fd2, List.range_succ]
      · simp [stencil_sum, irange, fd2, List.range_succ]
    · refine ⟨?_, ?_⟩
      · simp [stencil_sum, irange, fd2, List.range_succ]; norm_num
      · simp [stencil_sum, irange, fd2, List.range_succ]; norm_num

/-! ## Jacobian and metric of a given tensor -/

theorem jac_value_congr (X T : Int → Int → ℚ)
    (h : ∀ l m : Int, 0 ≤ l ∧ l < 3 → 0 ≤ m ∧ m < 3 → X l m = T l m) :
    jac_value X = jac_value T := by
  unfold jac_value
  rw [h 0 0 (by decide) (by decide), h 0 1 (by decide) (by decide),
    h 0 2 (by decide) (by decide), h 1 0 (by decide) (by decide),
    h 1 1 (by decide) (by decide), h 1 2 (by decide) (by decide),
    h 2 0 (by decide) (by decide), h 2 1 (by decide) (by decide),
    h 2 2 (by decide) (by decide)]

theorem metric_value_congr (X T : Int → Int → ℚ) (J : ℚ)
    (h : ∀ l m : Int, 0 ≤ l ∧ l < 3 → 0 ≤ m ∧ m < 3 → X l m = T l m) (l m : Int) :
    metric_value X J l m = metric_value T J l m := by
  have e : ∀ a : Int, 0 ≤ a % 3 ∧ a % 3 < 3 := fun a =>
    ⟨Int.emod_nonneg a (by decide), Int.emod_lt_of_pos a (by decide)⟩
  unfold metric_value
  rw [h _ _ (e (m + 1)) (e (l + 1)), h _ _ (e (m + 2)) (e (l + 2)),
    h _ _ (e (m + 1)) (e (l + 2))]

theorem affine_tensor_unit (ndim : Nat) (l m : Int) :
    affine_tensor ndim unit_map l m = unit_map l m := by
  unfold affine_tensor unit_map
  split_ifs <;> rfl

theorem jac_value_unit : jac_value unit_map = 1 := by
  simp [jac_value, unit_map]

theorem metric_value_unit (l m : Int) (hl : 0 ≤ l ∧ l < 3) (hm : 0 ≤ m ∧ m < 3) :
    metric_value unit_map 1 l m = if l = m then 1 else 0 := by
  have h1 : l = 0 ∨ l = 1 ∨ l = 2 := by omega
  have h2 : m = 0 ∨ m = 1 ∨ m = 2 := by omega
  rcases h1 with rfl | rfl | rfl <;> rcases h2 with rfl | rfl | rfl <;>
    simp [metric_value, unit_map]

/-- The scratch tensor of `grid_of block3 A` at the owned point `(1,1,1)`. -/
theorem tensor_of_block3 (A : Int → Int → ℚ) (l m : Int) (hl : 0 ≤ l ∧ l < 3)
    (hm : 0 ≤ m ∧ m < 3) :
    xp_at block3 (tensor_of block3 A) 1 1 1 l m = affine_tensor 3 A l m :=
  set_grid_xp_affine block3 _ fields0 fd2 _ 4 4 4 (fun _ => 0) A (by decide) (by decide)
    fd2_exact (by decide) (by decide) (by decide) (by decide)
    (affine_faces_affine (set_dx block3) A) 1 1 1 (by decide) l m hl hm

/-- The scratch tensor of `grid_of block2 A` at the owned point `(1,1,0)`. -/
theorem tensor_of_block2 (A : Int → Int → ℚ) (l m : Int) (hl : 0 ≤ l ∧ l < 3)
    (hm : 0 ≤ m ∧ m < 3) :
    xp_at block2 (tensor_of block2 A) 1 1 0 l m = affine_tensor 2 A l m :=
  set_grid_xp_affine block2 _ fields0 fd2 _ 4 4 1 (fun _ => 0) A (by decide) (by decide)
    fd2_exact (by decide) (by decide) (by decide) (by decide)
    (affine_faces_affine (set_dx block2) A) 1 1 0 (by decide) l m hl hm

theorem grid_of_block3_jac (A : Int → Int → ℚ) :
    (grid_of block3 A).2.jac (jidx block3 1 1 1) = jac_value (affine_tensor 3 A) :=
  (set_grid_jac_eq block3 _ fields0 fd2 _ id 4 4 4 (by decide) 1 1 1 (by decide)
    (fun _ => rfl)).trans (jac_value_congr _ _ (tensor_of_block3 A))

theorem grid_of_block3_metric (A : Int → Int → ℚ) (l m : Int) (hl : 0 ≤ l ∧ l < 3)
    (hm : 0 ≤ m ∧ m < 3) :
    (grid_of block3 A).2.metric (midx block3 l m 1 1 1)
      = metric_value (affine_tensor 3 A) (jac_value (affine_tensor 3 A)) l m := by
  refine (set_grid_metric_eq block3 _ fields0 fd2 _ id 4 4 4 (by decide) 1 1 1 (by decide)
    l m hl hm (fun _ => rfl)).trans ?_
  show metric_value (xp_at block3 (tensor_of block3 A) 1 1 1)
    (jac_value (xp_at block3 (tensor_of block3 A) 1 1 1)) l m = _
  rw [metric_value_congr _ _ _ (tensor_of_block3 A), jac_value_congr _ _ (tensor_of_block3 A)]

theorem grid_of_block2_jac (A : Int → Int → ℚ) :
    (grid_of block2 A).2.jac (jidx block2 1 1 0) = jac_value (affine_tensor 2 A) :=
  (set_grid_jac_eq block2 _ fields0 fd2 _ id 4 4 1 (by decide) 1 1 0 (by decide)
    (fun _ => rfl)).trans (jac_value_congr _ _ (tensor_of_block2 A))

theorem grid_of_block2_metric (A : Int → Int → ℚ) (l m : Int) (hl : 0 ≤ l ∧ l < 2)
    (hm : 0 ≤ m ∧ m < 2) :
    (grid_of block2 A).2.metric (midx block2 l m 1 1 0)
      = metric_value (affine_tensor 2 A) (jac_value (affine_tensor 2 A)) l m := by
  refine (set_grid_metric_eq block2 _ fields0 fd2 _ id 4 4 1 (by decide) 1 1 0 (by decide)
    l m hl hm (fun _ => rfl)).trans ?_
  show metric_value (xp_at block2 (tensor_of block2 A) 1 1 0)
    (jac_value (xp_at block2 (tensor_of block2 A) 1 1 0)) l m = _
  rw [metric_value_congr _ _ _ (tensor_of_block2 A), jac_value_congr _ _ (tensor_of_block2 A)]

/-! ## Claims on `set_grid` -/

/-- C7: for every owned grid point, the Jacobian written by `set_grid` equals
the determinant of the 3×3 coordinate-derivative matrix `xp[l][m]` (`l` the
physical component, `m` the reference direction) at that point.  The block's
window lies inside the process array its flat offsets address, and the final
ghost exchange leaves the entry of the owned point as `set_grid` wrote it. -/
theorem set_grid_jac_is_det (b : block) (surf : Nat → surface) (f : fields) (fd : fd_type)
    (xp0 : XP) (exchange_grid : fields → fields) (n0 n1 n2 : Int)
    (harr : in_array b n0 n1 n2) (i j k : Int) (hown : owned b i j k)
    (hex : ∀ g : fields, (exchange_grid g).jac (jidx b i j k) = g.jac (jidx b i j k)) :
    (set_grid b surf f fd xp0 exchange_grid).2.jac (jidx b i j k)
      = Matrix.det (Matrix.of (fun l m : Fin 3 =>
          xp_at b (set_grid_xp b surf f fd xp0) i j k ((l : Nat) : Int) ((m : Nat) : Int))) := by
  rw [set_grid_jac_eq b surf f fd xp0 exchange_grid n0 n1 n2 harr i j k hown hex,
    Matrix.det_fin_three]
  simp only [jac_value, Matrix.of_apply]
  norm_num
  ring

theorem set_grid_jac_is_det_witness :
    in_array block3 4 4 4 ∧ owned block3 1 2 3 ∧
    (set_grid block3 (affine_faces shear_map (set_dx block3).dx) fields0 fd2 (fun _ => 0)
        id).2.jac (jidx block3 1 2 3)
      = Matrix.det (Matrix.of (fun l m : Fin 3 =>
          xp_at block3 (set_grid_xp block3 (affine_faces shear_map (set_dx block3).dx) fields0
            fd2 (fun _ => 0)) 1 2 3 ((l : Nat) : Int) ((m : Nat) : Int))) :=
  ⟨by decide, by decide,
    set_grid_jac_is_det block3 (affine_faces shear_map (set_dx block3).dx) fields0 fd2
      (fun _ => 0) id 4 4 4 (by decide) 1 2 3 (by decide) (fun _ => rfl)⟩

/-- C8: on the 3D block of 4×4×4 points whose surfaces are the faces of the
sheared cube `x = ξ + η, y = η, z = ζ`, `set_grid` writes Jacobian 1 at the
owned point `(1,1,1)`, the tensor entries `xp[0][1] = xp[1][1] = 1`,
`xp[2][1] = 0`, and a metric row 0 whose product with column 1 of `xp` is 1,
where the inverse requires 0. -/
theorem set_grid_metric_product_sheared_3d :
    (grid_of block3 shear_map).2.jac (jidx block3 1 1 1) = 1 ∧
    xp_at block3 (tensor_of block3 shear_map) 1 1 1 0 1 = 1 ∧
    xp_at block3 (tensor_of block3 shear_map) 1 1 1 1 1 = 1 ∧
    xp_at block3 (tensor_of block3 shear_map) 1 1 1 2 1 = 0 ∧
    (grid_of block3 shear_map).2.metric (midx block3 0 0 1 1 1)
        * xp_at block3 (tensor_of block3 shear_map) 1 1 1 0 1
      + (grid_of block3 shear_map).2.metric (midx block3 0 1 1 1 1)
        * xp_at block3 (tensor_of block3 shear_map) 1 1 1 1 1
      + (grid_of block3 shear_map).2.metric (midx block3 0 2 1 1 1)
        * xp_at block3 (tensor_of block3 shear_map) 1 1 1 2 1 = 1 := by
  rw [grid_of_block3_jac, grid_of_block3_metric _ 0 0 (by decide) (by decide),
    grid_of_block3_metric _ 0 1 (by decide) (by decide),
    grid_of_block3_metric _ 0 2 (by decide) (by decide),
    tensor_of_block3 _ 0 1 (by decide) (by decide),
    tensor_of_block3 _ 1 1 (by decide) (by decide),
    tensor_of_block3 _ 2 1 (by decide) (by decide)]
  simp [jac_value, metric_value, affine_tensor, shear_map]

/-- C9: on the 2D block of 4×4 points whose surfaces are the sides of the
sheared square `x = ξ + η, y = η`, `set_grid` writes Jacobian 1 and
`xp[0][1] = 1` at the owned point `(1,1,0)`, so the inverse has
`metric[0][1] = -xp[0][1]/J = -1`, but the entry written is 0. -/
theorem set_grid_metric_sheared_2d :
    (grid_of block2 shear_map).2.jac (jidx block2 1 1 0) = 1 ∧
    xp_at block2 (tensor_of block2 shear_map) 1 1 0 0 1 = 1 ∧
    (grid_of block2 shear_map).2.metric (midx block2 0 1 1 1 0) = 0 := by
  rw [grid_of_block2_jac, grid_of_block2_metric _ 0 1 (by decide) (by decide),
    tensor_of_block2 _ 0 1 (by decide) (by decide)]
  simp [jac_value, metric_value, affine_tensor, shear_map]

/-- C10: for surfaces forming a unit cube and stencil rows that differentiate
linear functions exactly, `set_grid` writes Jacobian 1 and the identity metric
at every owned grid point, for 2D and 3D blocks.  The block is well formed:
its window lies inside the process array, every dimension below `ndim` has at
least two points and stencil regions that read inside the window, a 2D block
has one point in the third dimension, the owned range is within the local
count, and the final ghost exchange leaves the entries of the owned point as
`set_grid` wrote them. -/
theorem set_grid_unit_cube (b : block) (surf : Nat → surface) (f : fields) (fd : fd_type)
    (xp0 : XP) (exchange_grid : fields → fields) (n0 n1 n2 : Int)
    (harr : in_array b n0 n1 n2) (hnd : b.ndim = 2 ∨ b.ndim = 3) (hfd : fd_exact fd)
    (hnx : ∀ d, d < b.ndim → 2 ≤ b.c.nx d) (h2d : b.ndim = 2 → b.c.nx 2 = 1)
    (hwin : ∀ d, d < b.ndim → stencil_window b fd.sbporder d)
    (hinit : ∀ d, d < 3 → b.prb d - b.mlb d ≤ b.c.nx_loc d)
    (hs : unit_cube_surfaces (set_dx b) surf)
    (i j k : Int) (hown : owned b i j k)
    (hexj : ∀ g : fields, (exchange_grid g).jac (jidx b i j k) = g.jac (jidx b i j k))
    (hexm : ∀ (g : fields) (l m : Int),
      (exchange_grid g).metric (midx b l m i j k) = g.metric (midx b l m i j k)) :
    (set_grid b surf f fd xp0 exchange_grid).2.jac (jidx b i j k) = 1 ∧
    ∀ l m : Int, 0 ≤ l ∧ l < b.ndim → 0 ≤ m ∧ m < b.ndim →
      (set_grid b surf f fd xp0 exchange_grid).2.metric (midx b l m i j k)
        = if l = m then 1 else 0 := by
  have hX : ∀ l m : Int, 0 ≤ l ∧ l < 3 → 0 ≤ m ∧ m < 3 →
      xp_at b (set_grid_xp b surf f fd xp0) i j k l m = unit_map l m := fun l m hl hm =>
    (set_grid_xp_affine b surf f fd xp0 n0 n1 n2 (fun _ => 0) unit_map harr hnd hfd hnx h2d
      hwin hinit hs i j k hown l m hl hm).trans (affine_tensor_unit b.ndim l m)
  have hj : jac_value (xp_at b (set_grid_xp b surf f fd xp0) i j k) = 1 :=
    (jac_value_congr _ _ hX).trans jac_value_unit
  refine ⟨?_, ?_⟩
  · rw [set_grid_jac_eq b surf f fd xp0 exchange_grid n0 n1 n2 harr i j k hown hexj, hj]
  · intro l m hl hm
    rw [set_grid_metric_eq b surf f fd xp0 exchange_grid n0 n1 n2 harr i j k hown l m hl hm
      (fun g => hexm g l m), hj, metric_value_congr _ _ _ hX]
    exact metric_value_unit l m ⟨hl.1, by omega⟩ ⟨hm.1, by omega⟩

theorem set_grid_unit_cube_witness :
    in_array block2 4 4 1 ∧ owned block2 3 0 0 ∧
    ((set_grid block2 (affine_faces unit_map (set_dx block2).dx) fields0 fd2 (fun _ => 0)
        id).2.jac (jidx block2 3 0 0) = 1 ∧
      ∀ l m : Int, 0 ≤ l ∧ l < block2.ndim → 0 ≤ m ∧ m < block2.ndim →
        (set_grid block2 (affine_faces unit_map (set_dx block2).dx) fields0 fd2 (fun _ => 0)
          id).2.metric (midx block2 l m 3 0 0) = if l = m then 1 else 0) :=
  ⟨by decide, by decide,
    set_grid_unit_cube block2 (affine_faces unit_map (set_dx block2).dx) fields0 fd2
      (fun _ => 0) id 4 4 1 (by decide) (by decide) fd2_exact (by decide) (by decide)
      (by decide) (by decide) (affine_faces_affine (set_dx block2) unit_map) 3 0 0 (by decide)
      (fun _ => rfl) (fun _ _ _ => rfl)⟩

/-! ## The index members of the constructor -/

theorem init_indices_eq (b : block) (cart : cartesian) (fd : fd_type) :
    init_indices b cart fd = (List.range 3).foldl (index_body cart fd)
      { b with nxd := (setAt (setAt (setAt b.nxd 0
        (cart.nx_tot 0 * cart.nx_tot 1 * cart.nx_tot 2)) 1 (cart.nx_tot 1 * cart.nx_tot 2))
        2 (cart.nx_tot 2)) } := rfl

theorem index_body_c (cart : cartesian) (fd : fd_type) (b : block) (i : Nat) :
    (index_body cart fd b i).c = b.c := by
  unfold index_body; simp only []; split_ifs <;> rfl

theorem index_body_mlb (cart : cartesian) (fd : fd_type) (b : block) (i j : Nat) :
    (index_body cart fd b i).mlb j
      = if j = i then b.c.xm_loc i - cart.xm_loc i + cart.xm_ghost i else b.mlb j := by
  unfold index_body; simp only []; split_ifs <;> simp_all [setAt]

theorem index_body_mc (cart : cartesian) (fd : fd_type) (b : block) (i j : Nat) :
    (index_body cart fd b i).mc j
      = if j = i then
          (if b.c.xm_loc i = b.c.xm i ∧ b.c.nx i > 1 then
            b.c.xm_loc i - cart.xm_loc i + cart.xm_ghost i + 2 * (fd.sbporder - 1)
          else b.c.xm_loc i - cart.xm_loc i + cart.xm_ghost i)
        else b.mc j := by
  unfold index_body; simp only []; split_ifs <;> simp_all [setAt]

theorem index_body_mrb (cart : cartesian) (fd : fd_type) (b : block) (i j : Nat) :
    (index_body cart fd b i).mrb j
      = if j = i then
          (if b.c.get_xp_loc i = b.c.get_xp i ∧ b.c.nx i > 1 then
            b.c.xm_loc i - cart.xm_loc i + cart.xm_ghost i + b.c.nx_loc i
              - 2 * (fd.sbporder - 1)
          else b.c.xm_loc i - cart.xm_loc i + cart.xm_ghost i + b.c.nx_loc i)
        else b.mrb j := by
  unfold index_body; simp only []; split_ifs <;> simp_all [setAt]

theorem index_body_prb (cart : cartesian) (fd : fd_type) (b : block) (i j : Nat) :
    (index_body cart fd b i).prb j
      = if j = i then b.c.xm_loc i - cart.xm_loc i + cart.xm_ghost i + b.c.nx_loc i
        else b.prb j := by
  unfold index_body; simp only []; split_ifs <;> simp_all [setAt]

theorem index_fold_c (cart : cartesian) (fd : fd_type) (b : block) (k : Nat) :
    ((List.range k).foldl (index_body cart fd) b).c = b.c := by
  induction k with
  | zero => rfl
  | succ k ih => rw [List.range_succ, List.foldl_append]; simp [index_body_c, ih]

theorem index_fold_mlb (cart : cartesian) (fd : fd_type) (b : block) (k j : Nat) :
    ((List.range k).foldl (index_body cart fd) b).mlb j
      = if j < k then b.c.xm_loc j - cart.xm_loc j + cart.xm_ghost j else b.mlb j := by
  induction k with
  | zero => simp
  | succ k ih =>
    rw [List.range_succ, List.foldl_append]
    simp only [List.foldl_cons, List.foldl_nil, index_body_mlb, index_fold_c, ih]
    split_ifs <;> first | rfl | (subst_vars; rfl) | omega

theorem index_fold_mc (cart : cartesian) (fd : fd_type) (b : block) (k j : Nat) :
    ((List.range k).foldl (index_body cart fd) b).mc j
      = if j < k then
          (if b.c.xm_loc j = b.c.xm j ∧ b.c.nx j > 1 then
            b.c.xm_loc j - cart.xm_loc j + cart.xm_ghost j + 2 * (fd.sbporder - 1)
          else b.c.xm_loc j - cart.xm_loc j + cart.xm_ghost j)
        else b.mc j := by
  induction k with
  | zero => simp
  | succ k ih =>
    rw [List.range_succ, List.foldl_append]
    simp only [List.foldl_cons, List.foldl_nil, index_body_mc, index_fold_c, ih]
    by_cases h : j = k
    · subst h; simp
    · have h2 : j < k + 1 ↔ j < k := by omega
      simp only [h, if_false, h2]

theorem index_fold_mrb (cart : cartesian) (fd : fd_type) (b : block) (k j : Nat) :
    ((List.range k).foldl (index_body cart fd) b).mrb j
      = if j < k then
          (if b.c.get_xp_loc j = b.c.get_xp j ∧ b.c.nx j > 1 then
            b.c.xm_loc j - cart.xm_loc j + cart.xm_ghost j + b.c.nx_loc j
              - 2 * (fd.sbporder - 1)
          else b.c.xm_loc j - cart.xm_loc j + cart.xm_ghost j + b.c.nx_loc j)
        else b.mrb j := by
  induction k with
  | zero => simp
  | succ k ih =>
    rw [List.range_succ, List.foldl_append]
    simp only [List.foldl_cons, List.foldl_nil, index_body_mrb, index_fold_c, ih]
    by_cases h : j = k
    · subst h; simp
    · have h2 : j < k + 1 ↔ j < k := by omega
      simp only [h, if_false, h2]

theorem index_fold_prb (cart : cartesian) (fd : fd_type) (b : block) (k j : Nat) :
    ((List.range k).foldl (index_body cart fd) b).prb j
      = if j < k then b.c.xm_loc j - cart.xm_loc j + cart.xm_ghost j + b.c.nx_loc j
        else b.prb j := by
  induction k with
  | zero => simp
  | succ k ih =>
    rw [List.range_succ, List.foldl_append]
    simp only [List.foldl_cons, List.foldl_nil, index_body_prb, index_fold_c, ih]
    by_cases h : j = k
    · subst h; simp
    · have h2 : j < k + 1 ↔ j < k := by omega
      simp only [h, if_false, h2]

/-! ## Claims on the constructor's index members -/

/-- C13, as stated, fails: for the 4×4×4 block on one process with second-order
stencils, dimension 0 has more than one point and its local low edge is the
block's physical edge, yet the left-closure region `[mlb, mc)` has width 2,
not `sbporder - 1 = 1`. -/
theorem init_indices_closure_width_counterexample :
    ¬ ((calc_process_info (blockOne 3 4) (cartOne 4) 2).c.nx 0 > 1 →
      (calc_process_info (blockOne 3 4) (cartOne 4) 2).c.xm_loc 0
        = (calc_process_info (blockOne 3 4) (cartOne 4) 2).c.xm 0 →
      (init_indices (calc_process_info (blockOne 3 4) (cartOne 4) 2) (cartOne 4) fd2).mc 0
        - (init_indices (calc_process_info (blockOne 3 4) (cartOne 4) 2) (cartOne 4) fd2).mlb 0
        = fd2.sbporder - 1) := by
  decide

/-- C13 (amended): in the block constructor, for every dimension with `nx > 1`
the left-closure region `[mlb, mc)` has width `2*(sbporder-1)` when the local
low edge is the block's physical edge, the right-closure region `[mrb, prb)`
has the same width when the local high edge is the block's physical edge, and
at an inter-process cut the corresponding closure width is zero (`mc = mlb`,
respectively `mrb = prb`). -/
theorem init_indices_closure_widths (b : block) (cart : cartesian) (fd : fd_type) (i : Nat)
    (hi : i < 3) :
    (b.c.nx i > 1 → b.c.xm_loc i = b.c.xm i →
      (init_indices b cart fd).mc i - (init_indices b cart fd).mlb i
        = 2 * (fd.sbporder - 1)) ∧
    (b.c.nx i > 1 → b.c.get_xp_loc i = b.c.get_xp i →
      (init_indices b cart fd).prb i - (init_indices b cart fd).mrb i
        = 2 * (fd.sbporder - 1)) ∧
    (b.c.xm_loc i ≠ b.c.xm i →
      (init_indices b cart fd).mc i = (init_indices b cart fd).mlb i) ∧
    (b.c.get_xp_loc i ≠ b.c.get_xp i →
      (init_indices b cart fd).mrb i = (init_indices b cart fd).prb i) := by
  rw [init_indices_eq]
  simp only [index_fold_mlb, index_fold_mc, index_fold_mrb, index_fold_prb, hi, if_true]
  refine ⟨fun h1 h2 => ?_, fun h1 h2 => ?_, fun h => ?_, fun h => ?_⟩
  · rw [if_pos ⟨h2, h1⟩]; omega
  · rw [if_pos ⟨h2, h1⟩]; omega
  · rw [if_neg (fun h' => h h'.1)]
  · rw [if_neg (fun h' => h h'.1)]

theorem init_indices_closure_widths_witness :
    ((calc_process_info (blockOne 3 4) (cartOne 4) 2).c.nx 0 > 1 →
      (calc_process_info (blockOne 3 4) (cartOne 4) 2).c.xm_loc 0
        = (calc_process_info (blockOne 3 4) (cartOne 4) 2).c.xm 0 →
      block3.mc 0 - block3.mlb 0 = 2 * (fd2.sbporder - 1)) ∧
    ((calc_process_info (blockOne 3 4) (cartOne 4) 2).c.nx 0 > 1 →
      (calc_process_info (blockOne 3 4) (cartOne 4) 2).c.get_xp_loc 0
        = (calc_process_info (blockOne 3 4) (cartOne 4) 2).c.get_xp 0 →
      block3.prb 0 - block3.mrb 0 = 2 * (fd2.sbporder - 1)) ∧
    ((calc_process_info (blockOne 3 4) (cartOne 4) 2).c.xm_loc 0
        ≠ (calc_process_info (blockOne 3 4) (cartOne 4) 2).c.xm 0 →
      block3.mc 0 = block3.mlb 0) ∧
    ((calc_process_info (blockOne 3 4) (cartOne 4) 2).c.get_xp_loc 0
        ≠ (calc_process_info (blockOne 3 4) (cartOne 4) 2).c.get_xp 0 →
      block3.mrb 0 = block3.prb 0) :=
  init_indices_closure_widths (calc_process_info (blockOne 3 4) (cartOne 4) 2) (cartOne 4) fd2
    0 (by decide)

/-! ## Claims on the coordinate derivatives -/

/-- C11: for every direction `d` and every stencil order, given coefficient rows
that sum to zero and have unit first moment about their evaluation point, the
coordinate derivative `xp[l][d]` computed by the derivative loop nests of
`set_grid` is exactly 0 for a coordinate field that is constant along the grid
line, and exactly the slope `s` for a linear ramp `x(t) = a + s*t*dx[d]`, at
every owned point, whichever of the left-closure, interior and right-closure
regions it lies in.  The stencil regions of the direction read inside the
block's window and `dx[d]` is not zero. -/
theorem derivative_exact_on_ramp (b : block) (fd : fd_type) (x : Int → ℚ) (xp : XP)
    (hfd : fd_exact fd) (d : Nat) (hd : d < 3) (hwin : stencil_window b fd.sbporder d)
    (hgh : 0 ≤ b.c.xm_ghost d ∧ 0 ≤ b.c.xp_ghost d) (hdx : b.dx d ≠ 0)
    (i j k l : Int) (hown : owned b i j k) (hl : 0 ≤ l ∧ l < b.ndim) :
    (∀ c : ℚ,
      (∀ t : Int, b.mlb d - b.c.xm_ghost d ≤ t → t < b.prb d + b.c.xp_ghost d →
        line_data b x l d i j k t = c) →
      z_derivatives b fd x (y_derivatives b fd x (x_derivatives b fd x xp))
        (l, (d : Int), i - b.mlb 0, j - b.mlb 1, k - b.mlb 2) = 0) ∧
    (∀ a s : ℚ,
      (∀ t : Int, b.mlb d - b.c.xm_ghost d ≤ t → t < b.prb d + b.c.xp_ghost d →
        line_data b x l d i j k t = a + s * ((t : ℚ) * b.dx d)) →
      z_derivatives b fd x (y_derivatives b fd x (x_derivatives b fd x xp))
        (l, (d : Int), i - b.mlb 0, j - b.mlb 1, k - b.mlb 2) = s) := by
  have key : ∀ a s : ℚ,
      (∀ t : Int, b.mlb d - b.c.xm_ghost d ≤ t → t < b.prb d + b.c.xp_ghost d →
        line_data b x l d i j k t = a + s * ((t : ℚ) * b.dx d)) →
      z_derivatives b fd x (y_derivatives b fd x (x_derivatives b fd x xp))
        (l, (d : Int), i - b.mlb 0, j - b.mlb 1, k - b.mlb 2) = s := by
    intro a s hx
    have hx' : ∀ t : Int, b.mlb d - b.c.xm_ghost d ≤ t → t < b.prb d + b.c.xp_ghost d →
        line_data b x l d i j k t = a + (s * b.dx d) * (t : ℚ) := fun t h1 h2 => by
      rw [hx t h1 h2]; ring
    interval_cases d
    · rw [z_derivatives_keeps _ _ _ _ (Or.inl (show ((0 : Nat) : Int) ≠ 2 by decide)),
        y_derivatives_keeps _ _ _ _ (Or.inl (show ((0 : Nat) : Int) ≠ 1 by decide))]
      exact (x_derivatives_affine b fd x hfd hwin hgh i j k l hown hl a (s * b.dx 0)
        hx' _).trans (mul_div_cancel_right₀ _ hdx)
    · rw [z_derivatives_keeps _ _ _ _ (Or.inl (show ((1 : Nat) : Int) ≠ 2 by decide))]
      exact (y_derivatives_affine b fd x hfd hwin hgh i j k l hown hl a (s * b.dx 1)
        hx' _).trans (mul_div_cancel_right₀ _ hdx)
    · exact (z_derivatives_affine b fd x hfd hwin hgh i j k l hown hl a (s * b.dx 2)
        hx' _).trans (mul_div_cancel_right₀ _ hdx)
  refine ⟨fun c hc => key c 0 (fun t h1 h2 => ?_), key⟩
  rw [hc t h1 h2, zero_mul, add_zero]

theorem derivative_exact_on_ramp_witness :
    z_derivatives (set_dx block3) fd2 (fun a => (a : ℚ))
      (y_derivatives (set_dx block3) fd2 (fun a => (a : ℚ))
        (x_derivatives (set_dx block3) fd2 (fun a => (a : ℚ)) (fun _ => 0)))
      (0, ((2 : Nat) : Int), 1 - (set_dx block3).mlb 0, 1 - (set_dx block3).mlb 1,
        1 - (set_dx block3).mlb 2) = 3 :=
  (derivative_exact_on_ramp (set_dx block3) fd2 (fun a => (a : ℚ)) (fun _ => 0) fd2_exact 2
    (by decide) (by decide) (by decide) (set_dx_dx_ne block3 2 (by decide) (by decide))
    1 1 1 0 (by decide) (by decide)).2
    (((0 * block3.nxd 0 + 1 * block3.nxd 1 + 1 * block3.nxd 2 : Int) : ℚ)) 3
    (fun t _ _ => by
      have h : block3.c.nx 2 = 4 := by decide
      show ((0 * block3.nxd 0 + 1 * block3.nxd 1 + 1 * block3.nxd 2 + t : Int) : ℚ) = _
      rw [set_dx_dx block3 2 (by decide), h]
      push_cast
      ring)

/-! ## Transfinite interpolation on the faces -/

theorem tfi_value_faces (b : block) (surf : Nat → surface)
    (h0 : ((b.c.nx 0 - 1 : Int) : ℚ) * b.dx 0 = 1)
    (h1 : ((b.c.nx 1 - 1 : Int) : ℚ) * b.dx 1 = 1)
    (h2 : b.ndim = 3 → ((b.c.nx 2 - 1 : Int) : ℚ) * b.dx 2 = 1)
    (hedge : edges_agree b surf) (i j k l : Int) :
    (block_index b 0 j = 0 → tfi_value b surf i j k l
      = (surf 0).get_x i (block_index b 1 k) (block_index b 2 l)) ∧
    (block_index b 0 j = b.c.nx 0 - 1 → tfi_value b surf i j k l
      = (surf 1).get_x i (block_index b 1 k) (block_index b 2 l)) ∧
    (block_index b 1 k = 0 → tfi_value b surf i j k l
      = (surf 2).get_x i (block_index b 0 j) (block_index b 2 l)) ∧
    (block_index b 1 k = b.c.nx 1 - 1 → tfi_value b surf i j k l
      = (surf 3).get_x i (block_index b 0 j) (block_index b 2 l)) ∧
    (b.ndim = 3 → block_index b 2 l = 0 → tfi_value b surf i j k l
      = (surf 4).get_x i (block_index b 0 j) (block_index b 1 k)) ∧
    (b.ndim = 3 → block_index b 2 l = b.c.nx 2 - 1 → tfi_value b surf i j k l
      = (surf 5).get_x i (block_index b 0 j) (block_index b 1 k)) := by
  have e1 := fun u => (hedge i u).1.1
  have e2 := fun u => (hedge i u).1.2.1
  have e3 := fun u => (hedge i u).1.2.2.1
  have e4 := fun u => (hedge i u).1.2.2.2
  unfold tfi_value interp_point block_index
  by_cases h3 : b.ndim = 3
  · have h2' := h2 h3
    have f1 := fun u => ((hedge i u).2 h3).1
    have f2 := fun u => ((hedge i u).2 h3).2.1
    have f3 := fun u => ((hedge i u).2 h3).2.2.1
    have f4 := fun u => ((hedge i u).2 h3).2.2.2.1
    have f5 := fun u => ((hedge i u).2 h3).2.2.2.2.1
    have f6 := fun u => ((hedge i u).2 h3).2.2.2.2.2.1
    have f7 := fun u => ((hedge i u).2 h3).2.2.2.2.2.2.1
    have f8 := fun u => ((hedge i u).2 h3).2.2.2.2.2.2.2
    simp only [h3, if_true, store_same, store_store, forall_true_left]
    refine ⟨fun h => ?_, fun h => ?_, fun h => ?_, fun h => ?_, fun h => ?_, fun h => ?_⟩
    · simp only [h, Int.cast_zero, zero_mul, e1, e3, f1, f3]; ring
    · simp only [h, h0, e2, e4, f2, f4]; ring
    · simp only [h, Int.cast_zero, zero_mul, f5, f7]; ring
    · simp only [h, h1, f6, f8]; ring
    · simp only [h, Int.cast_zero, zero_mul]; ring
    · simp only [h, h2']; ring
  · simp only [h3, if_false, store_same, store_store, false_implies, and_true]
    refine ⟨fun h => ?_, fun h => ?_, fun h => ?_, fun h => ?_⟩
    · simp only [h, Int.cast_zero, zero_mul, e1, e3]; ring
    · simp only [h, h0, e2, e4]; ring
    · simp only [h, Int.cast_zero, zero_mul]; ring
    · simp only [h, h1]; ring

theorem metric_point_x (b : block) (xp : XP) (i j k : Int) (f : fields) :
    (metric_point b xp i j k f).x = f.x := by
  have hk : ∀ g : fields, Keeps (fun _ => True)
      (forRange 0 b.ndim (fun l f => forRange 0 b.ndim (fun m f =>
        { f with metric := (store f.metric (midx b l m i j k)
          (metric_value (fun l m => xp (l, m, i - b.mlb 0, j - b.mlb 1, k - b.mlb 2))
            (f.jac (jidx b i j k)) l m)) }) f))
      (fun f : fields => f.x) := fun _ =>
    forRange_keeps _ _ _ (fun _ _ _ => pres_true _)
      (fun l _ _ => forRange_keeps _ _ _ (fun _ _ _ => pres_true _) (fun m _ _ s _ => rfl))
  exact hk f _ trivial

theorem metric_loop_x (b : block) (xp : XP) (f : fields) : (metric_loop b xp f).x = f.x := by
  have hk : Keeps (fun _ => True) (metric_loop b xp) (fun f : fields => f.x) :=
    forRange_keeps _ _ _ (fun _ _ _ => pres_true _)
      (fun i _ _ => forRange_keeps _ _ _ (fun _ _ _ => pres_true _)
        (fun j _ _ => forRange_keeps _ _ _ (fun _ _ _ => pres_true _)
          (fun k _ _ s _ => metric_point_x b xp i j k s)))
  exact hk f trivial

/-- C12: transfinite interpolation in `set_grid` reproduces the boundary data.
For a block with at least two points in every dimension below `ndim` whose
surfaces agree along their shared edges, the coordinate written at a grid
point of the block's window equals `surf[0]` at `(kk,ll)` when `jj = 0`,
`surf[1]` when `jj = nx-1`, `surf[2]` / `surf[3]` at `(jj,ll)` when `kk = 0` /
`kk = ny-1`, and in 3D `surf[4]` / `surf[5]` at `(jj,kk)` when `ll = 0` /
`ll = nz-1`.  The block's window lies inside the process array and the final
ghost exchange leaves the entry as `set_grid` wrote it. -/
theorem set_grid_reproduces_faces (b : block) (surf : Nat → surface) (f : fields)
    (fd : fd_type) (xp0 : XP) (exchange_grid : fields → fields) (n0 n1 n2 : Int)
    (harr : in_array b n0 n1 n2) (hnd : b.ndim = 2 ∨ b.ndim = 3)
    (hnx : ∀ d, d < b.ndim → 2 ≤ b.c.nx d) (hedge : edges_agree b surf)
    (i j k l : Int) (hi : 0 ≤ i ∧ i < b.ndim) (hw : in_window b j k l)
    (hex : ∀ g : fields, (exchange_grid g).x (xidx b i j k l) = g.x (xidx b i j k l)) :
    (block_index b 0 j = 0 → (set_grid b surf f fd xp0 exchange_grid).2.x (xidx b i j k l)
      = (surf 0).get_x i (block_index b 1 k) (block_index b 2 l)) ∧
    (block_index b 0 j = b.c.nx 0 - 1 →
      (set_grid b surf f fd xp0 exchange_grid).2.x (xidx b i j k l)
        = (surf 1).get_x i (block_index b 1 k) (block_index b 2 l)) ∧
    (block_index b 1 k = 0 → (set_grid b surf f fd xp0 exchange_grid).2.x (xidx b i j k l)
      = (surf 2).get_x i (block_index b 0 j) (block_index b 2 l)) ∧
    (block_index b 1 k = b.c.nx 1 - 1 →
      (set_grid b surf f fd xp0 exchange_grid).2.x (xidx b i j k l)
        = (surf 3).get_x i (block_index b 0 j) (block_index b 2 l)) ∧
    (b.ndim = 3 → block_index b 2 l = 0 →
      (set_grid b surf f fd xp0 exchange_grid).2.x (xidx b i j k l)
        = (surf 4).get_x i (block_index b 0 j) (block_index b 1 k)) ∧
    (b.ndim = 3 → block_index b 2 l = b.c.nx 2 - 1 →
      (set_grid b surf f fd xp0 exchange_grid).2.x (xidx b i j k l)
        = (surf 5).get_x i (block_index b 0 j) (block_index b 1 k)) := by
  have hx : (set_grid b surf f fd xp0 exchange_grid).2.x (xidx b i j k l)
      = tfi_value (set_dx b) surf i j k l := by
    show (exchange_grid _).x _ = _
    rw [hex, metric_loop_x]
    exact interpolate_at (set_dx b) surf f.x n0 n1 n2 harr i j k l hi hw
  rw [hx]
  exact tfi_value_faces (set_dx b) surf
    (set_dx_dx_mul b 0 (by decide) (hnx 0 (by rcases hnd with h | h <;> omega)))
    (set_dx_dx_mul b 1 (by decide) (hnx 1 (by rcases hnd with h | h <;> omega)))
    (fun h => set_dx_dx_mul b 2 (by decide) (hnx 2 (by have h' : b.ndim = 3 := h; omega)))
    hedge i j k l

theorem affine_faces_edges (b : block) (A : Int → Int → ℚ)
    (hnx : ∀ d, d < 3 → 2 ≤ b.c.nx d) :
    edges_agree b (affine_faces A (set_dx b).dx) := by
  have h0 := set_dx_dx_mul b 0 (by decide) (hnx 0 (by decide))
  have h1 := set_dx_dx_mul b 1 (by decide) (hnx 1 (by decide))
  have h2 := set_dx_dx_mul b 2 (by decide) (hnx 2 (by decide))
  intro i u
  simp only [affine_faces]
  norm_num
  push_cast at h0 h1 h2
  refine ⟨⟨?_, ?_, ?_⟩, fun _ => ⟨?_, ?_, ?_, ?_, ?_, ?_⟩⟩
  · linear_combination (A i 0) * h0
  · linear_combination (-(A i 1)) * h1
  · linear_combination (A i 0) * h0 - (A i 1) * h1
  · linear_combination (A i 0) * h0
  · linear_combination (-(A i 2)) * h2
  · linear_combination (A i 0) * h0 - (A i 2) * h2
  · linear_combination (A i 1) * h1
  · linear_combination (-(A i 2)) * h2
  · linear_combination (A i 1) * h1 - (A i 2) * h2

theorem set_grid_reproduces_faces_witness :
    (set_grid block3 (affine_faces shear_map (set_dx block3).dx) fields0 fd2 (fun _ => 0)
        id).2.x (xidx block3 0 0 1 2)
      = (affine_faces shear_map (set_dx block3).dx 0).get_x 0 (block_index block3 1 1)
          (block_index block3 2 2) :=
  (set_grid_reproduces_faces block3 (affine_faces shear_map (set_dx block3).dx) fields0 fd2
    (fun _ => 0) id 4 4 4 (by decide) (by decide) (by decide)
    (affine_faces_edges block3 shear_map (by decide)) 0 0 1 2 (by decide) (by decide)
    (fun _ => rfl)).1 (by decide)


/-! ## Accumulating loops -/

theorem add_all_at (st : List (Int × ℚ)) (df : Int → ℚ) (a : Int) :
    add_all st df a = df a + hits st a := by
  unfold add_all hits
  induction st generalizing df with
  | nil => simp
  | cons s st ih =>
    rw [List.foldl_cons, ih, List.map_cons, List.sum_cons]
    by_cases h : s.1 = a
    · rw [if_pos h, ← h, store_same]; ring
    · rw [if_neg h, store_ne _ _ _ _ (fun h' => h h'.symm)]; ring

theorem sub_all_at (st : List (Int × ℚ)) (df : Int → ℚ) (a : Int) :
    sub_all st df a = df a - hits st a := by
  unfold sub_all hits
  induction st generalizing df with
  | nil => simp
  | cons s st ih =>
    rw [List.foldl_cons, ih, List.map_cons, List.sum_cons]
    by_cases h : s.1 = a
    · rw [if_pos h, ← h, store_same]; ring
    · rw [if_neg h, store_ne _ _ _ _ (fun h' => h h'.symm)]; ring

theorem hits_rows_from (w P P0 : Int) (hP : 0 ≤ P ∧ P < w) (hP0 : 0 ≤ P0 ∧ P0 < w)
    (r : Nat) (st : List (Int × ℚ)) (k : Nat)
    (hst : st.map Prod.fst = (List.range' k st.length).map (fun s : Nat => (s : Int) * w + P)) :
    hits st ((r : Int) * w + P0)
      = if P = P0 ∧ k ≤ r then (st.map Prod.snd).getD (r - k) 0 else 0 := by
  induction st generalizing k with
  | nil => simp [hits]
  | cons s st ih =>
    simp only [List.map_cons, List.length_cons, List.range'_succ, List.cons.injEq] at hst
    have ht := ih (k + 1) hst.2
    have hs : hits (s :: st) ((r : Int) * w + P0)
        = (if s.1 = (r : Int) * w + P0 then s.2 else 0) + hits st ((r : Int) * w + P0) := by
      simp [hits]
    rw [hs, ht, hst.1]
    have hiff : ((k : Int) * w + P = (r : Int) * w + P0) ↔ (k = r ∧ P = P0) := by
      constructor
      · intro h
        have := radix_inj w k P r P0 hP.1 hP.2 hP0.1 hP0.2 h
        exact ⟨by exact_mod_cast this.1, this.2⟩
      · rintro ⟨rfl, rfl⟩; rfl
    by_cases hPP : P = P0
    · by_cases hkr : k = r
      · subst hkr
        simp [hPP]
      · by_cases hlt : k < r
        · have e : r - k = (r - (k + 1)) + 1 := by omega
          have h1 : ¬ ((k : Int) * w + P = (r : Int) * w + P0) := fun h => hkr (hiff.mp h).1
          rw [if_neg h1, if_pos ⟨hPP, by omega⟩, if_pos ⟨hPP, by omega⟩, e]
          simp
        · have h1 : ¬ ((k : Int) * w + P = (r : Int) * w + P0) := fun h => hkr (hiff.mp h).1
          rw [if_neg h1, if_neg (fun h => by omega), if_neg (fun h => by omega)]
          simp
    · have h1 : ¬ ((k : Int) * w + P = (r : Int) * w + P0) := fun h => hPP (hiff.mp h).2
      rw [if_neg h1, if_neg (fun h => hPP h.1), if_neg (fun h => hPP h.1)]
      simp

theorem hits_rows (w P P0 : Int) (hP : 0 ≤ P ∧ P < w) (hP0 : 0 ≤ P0 ∧ P0 < w)
    (r : Nat) (st : List (Int × ℚ)) (hst : row_layout st w P) :
    hits st ((r : Int) * w + P0) = if P = P0 then row_value st r else 0 := by
  have h := hits_rows_from w P P0 hP hP0 r st 0 (by rw [← List.range_eq_range']; exact hst)
  simpa [row_value] using h

theorem foldl_add (L : List Int) (body : Int → (Int → ℚ) → Int → ℚ) (a : Int) (v : Int → ℚ)
    (h : ∀ i, i ∈ L → ∀ df, body i df a = df a + v i) (df : Int → ℚ) :
    L.foldl (fun df i => body i df) df a = df a + (L.map v).sum := by
  induction L generalizing df with
  | nil => simp
  | cons i L ih =>
    rw [List.foldl_cons, ih (fun j hj => h j (List.mem_cons_of_mem _ hj)),
      h i (List.mem_cons_self _ _), List.map_cons, List.sum_cons]
    ring

theorem forRange_add (lo hi : Int) (body : Int → (Int → ℚ) → Int → ℚ) (a : Int)
    (v : Int → ℚ) (h : ∀ i, lo ≤ i → i < hi → ∀ df, body i df a = df a + v i)
    (df : Int → ℚ) :
    forRange lo hi body df a = df a + range_sum lo hi v :=
  foldl_add _ body a v (fun i hi' => h i ((mem_irange _ _ _).mp hi').1
    ((mem_irange _ _ _).mp hi').2) df

theorem range_sum_congr (lo hi : Int) (u v : Int → ℚ)
    (h : ∀ i, lo ≤ i → i < hi → u i = v i) : range_sum lo hi u = range_sum lo hi v := by
  unfold range_sum
  congr 1
  apply List.map_congr_left
  intro i hi'
  exact h i ((mem_irange _ _ _).mp hi').1 ((mem_irange _ _ _).mp hi').2

theorem list_sum_point (L : List Int) (hL : L.Nodup) (i0 : Int) (c : ℚ) :
    (L.map (fun i => if i = i0 then c else 0)).sum = if i0 ∈ L then c else 0 := by
  induction L with
  | nil => simp
  | cons i L ih =>
    rw [List.map_cons, List.sum_cons, ih (List.nodup_cons.mp hL).2]
    by_cases h : i = i0
    · subst h
      simp [(List.nodup_cons.mp hL).1]
    · have : ¬ i0 = i := fun h' => h h'.symm
      simp [h, this]

theorem irange_nodup (lo hi : Int) : (irange lo hi).Nodup := by
  unfold irange
  refine (List.nodup_range _).map ?_
  intro a b h
  simpa using h

theorem range_sum_point (lo hi i0 : Int) (c : ℚ) :
    range_sum lo hi (fun i => if i = i0 then c else 0)
      = if lo ≤ i0 ∧ i0 < hi then c else 0 := by
  unfold range_sum
  rw [list_sum_point _ (irange_nodup lo hi)]
  simp only [mem_irange]

/-- A loop whose iteration `i0` adds `c` to `df[a]` and whose other iterations
leave `df[a]` alone adds `c` when `i0` is in range. -/
theorem forRange_add_point (lo hi : Int) (body : Int → (Int → ℚ) → Int → ℚ) (a i0 : Int)
    (c : ℚ)
    (h : ∀ i, lo ≤ i → i < hi → ∀ df, body i df a = df a + if i = i0 then c else 0)
    (df : Int → ℚ) :
    forRange lo hi body df a = df a + if lo ≤ i0 ∧ i0 < hi then c else 0 := by
  rw [forRange_add lo hi body a _ h, range_sum_point]

theorem stencil_sum_eq_range_sum (N : Int) (u : Int → ℚ) :
    stencil_sum N u = range_sum 0 N u := rfl

theorem add_all_sgn (st : List (Int × ℚ)) (df : Int → ℚ) (a : Int) :
    add_all st df a = df a + 1 * hits st a := by
  rw [add_all_at, one_mul]

theorem sub_all_sgn (st : List (Int × ℚ)) (df : Int → ℚ) (a : Int) :
    sub_all st df a = df a + (-1) * hits st a := by
  rw [sub_all_at]; ring

theorem range_sum_ite_const (lo hi : Int) (C : Prop) [Decidable C] (u : Int → ℚ) :
    range_sum lo hi (fun n => if C then u n else 0) = if C then range_sum lo hi u else 0 := by
  by_cases h : C
  · simp only [h, if_true]
  · simp only [h, if_false]
    unfold range_sum
    simp

theorem range_sum_mul_left (lo hi : Int) (c : ℚ) (u : Int → ℚ) :
    range_sum lo hi (fun n => c * u n) = c * range_sum lo hi u := by
  unfold range_sum
  induction irange lo hi with
  | nil => simp
  | cons i L ih => simp only [List.map_cons, List.sum_cons, ih]; ring

theorem pidx2_bounds (b : block) (n0 n1 : Int) (h : in_array b n0 n1 1) (i j : Int)
    (ho : owned2 b i j) : 0 ≤ i * b.nxd 1 + j ∧ i * b.nxd 1 + j < b.nxd 0 := by
  obtain ⟨⟨e0, e1, _⟩, ⟨g1, g2, g3, g4⟩, ⟨g5, g6, g7, g8⟩, _⟩ := h
  obtain ⟨⟨a1, a2⟩, ⟨a3, a4⟩⟩ := ho
  rw [e0, e1]
  have hi0 : 0 ≤ i := by omega
  have hi1 : i + 1 ≤ n0 := by omega
  have hj0 : 0 ≤ j := by omega
  have hj1 : j < n1 := by omega
  have hn1 : 0 ≤ n1 := by omega
  constructor
  · nlinarith [mul_nonneg hi0 hn1]
  · nlinarith [mul_le_mul_of_nonneg_right hi1 hn1]

theorem pidx2_inj (b : block) (n0 n1 : Int) (h : in_array b n0 n1 1) (i j i' j' : Int)
    (ho : owned2 b i j) (ho' : owned2 b i' j')
    (he : i * b.nxd 1 + j = i' * b.nxd 1 + j') : i = i' ∧ j = j' := by
  obtain ⟨⟨e0, e1, _⟩, ⟨g1, g2, g3, g4⟩, ⟨g5, g6, g7, g8⟩, _⟩ := h
  obtain ⟨⟨a1, a2⟩, ⟨a3, a4⟩⟩ := ho
  obtain ⟨⟨c1, c2⟩, ⟨c3, c4⟩⟩ := ho'
  rw [e1, mul_one] at he
  exact radix_inj n1 i j i' j' (by omega) (by omega) (by omega) (by omega) he

/-- A statement run laid out by rows at the owned point `(i,j)` changes row `r`
of the owned point `(i0,j0)` only when the points coincide. -/
theorem leaf2_at (b : block) (n0 n1 : Int) (harr : in_array b n0 n1 1)
    (leaf : List (Int × ℚ) → (Int → ℚ) → Int → ℚ) (sgn : ℚ)
    (hleaf : ∀ st df a, leaf st df a = df a + sgn * hits st a)
    (reg : Int → Int → Int → List (Int × ℚ))
    (hlay : ∀ n i j, row_layout (reg n i j) (b.nxd 0) (i * b.nxd 1 + j))
    (i0 j0 : Int) (hown : owned2 b i0 j0) (r : Nat) (n i j : Int) (ho : owned2 b i j)
    (df : Int → ℚ) :
    leaf (reg n i j) df ((r : Int) * b.nxd 0 + (i0 * b.nxd 1 + j0))
      = df ((r : Int) * b.nxd 0 + (i0 * b.nxd 1 + j0))
        + if i = i0 ∧ j = j0 then sgn * row_value (reg n i0 j0) r else 0 := by
  rw [hleaf, hits_rows (b.nxd 0) (i * b.nxd 1 + j) (i0 * b.nxd 1 + j0)
    (pidx2_bounds b n0 n1 harr i j ho) (pidx2_bounds b n0 n1 harr i0 j0 hown) r _ (hlay n i j)]
  by_cases h : i = i0 ∧ j = j0
  · obtain ⟨rfl, rfl⟩ := h
    simp
  · have h' : ¬ (i * b.nxd 1 + j = i0 * b.nxd 1 + j0) := fun he =>
      h (pidx2_inj b n0 n1 harr i j i0 j0 ho hown he)
    rw [if_neg h', if_neg h, mul_zero]

theorem loop_nij_region (b : block) (n0 n1 : Int) (harr : in_array b n0 n1 1)
    (leaf : List (Int × ℚ) → (Int → ℚ) → Int → ℚ) (sgn : ℚ)
    (hleaf : ∀ st df a, leaf st df a = df a + sgn * hits st a)
    (N lo hi : Int) (hsub : b.mlb 0 ≤ lo ∧ hi ≤ b.prb 0)
    (reg : Int → Int → Int → List (Int × ℚ))
    (hlay : ∀ n i j, row_layout (reg n i j) (b.nxd 0) (i * b.nxd 1 + j))
    (i0 j0 : Int) (hown : owned2 b i0 j0) (r : Nat) (df : Int → ℚ) :
    loop_nij N lo hi (b.mlb 1) (b.prb 1) (fun n i j => leaf (reg n i j)) df
        ((r : Int) * b.nxd 0 + (i0 * b.nxd 1 + j0))
      = df ((r : Int) * b.nxd 0 + (i0 * b.nxd 1 + j0))
        + if lo ≤ i0 ∧ i0 < hi then
            sgn * stencil_sum N (fun n => row_value (reg n i0 j0) r) else 0 := by
  unfold loop_nij
  rw [forRange_add 0 N _ _
    (fun n => if lo ≤ i0 ∧ i0 < hi then sgn * row_value (reg n i0 j0) r else 0)]
  · rw [range_sum_ite_const, range_sum_mul_left, ← stencil_sum_eq_range_sum]
  · intro n _ _ df
    refine forRange_add_point lo hi _ _ i0 _ (fun i h1 h2 df => ?_) df
    refine (forRange_add_point (b.mlb 1) (b.prb 1) _ _ j0
      (if i = i0 then sgn * row_value (reg n i0 j0) r else 0) (fun j h3 h4 df => ?_) df).trans ?_
    · show leaf (reg n i j) df _ = _
      rw [leaf2_at b n0 n1 harr leaf sgn hleaf reg hlay i0 j0 hown r n i j
        ⟨⟨by omega, by omega⟩, ⟨h3, h4⟩⟩ df]
      congr 1
      by_cases e1 : i = i0 <;> by_cases e2 : j = j0 <;> simp [e1, e2]
    · rw [if_pos hown.2]

theorem loop_jn_region (b : block) (n0 n1 : Int) (harr : in_array b n0 n1 1)
    (leaf : List (Int × ℚ) → (Int → ℚ) → Int → ℚ) (sgn : ℚ)
    (hleaf : ∀ st df a, leaf st df a = df a + sgn * hits st a)
    (N lo hi : Int) (hsub : b.mlb 1 ≤ lo ∧ hi ≤ b.prb 1)
    (reg : Int → Int → Int → List (Int × ℚ))
    (hlay : ∀ n i j, row_layout (reg n i j) (b.nxd 0) (i * b.nxd 1 + j))
    (i0 j0 : Int) (hown : owned2 b i0 j0) (r : Nat) (i : Int)
    (hir : b.mlb 0 ≤ i ∧ i < b.prb 0) (df : Int → ℚ) :
    loop_jn lo hi N (fun n j => leaf (reg n i j)) df
        ((r : Int) * b.nxd 0 + (i0 * b.nxd 1 + j0))
      = df ((r : Int) * b.nxd 0 + (i0 * b.nxd 1 + j0))
        + if i = i0 then
            (if lo ≤ j0 ∧ j0 < hi then
              sgn * stencil_sum N (fun n => row_value (reg n i0 j0) r) else 0)
          else 0 := by
  unfold loop_jn
  refine (forRange_add_point lo hi _ _ j0
    (if i = i0 then sgn * stencil_sum N (fun n => row_value (reg n i0 j0) r) else 0)
    (fun j h1 h2 df => ?_) df).trans ?_
  · rw [forRange_add 0 N _ _
      (fun n => if i = i0 ∧ j = j0 then sgn * row_value (reg n i0 j0) r else 0)
      (fun n _ _ df => leaf2_at b n0 n1 harr leaf sgn hleaf reg hlay i0 j0 hown r n i j
        ⟨hir, ⟨by omega, by omega⟩⟩ df)]
    rw [range_sum_ite_const, range_sum_mul_left, ← stencil_sum_eq_range_sum]
    congr 1
    by_cases e1 : i = i0 <;> by_cases e2 : j = j0 <;> simp [e1, e2]
  · congr 1
    by_cases e1 : i = i0 <;> simp [e1]

theorem jidx_bounds (b : block) (n0 n1 n2 : Int) (h : in_array b n0 n1 n2) (i j k : Int)
    (ho : owned b i j k) : 0 ≤ jidx b i j k ∧ jidx b i j k < b.nxd 0 := by
  obtain ⟨⟨e0, e1, e2⟩, ⟨g1, g2, g3, g4⟩, ⟨g5, g6, g7, g8⟩, ⟨g9, g10, g11, g12⟩⟩ := h
  obtain ⟨⟨a1, a2⟩, ⟨a3, a4⟩, ⟨a5, a6⟩⟩ := ho
  unfold jidx
  rw [e0, e1, e2]
  have hi0 : 0 ≤ i := by omega
  have hi1 : i + 1 ≤ n0 := by omega
  have hj0 : 0 ≤ j := by omega
  have hj1 : j + 1 ≤ n1 := by omega
  have hk0 : 0 ≤ k := by omega
  have hk1 : k + 1 ≤ n2 := by omega
  have hn2 : 0 ≤ n2 := by omega
  have hn1 : 0 ≤ n1 := by omega
  have hm0 : 0 ≤ j * n2 := mul_nonneg hj0 hn2
  have hm1 : (j + 1) * n2 ≤ n1 * n2 := mul_le_mul_of_nonneg_right hj1 hn2
  have hq0 : 0 ≤ i * (n1 * n2) := mul_nonneg hi0 (mul_nonneg hn1 hn2)
  have hq1 : (i + 1) * (n1 * n2) ≤ n0 * (n1 * n2) :=
    mul_le_mul_of_nonneg_right hi1 (mul_nonneg hn1 hn2)
  constructor
  · nlinarith
  · nlinarith

theorem leaf3_at (b : block) (n0 n1 n2 : Int) (harr : in_array b n0 n1 n2)
    (leaf : List (Int × ℚ) → (Int → ℚ) → Int → ℚ) (sgn : ℚ)
    (hleaf : ∀ st df a, leaf st df a = df a + sgn * hits st a)
    (reg : Int → Int → Int → Int → List (Int × ℚ))
    (hlay : ∀ n i j k, row_layout (reg n i j k) (b.nxd 0) (i * b.nxd 1 + j * b.nxd 2 + k))
    (i0 j0 k0 : Int) (hown : owned b i0 j0 k0) (r : Nat) (n i j k : Int)
    (ho : owned b i j k) (df : Int → ℚ) :
    leaf (reg n i j k) df ((r : Int) * b.nxd 0 + (i0 * b.nxd 1 + j0 * b.nxd 2 + k0))
      = df ((r : Int) * b.nxd 0 + (i0 * b.nxd 1 + j0 * b.nxd 2 + k0))
        + if i = i0 ∧ j = j0 ∧ k = k0 then sgn * row_value (reg n i0 j0 k0) r else 0 := by
  rw [hleaf, hits_rows (b.nxd 0) (i * b.nxd 1 + j * b.nxd 2 + k)
    (i0 * b.nxd 1 + j0 * b.nxd 2 + k0) (jidx_bounds b n0 n1 n2 harr i j k ho)
    (jidx_bounds b n0 n1 n2 harr i0 j0 k0 hown) r _ (hlay n i j k)]
  by_cases h : i = i0 ∧ j = j0 ∧ k = k0
  · obtain ⟨rfl, rfl, rfl⟩ := h
    simp
  · have h' : ¬ (i * b.nxd 1 + j * b.nxd 2 + k = i0 * b.nxd 1 + j0 * b.nxd 2 + k0) :=
      fun he => h (jidx_inj b n0 n1 n2 harr i j k i0 j0 k0 ho hown he)
    rw [if_neg h', if_neg h, mul_zero]

theorem loop_nijk_region (b : block) (n0 n1 n2 : Int) (harr : in_array b n0 n1 n2)
    (leaf : List (Int × ℚ) → (Int → ℚ) → Int → ℚ) (sgn : ℚ)
    (hleaf : ∀ st df a, leaf st df a = df a + sgn * hits st a)
    (N lo0 hi0 lo1 hi1 lo2 hi2 : Int) (hs0 : b.mlb 0 ≤ lo0 ∧ hi0 ≤ b.prb 0)
    (hs1 : b.mlb 1 ≤ lo1 ∧ hi1 ≤ b.prb 1) (hs2 : b.mlb 2 ≤ lo2 ∧ hi2 ≤ b.prb 2)
    (reg : Int → Int → Int → Int → List (Int × ℚ))
    (hlay : ∀ n i j k, row_layout (reg n i j k) (b.nxd 0) (i * b.nxd 1 + j * b.nxd 2 + k))
    (i0 j0 k0 : Int) (hown : owned b i0 j0 k0) (r : Nat) (df : Int → ℚ) :
    loop_nijk N lo0 hi0 lo1 hi1 lo2 hi2 (fun n i j k => leaf (reg n i j k)) df
        ((r : Int) * b.nxd 0 + (i0 * b.nxd 1 + j0 * b.nxd 2 + k0))
      = df ((r : Int) * b.nxd 0 + (i0 * b.nxd 1 + j0 * b.nxd 2 + k0))
        + if (lo0 ≤ i0 ∧ i0 < hi0) ∧ (lo1 ≤ j0 ∧ j0 < hi1) ∧ (lo2 ≤ k0 ∧ k0 < hi2) then
            sgn * stencil_sum N (fun n => row_value (reg n i0 j0 k0) r) else 0 := by
  unfold loop_nijk
  rw [forRange_add 0 N _ _
    (fun n => if (lo0 ≤ i0 ∧ i0 < hi0) ∧ (lo1 ≤ j0 ∧ j0 < hi1) ∧ (lo2 ≤ k0 ∧ k0 < hi2) then
      sgn * row_value (reg n i0 j0 k0) r else 0)]
  · rw [range_sum_ite_const, range_sum_mul_left, ← stencil_sum_eq_range_sum]
  · intro n _ _ df
    refine (forRange_add_point lo0 hi0 _ _ i0
      (if (lo1 ≤ j0 ∧ j0 < hi1) ∧ (lo2 ≤ k0 ∧ k0 < hi2) then
        sgn * row_value (reg n i0 j0 k0) r else 0) (fun i h1 h2 df => ?_) df).trans ?_
    · refine (forRange_add_point lo1 hi1 _ _ j0
        (if i = i0 ∧ (lo2 ≤ k0 ∧ k0 < hi2) then sgn * row_value (reg n i0 j0 k0) r else 0)
        (fun j h3 h4 df => ?_) df).trans ?_
      · refine (forRange_add_point lo2 hi2 _ _ k0
          (if i = i0 ∧ j = j0 then sgn * row_value (reg n i0 j0 k0) r else 0)
          (fun k h5 h6 df => ?_) df).trans ?_
        · show leaf (reg n i j k) df _ = _
          rw [leaf3_at b n0 n1 n2 harr leaf sgn hleaf reg hlay i0 j0 k0 hown r n i j k
            ⟨⟨by omega, by omega⟩, ⟨by omega, by omega⟩, ⟨by omega, by omega⟩⟩ df]
          congr 1
          by_cases e1 : i = i0 <;> by_cases e2 : j = j0 <;> by_cases e3 : k = k0 <;>
            simp [e1, e2, e3]
        · congr 1
          by_cases e1 : i = i0 <;> by_cases e2 : j = j0 <;>
            by_cases e3 : lo2 ≤ k0 ∧ k0 < hi2 <;> simp [e1, e2, e3]
      · congr 1
        by_cases e1 : i = i0 <;> by_cases e2 : lo1 ≤ j0 ∧ j0 < hi1 <;>
          by_cases e3 : lo2 ≤ k0 ∧ k0 < hi2 <;> simp [e1, e2, e3]
    · congr 1
      by_cases e1 : lo0 ≤ i0 ∧ i0 < hi0 <;> by_cases e2 : lo1 ≤ j0 ∧ j0 < hi1 <;>
        by_cases e3 : lo2 ≤ k0 ∧ k0 < hi2 <;> simp [e1, e2, e3]
/-! ## Row layout of the kernel statements -/

theorem df_mode2_x_left_layout (b : block) (mat : material) (fd : fd_type) (dt : ℚ) (f : fields)
    (n i j : Int) :
    row_layout (df_mode2_x_left b mat fd dt f n i j) (b.nxd 0) (i * b.nxd 1 + j) := rfl

theorem df_mode2_x_interior_layout (b : block) (mat : material) (fd : fd_type) (dt : ℚ) (f : fields)
    (n i j : Int) :
    row_layout (df_mode2_x_interior b mat fd dt f n i j) (b.nxd 0) (i * b.nxd 1 + j) := rfl

theorem df_mode2_x_right_layout (b : block) (mat : material) (fd : fd_type) (dt : ℚ) (f : fields)
    (n i j : Int) :
    row_layout (df_mode2_x_right b mat fd dt f n i j) (b.nxd 0) (i * b.nxd 1 + j) := rfl

theorem df_mode2_y_left_layout (b : block) (mat : material) (fd : fd_type) (dt : ℚ) (f : fields)
    (n i j : Int) :
    row_layout (df_mode2_y_left b mat fd dt f n i j) (b.nxd 0) (i * b.nxd 1 + j) := rfl

theorem df_mode2_y_interior_layout (b : block) (mat : material) (fd : fd_type) (dt : ℚ) (f : fields)
    (n i j : Int) :
    row_layout (df_mode2_y_interior b mat fd dt f n i j) (b.nxd 0) (i * b.nxd 1 + j) := rfl

theorem df_mode2_y_right_layout (b : block) (mat : material) (fd : fd_type) (dt : ℚ) (f : fields)
    (n i j : Int) :
    row_layout (df_mode2_y_right b mat fd dt f n i j) (b.nxd 0) (i * b.nxd 1 + j) := rfl

theorem df_mode3_x_left_layout (b : block) (mat : material) (fd : fd_type) (dt : ℚ) (f : fields)
    (n i j : Int) :
    row_layout (df_mode3_x_left b mat fd dt f n i j) (b.nxd 0) (i * b.nxd 1 + j) := rfl

theorem df_mode3_x_interior_layout (b : block) (mat : material) (fd : fd_type) (dt : ℚ) (f : fields)
    (n i j : Int) :
    row_layout (df_mode3_x_interior b mat fd dt f n i j) (b.nxd 0) (i * b.nxd 1 + j) := rfl

theorem df_mode3_x_right_layout (b : block) (mat : material) (fd : fd_type) (dt : ℚ) (f : fields)
    (n i j : Int) :
    row_layout (df_mode3_x_right b mat fd dt f n i j) (b.nxd 0) (i * b.nxd 1 + j) := rfl

theorem df_mode3_y_left_layout (b : block) (mat : material) (fd : fd_type) (dt : ℚ) (f : fields)
    (n i j : Int) :
    row_layout (df_mode3_y_left b mat fd dt f n i j) (b.nxd 0) (i * b.nxd 1 + j) := rfl

theorem df_mode3_y_interior_layout (b : block) (mat : material) (fd : fd_type) (dt : ℚ) (f : fields)
    (n i j : Int) :
    row_layout (df_mode3_y_interior b mat fd dt f n i j) (b.nxd 0) (i * b.nxd 1 + j) := rfl

theorem df_mode3_y_right_layout (b : block) (mat : material) (fd : fd_type) (dt : ℚ) (f : fields)
    (n i j : Int) :
    row_layout (df_mode3_y_right b mat fd dt f n i j) (b.nxd 0) (i * b.nxd 1 + j) := rfl

theorem df_3d_x_left_layout (b : block) (mat : material) (fd : fd_type) (dt : ℚ) (f : fields)
    (n i j k : Int) :
    row_layout (df_3d_x_left b mat fd dt f n i j k) (b.nxd 0) (i * b.nxd 1 + j * b.nxd 2 + k) := rfl

theorem df_3d_x_interior_layout (b : block) (mat : material) (fd : fd_type) (dt : ℚ) (f : fields)
    (n i j k : Int) :
    row_layout (df_3d_x_interior b mat fd dt f n i j k) (b.nxd 0) (i * b.nxd 1 + j * b.nxd 2 + k) := rfl

theorem df_3d_x_right_layout (b : block) (mat : material) (fd : fd_type) (dt : ℚ) (f : fields)
    (n i j k : Int) :
    row_layout (df_3d_x_right b mat fd dt f n i j k) (b.nxd 0) (i * b.nxd 1 + j * b.nxd 2 + k) := rfl

theorem df_3d_y_left_layout (b : block) (mat : material) (fd : fd_type) (dt : ℚ) (f : fields)
    (n i j k : Int) :
    row_layout (df_3d_y_left b mat fd dt f n i j k) (b.nxd 0) (i * b.nxd 1 + j * b.nxd 2 + k) := rfl

theorem df_3d_y_interior_layout (b : block) (mat : material) (fd : fd_type) (dt : ℚ) (f : fields)
    (n i j k : Int) :
    row_layout (df_3d_y_interior b mat fd dt f n i j k) (b.nxd 0) (i * b.nxd 1 + j * b.nxd 2 + k) := rfl

theorem df_3d_y_right_layout (b : block) (mat : material) (fd : fd_type) (dt : ℚ) (f : fields)
    (n i j k : Int) :
    row_layout (df_3d_y_right b mat fd dt f n i j k) (b.nxd 0) (i * b.nxd 1 + j * b.nxd 2 + k) := rfl

theorem df_3d_z_left_layout (b : block) (mat : material) (fd : fd_type) (dt : ℚ) (f : fields)
    (n i j k : Int) :
    row_layout (df_3d_z_left b mat fd dt f n i j k) (b.nxd 0) (i * b.nxd 1 + j * b.nxd 2 + k) := rfl

theorem df_3d_z_interior_layout (b : block) (mat : material) (fd : fd_type) (dt : ℚ) (f : fields)
    (n i j k : Int) :
    row_layout (df_3d_z_interior b mat fd dt f n i j k) (b.nxd 0) (i * b.nxd 1 + j * b.nxd 2 + k) := rfl

theorem df_3d_z_right_layout (b : block) (mat : material) (fd : fd_type) (dt : ℚ) (f : fields)
    (n i j k : Int) :
    row_layout (df_3d_z_right b mat fd dt f n i j k) (b.nxd 0) (i * b.nxd 1 + j * b.nxd 2 + k) := rfl

/-! ## The passes of the kernels at an owned point -/

theorem pass_x2_at (b : block) (n0 n1 : Int) (harr : in_array b n0 n1 1)
    (hreg : regions_inside b 0) (N1 N2 : Int) (regL regI regR : Int → Int → Int → List (Int × ℚ))
    (hL : ∀ n i j, row_layout (regL n i j) (b.nxd 0) (i * b.nxd 1 + j))
    (hI : ∀ n i j, row_layout (regI n i j) (b.nxd 0) (i * b.nxd 1 + j))
    (hR : ∀ n i j, row_layout (regR n i j) (b.nxd 0) (i * b.nxd 1 + j))
    (i0 j0 : Int) (hown : owned2 b i0 j0) (r : Nat) (df : Int → ℚ) :
    loop_nij N1 (b.mrb 0) (b.prb 0) (b.mlb 1) (b.prb 1) (fun n i j => sub_all (regR n i j))
      (loop_nij N2 (b.mc 0) (b.mrb 0) (b.mlb 1) (b.prb 1) (fun n i j => add_all (regI n i j))
        (loop_nij N1 (b.mlb 0) (b.mc 0) (b.mlb 1) (b.prb 1)
          (fun n i j => add_all (regL n i j)) df))
      ((r : Int) * b.nxd 0 + (i0 * b.nxd 1 + j0))
      = df ((r : Int) * b.nxd 0 + (i0 * b.nxd 1 + j0))
        + region_total b 0 i0 (stencil_sum N1 (fun n => row_value (regL n i0 j0) r))
            (stencil_sum N2 (fun n => row_value (regI n i0 j0) r))
            (stencil_sum N1 (fun n => row_value (regR n i0 j0) r)) := by
  obtain ⟨r1, r2, r3, r4⟩ := hreg
  rw [loop_nij_region b n0 n1 harr sub_all (-1) sub_all_sgn N1 _ _ ⟨r3, le_refl _⟩ regR hR
      i0 j0 hown r,
    loop_nij_region b n0 n1 harr add_all 1 add_all_sgn N2 _ _ ⟨r1, r4⟩ regI hI i0 j0 hown r,
    loop_nij_region b n0 n1 harr add_all 1 add_all_sgn N1 _ _ ⟨le_refl _, r2⟩ regL hL
      i0 j0 hown r]
  unfold region_total
  split_ifs <;> ring

theorem pass_y2_at (b : block) (n0 n1 : Int) (harr : in_array b n0 n1 1)
    (hreg : regions_inside b 1) (N1 N2 : Int) (regL regI regR : Int → Int → Int → List (Int × ℚ))
    (hL : ∀ n i j, row_layout (regL n i j) (b.nxd 0) (i * b.nxd 1 + j))
    (hI : ∀ n i j, row_layout (regI n i j) (b.nxd 0) (i * b.nxd 1 + j))
    (hR : ∀ n i j, row_layout (regR n i j) (b.nxd 0) (i * b.nxd 1 + j))
    (i0 j0 : Int) (hown : owned2 b i0 j0) (r : Nat) (df : Int → ℚ) :
    forRange (b.mlb 0) (b.prb 0) (fun i df =>
      loop_jn (b.mrb 1) (b.prb 1) N1 (fun n j => sub_all (regR n i j))
        (loop_jn (b.mc 1) (b.mrb 1) N2 (fun n j => add_all (regI n i j))
          (loop_jn (b.mlb 1) (b.mc 1) N1 (fun n j => add_all (regL n i j)) df))) df
      ((r : Int) * b.nxd 0 + (i0 * b.nxd 1 + j0))
      = df ((r : Int) * b.nxd 0 + (i0 * b.nxd 1 + j0))
        + region_total b 1 j0 (stencil_sum N1 (fun n => row_value (regL n i0 j0) r))
            (stencil_sum N2 (fun n => row_value (regI n i0 j0) r))
            (stencil_sum N1 (fun n => row_value (regR n i0 j0) r)) := by
  obtain ⟨r1, r2, r3, r4⟩ := hreg
  refine (forRange_add_point (b.mlb 0) (b.prb 0) _ _ i0
    (region_total b 1 j0 (stencil_sum N1 (fun n => row_value (regL n i0 j0) r))
      (stencil_sum N2 (fun n => row_value (regI n i0 j0) r))
      (stencil_sum N1 (fun n => row_value (regR n i0 j0) r))) (fun i h1 h2 df => ?_) df).trans ?_
  · show loop_jn (b.mrb 1) (b.prb 1) N1 (fun n j => sub_all (regR n i j))
      (loop_jn (b.mc 1) (b.mrb 1) N2 (fun n j => add_all (regI n i j))
        (loop_jn (b.mlb 1) (b.mc 1) N1 (fun n j => add_all (regL n i j)) df)) _ = _
    rw [loop_jn_region b n0 n1 harr sub_all (-1) sub_all_sgn N1 _ _ ⟨r3, le_refl _⟩ regR hR
        i0 j0 hown r i ⟨h1, h2⟩,
      loop_jn_region b n0 n1 harr add_all 1 add_all_sgn N2 _ _ ⟨r1, r4⟩ regI hI i0 j0 hown r i
        ⟨h1, h2⟩,
      loop_jn_region b n0 n1 harr add_all 1 add_all_sgn N1 _ _ ⟨le_refl _, r2⟩ regL hL
        i0 j0 hown r i ⟨h1, h2⟩]
    unfold region_total
    split_ifs <;> ring
  · rw [if_pos hown.1]

theorem pass_3d_at (b : block) (n0 n1 n2 : Int) (harr : in_array b n0 n1 n2) (d : Nat)
    (hreg : regions_inside b d) (N1 N2 : Int)
    (lo hi : Nat → Nat → Int)
    (hlo : ∀ t e, lo t e = if e = d then
      (if t = 0 then b.mlb e else if t = 1 then b.mc e else b.mrb e) else b.mlb e)
    (hhi : ∀ t e, hi t e = if e = d then
      (if t = 0 then b.mc e else if t = 1 then b.mrb e else b.prb e) else b.prb e)
    (hd : d < 3)
    (regL regI regR : Int → Int → Int → Int → List (Int × ℚ))
    (hL : ∀ n i j k, row_layout (regL n i j k) (b.nxd 0) (i * b.nxd 1 + j * b.nxd 2 + k))
    (hI : ∀ n i j k, row_layout (regI n i j k) (b.nxd 0) (i * b.nxd 1 + j * b.nxd 2 + k))
    (hR : ∀ n i j k, row_layout (regR n i j k) (b.nxd 0) (i * b.nxd 1 + j * b.nxd 2 + k))
    (i0 j0 k0 : Int) (hown : owned b i0 j0 k0) (r : Nat) (df : Int → ℚ) :
    loop_nijk N1 (lo 2 0) (hi 2 0) (lo 2 1) (hi 2 1) (lo 2 2) (hi 2 2)
      (fun n i j k => sub_all (regR n i j k))
      (loop_nijk N2 (lo 1 0) (hi 1 0) (lo 1 1) (hi 1 1) (lo 1 2) (hi 1 2)
        (fun n i j k => add_all (regI n i j k))
        (loop_nijk N1 (lo 0 0) (hi 0 0) (lo 0 1) (hi 0 1) (lo 0 2) (hi 0 2)
          (fun n i j k => add_all (regL n i j k)) df))
      ((r : Int) * b.nxd 0 + (i0 * b.nxd 1 + j0 * b.nxd 2 + k0))
      = df ((r : Int) * b.nxd 0 + (i0 * b.nxd 1 + j0 * b.nxd 2 + k0))
        + region_total b d (if d = 0 then i0 else if d = 1 then j0 else k0)
            (stencil_sum N1 (fun n => row_value (regL n i0 j0 k0) r))
            (stencil_sum N2 (fun n => row_value (regI n i0 j0 k0) r))
            (stencil_sum N1 (fun n => row_value (regR n i0 j0 k0) r)) := by
  obtain ⟨r1, r2, r3, r4⟩ := hreg
  obtain ⟨⟨a1, a2⟩, ⟨a3, a4⟩, ⟨a5, a6⟩⟩ := hown
  have hsub : ∀ t e, t < 3 → b.mlb e ≤ lo t e ∧ hi t e ≤ b.prb e := by
    intro t e ht
    rw [hlo, hhi]
    by_cases he : e = d
    · subst he
      interval_cases t <;> simp <;> omega
    · simp [he]
  rw [loop_nijk_region b n0 n1 n2 harr sub_all (-1) sub_all_sgn N1 _ _ _ _ _ _
      (hsub 2 0 (by decide)) (hsub 2 1 (by decide)) (hsub 2 2 (by decide)) regR hR i0 j0 k0
      ⟨⟨a1, a2⟩, ⟨a3, a4⟩, ⟨a5, a6⟩⟩ r,
    loop_nijk_region b n0 n1 n2 harr add_all 1 add_all_sgn N2 _ _ _ _ _ _
      (hsub 1 0 (by decide)) (hsub 1 1 (by decide)) (hsub 1 2 (by decide)) regI hI i0 j0 k0
      ⟨⟨a1, a2⟩, ⟨a3, a4⟩, ⟨a5, a6⟩⟩ r,
    loop_nijk_region b n0 n1 n2 harr add_all 1 add_all_sgn N1 _ _ _ _ _ _
      (hsub 0 0 (by decide)) (hsub 0 1 (by decide)) (hsub 0 2 (by decide)) regL hL i0 j0 k0
      ⟨⟨a1, a2⟩, ⟨a3, a4⟩, ⟨a5, a6⟩⟩ r]
  unfold region_total
  simp only [hlo, hhi]
  interval_cases d <;> simp [a1, a2, a3, a4, a5, a6] <;> split_ifs <;> ring

theorem calc_df_mode2_x_at (b : block) (mat : material) (fd : fd_type) (dt : ℚ)
    (f : fields) (n0 n1 : Int) (harr : in_array b n0 n1 1) (hreg : regions_inside b 0)
    (i0 j0 : Int) (hown : owned2 b i0 j0) (r : Nat) (df : Int → ℚ) :
    calc_df_mode2_x b mat fd dt f df ((r : Int) * b.nxd 0 + (i0 * b.nxd 1 + j0))
      = df ((r : Int) * b.nxd 0 + (i0 * b.nxd 1 + j0))
        + region_total b 0 i0
            (stencil_sum (3 * (fd.sbporder - 1))
              (fun n => row_value (df_mode2_x_left b mat fd dt f n i0 j0) r))
            (stencil_sum (2 * fd.sbporder - 1)
              (fun n => row_value (df_mode2_x_interior b mat fd dt f n i0 j0) r))
            (stencil_sum (3 * (fd.sbporder - 1))
              (fun n => row_value (df_mode2_x_right b mat fd dt f n i0 j0) r)) :=
  pass_x2_at b n0 n1 harr hreg _ _ _ _ _
    (fun n i j => df_mode2_x_left_layout b mat fd dt f n i j)
    (fun n i j => df_mode2_x_interior_layout b mat fd dt f n i j)
    (fun n i j => df_mode2_x_right_layout b mat fd dt f n i j) i0 j0 hown r df

theorem calc_df_mode2_y_at (b : block) (mat : material) (fd : fd_type) (dt : ℚ)
    (f : fields) (n0 n1 : Int) (harr : in_array b n0 n1 1) (hreg : regions_inside b 1)
    (i0 j0 : Int) (hown : owned2 b i0 j0) (r : Nat) (df : Int → ℚ) :
    calc_df_mode2_y b mat fd dt f df ((r : Int) * b.nxd 0 + (i0 * b.nxd 1 + j0))
      = df ((r : Int) * b.nxd 0 + (i0 * b.nxd 1 + j0))
        + region_total b 1 j0
            (stencil_sum (3 * (fd.sbporder - 1))
              (fun n => row_value (df_mode2_y_left b mat fd dt f n i0 j0) r))
            (stencil_sum (2 * fd.sbporder - 1)
              (fun n => row_value (df_mode2_y_interior b mat fd dt f n i0 j0) r))
            (stencil_sum (3 * (fd.sbporder - 1))
              (fun n => row_value (df_mode2_y_right b mat fd dt f n i0 j0) r)) :=
  pass_y2_at b n0 n1 harr hreg _ _ _ _ _
    (fun n i j => df_mode2_y_left_layout b mat fd dt f n i j)
    (fun n i j => df_mode2_y_interior_layout b mat fd dt f n i j)
    (fun n i j => df_mode2_y_right_layout b mat fd dt f n i j) i0 j0 hown r df

theorem calc_df_mode3_x_at (b : block) (mat : material) (fd : fd_type) (dt : ℚ)
    (f : fields) (n0 n1 : Int) (harr : in_array b n0 n1 1) (hreg : regions_inside b 0)
    (i0 j0 : Int) (hown : owned2 b i0 j0) (r : Nat) (df : Int → ℚ) :
    calc_df_mode3_x b mat fd dt f df ((r : Int) * b.nxd 0 + (i0 * b.nxd 1 + j0))
      = df ((r : Int) * b.nxd 0 + (i0 * b.nxd 1 + j0))
        + region_total b 0 i0
            (stencil_sum (3 * (fd.sbporder - 1))
              (fun n => row_value (df_mode3_x_left b mat fd dt f n i0 j0) r))
            (stencil_sum (2 * fd.sbporder - 1)
              (fun n => row_value (df_mode3_x_interior b mat fd dt f n i0 j0) r))
            (stencil_sum (3 * (fd.sbporder - 1))
              (fun n => row_value (df_mode3_x_right b mat fd dt f n i0 j0) r)) :=
  pass_x2_at b n0 n1 harr hreg _ _ _ _ _
    (fun n i j => df_mode3_x_left_layout b mat fd dt f n i j)
    (fun n i j => df_mode3_x_interior_layout b mat fd dt f n i j)
    (fun n i j => df_mode3_x_right_layout b mat fd dt f n i j) i0 j0 hown r df

theorem calc_df_mode3_y_at (b : block) (mat : material) (fd : fd_type) (dt : ℚ)
    (f : fields) (n0 n1 : Int) (harr : in_array b n0 n1 1) (hreg : regions_inside b 1)
    (i0 j0 : Int) (hown : owned2 b i0 j0) (r : Nat) (df : Int → ℚ) :
    calc_df_mode3_y b mat fd dt f df ((r : Int) * b.nxd 0 + (i0 * b.nxd 1 + j0))
      = df ((r : Int) * b.nxd 0 + (i0 * b.nxd 1 + j0))
        + region_total b 1 j0
            (stencil_sum (3 * (fd.sbporder - 1))
              (fun n => row_value (df_mode3_y_left b mat fd dt f n i0 j0) r))
            (stencil_sum (2 * fd.sbporder - 1)
              (fun n => row_value (df_mode3_y_interior b mat fd dt f n i0 j0) r))
            (stencil_sum (3 * (fd.sbporder - 1))
              (fun n => row_value (df_mode3_y_right b mat fd dt f n i0 j0) r)) :=
  pass_y2_at b n0 n1 harr hreg _ _ _ _ _
    (fun n i j => df_mode3_y_left_layout b mat fd dt f n i j)
    (fun n i j => df_mode3_y_interior_layout b mat fd dt f n i j)
    (fun n i j => df_mode3_y_right_layout b mat fd dt f n i j) i0 j0 hown r df

theorem calc_df_3d_x_at (b : block) (mat : material) (fd : fd_type) (dt : ℚ)
    (f : fields) (n0 n1 n2 : Int) (harr : in_array b n0 n1 n2) (hreg : regions_inside b 0)
    (i0 j0 k0 : Int) (hown : owned b i0 j0 k0) (r : Nat) (df : Int → ℚ) :
    calc_df_3d_x b mat fd dt f df
        ((r : Int) * b.nxd 0 + (i0 * b.nxd 1 + j0 * b.nxd 2 + k0))
      = df ((r : Int) * b.nxd 0 + (i0 * b.nxd 1 + j0 * b.nxd 2 + k0))
        + region_total b 0 i0
            (stencil_sum (3 * (fd.sbporder - 1))
              (fun n => row_value (df_3d_x_left b mat fd dt f n i0 j0 k0) r))
            (stencil_sum (2 * fd.sbporder - 1)
              (fun n => row_value (df_3d_x_interior b mat fd dt f n i0 j0 k0) r))
            (stencil_sum (3 * (fd.sbporder - 1))
              (fun n => row_value (df_3d_x_right b mat fd dt f n i0 j0 k0) r)) :=
  pass_3d_at b n0 n1 n2 harr 0 hreg _ _
    (fun t e => if e = 0 then
      (if t = 0 then b.mlb e else if t = 1 then b.mc e else b.mrb e) else b.mlb e)
    (fun t e => if e = 0 then
      (if t = 0 then b.mc e else if t = 1 then b.mrb e else b.prb e) else b.prb e)
    (fun _ _ => rfl) (fun _ _ => rfl) (by decide)
    _ _ _
    (fun n i j k => df_3d_x_left_layout b mat fd dt f n i j k)
    (fun n i j k => df_3d_x_interior_layout b mat fd dt f n i j k)
    (fun n i j k => df_3d_x_right_layout b mat fd dt f n i j k) i0 j0 k0 hown r df

theorem calc_df_3d_y_at (b : block) (mat : material) (fd : fd_type) (dt : ℚ)
    (f : fields) (n0 n1 n2 : Int) (harr : in_array b n0 n1 n2) (hreg : regions_inside b 1)
    (i0 j0 k0 : Int) (hown : owned b i0 j0 k0) (r : Nat) (df : Int → ℚ) :
    calc_df_3d_y b mat fd dt f df
        ((r : Int) * b.nxd 0 + (i0 * b.nxd 1 + j0 * b.nxd 2 + k0))
      = df ((r : Int) * b.nxd 0 + (i0 * b.nxd 1 + j0 * b.nxd 2 + k0))
        + region_total b 1 j0
            (stencil_sum (3 * (fd.sbporder - 1))
              (fun n => row_value (df_3d_y_left b mat fd dt f n i0 j0 k0) r))
            (stencil_sum (2 * fd.sbporder - 1)
              (fun n => row_value (df_3d_y_interior b mat fd dt f n i0 j0 k0) r))
            (stencil_sum (3 * (fd.sbporder - 1))
              (fun n => row_value (df_3d_y_right b mat fd dt f n i0 j0 k0) r)) :=
  pass_3d_at b n0 n1 n2 harr 1 hreg _ _
    (fun t e => if e = 1 then
      (if t = 0 then b.mlb e else if t = 1 then b.mc e else b.mrb e) else b.mlb e)
    (fun t e => if e = 1 then
      (if t = 0 then b.mc e else if t = 1 then b.mrb e else b.prb e) else b.prb e)
    (fun _ _ => rfl) (fun _ _ => rfl) (by decide)
    _ _ _
    (fun n i j k => df_3d_y_left_layout b mat fd dt f n i j k)
    (fun n i j k => df_3d_y_interior_layout b mat fd dt f n i j k)
    (fun n i j k => df_3d_y_right_layout b mat fd dt f n i j k) i0 j0 k0 hown r df

theorem calc_df_3d_z_at (b : block) (mat : material) (fd : fd_type) (dt : ℚ)
    (f : fields) (n0 n1 n2 : Int) (harr : in_array b n0 n1 n2) (hreg : regions_inside b 2)
    (i0 j0 k0 : Int) (hown : owned b i0 j0 k0) (r : Nat) (df : Int → ℚ) :
    calc_df_3d_z b mat fd dt f df
        ((r : Int) * b.nxd 0 + (i0 * b.nxd 1 + j0 * b.nxd 2 + k0))
      = df ((r : Int) * b.nxd 0 + (i0 * b.nxd 1 + j0 * b.nxd 2 + k0))
        + region_total b 2 k0
            (stencil_sum (3 * (fd.sbporder - 1))
              (fun n => row_value (df_3d_z_left b mat fd dt f n i0 j0 k0) r))
            (stencil_sum (2 * fd.sbporder - 1)
              (fun n => row_value (df_3d_z_interior b mat fd dt f n i0 j0 k0) r))
            (stencil_sum (3 * (fd.sbporder - 1))
              (fun n => row_value (df_3d_z_right b mat fd dt f n i0 j0 k0) r)) :=
  pass_3d_at b n0 n1 n2 harr 2 hreg _ _
    (fun t e => if e = 2 then
      (if t = 0 then b.mlb e else if t = 1 then b.mc e else b.mrb e) else b.mlb e)
    (fun t e => if e = 2 then
      (if t = 0 then b.mc e else if t = 1 then b.mrb e else b.prb e) else b.prb e)
    (fun _ _ => rfl) (fun _ _ => rfl) (by decide)
    _ _ _
    (fun n i j k => df_3d_z_left_layout b mat fd dt f n i j k)
    (fun n i j k => df_3d_z_interior_layout b mat fd dt f n i j k)
    (fun n i j k => df_3d_z_right_layout b mat fd dt f n i j k) i0 j0 k0 hown r df

/-! ## The kernels add into `df` -/

theorem shift_comp (T1 T2 : (Int → ℚ) → Int → ℚ) (h1 : Shift T1) (h2 : Shift T2) :
    Shift (fun df => T2 (T1 df)) := by
  intro df df' a
  have e1 := h1 df df' a
  have e2 := h2 (T1 df) (T1 df') a
  show T2 (T1 df) a - df a = T2 (T1 df') a - df' a
  linarith

theorem shift_comp3 (T1 T2 T3 : (Int → ℚ) → Int → ℚ) (h1 : Shift T1) (h2 : Shift T2)
    (h3 : Shift T3) : Shift (fun df => T3 (T2 (T1 df))) :=
  shift_comp (fun df => T2 (T1 df)) T3 (shift_comp T1 T2 h1 h2) h3

theorem shift_foldl (L : List Int) (body : Int → (Int → ℚ) → Int → ℚ)
    (h : ∀ i, Shift (body i)) : Shift (fun df => L.foldl (fun df i => body i df) df) := by
  induction L with
  | nil => intro df df' a; simp
  | cons i L ih =>
    intro df df' a
    have e1 := h i df df' a
    have e2 := ih (body i df) (body i df') a
    show (L.foldl (fun df i => body i df) (body i df)) a - df a
      = (L.foldl (fun df i => body i df) (body i df')) a - df' a
    simp only [] at e2
    linarith

theorem shift_forRange (lo hi : Int) (body : Int → (Int → ℚ) → Int → ℚ)
    (h : ∀ i, Shift (body i)) : Shift (forRange lo hi body) :=
  shift_foldl (irange lo hi) body h

theorem shift_add_all (st : List (Int × ℚ)) : Shift (add_all st) := by
  intro df df' a; rw [add_all_at, add_all_at]; ring

theorem shift_sub_all (st : List (Int × ℚ)) : Shift (sub_all st) := by
  intro df df' a; rw [sub_all_at, sub_all_at]; ring

theorem shift_loop_nij (N lo0 hi0 lo1 hi1 : Int)
    (body : Int → Int → Int → (Int → ℚ) → Int → ℚ) (h : ∀ n i j, Shift (body n i j)) :
    Shift (loop_nij N lo0 hi0 lo1 hi1 body) :=
  shift_forRange _ _ _ (fun n => shift_forRange _ _ _ (fun i => shift_forRange _ _ _
    (fun j => h n i j)))

theorem shift_loop_jn (lo hi N : Int) (body : Int → Int → (Int → ℚ) → Int → ℚ)
    (h : ∀ n j, Shift (body n j)) : Shift (loop_jn lo hi N body) :=
  shift_forRange _ _ _ (fun j => shift_forRange _ _ _ (fun n => h n j))

theorem shift_loop_nijk (N lo0 hi0 lo1 hi1 lo2 hi2 : Int)
    (body : Int → Int → Int → Int → (Int → ℚ) → Int → ℚ) (h : ∀ n i j k, Shift (body n i j k)) :
    Shift (loop_nijk N lo0 hi0 lo1 hi1 lo2 hi2 body) :=
  shift_forRange _ _ _ (fun n => shift_forRange _ _ _ (fun i => shift_forRange _ _ _
    (fun j => shift_forRange _ _ _ (fun k => h n i j k))))

theorem shift_calc_df_mode2_x (b : block) (mat : material) (fd : fd_type) (dt : ℚ)
    (f : fields) : Shift (calc_df_mode2_x b mat fd dt f) :=
  shift_comp3 (loop_nij _ _ _ _ _ _) (loop_nij _ _ _ _ _ _) (loop_nij _ _ _ _ _ _)
    (shift_loop_nij _ _ _ _ _ _ (fun _ _ _ => shift_add_all _))
    (shift_loop_nij _ _ _ _ _ _ (fun _ _ _ => shift_add_all _))
    (shift_loop_nij _ _ _ _ _ _ (fun _ _ _ => shift_sub_all _))

theorem shift_calc_df_mode2_y (b : block) (mat : material) (fd : fd_type) (dt : ℚ)
    (f : fields) : Shift (calc_df_mode2_y b mat fd dt f) :=
  shift_forRange _ _ _ (fun _ =>
    shift_comp3 (loop_jn _ _ _ _) (loop_jn _ _ _ _) (loop_jn _ _ _ _)
      (shift_loop_jn _ _ _ _ (fun _ _ => shift_add_all _))
      (shift_loop_jn _ _ _ _ (fun _ _ => shift_add_all _))
      (shift_loop_jn _ _ _ _ (fun _ _ => shift_sub_all _)))

theorem shift_calc_df_mode3_x (b : block) (mat : material) (fd : fd_type) (dt : ℚ)
    (f : fields) : Shift (calc_df_mode3_x b mat fd dt f) :=
  shift_comp3 (loop_nij _ _ _ _ _ _) (loop_nij _ _ _ _ _ _) (loop_nij _ _ _ _ _ _)
    (shift_loop_nij _ _ _ _ _ _ (fun _ _ _ => shift_add_all _))
    (shift_loop_nij _ _ _ _ _ _ (fun _ _ _ => shift_add_all _))
    (shift_loop_nij _ _ _ _ _ _ (fun _ _ _ => shift_sub_all _))

theorem shift_calc_df_mode3_y (b : block) (mat : material) (fd : fd_type) (dt : ℚ)
    (f : fields) : Shift (calc_df_mode3_y b mat fd dt f) :=
  shift_forRange _ _ _ (fun _ =>
    shift_comp3 (loop_jn _ _ _ _) (loop_jn _ _ _ _) (loop_jn _ _ _ _)
      (shift_loop_jn _ _ _ _ (fun _ _ => shift_add_all _))
      (shift_loop_jn _ _ _ _ (fun _ _ => shift_add_all _))
      (shift_loop_jn _ _ _ _ (fun _ _ => shift_sub_all _)))

theorem shift_calc_df_3d_x (b : block) (mat : material) (fd : fd_type) (dt : ℚ)
    (f : fields) : Shift (calc_df_3d_x b mat fd dt f) :=
  shift_comp3 (loop_nijk _ _ _ _ _ _ _ _) (loop_nijk _ _ _ _ _ _ _ _)
    (loop_nijk _ _ _ _ _ _ _ _)
    (shift_loop_nijk _ _ _ _ _ _ _ _ (fun _ _ _ _ => shift_add_all _))
    (shift_loop_nijk _ _ _ _ _ _ _ _ (fun _ _ _ _ => shift_add_all _))
    (shift_loop_nijk _ _ _ _ _ _ _ _ (fun _ _ _ _ => shift_sub_all _))

theorem shift_calc_df_3d_y (b : block) (mat : material) (fd : fd_type) (dt : ℚ)
    (f : fields) : Shift (calc_df_3d_y b mat fd dt f) :=
  shift_comp3 (loop_nijk _ _ _ _ _ _ _ _) (loop_nijk _ _ _ _ _ _ _ _)
    (loop_nijk _ _ _ _ _ _ _ _)
    (shift_loop_nijk _ _ _ _ _ _ _ _ (fun _ _ _ _ => shift_add_all _))
    (shift_loop_nijk _ _ _ _ _ _ _ _ (fun _ _ _ _ => shift_add_all _))
    (shift_loop_nijk _ _ _ _ _ _ _ _ (fun _ _ _ _ => shift_sub_all _))

theorem shift_calc_df_3d_z (b : block) (mat : material) (fd : fd_type) (dt : ℚ)
    (f : fields) : Shift (calc_df_3d_z b mat fd dt f) :=
  shift_comp3 (loop_nijk _ _ _ _ _ _ _ _) (loop_nijk _ _ _ _ _ _ _ _)
    (loop_nijk _ _ _ _ _ _ _ _)
    (shift_loop_nijk _ _ _ _ _ _ _ _ (fun _ _ _ _ => shift_add_all _))
    (shift_loop_nijk _ _ _ _ _ _ _ _ (fun _ _ _ _ => shift_add_all _))
    (shift_loop_nijk _ _ _ _ _ _ _ _ (fun _ _ _ _ => shift_sub_all _))

theorem shift_mode2 (b : block) (mat : material) (fd : fd_type) (dt : ℚ) (f : fields) :
    Shift (fun df => (calc_df_mode2 b mat fd dt { f with df := df }).df) :=
  shift_comp (calc_df_mode2_x b mat fd dt f) (calc_df_mode2_y b mat fd dt f)
    (shift_calc_df_mode2_x b mat fd dt f) (shift_calc_df_mode2_y b mat fd dt f)

theorem shift_mode3 (b : block) (mat : material) (fd : fd_type) (dt : ℚ) (f : fields) :
    Shift (fun df => (calc_df_mode3 b mat fd dt { f with df := df }).df) :=
  shift_comp (calc_df_mode3_x b mat fd dt f) (calc_df_mode3_y b mat fd dt f)
    (shift_calc_df_mode3_x b mat fd dt f) (shift_calc_df_mode3_y b mat fd dt f)

theorem shift_3d (b : block) (mat : material) (fd : fd_type) (dt : ℚ) (f : fields) :
    Shift (fun df => (calc_df_3d b mat fd dt { f with df := df }).df) :=
  shift_comp3 (calc_df_3d_x b mat fd dt f) (calc_df_3d_y b mat fd dt f)
    (calc_df_3d_z b mat fd dt f) (shift_calc_df_3d_x b mat fd dt f)
    (shift_calc_df_3d_y b mat fd dt f) (shift_calc_df_3d_z b mat fd dt f)

/-- C14: `calc_df` adds into the derivative buffer and never overwrites or
reads it.  For any two initial derivative buffers `df` and `df'` with the
same state, metric, Jacobian, coefficients and `dt`, the results satisfy
`calc_df(df) - df = calc_df(df') - df'` entrywise, for each of the three
kernels (mode II, mode III, 3D) and for the dispatching `calc_df`. -/
theorem calc_df_adds_into_df (b : block) (mat : material) (fd : fd_type) (dt : ℚ)
    (f : fields) (df df' : Int → ℚ) (a : Int) :
    ((calc_df_mode2 b mat fd dt { f with df := df }).df a - df a
      = (calc_df_mode2 b mat fd dt { f with df := df' }).df a - df' a) ∧
    ((calc_df_mode3 b mat fd dt { f with df := df }).df a - df a
      = (calc_df_mode3 b mat fd dt { f with df := df' }).df a - df' a) ∧
    ((calc_df_3d b mat fd dt { f with df := df }).df a - df a
      = (calc_df_3d b mat fd dt { f with df := df' }).df a - df' a) ∧
    ((calc_df b mat fd dt { f with df := df }).df a - df a
      = (calc_df b mat fd dt { f with df := df' }).df a - df' a) := by
  have h2 := shift_mode2 b mat fd dt f df df' a
  have h3 := shift_mode3 b mat fd dt f df df' a
  have h4 := shift_3d b mat fd dt f df df' a
  refine ⟨h2, h3, h4, ?_⟩
  unfold calc_df
  by_cases hn : b.no_data = true
  · simp [hn]
  · by_cases e3 : b.ndim = 3
    · simp only [hn, e3, if_true, if_false]; exact h4
    · by_cases e2 : b.ndim = 2
      · by_cases m2 : b.mode = 2
        · simp only [hn, e3, e2, m2, if_true, if_false]; exact h2
        · by_cases m3 : b.mode = 3
          · simp only [hn, e3, e2, m2, m3, if_true, if_false]; exact h3
          · simp [hn, e3, e2, m2, m3]
      · simp [hn, e3, e2]

/-! ## Closed form of the stress rows -/

theorem stencil_sum_lin3 (N : Int) (κ A B C : ℚ) (u v w : Int → ℚ) :
    stencil_sum N (fun n => κ * (A * u n + B * v n + C * w n))
      = κ * (A * stencil_sum N u + B * stencil_sum N v + C * stencil_sum N w) := by
  unfold stencil_sum
  induction irange 0 N with
  | nil => simp
  | cons i L ih => simp only [List.map_cons, List.sum_cons, ih]; ring

/-- Region totals of terms that are a fixed linear combination of three
coefficient-weighted values are the same combination of the stencil sums. -/
theorem sbp_lin3 (b : block) (fd : fd_type) (d : Nat) (p : Int) (κ A B C : ℚ)
    (g1 g2 g3 : Int → ℚ) (TL TI TR : Int → ℚ)
    (hL : ∀ n, TL n = κ * (A * (fd.fdcoeff (p - b.mlb d + 1) n * g1 (b.mlb d + n))
      + B * (fd.fdcoeff (p - b.mlb d + 1) n * g2 (b.mlb d + n))
      + C * (fd.fdcoeff (p - b.mlb d + 1) n * g3 (b.mlb d + n))))
    (hI : ∀ n, TI n = κ * (A * (fd.fdcoeff 0 n * g1 (p - fd.sbporder + 1 + n))
      + B * (fd.fdcoeff 0 n * g2 (p - fd.sbporder + 1 + n))
      + C * (fd.fdcoeff 0 n * g3 (p - fd.sbporder + 1 + n))))
    (hR : ∀ n, TR n = κ * (A * (fd.fdcoeff (b.prb d - p) n * g1 (b.prb d - 1 - n))
      + B * (fd.fdcoeff (b.prb d - p) n * g2 (b.prb d - 1 - n))
      + C * (fd.fdcoeff (b.prb d - p) n * g3 (b.prb d - 1 - n)))) :
    region_total b d p (stencil_sum (3 * (fd.sbporder - 1)) TL)
        (stencil_sum (2 * fd.sbporder - 1) TI) (stencil_sum (3 * (fd.sbporder - 1)) TR)
      = κ * (A * sbp_sum b fd d p g1 + B * sbp_sum b fd d p g2 + C * sbp_sum b fd d p g3) := by
  rw [stencil_sum_congr _ TL _ (fun n _ _ => hL n), stencil_sum_congr _ TI _ (fun n _ _ => hI n),
    stencil_sum_congr _ TR _ (fun n _ _ => hR n), stencil_sum_lin3, stencil_sum_lin3,
    stencil_sum_lin3]
  unfold sbp_sum region_total
  split_ifs <;> ring

/-- C16: in `calc_df_mode2`, for each direction `d` in `{x, y}` and each owned
point `P` (whichever region it lies in), the stress-row increments are
`dt/dx[d]` times: for `sxx`, `(2*mu+lambda)*metric[d][0](P)*D(vx) +
lambda*metric[d][1](P)*D(vy)`; for `syy`, `(2*mu+lambda)*metric[d][1](P)*D(vy)
+ lambda*metric[d][0](P)*D(vx)`; for `sxy`, `mu*(metric[d][0](P)*D(vy) +
metric[d][1](P)*D(vx))`, where `D` is the region's stencil sum of the velocity
component (added in left closure and interior, subtracted with reversed order
in the right closure).  Rows 2, 3, 4 of `df` are `sxx`, `sxy`, `syy`; rows 0,
1 of `f` are `vx`, `vy`. -/
theorem calc_df_mode2_stress_rows (b : block) (mat : material) (fd : fd_type) (dt : ℚ)
    (f : fields) (n0 n1 : Int) (harr : in_array b n0 n1 1) (hreg0 : regions_inside b 0)
    (hreg1 : regions_inside b 1) (i0 j0 : Int) (hown : owned2 b i0 j0) (df : Int → ℚ) :
    (calc_df_mode2_x b mat fd dt f df (2 * b.nxd 0 + (i0 * b.nxd 1 + j0))
      = df (2 * b.nxd 0 + (i0 * b.nxd 1 + j0))
        + dt / b.dx 0 * ((2 * mat.g + mat.lambda) * metric_at b f 0 0 (i0 * b.nxd 1 + j0) * sbp_sum b fd 0 i0 (fun a => f_at b f 0 (a * b.nxd 1 + j0))
          + mat.lambda * metric_at b f 0 1 (i0 * b.nxd 1 + j0) * sbp_sum b fd 0 i0 (fun a => f_at b f 1 (a * b.nxd 1 + j0)))) ∧
    (calc_df_mode2_x b mat fd dt f df (4 * b.nxd 0 + (i0 * b.nxd 1 + j0))
      = df (4 * b.nxd 0 + (i0 * b.nxd 1 + j0))
        + dt / b.dx 0 * ((2 * mat.g + mat.lambda) * metric_at b f 0 1 (i0 * b.nxd 1 + j0) * sbp_sum b fd 0 i0 (fun a => f_at b f 1 (a * b.nxd 1 + j0))
          + mat.lambda * metric_at b f 0 0 (i0 * b.nxd 1 + j0) * sbp_sum b fd 0 i0 (fun a => f_at b f 0 (a * b.nxd 1 + j0)))) ∧
    (calc_df_mode2_x b mat fd dt f df (3 * b.nxd 0 + (i0 * b.nxd 1 + j0))
      = df (3 * b.nxd 0 + (i0 * b.nxd 1 + j0))
        + dt / b.dx 0 * (mat.g * (metric_at b f 0 0 (i0 * b.nxd 1 + j0) * sbp_sum b fd 0 i0 (fun a => f_at b f 1 (a * b.nxd 1 + j0))
          + metric_at b f 0 1 (i0 * b.nxd 1 + j0) * sbp_sum b fd 0 i0 (fun a => f_at b f 0 (a * b.nxd 1 + j0))))) ∧
    (calc_df_mode2_y b mat fd dt f df (2 * b.nxd 0 + (i0 * b.nxd 1 + j0))
      = df (2 * b.nxd 0 + (i0 * b.nxd 1 + j0))
        + dt / b.dx 1 * ((2 * mat.g + mat.lambda) * metric_at b f 1 0 (i0 * b.nxd 1 + j0) * sbp_sum b fd 1 j0 (fun a => f_at b f 0 (i0 * b.nxd 1 + a))
          + mat.lambda * metric_at b f 1 1 (i0 * b.nxd 1 + j0) * sbp_sum b fd 1 j0 (fun a => f_at b f 1 (i0 * b.nxd 1 + a)))) ∧
    (calc_df_mode2_y b mat fd dt f df (4 * b.nxd 0 + (i0 * b.nxd 1 + j0))
      = df (4 * b.nxd 0 + (i0 * b.nxd 1 + j0))
        + dt / b.dx 1 * ((2 * mat.g + mat.lambda) * metric_at b f 1 1 (i0 * b.nxd 1 + j0) * sbp_sum b fd 1 j0 (fun a => f_at b f 1 (i0 * b.nxd 1 + a))
          + mat.lambda * metric_at b f 1 0 (i0 * b.nxd 1 + j0) * sbp_sum b fd 1 j0 (fun a => f_at b f 0 (i0 * b.nxd 1 + a)))) ∧
    (calc_df_mode2_y b mat fd dt f df (3 * b.nxd 0 + (i0 * b.nxd 1 + j0))
      = df (3 * b.nxd 0 + (i0 * b.nxd 1 + j0))
        + dt / b.dx 1 * (mat.g * (metric_at b f 1 0 (i0 * b.nxd 1 + j0) * sbp_sum b fd 1 j0 (fun a => f_at b f 1 (i0 * b.nxd 1 + a))
          + metric_at b f 1 1 (i0 * b.nxd 1 + j0) * sbp_sum b fd 1 j0 (fun a => f_at b f 0 (i0 * b.nxd 1 + a))))) := by
  refine ⟨?_, ?_, ?_, ?_, ?_, ?_⟩
  · refine (calc_df_mode2_x_at b mat fd dt f n0 n1 harr hreg0 i0 j0 hown 2 df).trans ?_
    rw [sbp_lin3 b fd 0 i0 (dt / b.dx 0) ((2 * mat.g + mat.lambda) * metric_at b f 0 0 (i0 * b.nxd 1 + j0))
      (mat.lambda * metric_at b f 0 1 (i0 * b.nxd 1 + j0)) 0
      (fun a => f_at b f 0 (a * b.nxd 1 + j0)) (fun a => f_at b f 1 (a * b.nxd 1 + j0))
      (fun a => f_at b f 0 (a * b.nxd 1 + j0)) _ _ _
      (fun n => by
        simp only [row_value, df_mode2_x_left, df_mode2_x_interior, df_mode2_x_right,
          List.map_cons, List.map_nil, List.getD_cons_succ, List.getD_cons_zero]
        ring)
      (fun n => by
        simp only [row_value, df_mode2_x_left, df_mode2_x_interior, df_mode2_x_right,
          List.map_cons, List.map_nil, List.getD_cons_succ, List.getD_cons_zero]
        ring)
      (fun n => by
        simp only [row_value, df_mode2_x_left, df_mode2_x_interior, df_mode2_x_right,
          List.map_cons, List.map_nil, List.getD_cons_succ, List.getD_cons_zero]
        ring)]
    simp only [Nat.cast_ofNat]
    ring
  · refine (calc_df_mode2_x_at b mat fd dt f n0 n1 harr hreg0 i0 j0 hown 4 df).trans ?_
    rw [sbp_lin3 b fd 0 i0 (dt / b.dx 0) ((2 * mat.g + mat.lambda) * metric_at b f 0 1 (i0 * b.nxd 1 + j0))
      (mat.lambda * metric_at b f 0 0 (i0 * b.nxd 1 + j0)) 0
      (fun a => f_at b f 1 (a * b.nxd 1 + j0)) (fun a => f_at b f 0 (a * b.nxd 1 + j0))
      (fun a => f_at b f 1 (a * b.nxd 1 + j0)) _ _ _
      (fun n => by
        simp only [row_value, df_mode2_x_left, df_mode2_x_interior, df_mode2_x_right,
          List.map_cons, List.map_nil, List.getD_cons_succ, List.getD_cons_zero]
        ring)
      (fun n => by
        simp only [row_value, df_mode2_x_left, df_mode2_x_interior, df_mode2_x_right,
          List.map_cons, List.map_nil, List.getD_cons_succ, List.getD_cons_zero]
        ring)
      (fun n => by
        simp only [row_value, df_mode2_x_left, df_mode2_x_interior, df_mode2_x_right,
          List.map_cons, List.map_nil, List.getD_cons_succ, List.getD_cons_zero]
        ring)]
    simp only [Nat.cast_ofNat]
    ring
  · refine (calc_df_mode2_x_at b mat fd dt f n0 n1 harr hreg0 i0 j0 hown 3 df).trans ?_
    rw [sbp_lin3 b fd 0 i0 (dt / b.dx 0) (mat.g * metric_at b f 0 0 (i0 * b.nxd 1 + j0))
      (mat.g * metric_at b f 0 1 (i0 * b.nxd 1 + j0)) 0
      (fun a => f_at b f 1 (a * b.nxd 1 + j0)) (fun a => f_at b f 0 (a * b.nxd 1 + j0))
      (fun a => f_at b f 1 (a * b.nxd 1 + j0)) _ _ _
      (fun n => by
        simp only [row_value, df_mode2_x_left, df_mode2_x_interior, df_mode2_x_right,
          List.map_cons, List.map_nil, List.getD_cons_succ, List.getD_cons_zero]
        ring)
      (fun n => by
        simp only [row_value, df_mode2_x_left, df_mode2_x_interior, df_mode2_x_right,
          List.map_cons, List.map_nil, List.getD_cons_succ, List.getD_cons_zero]
        ring)
      (fun n => by
        simp only [row_value, df_mode2_x_left, df_mode2_x_interior, df_mode2_x_right,
          List.map_cons, List.map_nil, List.getD_cons_succ, List.getD_cons_zero]
        ring)]
    simp only [Nat.cast_ofNat]
    ring
  · refine (calc_df_mode2_y_at b mat fd dt f n0 n1 harr hreg1 i0 j0 hown 2 df).trans ?_
    rw [sbp_lin3 b fd 1 j0 (dt / b.dx 1) ((2 * mat.g + mat.lambda) * metric_at b f 1 0 (i0 * b.nxd 1 + j0))
      (mat.lambda * metric_at b f 1 1 (i0 * b.nxd 1 + j0)) 0
      (fun a => f_at b f 0 (i0 * b.nxd 1 + a)) (fun a => f_at b f 1 (i0 * b.nxd 1 + a))
      (fun a => f_at b f 0 (i0 * b.nxd 1 + a)) _ _ _
      (fun n => by
        simp only [row_value, df_mode2_y_left, df_mode2_y_interior, df_mode2_y_right,
          List.map_cons, List.map_nil, List.getD_cons_succ, List.getD_cons_zero]
        ring)
      (fun n => by
        simp only [row_value, df_mode2_y_left, df_mode2_y_interior, df_mode2_y_right,
          List.map_cons, List.map_nil, List.getD_cons_succ, List.getD_cons_zero]
        ring)
      (fun n => by
        simp only [row_value, df_mode2_y_left, df_mode2_y_interior, df_mode2_y_right,
          List.map_cons, List.map_nil, List.getD_cons_succ, List.getD_cons_zero]
        ring)]
    simp only [Nat.cast_ofNat]
    ring
  · refine (calc_df_mode2_y_at b mat fd dt f n0 n1 harr hreg1 i0 j0 hown 4 df).trans ?_
    rw [sbp_lin3 b fd 1 j0 (dt / b.dx 1) ((2 * mat.g + mat.lambda) * metric_at b f 1 1 (i0 * b.nxd 1 + j0))
      (mat.lambda * metric_at b f 1 0 (i0 * b.nxd 1 + j0)) 0
      (fun a => f_at b f 1 (i0 * b.nxd 1 + a)) (fun a => f_at b f 0 (i0 * b.nxd 1 + a))
      (fun a => f_at b f 1 (i0 * b.nxd 1 + a)) _ _ _
      (fun n => by
        simp only [row_value, df_mode2_y_left, df_mode2_y_interior, df_mode2_y_right,
          List.map_cons, List.map_nil, List.getD_cons_succ, List.getD_cons_zero]
        ring)
      (fun n => by
        simp only [row_value, df_mode2_y_left, df_mode2_y_interior, df_mode2_y_right,
          List.map_cons, List.map_nil, List.getD_cons_succ, List.getD_cons_zero]
        ring)
      (fun n => by
        simp only [row_value, df_mode2_y_left, df_mode2_y_interior, df_mode2_y_right,
          List.map_cons, List.map_nil, List.getD_cons_succ, List.getD_cons_zero]
        ring)]
    simp only [Nat.cast_ofNat]
    ring
  · refine (calc_df_mode2_y_at b mat fd dt f n0 n1 harr hreg1 i0 j0 hown 3 df).trans ?_
    rw [sbp_lin3 b fd 1 j0 (dt / b.dx 1) (mat.g * metric_at b f 1 0 (i0 * b.nxd 1 + j0))
      (mat.g * metric_at b f 1 1 (i0 * b.nxd 1 + j0)) 0
      (fun a => f_at b f 1 (i0 * b.nxd 1 + a)) (fun a => f_at b f 0 (i0 * b.nxd 1 + a))
      (fun a => f_at b f 1 (i0 * b.nxd 1 + a)) _ _ _
      (fun n => by
        simp only [row_value, df_mode2_y_left, df_mode2_y_interior, df_mode2_y_right,
          List.map_cons, List.map_nil, List.getD_cons_succ, List.getD_cons_zero]
        ring)
      (fun n => by
        simp only [row_value, df_mode2_y_left, df_mode2_y_interior, df_mode2_y_right,
          List.map_cons, List.map_nil, List.getD_cons_succ, List.getD_cons_zero]
        ring)
      (fun n => by
        simp only [row_value, df_mode2_y_left, df_mode2_y_interior, df_mode2_y_right,
          List.map_cons, List.map_nil, List.getD_cons_succ, List.getD_cons_zero]
        ring)]
    simp only [Nat.cast_ofNat]
    ring

/-! ## Concrete evaluations of the kernels -/

theorem block2_facts :
    (set_dx block2).mlb 0 = 0 ∧ (set_dx block2).mc 0 = 2 ∧ (set_dx block2).mrb 0 = 2 ∧
    (set_dx block2).prb 0 = 4 ∧ (set_dx block2).mlb 1 = 0 ∧ (set_dx block2).mc 1 = 2 ∧
    (set_dx block2).mrb 1 = 2 ∧ (set_dx block2).prb 1 = 4 ∧ (set_dx block2).nxd 0 = 16 ∧
    (set_dx block2).nxd 1 = 4 ∧ (set_dx block2).ndim = 2 := by
  decide

theorem block2_dx (d : Nat) (hd : d < 2) : (set_dx block2).dx d = 1 / 3 := by
  rw [set_dx_dx block2 d (by omega)]
  have h : block2.c.nx d = 4 := by interval_cases d <;> decide
  rw [h]; norm_num

theorem block3_facts :
    (set_dx block3).mlb 0 = 0 ∧ (set_dx block3).mc 0 = 2 ∧ (set_dx block3).mrb 0 = 2 ∧
    (set_dx block3).prb 0 = 4 ∧ (set_dx block3).nxd 0 = 64 ∧ (set_dx block3).nxd 1 = 16 ∧
    (set_dx block3).nxd 2 = 4 ∧ (set_dx block3).ndim = 3 := by
  decide

theorem block3_dx (d : Nat) (hd : d < 3) : (set_dx block3).dx d = 1 / 3 := by
  rw [set_dx_dx block3 d hd]
  have h : block3.c.nx d = 4 := by interval_cases d <;> decide
  rw [h]; norm_num

theorem block3y_facts :
    (set_dx block3y).mlb 1 = 0 ∧ (set_dx block3y).mc 1 = 2 ∧ (set_dx block3y).mrb 1 = 3 ∧
    (set_dx block3y).prb 1 = 5 ∧ (set_dx block3y).nxd 0 = 80 ∧ (set_dx block3y).nxd 1 = 20 ∧
    (set_dx block3y).nxd 2 = 4 ∧ (set_dx block3y).ndim = 3 := by
  decide

theorem block3y_dx1 : (set_dx block3y).dx 1 = 1 / 4 := by
  rw [set_dx_dx block3y 1 (by decide)]
  have h : block3y.c.nx 1 = 5 := by decide
  rw [h]; norm_num

/-- C15: on the 2D block of 4×4 points with unit material, unit metric, unit
state and a Jacobian that is 1 except `J = 2` at the point `(3,3)`, the y pass
of `calc_df_mode2` with `dt = 1` adds 3 to the `v_x` row at the owned point
`(0,3)` of the right closure, where the specified increment (Jacobian taken at
the stencil points) is 0. -/
theorem calc_df_mode2_vx_y_right_jacobian :
    calc_df_mode2_y (set_dx block2) mat1 fd2 1 (fields_of (jac_spike 15 2) (fun _ => 1))
        (fun _ => 0) (0 * (set_dx block2).nxd 0 + (0 * (set_dx block2).nxd 1 + 3)) = 3 ∧
    velocity_increment2 (set_dx block2) mat1 fd2 1 (fields_of (jac_spike 15 2) (fun _ => 1))
        1 2 3 0 3 = 0 := by
  obtain ⟨h1, h2, h3, h4, h5, h6, h7, h8, h9, h10, h11⟩ := block2_facts
  have hdx := block2_dx 1 (by decide)
  constructor
  · rw [show (0 : Int) * (set_dx block2).nxd 0 + (0 * (set_dx block2).nxd 1 + 3)
        = ((0 : Nat) : Int) * (set_dx block2).nxd 0 + (0 * (set_dx block2).nxd 1 + 3) from rfl,
      calc_df_mode2_y_at (set_dx block2) mat1 fd2 1 _ 4 4 (by decide) (by decide) 0 3
        (by decide) 0]
    simp [region_total, stencil_sum, irange, List.range_succ, row_value, df_mode2_y_left,
      df_mode2_y_interior, df_mode2_y_right, metric_at, f_at, fd2, mat1, fields_of, jac_spike,
      h1, h2, h3, h4, h5, h6, h7, h8, h9, h10, h11, hdx]
    norm_num
  · simp [velocity_increment2, sbp_sum, region_total, stencil_sum, irange, List.range_succ,
      metric_at, f_at, fd2, mat1, fields_of, jac_spike,
      h1, h2, h3, h4, h5, h6, h7, h8, h9, h10, h11, hdx]
    norm_num

/-- C17: on the 2D block of 4×4 points with unit material, unit metric, unit
state and a Jacobian that is 1 except `J = 2` at the point `(3,3)`, the y pass
of `calc_df_mode3` with `dt = 1` adds 3 to the `v_z` row at the owned point
`(0,3)` of the right closure, where the specified increment (Jacobian taken at
the stencil points) is 0. -/
theorem calc_df_mode3_vz_y_right_jacobian :
    calc_df_mode3_y (set_dx block2) mat1 fd2 1 (fields_of (jac_spike 15 2) (fun _ => 1))
        (fun _ => 0) (0 * (set_dx block2).nxd 0 + (0 * (set_dx block2).nxd 1 + 3)) = 3 ∧
    velocity_increment2 (set_dx block2) mat1 fd2 1 (fields_of (jac_spike 15 2) (fun _ => 1))
        1 1 2 0 3 = 0 := by
  obtain ⟨h1, h2, h3, h4, h5, h6, h7, h8, h9, h10, h11⟩ := block2_facts
  have hdx := block2_dx 1 (by decide)
  constructor
  · rw [show (0 : Int) * (set_dx block2).nxd 0 + (0 * (set_dx block2).nxd 1 + 3)
        = ((0 : Nat) : Int) * (set_dx block2).nxd 0 + (0 * (set_dx block2).nxd 1 + 3) from rfl,
      calc_df_mode3_y_at (set_dx block2) mat1 fd2 1 _ 4 4 (by decide) (by decide) 0 3
        (by decide) 0]
    simp [region_total, stencil_sum, irange, List.range_succ, row_value, df_mode3_y_left,
      df_mode3_y_interior, df_mode3_y_right, metric_at, f_at, fd2, mat1, fields_of, jac_spike,
      h1, h2, h3, h4, h5, h6, h7, h8, h9, h10, h11, hdx]
    norm_num
  · simp [velocity_increment2, sbp_sum, region_total, stencil_sum, irange, List.range_succ,
      metric_at, f_at, fd2, mat1, fields_of, jac_spike,
      h1, h2, h3, h4, h5, h6, h7, h8, h9, h10, h11, hdx]
    norm_num

/-- C18: on the 3D block of 4×5×4 points with unit material, unit metric, unit
state and a Jacobian that is 1 except `J = 3` at the point `(0,3,0)`, the y
pass of `calc_df_3d` with `dt = 1` adds 8 to the `v_x` row at the owned point
`(0,2,0)` of the interior region, where the specified increment (Jacobian
taken at the stencil points) is 12. -/
theorem calc_df_3d_vx_y_interior_jacobian :
    calc_df_3d_y (set_dx block3y) mat1 fd2 1 (fields_of (jac_spike 12 3) (fun _ => 1))
        (fun _ => 0)
        (0 * (set_dx block3y).nxd 0
          + (0 * (set_dx block3y).nxd 1 + 2 * (set_dx block3y).nxd 2 + 0)) = 8 ∧
    velocity_increment3 (set_dx block3y) mat1 fd2 1 (fields_of (jac_spike 12 3) (fun _ => 1))
        1 3 4 5 0 2 0 = 12 := by
  obtain ⟨h1, h2, h3, h4, h5, h6, h7, h8⟩ := block3y_facts
  have hdx := block3y_dx1
  constructor
  · rw [show (0 : Int) * (set_dx block3y).nxd 0
          + (0 * (set_dx block3y).nxd 1 + 2 * (set_dx block3y).nxd 2 + 0)
        = ((0 : Nat) : Int) * (set_dx block3y).nxd 0
          + (0 * (set_dx block3y).nxd 1 + 2 * (set_dx block3y).nxd 2 + 0) from rfl,
      calc_df_3d_y_at (set_dx block3y) mat1 fd2 1 _ 4 5 4 (by decide) (by decide) 0 2 0
        (by decide) 0]
    simp [region_total, stencil_sum, irange, List.range_succ, row_value, df_3d_y_left,
      df_3d_y_interior, df_3d_y_right, metric_at, f_at, fd2, mat1, fields_of, jac_spike,
      h1, h2, h3, h4, h5, h6, h7, h8, hdx]
    norm_num
  · simp [velocity_increment3, line_offset, sbp_sum, region_total, stencil_sum, irange,
      List.range_succ, metric_at, f_at, fd2, mat1, fields_of, jac_spike,
      h1, h2, h3, h4, h5, h6, h7, h8, hdx]
    norm_num

/-- C20: on the 3D block of 4×4×4 points with unit material, unit metric, unit
Jacobian and a state that is zero except `v_y = 1` at the point `(1,0,0)`, the
x pass of `calc_df_3d` with `dt = 1` adds 0 to the `syz` row at the owned
point `(0,0,0)`, where the specified increment
`dt*mu/dx*(metric[0][1]*D(v_z) + metric[0][2]*D(v_y))` is 3. -/
theorem calc_df_3d_syz_x_left :
    calc_df_3d_x (set_dx block3) mat1 fd2 1 (fields_of (fun _ => 1) (state_spike 80 1))
        (fun _ => 0)
        (7 * (set_dx block3).nxd 0
          + (0 * (set_dx block3).nxd 1 + 0 * (set_dx block3).nxd 2 + 0)) = 0 ∧
    shear_increment3 (set_dx block3) mat1 fd2 1 (fields_of (fun _ => 1) (state_spike 80 1))
        0 1 2 0 0 0 = 3 := by
  obtain ⟨h1, h2, h3, h4, h5, h6, h7, h8⟩ := block3_facts
  have hdx := block3_dx 0 (by decide)
  constructor
  · rw [show (7 : Int) * (set_dx block3).nxd 0
          + (0 * (set_dx block3).nxd 1 + 0 * (set_dx block3).nxd 2 + 0)
        = ((7 : Nat) : Int) * (set_dx block3).nxd 0
          + (0 * (set_dx block3).nxd 1 + 0 * (set_dx block3).nxd 2 + 0) from rfl,
      calc_df_3d_x_at (set_dx block3) mat1 fd2 1 _ 4 4 4 (by decide) (by decide) 0 0 0
        (by decide) 7]
    simp [region_total, stencil_sum, irange, List.range_succ, row_value, df_3d_x_left,
      df_3d_x_interior, df_3d_x_right, metric_at, f_at, fd2, mat1, fields_of, state_spike,
      h1, h2, h3, h4, h5, h6, h7, h8, hdx]
  · simp [shear_increment3, line_offset, sbp_sum, region_total, stencil_sum, irange,
      List.range_succ, metric_at, f_at, fd2, mat1, fields_of, state_spike,
      h1, h2, h3, h4, h5, h6, h7, h8, hdx]

/-- C19: in `calc_df_3d`, for each direction `d` and each owned point `P`
(whichever region it lies in), every diagonal stress row `s_aa` (`sxx`, `syy`,
`szz`) is incremented by `dt/dx[d]` times `(2*mu+lambda)*metric[d][a](P)*D(v_a)
+ lambda*(sum over b != a of metric[d][b](P)*D(v_b))`, where `D` is the
region's stencil sum.  Rows 3, 6, 8 of `df` are `sxx`, `syy`, `szz`; rows 0,
1, 2 of `f` are `vx`, `vy`, `vz`. -/
theorem calc_df_3d_diagonal_rows (b : block) (mat : material) (fd : fd_type) (dt : ℚ)
    (f : fields) (n0 n1 n2 : Int) (harr : in_array b n0 n1 n2)
    (hreg : ∀ d, d < 3 → regions_inside b d) (i0 j0 k0 : Int) (hown : owned b i0 j0 k0)
    (df : Int → ℚ) :
    (calc_df_3d_x b mat fd dt f df (3 * b.nxd 0 + (i0 * b.nxd 1 + j0 * b.nxd 2 + k0))
      = df (3 * b.nxd 0 + (i0 * b.nxd 1 + j0 * b.nxd 2 + k0))
        + dt / b.dx 0 * ((2 * mat.g + mat.lambda) * metric_at b f 0 0 (i0 * b.nxd 1 + j0 * b.nxd 2 + k0)
            * sbp_sum b fd 0 i0
              (fun a => f_at b f 0 (a * b.nxd 1 + j0 * b.nxd 2 + k0))
          + mat.lambda * (metric_at b f 0 1 (i0 * b.nxd 1 + j0 * b.nxd 2 + k0)
            * sbp_sum b fd 0 i0
              (fun a => f_at b f 1 (a * b.nxd 1 + j0 * b.nxd 2 + k0))
            + metric_at b f 0 2 (i0 * b.nxd 1 + j0 * b.nxd 2 + k0)
            * sbp_sum b fd 0 i0
              (fun a => f_at b f 2 (a * b.nxd 1 + j0 * b.nxd 2 + k0))))) ∧
    (calc_df_3d_x b mat fd dt f df (6 * b.nxd 0 + (i0 * b.nxd 1 + j0 * b.nxd 2 + k0))
      = df (6 * b.nxd 0 + (i0 * b.nxd 1 + j0 * b.nxd 2 + k0))
        + dt / b.dx 0 * ((2 * mat.g + mat.lambda) * metric_at b f 0 1 (i0 * b.nxd 1 + j0 * b.nxd 2 + k0)
            * sbp_sum b fd 0 i0
              (fun a => f_at b f 1 (a * b.nxd 1 + j0 * b.nxd 2 + k0))
          + mat.lambda * (metric_at b f 0 0 (i0 * b.nxd 1 + j0 * b.nxd 2 + k0)
            * sbp_sum b fd 0 i0
              (fun a => f_at b f 0 (a * b.nxd 1 + j0 * b.nxd 2 + k0))
            + metric_at b f 0 2 (i0 * b.nxd 1 + j0 * b.nxd 2 + k0)
            * sbp_sum b fd 0 i0
              (fun a => f_at b f 2 (a * b.nxd 1 + j0 * b.nxd 2 + k0))))) ∧
    (calc_df_3d_x b mat fd dt f df (8 * b.nxd 0 + (i0 * b.nxd 1 + j0 * b.nxd 2 + k0))
      = df (8 * b.nxd 0 + (i0 * b.nxd 1 + j0 * b.nxd 2 + k0))
        + dt / b.dx 0 * ((2 * mat.g + mat.lambda) * metric_at b f 0 2 (i0 * b.nxd 1 + j0 * b.nxd 2 + k0)
            * sbp_sum b fd 0 i0
              (fun a => f_at b f 2 (a * b.nxd 1 + j0 * b.nxd 2 + k0))
          + mat.lambda * (metric_at b f 0 0 (i0 * b.nxd 1 + j0 * b.nxd 2 + k0)
            * sbp_sum b fd 0 i0
              (fun a => f_at b f 0 (a * b.nxd 1 + j0 * b.nxd 2 + k0))
            + metric_at b f 0 1 (i0 * b.nxd 1 + j0 * b.nxd 2 + k0)
            * sbp_sum b fd 0 i0
              (fun a => f_at b f 1 (a * b.nxd 1 + j0 * b.nxd 2 + k0))))) ∧
    (calc_df_3d_y b mat fd dt f df (3 * b.nxd 0 + (i0 * b.nxd 1 + j0 * b.nxd 2 + k0))
      = df (3 * b.nxd 0 + (i0 * b.nxd 1 + j0 * b.nxd 2 + k0))
        + dt / b.dx 1 * ((2 * mat.g + mat.lambda) * metric_at b f 1 0 (i0 * b.nxd 1 + j0 * b.nxd 2 + k0)
            * sbp_sum b fd 1 j0
              (fun a => f_at b f 0 (i0 * b.nxd 1 + a * b.nxd 2 + k0))
          + mat.lambda * (metric_at b f 1 1 (i0 * b.nxd 1 + j0 * b.nxd 2 + k0)
            * sbp_sum b fd 1 j0
              (fun a => f_at b f 1 (i0 * b.nxd 1 + a * b.nxd 2 + k0))
            + metric_at b f 1 2 (i0 * b.nxd 1 + j0 * b.nxd 2 + k0)
            * sbp_sum b fd 1 j0
              (fun a => f_at b f 2 (i0 * b.nxd 1 + a * b.nxd 2 + k0))))) ∧
    (calc_df_3d_y b mat fd dt f df (6 * b.nxd 0 + (i0 * b.nxd 1 + j0 * b.nxd 2 + k0))
      = df (6 * b.nxd 0 + (i0 * b.nxd 1 + j0 * b.nxd 2 + k0))
        + dt / b.dx 1 * ((2 * mat.g + mat.lambda) * metric_at b f 1 1 (i0 * b.nxd 1 + j0 * b.nxd 2 + k0)
            * sbp_sum b fd 1 j0
              (fun a => f_at b f 1 (i0 * b.nxd 1 + a * b.nxd 2 + k0))
          + mat.lambda * (metric_at b f 1 0 (i0 * b.nxd 1 + j0 * b.nxd 2 + k0)
            * sbp_sum b fd 1 j0
              (fun a => f_at b f 0 (i0 * b.nxd 1 + a * b.nxd 2 + k0))
            + metric_at b f 1 2 (i0 * b.nxd 1 + j0 * b.nxd 2 + k0)
            * sbp_sum b fd 1 j0
              (fun a => f_at b f 2 (i0 * b.nxd 1 + a * b.nxd 2 + k0))))) ∧
    (calc_df_3d_y b mat fd dt f df (8 * b.nxd 0 + (i0 * b.nxd 1 + j0 * b.nxd 2 + k0))
      = df (8 * b.nxd 0 + (i0 * b.nxd 1 + j0 * b.nxd 2 + k0))
        + dt / b.dx 1 * ((2 * mat.g + mat.lambda) * metric_at b f 1 2 (i0 * b.nxd 1 + j0 * b.nxd 2 + k0)
            * sbp_sum b fd 1 j0
              (fun a => f_at b f 2 (i0 * b.nxd 1 + a * b.nxd 2 + k0))
          + mat.lambda * (metric_at b f 1 0 (i0 * b.nxd 1 + j0 * b.nxd 2 + k0)
            * sbp_sum b fd 1 j0
              (fun a => f_at b f 0 (i0 * b.nxd 1 + a * b.nxd 2 + k0))
            + metric_at b f 1 1 (i0 * b.nxd 1 + j0 * b.nxd 2 + k0)
            * sbp_sum b fd 1 j0
              (fun a => f_at b f 1 (i0 * b.nxd 1 + a * b.nxd 2 + k0))))) ∧
    (calc_df_3d_z b mat fd dt f df (3 * b.nxd 0 + (i0 * b.nxd 1 + j0 * b.nxd 2 + k0))
      = df (3 * b.nxd 0 + (i0 * b.nxd 1 + j0 * b.nxd 2 + k0))
        + dt / b.dx 2 * ((2 * mat.g + mat.lambda) * metric_at b f 2 0 (i0 * b.nxd 1 + j0 * b.nxd 2 + k0)
            * sbp_sum b fd 2 k0
              (fun a => f_at b f 0 (i0 * b.nxd 1 + j0 * b.nxd 2 + a))
          + mat.lambda * (metric_at b f 2 1 (i0 * b.nxd 1 + j0 * b.nxd 2 + k0)
            * sbp_sum b fd 2 k0
              (fun a => f_at b f 1 (i0 * b.nxd 1 + j0 * b.nxd 2 + a))
            + metric_at b f 2 2 (i0 * b.nxd 1 + j0 * b.nxd 2 + k0)
            * sbp_sum b fd 2 k0
              (fun a => f_at b f 2 (i0 * b.nxd 1 + j0 * b.nxd 2 + a))))) ∧
    (calc_df_3d_z b mat fd dt f df (6 * b.nxd 0 + (i0 * b.nxd 1 + j0 * b.nxd 2 + k0))
      = df (6 * b.nxd 0 + (i0 * b.nxd 1 + j0 * b.nxd 2 + k0))
        + dt / b.dx 2 * ((2 * mat.g + mat.lambda) * metric_at b f 2 1 (i0 * b.nxd 1 + j0 * b.nxd 2 + k0)
            * sbp_sum b fd 2 k0
              (fun a => f_at b f 1 (i0 * b.nxd 1 + j0 * b.nxd 2 + a))
          + mat.lambda * (metric_at b f 2 0 (i0 * b.nxd 1 + j0 * b.nxd 2 + k0)
            * sbp_sum b fd 2 k0
              (fun a => f_at b f 0 (i0 * b.nxd 1 + j0 * b.nxd 2 + a))
            + metric_at b f 2 2 (i0 * b.nxd 1 + j0 * b.nxd 2 + k0)
            * sbp_sum b fd 2 k0
              (fun a => f_at b f 2 (i0 * b.nxd 1 + j0 * b.nxd 2 + a))))) ∧
    (calc_df_3d_z b mat fd dt f df (8 * b.nxd 0 + (i0 * b.nxd 1 + j0 * b.nxd 2 + k0))
      = df (8 * b.nxd 0 + (i0 * b.nxd 1 + j0 * b.nxd 2 + k0))
        + dt / b.dx 2 * ((2 * mat.g + mat.lambda) * metric_at b f 2 2 (i0 * b.nxd 1 + j0 * b.nxd 2 + k0)
            * sbp_sum b fd 2 k0
              (fun a => f_at b f 2 (i0 * b.nxd 1 + j0 * b.nxd 2 + a))
          + mat.lambda * (metric_at b f 2 0 (i0 * b.nxd 1 + j0 * b.nxd 2 + k0)
            * sbp_sum b fd 2 k0
              (fun a => f_at b f 0 (i0 * b.nxd 1 + j0 * b.nxd 2 + a))
            + metric_at b f 2 1 (i0 * b.nxd 1 + j0 * b.nxd 2 + k0)
            * sbp_sum b fd 2 k0
              (fun a => f_at b f 1 (i0 * b.nxd 1 + j0 * b.nxd 2 + a))))) := by
  refine ⟨?_, ?_, ?_, ?_, ?_, ?_, ?_, ?_, ?_⟩
  · refine (calc_df_3d_x_at b mat fd dt f n0 n1 n2 harr (hreg 0 (by decide)) i0 j0 k0 hown
      3 df).trans ?_
    rw [sbp_lin3 b fd 0 i0 (dt / b.dx 0) ((2 * mat.g + mat.lambda) * metric_at b f 0 0 (i0 * b.nxd 1 + j0 * b.nxd 2 + k0))
      (mat.lambda * metric_at b f 0 1 (i0 * b.nxd 1 + j0 * b.nxd 2 + k0))
      (mat.lambda * metric_at b f 0 2 (i0 * b.nxd 1 + j0 * b.nxd 2 + k0))
      (fun a => f_at b f 0 (a * b.nxd 1 + j0 * b.nxd 2 + k0))
      (fun a => f_at b f 1 (a * b.nxd 1 + j0 * b.nxd 2 + k0))
      (fun a => f_at b f 2 (a * b.nxd 1 + j0 * b.nxd 2 + k0)) _ _ _
      (fun n => by
        simp only [row_value, df_3d_x_left, df_3d_x_interior, df_3d_x_right,
          List.map_cons, List.map_nil, List.getD_cons_succ, List.getD_cons_zero]
        ring)
      (fun n => by
        simp only [row_value, df_3d_x_left, df_3d_x_interior, df_3d_x_right,
          List.map_cons, List.map_nil, List.getD_cons_succ, List.getD_cons_zero]
        ring)
      (fun n => by
        simp only [row_value, df_3d_x_left, df_3d_x_interior, df_3d_x_right,
          List.map_cons, List.map_nil, List.getD_cons_succ, List.getD_cons_zero]
        ring)]
    simp only [Nat.cast_ofNat]
    ring
  · refine (calc_df_3d_x_at b mat fd dt f n0 n1 n2 harr (hreg 0 (by decide)) i0 j0 k0 hown
      6 df).trans ?_
    rw [sbp_lin3 b fd 0 i0 (dt / b.dx 0) ((2 * mat.g + mat.lambda) * metric_at b f 0 1 (i0 * b.nxd 1 + j0 * b.nxd 2 + k0))
      (mat.lambda * metric_at b f 0 0 (i0 * b.nxd 1 + j0 * b.nxd 2 + k0))
      (mat.lambda * metric_at b f 0 2 (i0 * b.nxd 1 + j0 * b.nxd 2 + k0))
      (fun a => f_at b f 1 (a * b.nxd 1 + j0 * b.nxd 2 + k0))
      (fun a => f_at b f 0 (a * b.nxd 1 + j0 * b.nxd 2 + k0))
      (fun a => f_at b f 2 (a * b.nxd 1 + j0 * b.nxd 2 + k0)) _ _ _
      (fun n => by
        simp only [row_value, df_3d_x_left, df_3d_x_interior, df_3d_x_right,
          List.map_cons, List.map_nil, List.getD_cons_succ, List.getD_cons_zero]
        ring)
      (fun n => by
        simp only [row_value, df_3d_x_left, df_3d_x_interior, df_3d_x_right,
          List.map_cons, List.map_nil, List.getD_cons_succ, List.getD_cons_zero]
        ring)
      (fun n => by
        simp only [row_value, df_3d_x_left, df_3d_x_interior, df_3d_x_right,
          List.map_cons, List.map_nil, List.getD_cons_succ, List.getD_cons_zero]
        ring)]
    simp only [Nat.cast_ofNat]
    ring
  · refine (calc_df_3d_x_at b mat fd dt f n0 n1 n2 harr (hreg 0 (by decide)) i0 j0 k0 hown
      8 df).trans ?_
    rw [sbp_lin3 b fd 0 i0 (dt / b.dx 0) ((2 * mat.g + mat.lambda) * metric_at b f 0 2 (i0 * b.nxd 1 + j0 * b.nxd 2 + k0))
      (mat.lambda * metric_at b f 0 0 (i0 * b.nxd 1 + j0 * b.nxd 2 + k0))
      (mat.lambda * metric_at b f 0 1 (i0 * b.nxd 1 + j0 * b.nxd 2 + k0))
      (fun a => f_at b f 2 (a * b.nxd 1 + j0 * b.nxd 2 + k0))
      (fun a => f_at b f 0 (a * b.nxd 1 + j0 * b.nxd 2 + k0))
      (fun a => f_at b f 1 (a * b.nxd 1 + j0 * b.nxd 2 + k0)) _ _ _
      (fun n => by
        simp only [row_value, df_3d_x_left, df_3d_x_interior, df_3d_x_right,
          List.map_cons, List.map_nil, List.getD_cons_succ, List.getD_cons_zero]
        ring)
      (fun n => by
        simp only [row_value, df_3d_x_left, df_3d_x_interior, df_3d_x_right,
          List.map_cons, List.map_nil, List.getD_cons_succ, List.getD_cons_zero]
        ring)
      (fun n => by
        simp only [row_value, df_3d_x_left, df_3d_x_interior, df_3d_x_right,
          List.map_cons, List.map_nil, List.getD_cons_succ, List.getD_cons_zero]
        ring)]
    simp only [Nat.cast_ofNat]
    ring
  · refine (calc_df_3d_y_at b mat fd dt f n0 n1 n2 harr (hreg 1 (by decide)) i0 j0 k0 hown
      3 df).trans ?_
    rw [sbp_lin3 b fd 1 j0 (dt / b.dx 1) ((2 * mat.g + mat.lambda) * metric_at b f 1 0 (i0 * b.nxd 1 + j0 * b.nxd 2 + k0))
      (mat.lambda * metric_at b f 1 1 (i0 * b.nxd 1 + j0 * b.nxd 2 + k0))
      (mat.lambda * metric_at b f 1 2 (i0 * b.nxd 1 + j0 * b.nxd 2 + k0))
      (fun a => f_at b f 0 (i0 * b.nxd 1 + a * b.nxd 2 + k0))
      (fun a => f_at b f 1 (i0 * b.nxd 1 + a * b.nxd 2 + k0))
      (fun a => f_at b f 2 (i0 * b.nxd 1 + a * b.nxd 2 + k0)) _ _ _
      (fun n => by
        simp only [row_value, df_3d_y_left, df_3d_y_interior, df_3d_y_right,
          List.map_cons, List.map_nil, List.getD_cons_succ, List.getD_cons_zero]
        ring)
      (fun n => by
        simp only [row_value, df_3d_y_left, df_3d_y_interior, df_3d_y_right,
          List.map_cons, List.map_nil, List.getD_cons_succ, List.getD_cons_zero]
        ring)
      (fun n => by
        simp only [row_value, df_3d_y_left, df_3d_y_interior, df_3d_y_right,
          List.map_cons, List.map_nil, List.getD_cons_succ, List.getD_cons_zero]
        ring)]
    simp only [Nat.cast_ofNat]
    ring
  · refine (calc_df_3d_y_at b mat fd dt f n0 n1 n2 harr (hreg 1 (by decide)) i0 j0 k0 hown
      6 df).trans ?_
    rw [sbp_lin3 b fd 1 j0 (dt / b.dx 1) ((2 * mat.g + mat.lambda) * metric_at b f 1 1 (i0 * b.nxd 1 + j0 * b.nxd 2 + k0))
      (mat.lambda * metric_at b f 1 0 (i0 * b.nxd 1 + j0 * b.nxd 2 + k0))
      (mat.lambda * metric_at b f 1 2 (i0 * b.nxd 1 + j0 * b.nxd 2 + k0))
      (fun a => f_at b f 1 (i0 * b.nxd 1 + a * b.nxd 2 + k0))
      (fun a => f_at b f 0 (i0 * b.nxd 1 + a * b.nxd 2 + k0))
      (fun a => f_at b f 2 (i0 * b.nxd 1 + a * b.nxd 2 + k0)) _ _ _
      (fun n => by
        simp only [row_value, df_3d_y_left, df_3d_y_interior, df_3d_y_right,
          List.map_cons, List.map_nil, List.getD_cons_succ, List.getD_cons_zero]
        ring)
      (fun n => by
        simp only [row_value, df_3d_y_left, df_3d_y_interior, df_3d_y_right,
          List.map_cons, List.map_nil, List.getD_cons_succ, List.getD_cons_zero]
        ring)
      (fun n => by
        simp only [row_value, df_3d_y_left, df_3d_y_interior, df_3d_y_right,
          List.map_cons, List.map_nil, List.getD_cons_succ, List.getD_cons_zero]
        ring)]
    simp only [Nat.cast_ofNat]
    ring
  · refine (calc_df_3d_y_at b mat fd dt f n0 n1 n2 harr (hreg 1 (by decide)) i0 j0 k0 hown
      8 df).trans ?_
    rw [sbp_lin3 b fd 1 j0 (dt / b.dx 1) ((2 * mat.g + mat.lambda) * metric_at b f 1 2 (i0 * b.nxd 1 + j0 * b.nxd 2 + k0))
      (mat.lambda * metric_at b f 1 0 (i0 * b.nxd 1 + j0 * b.nxd 2 + k0))
      (mat.lambda * metric_at b f 1 1 (i0 * b.nxd 1 + j0 * b.nxd 2 + k0))
      (fun a => f_at b f 2 (i0 * b.nxd 1 + a * b.nxd 2 + k0))
      (fun a => f_at b f 0 (i0 * b.nxd 1 + a * b.nxd 2 + k0))
      (fun a => f_at b f 1 (i0 * b.nxd 1 + a * b.nxd 2 + k0)) _ _ _
      (fun n => by
        simp only [row_value, df_3d_y_left, df_3d_y_interior, df_3d_y_right,
          List.map_cons, List.map_nil, List.getD_cons_succ, List.getD_cons_zero]
        ring)
      (fun n => by
        simp only [row_value, df_3d_y_left, df_3d_y_interior, df_3d_y_right,
          List.map_cons, List.map_nil, List.getD_cons_succ, List.getD_cons_zero]
        ring)
      (fun n => by
        simp only [row_value, df_3d_y_left, df_3d_y_interior, df_3d_y_right,
          List.map_cons, List.map_nil, List.getD_cons_succ, List.getD_cons_zero]
        ring)]
    simp only [Nat.cast_ofNat]
    ring
  · refine (calc_df_3d_z_at b mat fd dt f n0 n1 n2 harr (hreg 2 (by decide)) i0 j0 k0 hown
      3 df).trans ?_
    rw [sbp_lin3 b fd 2 k0 (dt / b.dx 2) ((2 * mat.g + mat.lambda) * metric_at b f 2 0 (i0 * b.nxd 1 + j0 * b.nxd 2 + k0))
      (mat.lambda * metric_at b f 2 1 (i0 * b.nxd 1 + j0 * b.nxd 2 + k0))
      (mat.lambda * metric_at b f 2 2 (i0 * b.nxd 1 + j0 * b.nxd 2 + k0))
      (fun a => f_at b f 0 (i0 * b.nxd 1 + j0 * b.nxd 2 + a))
      (fun a => f_at b f 1 (i0 * b.nxd 1 + j0 * b.nxd 2 + a))
      (fun a => f_at b f 2 (i0 * b.nxd 1 + j0 * b.nxd 2 + a)) _ _ _
      (fun n => by
        simp only [row_value, df_3d_z_left, df_3d_z_interior, df_3d_z_right,
          List.map_cons, List.map_nil, List.getD_cons_succ, List.getD_cons_zero]
        ring)
      (fun n => by
        simp only [row_value, df_3d_z_left, df_3d_z_interior, df_3d_z_right,
          List.map_cons, List.map_nil, List.getD_cons_succ, List.getD_cons_zero]
        ring)
      (fun n => by
        simp only [row_value, df_3d_z_left, df_3d_z_interior, df_3d_z_right,
          List.map_cons, List.map_nil, List.getD_cons_succ, List.getD_cons_zero]
        ring)]
    simp only [Nat.cast_ofNat]
    ring
  · refine (calc_df_3d_z_at b mat fd dt f n0 n1 n2 harr (hreg 2 (by decide)) i0 j0 k0 hown
      6 df).trans ?_
    rw [sbp_lin3 b fd 2 k0 (dt / b.dx 2) ((2 * mat.g + mat.lambda) * metric_at b f 2 1 (i0 * b.nxd 1 + j0 * b.nxd 2 + k0))
      (mat.lambda * metric_at b f 2 0 (i0 * b.nxd 1 + j0 * b.nxd 2 + k0))
      (mat.lambda * metric_at b f 2 2 (i0 * b.nxd 1 + j0 * b.nxd 2 + k0))
      (fun a => f_at b f 1 (i0 * b.nxd 1 + j0 * b.nxd 2 + a))
      (fun a => f_at b f 0 (i0 * b.nxd 1 + j0 * b.nxd 2 + a))
      (fun a => f_at b f 2 (i0 * b.nxd 1 + j0 * b.nxd 2 + a)) _ _ _
      (fun n => by
        simp only [row_value, df_3d_z_left, df_3d_z_interior, df_3d_z_right,
          List.map_cons, List.map_nil, List.getD_cons_succ, List.getD_cons_zero]
        ring)
      (fun n => by
        simp only [row_value, df_3d_z_left, df_3d_z_interior, df_3d_z_right,
          List.map_cons, List.map_nil, List.getD_cons_succ, List.getD_cons_zero]
        ring)
      (fun n => by
        simp only [row_value, df_3d_z_left, df_3d_z_interior, df_3d_z_right,
          List.map_cons, List.map_nil, List.getD_cons_succ, List.getD_cons_zero]
        ring)]
    simp only [Nat.cast_ofNat]
    ring
  · refine (calc_df_3d_z_at b mat fd dt f n0 n1 n2 harr (hreg 2 (by decide)) i0 j0 k0 hown
      8 df).trans ?_
    rw [sbp_lin3 b fd 2 k0 (dt / b.dx 2) ((2 * mat.g + mat.lambda) * metric_at b f 2 2 (i0 * b.nxd 1 + j0 * b.nxd 2 + k0))
      (mat.lambda * metric_at b f 2 0 (i0 * b.nxd 1 + j0 * b.nxd 2 + k0))
      (mat.lambda * metric_at b f 2 1 (i0 * b.nxd 1 + j0 * b.nxd 2 + k0))
      (fun a => f_at b f 2 (i0 * b.nxd 1 + j0 * b.nxd 2 + a))
      (fun a => f_at b f 0 (i0 * b.nxd 1 + j0 * b.nxd 2 + a))
      (fun a => f_at b f 1 (i0 * b.nxd 1 + j0 * b.nxd 2 + a)) _ _ _
      (fun n => by
        simp only [row_value, df_3d_z_left, df_3d_z_interior, df_3d_z_right,
          List.map_cons, List.map_nil, List.getD_cons_succ, List.getD_cons_zero]
        ring)
      (fun n => by
        simp only [row_value, df_3d_z_left, df_3d_z_interior, df_3d_z_right,
          List.map_cons, List.map_nil, List.getD_cons_succ, List.getD_cons_zero]
        ring)
      (fun n => by
        simp only [row_value, df_3d_z_left, df_3d_z_interior, df_3d_z_right,
          List.map_cons, List.map_nil, List.getD_cons_succ, List.getD_cons_zero]
        ring)]
    simp only [Nat.cast_ofNat]
    ring

theorem calc_df_3d_diagonal_rows_witness :
    calc_df_3d_x (set_dx block3) mat1 fd2 1 (fields_of (fun _ => 1) (state_spike 80 1))
        (fun _ => 0)
        (3 * (set_dx block3).nxd 0
          + (1 * (set_dx block3).nxd 1 + 2 * (set_dx block3).nxd 2 + 3))
      = (fun _ => (0 : ℚ)) (3 * (set_dx block3).nxd 0
          + (1 * (set_dx block3).nxd 1 + 2 * (set_dx block3).nxd 2 + 3))
        + 1 / (set_dx block3).dx 0 * ((2 * mat1.g + mat1.lambda)
            * metric_at (set_dx block3) (fields_of (fun _ => 1) (state_spike 80 1)) 0 0
              (1 * (set_dx block3).nxd 1 + 2 * (set_dx block3).nxd 2 + 3)
            * sbp_sum (set_dx block3) fd2 0 1
              (fun a => f_at (set_dx block3) (fields_of (fun _ => 1) (state_spike 80 1)) 0
                (a * (set_dx block3).nxd 1 + 2 * (set_dx block3).nxd 2 + 3))
          + mat1.lambda
            * (metric_at (set_dx block3) (fields_of (fun _ => 1) (state_spike 80 1)) 0 1
                (1 * (set_dx block3).nxd 1 + 2 * (set_dx block3).nxd 2 + 3)
              * sbp_sum (set_dx block3) fd2 0 1
                (fun a => f_at (set_dx block3) (fields_of (fun _ => 1) (state_spike 80 1)) 1
                  (a * (set_dx block3).nxd 1 + 2 * (set_dx block3).nxd 2 + 3))
              + metric_at (set_dx block3) (fields_of (fun _ => 1) (state_spike 80 1)) 0 2
                (1 * (set_dx block3).nxd 1 + 2 * (set_dx block3).nxd 2 + 3)
              * sbp_sum (set_dx block3) fd2 0 1
                (fun a => f_at (set_dx block3) (fields_of (fun _ => 1) (state_spike 80 1)) 2
                  (a * (set_dx block3).nxd 1 + 2 * (set_dx block3).nxd 2 + 3)))) :=
  (calc_df_3d_diagonal_rows (set_dx block3) mat1 fd2 1
    (fields_of (fun _ => 1) (state_spike 80 1)) 4 4 4 (by decide) (by decide) 1 2 3
    (by decide) (fun _ => 0)).1

theorem calc_df_mode2_stress_rows_witness :
    calc_df_mode2_x (set_dx block2) mat1 fd2 1 (fields_of (jac_spike 15 2) (fun _ => 1))
        (fun _ => 0) (2 * (set_dx block2).nxd 0 + (1 * (set_dx block2).nxd 1 + 3))
      = (fun _ => (0 : ℚ)) (2 * (set_dx block2).nxd 0 + (1 * (set_dx block2).nxd 1 + 3))
        + 1 / (set_dx block2).dx 0 * ((2 * mat1.g + mat1.lambda)
            * metric_at (set_dx block2) (fields_of (jac_spike 15 2) (fun _ => 1)) 0 0
              (1 * (set_dx block2).nxd 1 + 3)
            * sbp_sum (set_dx block2) fd2 0 1
              (fun a => f_at (set_dx block2) (fields_of (jac_spike 15 2) (fun _ => 1)) 0
                (a * (set_dx block2).nxd 1 + 3))
          + mat1.lambda
            * metric_at (set_dx block2) (fields_of (jac_spike 15 2) (fun _ => 1)) 0 1
              (1 * (set_dx block2).nxd 1 + 3)
            * sbp_sum (set_dx block2) fd2 0 1
              (fun a => f_at (set_dx block2) (fields_of (jac_spike 15 2) (fun _ => 1)) 1
                (a * (set_dx block2).nxd 1 + 3))) :=
  (calc_df_mode2_stress_rows (set_dx block2) mat1 fd2 1
    (fields_of (jac_spike 15 2) (fun _ => 1)) 4 4 (by decide) (by decide) (by decide) 1 3
    (by decide) (fun _ => 0)).1

/-! ## Claims on the assertions, the closures and the interface -/

/-- A loop of assertions over a list succeeds exactly when every assertion of
the list holds. -/
theorem foldl_asserts (L : List Int) (ok : Int → Prop) [DecidablePred ok]
    (r : Option Unit) :
    L.foldl (fun r i => r.bind (fun _ => if ok i then some () else none)) r = none
      ↔ r = none ∨ ∃ i ∈ L, ¬ ok i := by
  induction L generalizing r with
  | nil => simp
  | cons a L ih =>
    rw [List.foldl_cons, ih]
    cases r with
    | none => simp
    | some u =>
      by_cases h : ok a
      · simp [h]
      · simp [h]

/-- C29: the assertions of the block constructor (block.cpp 21-26) fail if and
only if `ndim_in` is not 2 or 3, or `mode_in` is not 2 or 3, or for some
`0 ≤ i < ndim_in` the extent `nx_in[i]` is non-positive or the minimum index
`xm_in[i]` is negative. -/
theorem block_asserts_fail_iff (ndim_in mode_in : Int) (nx_in xm_in : Nat → Int) :
    block_asserts ndim_in mode_in nx_in xm_in = none ↔
      (¬ (ndim_in = 2 ∨ ndim_in = 3) ∨ ¬ (mode_in = 2 ∨ mode_in = 3) ∨
        ∃ i : Int, 0 ≤ i ∧ i < ndim_in ∧ (nx_in i.toNat ≤ 0 ∨ xm_in i.toNat < 0)) := by
  unfold block_asserts
  by_cases h1 : ndim_in = 2 ∨ ndim_in = 3
  · by_cases h2 : mode_in = 2 ∨ mode_in = 3
    · have hbody : (fun (i : Int) (r : Option Unit) => r.bind (fun _ =>
          if ¬ (nx_in i.toNat > 0) then none
          else if ¬ (xm_in i.toNat ≥ 0) then none else some ()))
          = (fun (i : Int) (r : Option Unit) => r.bind (fun _ =>
            if (nx_in i.toNat > 0 ∧ xm_in i.toNat ≥ 0) then some () else none)) := by
        funext i r
        congr 1
        funext _
        by_cases a : nx_in i.toNat > 0 <;> by_cases c : xm_in i.toNat ≥ 0 <;> simp [a, c]
      rw [if_neg (not_not.mpr h1), if_neg (not_not.mpr h2), hbody]
      unfold forRange
      rw [foldl_asserts (irange 0 ndim_in)
        (fun i => nx_in i.toNat > 0 ∧ xm_in i.toNat ≥ 0) (some ())]
      simp only [reduceCtorEq, false_or, not_true_eq_false, h1, h2]
      constructor
      · rintro ⟨i, hi, hn⟩
        refine ⟨i, ((mem_irange _ _ _).mp hi).1, ((mem_irange _ _ _).mp hi).2, ?_⟩
        by_contra hc
        push_neg at hc
        exact hn ⟨hc.1, hc.2⟩
      · rintro ⟨i, h0, h3, hv⟩
        refine ⟨i, (mem_irange _ _ _).mpr ⟨h0, h3⟩, ?_⟩
        rintro ⟨a, c⟩
        rcases hv with hv | hv <;> omega
    · simp [h1, h2]
  · simp [h1]

/-- C30: in `set_grid` the right-closure loop is the mirror image of the
left-closure loop with the sign flipped and the coefficients applied in
reversed order.  For a direction `d` with both closures
(`mc = mlb + 2(order-1)`, `mrb = prb - 2(order-1)`), a component `l`, an
offset `t < 2(order-1)` and coordinate fields `x`, `x'` with
`x'(mlb+n) = x(prb-1-n)` on the stencil's footprint, the entry the
right-closure loop stores for `x` at index `prb-1-t` is minus the entry the
left-closure loop stores for `x'` at index `mlb+t`. -/
theorem set_grid_right_closure_mirrors_left (b : block) (fd : fd_type) (x x' : Int → ℚ)
    (d : Nat) (tup : Int → Int → Int × Int × Int × Int × Int) (addr : Int → Int → Int)
    (htup : ∀ l l' i i' : Int, tup l i = tup l' i' → l = l' ∧ i = i')
    (t l : Int) (ht : 0 ≤ t ∧ t < 2 * (fd.sbporder - 1))
    (hboth : b.mc d = b.mlb d + 2 * (fd.sbporder - 1) ∧
      b.mrb d = b.prb d - 2 * (fd.sbporder - 1))
    (hl : 0 ≤ l ∧ l < b.ndim)
    (hrefl : ∀ n : Int, 0 ≤ n → n < 3 * (fd.sbporder - 1) →
      x' (addr l (b.mlb d + n)) = x (addr l (b.prb d - 1 - n)))
    (xp xp' : XP) :
    stencil_right b fd x d tup addr xp (tup l (b.prb d - 1 - t))
      = -stencil_left b fd x' d tup addr xp' (tup l (b.mlb d + t)) := by
  have hR := leaf_loop_sets (b.mrb d) (b.prb d) b.ndim _ tup _
    (fun i l xp => stencil_right_leaf b fd x d tup addr i l xp)
    (tup l (b.prb d - 1 - t)) (right_value b fd x d addr l (b.prb d - 1 - t))
    (fun i l' _ _ _ _ he => by
      obtain ⟨e1, e2⟩ := htup _ _ _ _ he; rw [e1, e2])
    (b.prb d - 1 - t) l ⟨by omega, by omega⟩ hl rfl
  have hL := leaf_loop_sets (b.mlb d) (b.mc d) b.ndim _ tup _
    (fun i l xp => stencil_left_leaf b fd x' d tup addr i l xp)
    (tup l (b.mlb d + t)) (left_value b fd x' d addr l (b.mlb d + t))
    (fun i l' _ _ _ _ he => by
      obtain ⟨e1, e2⟩ := htup _ _ _ _ he; rw [e1, e2])
    (b.mlb d + t) l ⟨by omega, by omega⟩ hl rfl
  have eR : stencil_right b fd x d tup addr xp (tup l (b.prb d - 1 - t))
      = right_value b fd x d addr l (b.prb d - 1 - t) := hR xp trivial
  have eL : stencil_left b fd x' d tup addr xp' (tup l (b.mlb d + t))
      = left_value b fd x' d addr l (b.mlb d + t) := hL xp' trivial
  rw [eR, eL]
  unfold right_value left_value
  congr 1
  apply stencil_sum_congr
  intro n h0 h1
  rw [hrefl n h0 h1]
  congr 3
  ring

/-- C22: components without data perform no work.  When a block's `no_data`
flag is true, `calc_df` and `set_boundaries` return the fields (state, metric,
Jacobian and derivative buffer) unchanged, whatever the boundary routines are;
when an interface's `no_data` flag is true, `interface::apply_bcs` returns the
fields, and so the derivative buffer, unchanged. -/
theorem no_data_performs_no_work (b : block) (mat : material) (fd : fd_type) (dt : ℚ)
    (f : fields) (nbound : Int) (bound : Int → ℚ → fields → fields) (E : bcs_env)
    (I : interface) :
    (b.no_data = true →
      calc_df b mat fd dt f = f ∧ set_boundaries b nbound bound dt f = f) ∧
    (I.no_data = true → I.apply_bcs E dt f = f) := by
  refine ⟨fun hb => ⟨?_, ?_⟩, fun hI => ?_⟩
  · unfold calc_df; rw [if_pos hb]
  · unfold set_boundaries; rw [if_pos hb]
  · unfold interface.apply_bcs; rw [if_pos hI]

theorem no_data_performs_no_work_witness :
    (calc_df { block3 with no_data := true } mat1 fd2 1 (fields_of (fun _ => 1) (fun _ => 1))
        = fields_of (fun _ => 1) (fun _ => 1) ∧
      set_boundaries { block3 with no_data := true } 6
          (fun _ _ g => { g with df := fun _ => 1 }) 1 (fields_of (fun _ => 1) (fun _ => 1))
        = fields_of (fun _ => 1) (fun _ => 1)) ∧
    ({ face3 (fun _ => 0) (fun _ => 0) ⟨0, 0, 0, 0, 0, 0, 0, 0, 0, 0, 0, 0⟩ with
          no_data := true }).apply_bcs env_id 1 (fields_of (fun _ => 1) (fun _ => 1))
        = fields_of (fun _ => 1) (fun _ => 1) :=
  ⟨(no_data_performs_no_work { block3 with no_data := true } mat1 fd2 1
      (fields_of (fun _ => 1) (fun _ => 1)) 6 (fun _ _ g => { g with df := fun _ => 1 })
      env_id
      { face3 (fun _ => 0) (fun _ => 0) ⟨0, 0, 0, 0, 0, 0, 0, 0, 0, 0, 0, 0⟩ with
          no_data := true }).1 rfl,
   (no_data_performs_no_work { block3 with no_data := true } mat1 fd2 1
      (fields_of (fun _ => 1) (fun _ => 1)) 6 (fun _ _ g => { g with df := fun _ => 1 })
      env_id
      { face3 (fun _ => 0) (fun _ => 0) ⟨0, 0, 0, 0, 0, 0, 0, 0, 0, 0, 0, 0⟩ with
          no_data := true }).2 rfl⟩

/-- C23: the interface constructor does not set `no_data` when the process
owns no part of the adjoining faces.  For two blocks without local points
along x, an object whose `no_data` member was false before the call comes
back with `no_data` false, and one whose member was true comes back with
`no_data` true: line 23, `no_data == true;`, is a comparison, so the flag keeps
its prior contents unless lines 25-28 clear it. -/
theorem interface_new_no_data_keeps_prior :
    ¬ owns_face (side_block 0 4 0) (side_block 4 4 0) 0 ∧
    (interface_new interface0 3 2 0 (side_block 0 4 0) (side_block 4 4 0)
        (cartBox 4 4 4)).map (·.no_data) = some false ∧
    (interface_new { interface0 with no_data := true } 3 2 0 (side_block 0 4 0)
        (side_block 4 4 0) (cartBox 4 4 4)).map (·.no_data) = some true := by
  refine ⟨by decide, by decide, by decide⟩

/-- When the process owns part of the adjoining faces, the test of
interface.cpp 25-26 does not come out false. -/
theorem either_side_here_of_owns (b1 b2 : block) (dir : Nat) (h : owns_face b1 b2 dir) :
    either_side_here b1 b2 dir ≠ some false := by
  unfold either_side_here minus_side_here plus_side_here block.get_nx_loc block.get_xp
    block.get_xp_loc block.get_xm block.get_xm_loc block.get
  unfold owns_face at h
  by_cases h1 : dir < b1.ndim <;> by_cases h2 : dir < b2.ndim <;>
    by_cases a1 : b1.c.nx_loc dir = 0 <;> by_cases a2 : b2.c.nx_loc dir = 0 <;>
    by_cases e1 : b1.c.get_xp dir = b1.c.get_xp_loc dir <;>
    by_cases e2 : b2.c.xm dir = b2.c.xm_loc dir <;>
    simp [h1, h2, a1, a2, e1, e2] at h ⊢

/-- The assertion that two blocks have the same point count along `e` fails
when the counts differ. -/
theorem assert_eq_nx_ne (b1 b2 : block) (e : Int) (h : b1.c.nx e.toNat ≠ b2.c.nx e.toNat) :
    assert_eq (b1.get_nx e) (b2.get_nx e) = none := by
  unfold assert_eq block.get_nx block.get
  by_cases h1 : 0 ≤ e ∧ e < (b1.ndim : Int) <;> by_cases h2 : 0 ≤ e ∧ e < (b2.ndim : Int) <;>
    simp [h1, h2, h]

/-- C28 (amended): interface construction is fatal for every pair of adjoining
blocks with unequal transverse point counts of which the process owns part of
the adjoining faces.  For a direction `dir` in `{0,1,2}`, when the negative
side's upper face or the positive side's lower face is in this process and the
blocks' point counts differ along a dimension other than `dir`, the
constructor fails. -/
theorem interface_new_fatal_on_mismatch (p : interface) (ndim_in mode_in : Int) (dir : Nat)
    (b1 b2 : block) (cart : cartesian) (hdir : dir < 3) (hown : owns_face b1 b2 dir)
    (hmis : ∃ e : Nat, e < 3 ∧ e ≠ dir ∧ b1.c.nx e ≠ b2.c.nx e) :
    interface_new p ndim_in mode_in dir b1 b2 cart = none := by
  obtain ⟨e, he3, hed, hne⟩ := hmis
  have hown' := either_side_here_of_owns b1 b2 dir hown
  unfold interface_new
  by_cases c1 : ndim_in = 2 ∨ ndim_in = 3
  · by_cases c2 : mode_in = 2 ∨ mode_in = 3
    · by_cases c3 : p.direction ≥ 0 ∧ p.direction < p.ndim
      · rw [if_neg (not_not.mpr c1), if_neg (not_not.mpr c2), if_neg (not_not.mpr c3)]
        cases hh : either_side_here b1 b2 (dir : Int) with
        | none => rfl
        | some here =>
          cases here with
          | false => exact absurd hh hown'
          | true =>
            simp only [Option.bind_some, if_true, Bool.false_eq_true, if_false]
            interval_cases dir
            · simp only [Nat.cast_zero, if_true]
              unfold interface_case0
              interval_cases e
              · exact absurd rfl hed
              · rw [assert_eq_nx_ne b1 b2 1 hne]; rfl
              · rw [assert_eq_nx_ne b1 b2 2 hne]
                cases assert_eq (b1.get_nx 1) (b2.get_nx 1) <;> rfl
            · simp only [Nat.cast_one, one_ne_zero, if_false, if_true]
              unfold interface_case1
              interval_cases e
              · rw [assert_eq_nx_ne b1 b2 0 hne]; rfl
              · exact absurd rfl hed
              · rw [assert_eq_nx_ne b1 b2 2 hne]
                cases assert_eq (b1.get_nx 0) (b2.get_nx 0) <;> rfl
            · simp only [Nat.cast_ofNat, OfNat.ofNat_ne_zero, OfNat.ofNat_ne_one, if_false,
                if_true]
              unfold interface_case2
              interval_cases e
              · rw [assert_eq_nx_ne b1 b2 0 hne]; rfl
              · rw [assert_eq_nx_ne b1 b2 1 hne]
                cases assert_eq (b1.get_nx 0) (b2.get_nx 0) <;> rfl
              · exact absurd rfl hed
      · rw [if_neg (not_not.mpr c1), if_neg (not_not.mpr c2), if_pos c3]
    · rw [if_neg (not_not.mpr c1), if_pos c2]
  · rw [if_pos c1]

/-- C28 (counterexample): for two blocks with 4 and 5 points along y and no
local points in this process, constructing the interface normal to x on an
object whose `no_data` member holds true returns an interface: the return of
line 32 comes before the assertions on the transverse counts. -/
theorem interface_new_returns_on_mismatch_without_data :
    (side_block 0 4 0).c.nx 1 ≠ (side_block 4 5 0).c.nx 1 ∧
    (interface_new { interface0 with no_data := true } 3 2 0 (side_block 0 4 0)
        (side_block 4 5 0) (cartBox 4 4 4)).isSome = true := by
  refine ⟨by decide, by decide⟩

theorem interface_new_fatal_on_mismatch_witness :
    interface_new interface0 3 2 (0 : Nat) (side_block 0 4 4) (side_block 4 5 4)
      (cartBox 4 4 4) = none :=
  interface_new_fatal_on_mismatch interface0 3 2 0 (side_block 0 4 4) (side_block 4 5 4)
    (cartBox 4 4 4) (by decide) (by decide) ⟨1, by decide, by decide, by decide⟩

theorem set_grid_right_closure_mirrors_left_witness :
    stencil_right (set_dx block3) fd2 (fun a => (a : ℚ)) 0
        (fun l i => (l, 0, i, 0, 0)) (fun l a => l * 64 + a * 16) (fun _ => 0)
        (0, 0, (set_dx block3).prb 0 - 1 - 1, 0, 0)
      = -stencil_left (set_dx block3) fd2 (fun a => ((48 - a : Int) : ℚ)) 0
          (fun l i => (l, 0, i, 0, 0)) (fun l a => l * 64 + a * 16) (fun _ => 0)
          (0, 0, (set_dx block3).mlb 0 + 1, 0, 0) :=
  set_grid_right_closure_mirrors_left (set_dx block3) fd2 (fun a => (a : ℚ))
    (fun a => ((48 - a : Int) : ℚ)) 0 (fun l i => (l, 0, i, 0, 0))
    (fun l a => l * 64 + a * 16)
    (fun l l' i i' h => by
      simp only [Prod.mk.injEq] at h
      exact ⟨h.1, h.2.2.1⟩)
    1 0 (by decide) (by decide) (by decide)
    (fun n _ _ => by
      have h1 : (set_dx block3).mlb 0 = 0 := by decide
      have h2 : (set_dx block3).prb 0 = 4 := by decide
      rw [h1, h2]
      beta_reduce
      push_cast
      ring)
    (fun _ => 0) (fun _ => 0)

/-- C27: the scale factors `interface::allocate_normals` computes for the
coupling directions 2 and 1, on the interface with the single overlap point
whose side-1 face point has flat offset 0.  For direction 2 the factor `dl2` is
`J(P2)*sqrt(sum over k of (metric[2][k](P1) + 1)^2)/h0/dx[2]`: the metric is read
at side 1's point `P1` (offset 0) and one is added to its value (line 269),
where the specified factor takes the metric at `P2 = P1 + 1`.  For direction 1
the factor `dl1` is `J(P1)*sqrt(0)/h0/dx[1]`: the squares are accumulated into
`d1` (line 261), where the specified factor takes the sum of the squares of
`metric[1][k](P1)`. -/
theorem allocate_normals_scale_factors (sqrt : ℚ → ℚ) (h0 : ℚ) (dx : Nat → ℚ) (f : fields)
    (surf_nx : Int → Int → Int → ℚ) (nn t1 : Int → ℚ) (h : iffields) :
    ((allocate_normals sqrt h0 dx f surf_nx { face3 nn t1 h with direction := 2 }).dl2 (0, 0)
        = f.jac 1 * sqrt ((f.metric 48 + 1) ^ 2 + (f.metric 56 + 1) ^ 2
            + (f.metric 64 + 1) ^ 2) / h0 / dx 2 ∧
      scale_factor sqrt h0 dx f { face3 nn t1 h with direction := 2 } 2 1
        = f.jac 1 * sqrt (f.metric 49 ^ 2 + f.metric 57 ^ 2 + f.metric 65 ^ 2)
            / (h0 * dx 2)) ∧
    ((allocate_normals sqrt h0 dx f surf_nx { face3 nn t1 h with direction := 1 }).dl1 (0, 0)
        = f.jac 0 * sqrt 0 / h0 / dx 1 ∧
      scale_factor sqrt h0 dx f { face3 nn t1 h with direction := 1 } 1 0
        = f.jac 0 * sqrt (f.metric 24 ^ 2 + f.metric 32 ^ 2 + f.metric 40 ^ 2)
            / (h0 * dx 1)) := by
  refine ⟨⟨?_, ?_⟩, ⟨?_, ?_⟩⟩
  · simp [allocate_normals, spacing_body, face3, forRange, irange, List.range_succ, store]
  · simp [scale_factor, face3, stencil_sum, irange, List.range_succ]
    rw [add_assoc]
  · simp [allocate_normals, spacing_body, face3, forRange, irange, List.range_succ, store]
  · simp [scale_factor, face3, stencil_sum, irange, List.range_succ]
    rw [add_assoc]

/-- C26: the triad `interface::apply_bcs` passes to the rotation of side 1 is
not orthonormal in general.  On the interface with unit normal `(1,0,0)` whose
members `nn`, `t1` hold `(0,1,0)` and `(0,0,0)`: the normal `nn1` is a unit
vector, the first tangent `t11`, which the pivot rule builds from `nn` (lines
341-353), has scalar product `1/sqrt(1)` with the normal, and the second
tangent `t12 = nn x t1` (lines 354-356) has squared length 0. -/
theorem apply_bcs_triad_not_orthonormal (E : bcs_env) (h : iffields) (f : fields) :
    dot3 (first_state E (face3 (fun l => if l = 1 then 1 else 0) (fun _ => 0) h) f).nn1
        (first_state E (face3 (fun l => if l = 1 then 1 else 0) (fun _ => 0) h) f).nn1 = 1 ∧
    dot3 (first_state E (face3 (fun l => if l = 1 then 1 else 0) (fun _ => 0) h) f).nn1
        (pivot_t11 E.sqrt (face3 (fun l => if l = 1 then 1 else 0) (fun _ => 0) h).nn)
      = 1 / E.sqrt 1 ∧
    dot3 (cross_t12 (face3 (fun l => if l = 1 then 1 else 0) (fun _ => 0) h).nn
          (face3 (fun l => if l = 1 then 1 else 0) (fun _ => 0) h).t1)
        (cross_t12 (face3 (fun l => if l = 1 then 1 else 0) (fun _ => 0) h).nn
          (face3 (fun l => if l = 1 then 1 else 0) (fun _ => 0) h).t1) = 0 := by
  refine ⟨?_, ?_, ?_⟩
  · simp [first_state, read_normal, face3, forRange, irange, List.range_succ, store, dot3]
  · simp [first_state, read_normal, face3, forRange, irange, List.range_succ, store, dot3,
      pivot_t11]
  · simp [face3, store, dot3, cross_t12]

theorem forRange_one {σ : Type} (body : Int → σ → σ) (s : σ) :
    forRange 0 1 body s = body 0 s := by
  simp [forRange, irange, List.range_succ]

/-- On the one-point interface the normal read leaves the derivative buffer as
it was and sets both scale factors to 1. -/
theorem first_state_face3 (E : bcs_env) (nn t1 : Int → ℚ) (h : iffields) (f : fields) :
    (first_state E (face3 nn t1 h) f).df = f.df ∧
    (first_state E (face3 nn t1 h) f).h1 = 1 ∧ (first_state E (face3 nn t1 h) f).h2 = 1 := by
  simp [first_state, read_normal, face3, forRange, irange, List.range_succ]

/-- The rows the penalty statements of the 3D block address at the two points
of the one-point interface: offset 0 is the `v_x` row of side 1 and offset 4
the `v_x` row of side 2. -/
theorem hits_sat_3d_face3 (nn t1 : Int → ℚ) (h : iffields) (dt w1 w2 h1 h2 : ℚ)
    (b1 b2 : boundfields) :
    hits (sat_3d (face3 nn t1 h) dt w1 w2 h1 h2 b1 b2 0 0 0) 0 = dt * w1 * h1 * b1.v1 ∧
    hits (sat_3d (face3 nn t1 h) dt w1 w2 h1 h2 b1 b2 0 0 0) 4 = dt * w2 * h2 * b2.v1 := by
  constructor <;> simp [hits, sat_3d, face3]

theorem face3_window (nn t1 : Int → ℚ) (h : iffields) :
    (face3 nn t1 h).no_data = false ∧ (face3 nn t1 h).mlb = (fun _ => 0) ∧
    (face3 nn t1 h).prb = (fun _ => 1) := ⟨rfl, rfl, rfl⟩

theorem sat_normal_face3 (nn t1 : Int → ℚ) (h : iffields) (dt h1 h2 : ℚ)
    (b1 b2 : boundfields) (i j k : Int) :
    sat_normal (face3 nn t1 h) dt h1 h2 b1 b2 i j k
      = sat_3d (face3 nn t1 h) dt 2 3 h1 h2 b1 b2 i j k := by
  simp [sat_normal, face3]

theorem sat_tangential_face3 (nn t1 : Int → ℚ) (h : iffields) (dt h1 h2 : ℚ)
    (b1 b2 : boundfields) (i j k : Int) :
    sat_tangential (face3 nn t1 h) dt h1 h2 b1 b2 i j k
      = sat_3d (face3 nn t1 h) dt 1 1 h1 h2 b1 b2 i j k := by
  simp [sat_tangential, face3]

theorem load_b2_face3 (nn t1 : Int → ℚ) (h : iffields) (f : fields) (u : boundfields) :
    load_b2 (face3 nn t1 h) f u 0 0 0 = load_3d (face3 nn t1 h) f 4 := by
  simp [load_b2, face3]

/-- The derivative buffer after `interface::apply_bcs` on the one-point
interface: the normal penalty statements use side 2's back-rotated normal
mismatch for side 1 and side 2's state as loaded for side 2; the tangential
penalty statements use each side's own back-rotated mismatch. -/
theorem apply_bcs_face3_df (E : bcs_env) (nn t1 : Int → ℚ) (h : iffields) (dt : ℚ)
    (f : fields) (a : Int) :
    ((face3 nn t1 h).apply_bcs E dt f).df a
      = f.df a
        - hits (sat_3d (face3 nn t1 h) dt 2 3 1 1
            (back2 E (face3 nn t1 h) f
              (normal_part (rotated2 E (face3 nn t1 h) f)
                (E.solve_interface (rotated1 E (face3 nn t1 h) f)
                  (rotated2 E (face3 nn t1 h) f)).v21
                (E.solve_interface (rotated1 E (face3 nn t1 h) f)
                  (rotated2 E (face3 nn t1 h) f)).s211))
            (load_3d (face3 nn t1 h) f 4) 0 0 0) a
        - hits (sat_3d (face3 nn t1 h) dt 1 1 1 1
            (back1 E (face3 nn t1 h) f
              (tangential_part (rotated1 E (face3 nn t1 h) f) h.v12 h.v13 h.s112 h.s113))
            (back2 E (face3 nn t1 h) f
              (tangential_part (rotated2 E (face3 nn t1 h) f) h.v22 h.v23 h.s212 h.s213))
            0 0 0) a := by
  obtain ⟨e1, e2, e3⟩ := first_state_face3 E nn t1 h f
  have hI : ((face3 nn t1 h).apply_bcs E dt f).df
      = sub_all (sat_tangential (face3 nn t1 h) dt (first_state E (face3 nn t1 h) f).h1
            (first_state E (face3 nn t1 h) f).h2
            (back1 E (face3 nn t1 h) f
              (tangential_part (rotated1 E (face3 nn t1 h) f) h.v12 h.v13 h.s112 h.s113))
            (back2 E (face3 nn t1 h) f
              (tangential_part (rotated2 E (face3 nn t1 h) f) h.v22 h.v23 h.s212 h.s213))
            0 0 0)
          (sub_all (sat_normal (face3 nn t1 h) dt (first_state E (face3 nn t1 h) f).h1
            (first_state E (face3 nn t1 h) f).h2
            (back2 E (face3 nn t1 h) f
              (normal_part (rotated2 E (face3 nn t1 h) f)
                (E.solve_interface (rotated1 E (face3 nn t1 h) f)
                  (rotated2 E (face3 nn t1 h) f)).v21
                (E.solve_interface (rotated1 E (face3 nn t1 h) f)
                  (rotated2 E (face3 nn t1 h) f)).s211))
            (load_b2 (face3 nn t1 h) f E.b_init 0 0 0) 0 0 0)
            (first_state E (face3 nn t1 h) f).df) := by
    obtain ⟨w1, w2, w3⟩ := face3_window nn t1 h
    unfold interface.apply_bcs back1 back2 rotated1 rotated2 first_state
    simp only [w1, w2, w3, forRange_one, Bool.false_eq_true, if_false]
    rfl
  rw [hI, sub_all_at, sub_all_at, e1, e2, e3, sat_normal_face3, sat_tangential_face3,
    load_b2_face3]

/-- C24: in `interface::apply_bcs` the sides are not each penalised toward
their own target in the normal term.  On the 3D one-point interface normal to
x (`cp1 = 2`, `cp2 = 3`, `cs1 = cs2 = 1`, `h1 = h2 = 1`), for every rotation
routine, every result of `solve_interface` and every state: the `v_x` entry of
side 1 (offset 0) loses `dt*cp1*h1` times the back-rotation, with side 2's
triad, of side 2's rotated normal mismatch, and the `v_x` entry of side 2
(offset 4) loses `dt*cp2*h2` times side 2's state `f.f[4]` as loaded, with no
rotation and no target; only the tangential terms are each side's own
back-rotated mismatch scaled by `cs1`, `cs2`. -/
theorem apply_bcs_normal_penalty_sides (E : bcs_env) (nn t1 : Int → ℚ) (h : iffields)
    (dt : ℚ) (f : fields) :
    ((face3 nn t1 h).apply_bcs E dt f).df 0
      = f.df 0
        - dt * 2 * 1 * (back2 E (face3 nn t1 h) f
            (normal_part (rotated2 E (face3 nn t1 h) f)
              (E.solve_interface (rotated1 E (face3 nn t1 h) f)
                (rotated2 E (face3 nn t1 h) f)).v21
              (E.solve_interface (rotated1 E (face3 nn t1 h) f)
                (rotated2 E (face3 nn t1 h) f)).s211)).v1
        - dt * 1 * 1 * (back1 E (face3 nn t1 h) f
            (tangential_part (rotated1 E (face3 nn t1 h) f) h.v12 h.v13 h.s112 h.s113)).v1 ∧
    ((face3 nn t1 h).apply_bcs E dt f).df 4
      = f.df 4 - dt * 3 * 1 * f.f 4
        - dt * 1 * 1 * (back2 E (face3 nn t1 h) f
            (tangential_part (rotated2 E (face3 nn t1 h) f) h.v22 h.v23 h.s212 h.s213)).v1 := by
  constructor
  · rw [apply_bcs_face3_df, (hits_sat_3d_face3 nn t1 h dt 2 3 1 1 _ _).1,
      (hits_sat_3d_face3 nn t1 h dt 1 1 1 1 _ _).1]
  · rw [apply_bcs_face3_df, (hits_sat_3d_face3 nn t1 h dt 2 3 1 1 _ _).2,
      (hits_sat_3d_face3 nn t1 h dt 1 1 1 1 _ _).2]
    simp [load_3d, face3]

/-- C25: `interface::apply_bcs` changes the derivative buffer on a locked
interface whose targets equal the current values.  On the 3D one-point
interface normal to x, when the back-rotation maps the zero state to the zero
state, the normal targets returned by `solve_interface` equal the rotated
normal velocity and traction of each side and the tangential targets equal
the rotated tangential components (so every mismatch is zero), the `v_x` entry
of side 1 is unchanged but the `v_x` entry of side 2 loses `dt*cp2*h2*f.f[4]`,
side 2's velocity itself. -/
theorem apply_bcs_locked_changes_df (E : bcs_env) (nn t1 : Int → ℚ) (h : iffields) (dt : ℚ)
    (f : fields)
    (hback : ∀ n a c : Int → ℚ, E.rotate_nt_xy boundfields.zero n a c = boundfields.zero)
    (hn : (E.solve_interface (rotated1 E (face3 nn t1 h) f)
              (rotated2 E (face3 nn t1 h) f)).v21 = (rotated2 E (face3 nn t1 h) f).v1 ∧
          (E.solve_interface (rotated1 E (face3 nn t1 h) f)
              (rotated2 E (face3 nn t1 h) f)).s211 = (rotated2 E (face3 nn t1 h) f).s11 ∧
          (E.solve_interface (rotated1 E (face3 nn t1 h) f)
              (rotated2 E (face3 nn t1 h) f)).v11 = (rotated1 E (face3 nn t1 h) f).v1 ∧
          (E.solve_interface (rotated1 E (face3 nn t1 h) f)
              (rotated2 E (face3 nn t1 h) f)).s111 = (rotated1 E (face3 nn t1 h) f).s11)
    (ht : (h.v12 = (rotated1 E (face3 nn t1 h) f).v2 ∧
            h.v13 = (rotated1 E (face3 nn t1 h) f).v3 ∧
            h.s112 = (rotated1 E (face3 nn t1 h) f).s12 ∧
            h.s113 = (rotated1 E (face3 nn t1 h) f).s13) ∧
          (h.v22 = (rotated2 E (face3 nn t1 h) f).v2 ∧
            h.v23 = (rotated2 E (face3 nn t1 h) f).v3 ∧
            h.s212 = (rotated2 E (face3 nn t1 h) f).s12 ∧
            h.s213 = (rotated2 E (face3 nn t1 h) f).s13)) :
    ((face3 nn t1 h).apply_bcs E dt f).df 0 = f.df 0 ∧
    ((face3 nn t1 h).apply_bcs E dt f).df 4 = f.df 4 - dt * 3 * 1 * f.f 4 := by
  obtain ⟨n1, n2, _, _⟩ := hn
  obtain ⟨⟨a1, a2, a3, a4⟩, ⟨c1, c2, c3, c4⟩⟩ := ht
  have z1 : ∀ r : boundfields, normal_part r r.v1 r.s11 = boundfields.zero := by
    intro r; simp [normal_part, boundfields.zero]
  have z2 : ∀ r : boundfields, tangential_part r r.v2 r.v3 r.s12 r.s13 = boundfields.zero := by
    intro r; simp [tangential_part, boundfields.zero]
  have zv : boundfields.zero.v1 = 0 := rfl
  constructor
  · rw [apply_bcs_face3_df, (hits_sat_3d_face3 nn t1 h dt 2 3 1 1 _ _).1,
      (hits_sat_3d_face3 nn t1 h dt 1 1 1 1 _ _).1, n1, n2, a1, a2, a3, a4, z1, z2]
    unfold back1 back2
    rw [hback, hback, zv]
    ring
  · rw [apply_bcs_face3_df, (hits_sat_3d_face3 nn t1 h dt 2 3 1 1 _ _).2,
      (hits_sat_3d_face3 nn t1 h dt 1 1 1 1 _ _).2, c1, c2, c3, c4, z2]
    unfold back2
    rw [hback, zv]
    simp [load_3d, face3]

theorem apply_bcs_locked_changes_df_witness :
    ((face3 (fun l => if l = 0 then 1 else 0) (fun l => if l = 1 then 1 else 0)
        ⟨1, 1, 1, 1, 1, 1, 1, 1, 1, 1, 1, 1⟩).apply_bcs env_id 1
          (fields_of (fun _ => 1) (fun _ => 1))).df 0
      = (fields_of (fun _ => 1) (fun _ => 1)).df 0 ∧
    ((face3 (fun l => if l = 0 then 1 else 0) (fun l => if l = 1 then 1 else 0)
        ⟨1, 1, 1, 1, 1, 1, 1, 1, 1, 1, 1, 1⟩).apply_bcs env_id 1
          (fields_of (fun _ => 1) (fun _ => 1))).df 4
      = (fields_of (fun _ => 1) (fun _ => 1)).df 4
        - 1 * 3 * 1 * (fields_of (fun _ => 1) (fun _ => 1)).f 4 :=
  apply_bcs_locked_changes_df env_id (fun l => if l = 0 then 1 else 0)
    (fun l => if l = 1 then 1 else 0) ⟨1, 1, 1, 1, 1, 1, 1, 1, 1, 1, 1, 1⟩ 1
    (fields_of (fun _ => 1) (fun _ => 1)) (fun _ _ _ => rfl)
    ⟨rfl, rfl, rfl, rfl⟩ ⟨⟨rfl, rfl, rfl, rfl⟩, ⟨rfl, rfl, rfl, rfl⟩⟩

/-! ## The extent of the reads of `calc_df` -/

theorem blockUp_facts :
    ((set_dx blockUp).mlb 0 = 0 ∧ (set_dx blockUp).mc 0 = 2 ∧ (set_dx blockUp).mrb 0 = 2 ∧
      (set_dx blockUp).prb 0 = 4) ∧
    ((set_dx blockUp).mlb 1 = 4 ∧ (set_dx blockUp).mc 1 = 6 ∧ (set_dx blockUp).mrb 1 = 6 ∧
      (set_dx blockUp).prb 1 = 8) ∧
    ((set_dx blockUp).mlb 2 = 0 ∧ (set_dx blockUp).mc 2 = 2 ∧ (set_dx blockUp).mrb 2 = 2 ∧
      (set_dx blockUp).prb 2 = 4) ∧
    ((set_dx blockUp).nxd 0 = 128 ∧ (set_dx blockUp).nxd 1 = 32 ∧
      (set_dx blockUp).nxd 2 = 4) ∧
    (set_dx blockUp).ndim = 3 ∧ (set_dx blockUp).no_data = false := by
  decide

theorem blockUp_dx (d : Nat) (hd : d < 3) : (set_dx blockUp).dx d = 1 / 3 := by
  rw [set_dx_dx blockUp d hd]
  have h : blockUp.c.nx d = 4 := by interval_cases d <;> decide
  rw [h]; norm_num

/-- The `s_xz` entry of the derivative buffer at the owned point `(0,4,0)` of
the block with y range `[4,8)` after `calc_df` with unit material, `dt = 1`,
unit Jacobian, a state that is zero except `v_z = 1` at the point `(0,5,0)`,
and a metric that is 1 except for the value `m` of `metric[1][0]` at the point
`(0,0,0)`: the entry is `3*m`. -/
theorem calc_df_blockUp_sxz (m : ℚ) :
    (calc_df (set_dx blockUp) mat1 fd2 1 (fields_metric 384 m (state_spike 276 1))).df 656
      = 3 * m := by
  obtain ⟨⟨a1, a2, a3, a4⟩, ⟨b1, b2, b3, b4⟩, ⟨c1, c2, c3, c4⟩, ⟨n1, n2, n3⟩, hn, hd⟩ :=
    blockUp_facts
  have hx := blockUp_dx 0 (by decide)
  have hy := blockUp_dx 1 (by decide)
  have hz := blockUp_dx 2 (by decide)
  have e : (656 : Int) = ((5 : Nat) : Int) * (set_dx blockUp).nxd 0
      + (0 * (set_dx blockUp).nxd 1 + 4 * (set_dx blockUp).nxd 2 + 0) := by decide
  unfold calc_df
  rw [hd, if_neg (by decide), if_pos hn]
  unfold calc_df_3d
  dsimp only
  rw [e,
    calc_df_3d_z_at (set_dx blockUp) mat1 fd2 1 _ 4 8 4 (by decide) (by decide) 0 4 0
      (by decide) 5,
    calc_df_3d_y_at (set_dx blockUp) mat1 fd2 1 _ 4 8 4 (by decide) (by decide) 0 4 0
      (by decide) 5,
    calc_df_3d_x_at (set_dx blockUp) mat1 fd2 1 _ 4 8 4 (by decide) (by decide) 0 4 0
      (by decide) 5]
  simp [region_total, stencil_sum, irange, List.range_succ, row_value, df_3d_x_left,
    df_3d_x_interior, df_3d_x_right, df_3d_y_left, df_3d_y_interior, df_3d_y_right,
    df_3d_z_left, df_3d_z_interior, df_3d_z_right, metric_at, f_at, fd2, mat1,
    fields_metric, state_spike, a1, a2, a3, a4, b1, b2, b3, b4, c1, c2, c3, c4, n1, n2, n3,
    hn, hx, hy, hz]
  ring

/-- C21: `calc_df` reads a metric entry outside the block's owned-plus-ghost
extent.  The block of 4×4×4 points with y range `[4,8)` in a process array of
4×8×4 points has the extent `[0,4) × [4,8) × [0,4)` (no ghost layers), so the
grid point `(0,0,0)` lies outside it and `(0,4,0)` is owned.  With unit
material, `dt = 1`, unit Jacobian and a state that is zero except `v_z = 1` at
`(0,5,0)` (offset 276), changing only the entry `metric[1][0]` at the point
`(0,0,0)` (offset 384) from 1 to 2 changes the `s_xz` entry of the derivative
buffer at `(0,4,0)` (offset 656) from 3 to 6: the statement of block.cpp
1199 reads `f.metric[1*ndim*nxd[0]+0*nxd[0]+i*nxd[1]+i*nxd[2]+k]`, the point
`(i,i,k)`. -/
theorem calc_df_reads_outside_extent :
    ¬ in_window (set_dx blockUp) 0 0 0 ∧ owned (set_dx blockUp) 0 4 0 ∧
    (calc_df (set_dx blockUp) mat1 fd2 1 (fields_metric 384 1 (state_spike 276 1))).df 656
      = 3 ∧
    (calc_df (set_dx blockUp) mat1 fd2 1 (fields_metric 384 2 (state_spike 276 1))).df 656
      = 6 := by
  refine ⟨by decide, by decide, ?_, ?_⟩
  · rw [calc_df_blockUp_sxz]; norm_num
  · rw [calc_df_blockUp_sxz]; norm_num

/-! ## The pivot rule on its own -/

theorem cross_t12_entries (n t : Int → ℚ) :
    cross_t12 n t 0 = n 1 * t 2 - n 2 * t 1 ∧ cross_t12 n t 1 = n 2 * t 0 - n 0 * t 2 ∧
    cross_t12 n t 2 = n 0 * t 1 - n 1 * t 0 := by
  refine ⟨?_, ?_, ?_⟩ <;> simp [cross_t12, store]

/-- A vector `t` orthogonal to `n` whose non-zero entries are `∓q*u`, `±p*u`
for two entries `p`, `q` of the unit vector `n` with `p^2 + q^2 = s^2` and
`s*u = 1` is a unit vector, and so is `n x t`; the three are orthogonal. -/
theorem triad_core (n t : Int → ℚ) (hunit : dot3 n n = 1) (hnt : dot3 n t = 0)
    (htt : dot3 t t = 1) :
    (dot3 n t = 0 ∧ dot3 t t = 1) ∧
    (dot3 n (cross_t12 n t) = 0 ∧ dot3 t (cross_t12 n t) = 0 ∧
      dot3 (cross_t12 n t) (cross_t12 n t) = 1) := by
  obtain ⟨e0, e1, e2⟩ := cross_t12_entries n t
  refine ⟨⟨hnt, htt⟩, ?_, ?_, ?_⟩
  · unfold dot3; rw [e0, e1, e2]; ring
  · unfold dot3; rw [e0, e1, e2]; ring
  · unfold dot3 at hunit hnt htt ⊢
    rw [e0, e1, e2]
    linear_combination
      (t 0 * t 0 + t 1 * t 1 + t 2 * t 2) * hunit + htt
        - (n 0 * t 0 + n 1 * t 1 + n 2 * t 2) * hnt

/-- The pivot rule itself is sound: applied to a unit vector `n`, with a `sqrt`
that is exact on the two sums of squares the rule uses, the first tangent
`t = pivot_t11 sqrt n` and the cross product `n x t` complete `n` to an
orthonormal triad, and the rule does not divide by zero. -/
theorem pivot_rule_orthonormal (sqrt : ℚ → ℚ) (n : Int → ℚ) (hunit : dot3 n n = 1)
    (hs1 : sqrt (n 0 ^ 2 + n 1 ^ 2) * sqrt (n 0 ^ 2 + n 1 ^ 2) = n 0 ^ 2 + n 1 ^ 2)
    (hs2 : sqrt (n 0 ^ 2 + n 2 ^ 2) * sqrt (n 0 ^ 2 + n 2 ^ 2) = n 0 ^ 2 + n 2 ^ 2) :
    (dot3 n (pivot_t11 sqrt n) = 0 ∧ dot3 (pivot_t11 sqrt n) (pivot_t11 sqrt n) = 1) ∧
    (dot3 n (cross_t12 n (pivot_t11 sqrt n)) = 0 ∧
      dot3 (pivot_t11 sqrt n) (cross_t12 n (pivot_t11 sqrt n)) = 0 ∧
      dot3 (cross_t12 n (pivot_t11 sqrt n)) (cross_t12 n (pivot_t11 sqrt n)) = 1) := by
  by_cases c1 : |n 0| > |n 1| ∧ |n 0| > |n 2|
  · have h0 : n 0 ≠ 0 := by
      intro h; rw [h, abs_zero] at c1; exact absurd c1.1 (not_lt.mpr (abs_nonneg _))
    have hpos : 0 < n 0 ^ 2 + n 1 ^ 2 := by positivity
    have hs : sqrt (n 0 ^ 2 + n 1 ^ 2) ≠ 0 := by
      intro h; rw [h] at hs1; linarith
    have hu := mul_inv_cancel₀ hs
    have t0 : pivot_t11 sqrt n 0 = -n 1 * (sqrt (n 0 ^ 2 + n 1 ^ 2))⁻¹ := by
      simp [pivot_t11, c1, store, div_eq_mul_inv]
    have t1 : pivot_t11 sqrt n 1 = n 0 * (sqrt (n 0 ^ 2 + n 1 ^ 2))⁻¹ := by
      simp [pivot_t11, c1, store, div_eq_mul_inv]
    have t2 : pivot_t11 sqrt n 2 = 0 := by
      simp [pivot_t11, c1, store]
    generalize sqrt (n 0 ^ 2 + n 1 ^ 2) = s at *
    generalize s⁻¹ = u at *
    apply triad_core n _ hunit
    · unfold dot3; rw [t0, t1, t2]; ring
    · unfold dot3; rw [t0, t1, t2]
      linear_combination (-u ^ 2) * hs1 + (s * u + 1) * hu
  · by_cases c2 : |n 1| > |n 2|
    · have h1 : n 1 ≠ 0 := by
        intro h; rw [h, abs_zero] at c2; exact absurd c2 (not_lt.mpr (abs_nonneg _))
      have hpos : 0 < n 0 ^ 2 + n 1 ^ 2 := by positivity
      have hs : sqrt (n 0 ^ 2 + n 1 ^ 2) ≠ 0 := by
        intro h; rw [h] at hs1; linarith
      have hu := mul_inv_cancel₀ hs
      have t0 : pivot_t11 sqrt n 0 = n 1 * (sqrt (n 0 ^ 2 + n 1 ^ 2))⁻¹ := by
        simp [pivot_t11, c1, c2, store, div_eq_mul_inv]
      have t1 : pivot_t11 sqrt n 1 = -n 0 * (sqrt (n 0 ^ 2 + n 1 ^ 2))⁻¹ := by
        simp [pivot_t11, c1, c2, store, div_eq_mul_inv]
      have t2 : pivot_t11 sqrt n 2 = 0 := by
        simp [pivot_t11, c1, c2, store]
      generalize sqrt (n 0 ^ 2 + n 1 ^ 2) = s at *
      generalize s⁻¹ = u at *
      apply triad_core n _ hunit
      · unfold dot3; rw [t0, t1, t2]; ring
      · unfold dot3; rw [t0, t1, t2]
        linear_combination (-u ^ 2) * hs1 + (s * u + 1) * hu
    · have h2 : n 2 ≠ 0 := by
        intro h
        have e1 : n 1 = 0 := by
          rw [h, abs_zero] at c2
          exact abs_eq_zero.mp (le_antisymm (not_lt.mp c2) (abs_nonneg _))
        have e0 : n 0 ≠ 0 := by
          intro h0
          unfold dot3 at hunit
          rw [h, e1, h0] at hunit
          norm_num at hunit
        apply c1
        rw [h, e1, abs_zero]
        exact ⟨abs_pos.mpr e0, abs_pos.mpr e0⟩
      have hpos : 0 < n 0 ^ 2 + n 2 ^ 2 := by positivity
      have hs : sqrt (n 0 ^ 2 + n 2 ^ 2) ≠ 0 := by
        intro h; rw [h] at hs2; linarith
      have hu := mul_inv_cancel₀ hs
      have t0 : pivot_t11 sqrt n 0 = n 2 * (sqrt (n 0 ^ 2 + n 2 ^ 2))⁻¹ := by
        simp [pivot_t11, c1, c2, store, div_eq_mul_inv]
      have t1 : pivot_t11 sqrt n 1 = 0 := by
        simp [pivot_t11, c1, c2, store]
      have t2 : pivot_t11 sqrt n 2 = -n 0 * (sqrt (n 0 ^ 2 + n 2 ^ 2))⁻¹ := by
        simp [pivot_t11, c1, c2, store, div_eq_mul_inv]
      generalize sqrt (n 0 ^ 2 + n 2 ^ 2) = s at *
      generalize s⁻¹ = u at *
      apply triad_core n _ hunit
      · unfold dot3; rw [t0, t1, t2]; ring
      · unfold dot3; rw [t0, t1, t2]
        linear_combination (-u ^ 2) * hs2 + (s * u + 1) * hu

/-! ## Claims on the ghost counts, the closure ranges and the addressing -/

/-- C36: in the ghost loop of `calc_process_info`, for a process that owns
`n >= 1` points starting at `a` in the dimension, each ghost count is assigned
at most once: `xm < a < xp` (which sets `xm_ghost` to `order-1`) excludes
`a+n-1 = xm-1` (which sets `xm_ghost` to 1), and `xm < a+n-1 < xp` (which sets
`xp_ghost` to `order-1`) excludes `a = xp+1` (which sets `xp_ghost` to 1); so
the two `if` statements give the same descriptor in either order. -/
theorem ghost_statements_commute (cart : cartesian) (c0 c : coord) (sbporder : Int) (i : Nat)
    (hn : 1 ≤ cart.nx_loc i) :
    ((cart.xm_loc i > c0.xm i ∧ cart.xm_loc i < c0.get_xp i) →
      ¬ (cart.xm_loc i + cart.nx_loc i - 1 = c0.xm i - 1)) ∧
    ((cart.xm_loc i + cart.nx_loc i - 1 > c0.xm i ∧
        cart.xm_loc i + cart.nx_loc i - 1 < c0.get_xp i) →
      ¬ (cart.xm_loc i = c0.get_xp i + 1)) ∧
    ghost_high cart c0 sbporder (ghost_low cart c0 sbporder c i) i
      = ghost_low cart c0 sbporder (ghost_high cart c0 sbporder c i) i := by
  refine ⟨fun h => by omega, fun h => by omega, ?_⟩
  unfold ghost_high ghost_low
  simp only []
  split_ifs <;> first | rfl | omega

theorem ghost_statements_commute_witness :
    ghost_high (cartAt 2 4) blockA.c 2 (ghost_low (cartAt 2 4) blockA.c 2 blockA.c 0) 0
      = ghost_low (cartAt 2 4) blockA.c 2 (ghost_high (cartAt 2 4) blockA.c 2 blockA.c 0) 0 :=
  (ghost_statements_commute (cartAt 2 4) blockA.c blockA.c 2 0 (by decide)).2.2

/-- C35: for a dimension with more than one point in which the local range is
the whole block (both local edges are block edges) and a stencil order of at
least 1, the constructor's indices satisfy `mlb <= mc <= mrb <= prb` if and
only if `nx_loc >= 4*(order-1)`; in that case every index of the owned range
`[mlb, prb)` lies in exactly one of the left closure `[mlb, mc)`, the interior
`[mc, mrb)` and the right closure `[mrb, prb)`, and for a smaller block some
index lies in both closures. -/
theorem init_indices_regions_ordered_iff (b : block) (cart : cartesian) (fd : fd_type)
    (i : Nat) (hi : i < 3) (hnx : b.c.nx i > 1) (hlo : b.c.xm_loc i = b.c.xm i)
    (hhi : b.c.get_xp_loc i = b.c.get_xp i) (hs : 1 ≤ fd.sbporder) :
    (((init_indices b cart fd).mlb i ≤ (init_indices b cart fd).mc i ∧
        (init_indices b cart fd).mc i ≤ (init_indices b cart fd).mrb i ∧
        (init_indices b cart fd).mrb i ≤ (init_indices b cart fd).prb i)
      ↔ b.c.nx_loc i ≥ 4 * (fd.sbporder - 1)) ∧
    (b.c.nx_loc i ≥ 4 * (fd.sbporder - 1) →
      ∀ t : Int, (init_indices b cart fd).mlb i ≤ t → t < (init_indices b cart fd).prb i →
        (((init_indices b cart fd).mlb i ≤ t ∧ t < (init_indices b cart fd).mc i) ∧
          ¬ ((init_indices b cart fd).mc i ≤ t ∧ t < (init_indices b cart fd).mrb i) ∧
          ¬ ((init_indices b cart fd).mrb i ≤ t ∧ t < (init_indices b cart fd).prb i)) ∨
        (¬ ((init_indices b cart fd).mlb i ≤ t ∧ t < (init_indices b cart fd).mc i) ∧
          ((init_indices b cart fd).mc i ≤ t ∧ t < (init_indices b cart fd).mrb i) ∧
          ¬ ((init_indices b cart fd).mrb i ≤ t ∧ t < (init_indices b cart fd).prb i)) ∨
        (¬ ((init_indices b cart fd).mlb i ≤ t ∧ t < (init_indices b cart fd).mc i) ∧
          ¬ ((init_indices b cart fd).mc i ≤ t ∧ t < (init_indices b cart fd).mrb i) ∧
          ((init_indices b cart fd).mrb i ≤ t ∧ t < (init_indices b cart fd).prb i))) ∧
    (b.c.nx_loc i < 4 * (fd.sbporder - 1) →
      ∃ t : Int, ((init_indices b cart fd).mlb i ≤ t ∧ t < (init_indices b cart fd).mc i) ∧
        ((init_indices b cart fd).mrb i ≤ t ∧ t < (init_indices b cart fd).prb i)) := by
  have hloc : b.c.nx_loc i = b.c.nx i := by
    unfold coord.get_xp_loc coord.get_xp at hhi
    omega
  rw [init_indices_eq]
  simp only [index_fold_mlb, index_fold_mc, index_fold_mrb, index_fold_prb, hi, if_true]
  rw [if_pos ⟨hlo, hnx⟩, if_pos ⟨hhi, hnx⟩]
  refine ⟨⟨fun h => by omega, fun h => ⟨by omega, by omega, by omega⟩⟩, fun h t h1 h2 => ?_,
    fun h => ?_⟩
  · by_cases c1 : t < b.c.xm_loc i - cart.xm_loc i + cart.xm_ghost i + 2 * (fd.sbporder - 1)
    · exact Or.inl ⟨⟨h1, c1⟩, by omega, by omega⟩
    · by_cases c2 : t < b.c.xm_loc i - cart.xm_loc i + cart.xm_ghost i + b.c.nx_loc i
          - 2 * (fd.sbporder - 1)
      · exact Or.inr (Or.inl ⟨by omega, ⟨by omega, c2⟩, by omega⟩)
      · exact Or.inr (Or.inr ⟨by omega, by omega, ⟨by omega, h2⟩⟩)
  · by_cases c : 2 * (fd.sbporder - 1) ≤ b.c.nx_loc i
    · exact ⟨b.c.xm_loc i - cart.xm_loc i + cart.xm_ghost i + b.c.nx_loc i
        - 2 * (fd.sbporder - 1), ⟨by omega, by omega⟩, ⟨by omega, by omega⟩⟩
    · exact ⟨b.c.xm_loc i - cart.xm_loc i + cart.xm_ghost i, ⟨by omega, by omega⟩,
        ⟨by omega, by omega⟩⟩

theorem init_indices_regions_ordered_iff_witness :
    (block3.mlb 0 ≤ block3.mc 0 ∧ block3.mc 0 ≤ block3.mrb 0 ∧ block3.mrb 0 ≤ block3.prb 0)
      ↔ (calc_process_info (blockOne 3 4) (cartOne 4) 2).c.nx_loc 0 ≥ 4 * (fd2.sbporder - 1) :=
  (init_indices_regions_ordered_iff (calc_process_info (blockOne 3 4) (cartOne 4) 2)
    (cartOne 4) fd2 0 (by decide) (by decide) (by decide) (by decide) (by decide)).1

/-- C34: grid-point addressing is row-major and alias-free.  With strides
`nxd = (n0*n1*n2, n1*n2, n2)` for positive totals, the flat offset
`c*nxd[0] + i*nxd[1] + j*nxd[2] + k` determines the component `c` and the
indices `0 <= i < n0`, `0 <= j < n1`, `0 <= k < n2`, and the metric offset
`l*ndim*nxd[0] + m*nxd[0] + i*nxd[1] + j*nxd[2] + k` determines `l`,
`0 <= m < ndim` and the indices. -/
theorem addressing_injective (b : block) (n0 n1 n2 : Int)
    (hpos : 0 < n0 ∧ 0 < n1 ∧ 0 < n2)
    (hnxd : b.nxd 0 = n0 * n1 * n2 ∧ b.nxd 1 = n1 * n2 ∧ b.nxd 2 = n2) :
    (∀ c i j k c' i' j' k' : Int,
      (0 ≤ i ∧ i < n0) → (0 ≤ j ∧ j < n1) → (0 ≤ k ∧ k < n2) →
      (0 ≤ i' ∧ i' < n0) → (0 ≤ j' ∧ j' < n1) → (0 ≤ k' ∧ k' < n2) →
      xidx b c i j k = xidx b c' i' j' k' → c = c' ∧ i = i' ∧ j = j' ∧ k = k') ∧
    (∀ l m i j k l' m' i' j' k' : Int,
      (0 ≤ m ∧ m < b.ndim) → (0 ≤ m' ∧ m' < b.ndim) →
      (0 ≤ i ∧ i < n0) → (0 ≤ j ∧ j < n1) → (0 ≤ k ∧ k < n2) →
      (0 ≤ i' ∧ i' < n0) → (0 ≤ j' ∧ j' < n1) → (0 ≤ k' ∧ k' < n2) →
      midx b l m i j k = midx b l' m' i' j' k' →
        l = l' ∧ m = m' ∧ i = i' ∧ j = j' ∧ k = k') := by
  obtain ⟨p0, p1, p2⟩ := hpos
  obtain ⟨h0, h1, h2⟩ := hnxd
  constructor
  · intro c i j k c' i' j' k' ⟨_, _⟩ ⟨_, _⟩ ⟨_, _⟩ ⟨_, _⟩ ⟨_, _⟩ ⟨_, _⟩ he
    unfold xidx at he
    rw [h0, h1, h2] at he
    have e1 := radix_inj n2 ((c * n0 + i) * n1 + j) k ((c' * n0 + i') * n1 + j') k'
      (by omega) (by omega) (by omega) (by omega) (by linarith)
    have e2 := radix_inj n1 (c * n0 + i) j (c' * n0 + i') j'
      (by omega) (by omega) (by omega) (by omega) e1.1
    have e3 := radix_inj n0 c i c' i' (by omega) (by omega) (by omega) (by omega) e2.1
    exact ⟨e3.1, e3.2, e2.2, e1.2⟩
  · intro l m i j k l' m' i' j' k' ⟨_, _⟩ ⟨_, _⟩ ⟨_, _⟩ ⟨_, _⟩ ⟨_, _⟩ ⟨_, _⟩ ⟨_, _⟩ ⟨_, _⟩ he
    unfold midx at he
    rw [h0, h1, h2] at he
    have e1 := radix_inj n2 (((l * b.ndim + m) * n0 + i) * n1 + j) k
      (((l' * b.ndim + m') * n0 + i') * n1 + j') k' (by omega) (by omega) (by omega)
      (by omega) (by linarith)
    have e2 := radix_inj n1 ((l * b.ndim + m) * n0 + i) j ((l' * b.ndim + m') * n0 + i') j'
      (by omega) (by omega) (by omega) (by omega) e1.1
    have e3 := radix_inj n0 (l * b.ndim + m) i (l' * b.ndim + m') i'
      (by omega) (by omega) (by omega) (by omega) e2.1
    have e4 := radix_inj (b.ndim : Int) l m l' m' (by omega) (by omega) (by omega) (by omega)
      e3.1
    exact ⟨e4.1, e4.2, e3.2, e2.2, e1.2⟩

theorem addressing_injective_witness :
    (∀ c i j k c' i' j' k' : Int,
      (0 ≤ i ∧ i < 4) → (0 ≤ j ∧ j < 4) → (0 ≤ k ∧ k < 4) →
      (0 ≤ i' ∧ i' < 4) → (0 ≤ j' ∧ j' < 4) → (0 ≤ k' ∧ k' < 4) →
      xidx block3 c i j k = xidx block3 c' i' j' k' → c = c' ∧ i = i' ∧ j = j' ∧ k = k') ∧
    (∀ l m i j k l' m' i' j' k' : Int,
      (0 ≤ m ∧ m < block3.ndim) → (0 ≤ m' ∧ m' < block3.ndim) →
      (0 ≤ i ∧ i < 4) → (0 ≤ j ∧ j < 4) → (0 ≤ k ∧ k < 4) →
      (0 ≤ i' ∧ i' < 4) → (0 ≤ j' ∧ j' < 4) → (0 ≤ k' ∧ k' < 4) →
      midx block3 l m i j k = midx block3 l' m' i' j' k' →
        l = l' ∧ m = m' ∧ i = i' ∧ j = j' ∧ k = k') :=
  addressing_injective block3 4 4 4 (by decide) (by decide)

/-! ## Claims on the interface constructor and the loaded states -/

/-- C37: the states `interface::apply_bcs` loads, entry by entry of `f.f`.  In
2D mode III side 1's state `(v3, s13, s23)` is read from components 0, 1, 2 at
the point `(i,j,k)+delta`, the point side 2's state is read from, so the two
loaded states are equal for every field; in 3D side 1 is read from components
0..8 at the window point `(i,j,k)` and side 2 from the same components at
`(i,j,k)+delta`; in 2D mode II side 1 is read from components 0..4 at
`(i,j,k)` and side 2 at `(i,j,k)+delta`.  The entries that are not read are
set to zero. -/
theorem apply_bcs_loaded_states (I : interface) (f : fields) (u : boundfields)
    (i j k : Int) :
    (I.ndim = 2 → I.mode = 3 →
      load_b1 I f u i j k =
          { v1 := 0, v2 := 0,
            v3 := f.f (0 * I.nxd 0 + (i + I.delta 0) * I.nxd 1 + (j + I.delta 1) * I.nxd 2 + k + I.delta 2),
            s11 := 0, s12 := 0,
            s13 := f.f (1 * I.nxd 0 + (i + I.delta 0) * I.nxd 1 + (j + I.delta 1) * I.nxd 2 + k + I.delta 2),
            s22 := 0,
            s23 := f.f (2 * I.nxd 0 + (i + I.delta 0) * I.nxd 1 + (j + I.delta 1) * I.nxd 2 + k + I.delta 2),
            s33 := 0 } ∧
      load_b2 I f u i j k =
          { v1 := 0, v2 := 0,
            v3 := f.f (0 * I.nxd 0 + (i + I.delta 0) * I.nxd 1 + (j + I.delta 1) * I.nxd 2 + k + I.delta 2),
            s11 := 0, s12 := 0,
            s13 := f.f (1 * I.nxd 0 + (i + I.delta 0) * I.nxd 1 + (j + I.delta 1) * I.nxd 2 + k + I.delta 2),
            s22 := 0,
            s23 := f.f (2 * I.nxd 0 + (i + I.delta 0) * I.nxd 1 + (j + I.delta 1) * I.nxd 2 + k + I.delta 2),
            s33 := 0 } ∧
      load_b1 I f u i j k = load_b2 I f u i j k) ∧
    (I.ndim = 3 →
      load_b1 I f u i j k =
          { v1 := f.f (0 * I.nxd 0 + i * I.nxd 1 + j * I.nxd 2 + k),
            v2 := f.f (1 * I.nxd 0 + i * I.nxd 1 + j * I.nxd 2 + k),
            v3 := f.f (2 * I.nxd 0 + i * I.nxd 1 + j * I.nxd 2 + k),
            s11 := f.f (3 * I.nxd 0 + i * I.nxd 1 + j * I.nxd 2 + k),
            s12 := f.f (4 * I.nxd 0 + i * I.nxd 1 + j * I.nxd 2 + k),
            s13 := f.f (5 * I.nxd 0 + i * I.nxd 1 + j * I.nxd 2 + k),
            s22 := f.f (6 * I.nxd 0 + i * I.nxd 1 + j * I.nxd 2 + k),
            s23 := f.f (7 * I.nxd 0 + i * I.nxd 1 + j * I.nxd 2 + k),
            s33 := f.f (8 * I.nxd 0 + i * I.nxd 1 + j * I.nxd 2 + k) } ∧
      load_b2 I f u i j k =
          {
            v1 := f.f (0 * I.nxd 0 + (i + I.delta 0) * I.nxd 1 + (j + I.delta 1) * I.nxd 2 + k + I.delta 2),
            v2 := f.f (1 * I.nxd 0 + (i + I.delta 0) * I.nxd 1 + (j + I.delta 1) * I.nxd 2 + k + I.delta 2),
            v3 := f.f (2 * I.nxd 0 + (i + I.delta 0) * I.nxd 1 + (j + I.delta 1) * I.nxd 2 + k + I.delta 2),
            s11 := f.f (3 * I.nxd 0 + (i + I.delta 0) * I.nxd 1 + (j + I.delta 1) * I.nxd 2 + k + I.delta 2),
            s12 := f.f (4 * I.nxd 0 + (i + I.delta 0) * I.nxd 1 + (j + I.delta 1) * I.nxd 2 + k + I.delta 2),
            s13 := f.f (5 * I.nxd 0 + (i + I.delta 0) * I.nxd 1 + (j + I.delta 1) * I.nxd 2 + k + I.delta 2),
            s22 := f.f (6 * I.nxd 0 + (i + I.delta 0) * I.nxd 1 + (j + I.delta 1) * I.nxd 2 + k + I.delta 2),
            s23 := f.f (7 * I.nxd 0 + (i + I.delta 0) * I.nxd 1 + (j + I.delta 1) * I.nxd 2 + k + I.delta 2),
            s33 := f.f (8 * I.nxd 0 + (i + I.delta 0) * I.nxd 1 + (j + I.delta 1) * I.nxd 2 + k + I.delta 2) }) ∧
    (I.ndim = 2 → I.mode = 2 →
      load_b1 I f u i j k =
          { v1 := f.f (0 * I.nxd 0 + i * I.nxd 1 + j * I.nxd 2 + k),
            v2 := f.f (1 * I.nxd 0 + i * I.nxd 1 + j * I.nxd 2 + k), v3 := 0,
            s11 := f.f (2 * I.nxd 0 + i * I.nxd 1 + j * I.nxd 2 + k),
            s12 := f.f (3 * I.nxd 0 + i * I.nxd 1 + j * I.nxd 2 + k), s13 := 0,
            s22 := f.f (4 * I.nxd 0 + i * I.nxd 1 + j * I.nxd 2 + k), s23 := 0, s33 := 0 } ∧
      load_b2 I f u i j k =
          {
            v1 := f.f (0 * I.nxd 0 + (i + I.delta 0) * I.nxd 1 + (j + I.delta 1) * I.nxd 2 + k + I.delta 2),
            v2 := f.f (1 * I.nxd 0 + (i + I.delta 0) * I.nxd 1 + (j + I.delta 1) * I.nxd 2 + k + I.delta 2),
            v3 := 0,
            s11 := f.f (2 * I.nxd 0 + (i + I.delta 0) * I.nxd 1 + (j + I.delta 1) * I.nxd 2 + k + I.delta 2),
            s12 := f.f (3 * I.nxd 0 + (i + I.delta 0) * I.nxd 1 + (j + I.delta 1) * I.nxd 2 + k + I.delta 2),
            s13 := 0,
            s22 := f.f (4 * I.nxd 0 + (i + I.delta 0) * I.nxd 1 + (j + I.delta 1) * I.nxd 2 + k + I.delta 2),
            s23 := 0, s33 := 0 }) := by
  refine ⟨fun h2 h3 => ?_, fun h3 => ?_, fun h2 hm => ?_⟩
  · unfold load_b1 load_b2 load_mode3
    simp [h2, h3]
    repeat' constructor
    all_goals (congr 1; ring)
  · unfold load_b1 load_b2 load_3d
    simp only [h3, if_true, boundfields.mk.injEq]
    repeat' constructor
    all_goals (congr 1; ring)
  · unfold load_b1 load_b2 load_mode2
    simp [h2, hm]
    repeat' constructor
    all_goals (congr 1; ring)

theorem apply_bcs_loaded_states_witness :
    load_b1 face2_mode3 (fields_of (fun _ => 1) (fun a => (a : ℚ))) boundfields.zero 0 0 0
        = ⟨0, 0, 4, 0, 0, 12, 0, 20, 0⟩ ∧
      load_b1 face2_mode3 (fields_of (fun _ => 1) (fun a => (a : ℚ))) boundfields.zero 0 0 0
        = load_b2 face2_mode3 (fields_of (fun _ => 1) (fun a => (a : ℚ))) boundfields.zero
            0 0 0 :=
  have h := (apply_bcs_loaded_states face2_mode3 (fields_of (fun _ => 1) (fun a => (a : ℚ)))
    boundfields.zero 0 0 0).1 rfl rfl
  ⟨h.1.trans (by simp [fields_of, face2_mode3, face3]), h.2.2⟩

/-- The assertion on the point counts along index 2 fails when one of the two
blocks is two-dimensional: the accessor `get_nx(2)` violates `index < ndim`. -/
theorem assert_eq_index2 (b1 b2 : block) (h : b1.ndim = 2 ∨ b2.ndim = 2) :
    assert_eq (b1.get_nx 2) (b2.get_nx 2) = none := by
  unfold assert_eq block.get_nx block.get
  rcases h with h | h
  · simp [h]
  · by_cases c : (2 : Int) < (b1.ndim : Int) <;> simp [h, c]

/-- C38: construction of a locally resident interface involving a 2D block
never completes.  For the directions 0 and 1, when the process owns part of
the adjoining faces and one of the blocks has `ndim = 2`, the constructor
fails: the second transverse assertion of each case calls `get_nx(2)`
(interface.cpp 46, 84), whose own assertion `index < ndim` fails, whether or
not the blocks' point counts agree. -/
theorem interface_new_2d_fails (p : interface) (ndim_in mode_in : Int) (dir : Nat)
    (b1 b2 : block) (cart : cartesian) (hdir : dir < 2) (h2 : b1.ndim = 2 ∨ b2.ndim = 2)
    (hown : owns_face b1 b2 dir) :
    interface_new p ndim_in mode_in dir b1 b2 cart = none := by
  have hown' := either_side_here_of_owns b1 b2 dir hown
  have ha := assert_eq_index2 b1 b2 h2
  unfold interface_new
  by_cases c1 : ndim_in = 2 ∨ ndim_in = 3
  · by_cases c2 : mode_in = 2 ∨ mode_in = 3
    · by_cases c3 : p.direction ≥ 0 ∧ p.direction < p.ndim
      · rw [if_neg (not_not.mpr c1), if_neg (not_not.mpr c2), if_neg (not_not.mpr c3)]
        cases hh : either_side_here b1 b2 (dir : Int) with
        | none => rfl
        | some here =>
          cases here with
          | false => exact absurd hh hown'
          | true =>
            simp only [Option.bind_some, if_true, Bool.false_eq_true, if_false]
            interval_cases dir
            · simp only [Nat.cast_zero, if_true]
              unfold interface_case0
              rw [ha]
              cases assert_eq (b1.get_nx 1) (b2.get_nx 1) <;> rfl
            · simp only [Nat.cast_one, one_ne_zero, if_false, if_true]
              unfold interface_case1
              rw [ha]
              cases assert_eq (b1.get_nx 0) (b2.get_nx 0) <;> rfl
      · rw [if_neg (not_not.mpr c1), if_neg (not_not.mpr c2), if_pos c3]
    · rw [if_neg (not_not.mpr c1), if_pos c2]
  · rw [if_pos c1]

theorem interface_new_2d_fails_witness :
    interface_new interface0 2 2 (0 : Nat)
      (block.ofCoord 2 (coord.box (fun d => if d = 2 then 1 else 4) (fun _ => 0)
        (fun d => if d = 2 then 1 else 4) (fun _ => 0)))
      (block.ofCoord 2 (coord.box (fun d => if d = 2 then 1 else 4)
        (fun d => if d = 0 then 4 else 0) (fun d => if d = 2 then 1 else 4)
        (fun d => if d = 0 then 4 else 0)))
      (cartBox 8 4 1) = none :=
  interface_new_2d_fails interface0 2 2 0 _ _ (cartBox 8 4 1) (by decide) (Or.inl rfl)
    (by decide)

/-- C33: the window the interface constructor derives when only the positive
side is resident.  The negative side is a block of 4 points along the coupling
direction without local points; the positive side starts at global index 4,
is resident, and the process array has one ghost layer below it, so block 1's
last layer (global index 3) has array index `3 - 4 + 1 = 0`.  For the
directions 0 and 2 the constructor gives `mlb[dir] = 0`, `prb[dir] = 1` and
`delta[dir] = 1`; for direction 1 it gives `mlb[1] = 3`, `prb[1] = 4`: line
109 takes `b2.get_xp_loc(1)` where lines 70 and 148 take
`b2.get_xm_loc(dir)`. -/
theorem interface_new_positive_side_window :
    ((upper_block 1).c.xm 1 = lower_block.c.get_xp 1 + 1 ∧
      lower_block.c.get_xp 1 - (upper_cart 1).xm_loc 1 + (upper_cart 1).xm_ghost 1 = 0) ∧
    (interface_new interface0 3 2 0 lower_block (upper_block 0) (upper_cart 0)).map
        (fun I => (I.mlb 0, I.prb 0, I.delta 0)) = some (0, 1, 1) ∧
    (interface_new interface0 3 2 2 lower_block (upper_block 2) (upper_cart 2)).map
        (fun I => (I.mlb 2, I.prb 2, I.delta 2)) = some (0, 1, 1) ∧
    (interface_new interface0 3 2 1 lower_block (upper_block 1) (upper_cart 1)).map
        (fun I => (I.mlb 1, I.prb 1, I.delta 1)) = some (3, 4, 1) := by
  refine ⟨by decide, by decide, by decide, by decide⟩

/-- C40: block construction never aborts because of mismatched surface edges.
The loop of block.cpp 127-132 runs over the empty range `[0, 0)`, so for every
edge comparison the check succeeds without evaluating it, and the constructor
gives the same result as with a comparison that always fails; on the block of
4×4×4 points with such a comparison it returns a block and its grid. -/
theorem block_new_ignores_edges (b0 : block) (ndim_in mode_in : Int) (nx_in xm_in : Nat → Int)
    (cart : cartesian) (fd : fd_type) (f : fields) (surf : Nat → surface)
    (same_edge : Int → Int → Int → Int → Bool) (xp0 : XP)
    (exchange_grid : fields → fields) :
    edge_check same_edge = some () ∧
    block_new b0 ndim_in mode_in nx_in xm_in cart fd f surf same_edge xp0 exchange_grid
      = block_new b0 ndim_in mode_in nx_in xm_in cart fd f surf (fun _ _ _ _ => false) xp0
          exchange_grid ∧
    (block_new (blockOne 3 4) 3 2 (fun _ => 4) (fun _ => 0) (cartOne 4) fd2 fields0
        (affine_faces unit_map (set_dx block3).dx) (fun _ _ _ _ => false) (fun _ => 0)
        id).isSome = true := by
  have h : ∀ e : Int → Int → Int → Int → Bool, edge_check e = some () := by
    intro e
    simp [edge_check, forRange, irange]
  refine ⟨h same_edge, ?_, ?_⟩
  · unfold block_new
    simp only [h]
  · decide

/-! ## Claims on the 2D Jacobian and the initial fields -/

/-- C32: in a 2D block the entries `xp[2][0]`, `xp[2][1]`, `xp[2][2]` of the
scratch tensor keep their identity defaults `0`, `0`, `1` at every owned
point, and the Jacobian written by `set_grid` equals the 2×2 determinant
`xp[0][0]*xp[1][1] - xp[0][1]*xp[1][0]`, whatever `xp[0][2]` and `xp[1][2]`
hold.  The block's window lies inside the process array, the owned range is
within the local count (the extent of the scratch tensor), and the final ghost
exchange leaves the entry of the owned point as `set_grid` wrote it. -/
theorem set_grid_jac_2d (b : block) (surf : Nat → surface) (f : fields) (fd : fd_type)
    (xp0 : XP) (exchange_grid : fields → fields) (n0 n1 n2 : Int)
    (harr : in_array b n0 n1 n2) (h2 : b.ndim = 2)
    (hinit : ∀ d, d < 3 → b.prb d - b.mlb d ≤ b.c.nx_loc d)
    (i j k : Int) (hown : owned b i j k)
    (hex : ∀ g : fields, (exchange_grid g).jac (jidx b i j k) = g.jac (jidx b i j k)) :
    (xp_at b (set_grid_xp b surf f fd xp0) i j k 2 0 = 0 ∧
      xp_at b (set_grid_xp b surf f fd xp0) i j k 2 1 = 0 ∧
      xp_at b (set_grid_xp b surf f fd xp0) i j k 2 2 = 1) ∧
    (set_grid b surf f fd xp0 exchange_grid).2.jac (jidx b i j k)
      = xp_at b (set_grid_xp b surf f fd xp0) i j k 0 0
          * xp_at b (set_grid_xp b surf f fd xp0) i j k 1 1
        - xp_at b (set_grid_xp b surf f fd xp0) i j k 0 1
          * xp_at b (set_grid_xp b surf f fd xp0) i j k 1 0 := by
  have hu : ∀ m : Int, 0 ≤ m ∧ m < 3 →
      xp_at b (set_grid_xp b surf f fd xp0) i j k 2 m = if (2 : Int) = m then 1 else 0 :=
    fun m hm =>
      derivatives_untouched (set_dx b) fd (interpolate (set_dx b) surf f.x) xp0 hinit i j k
        hown 2 m ⟨by show ((b.ndim : Nat) : Int) ≤ 2; rw [h2]; decide, by decide⟩ hm
  have e0 := hu 0 (by decide)
  have e1 := hu 1 (by decide)
  have e2 := hu 2 (by decide)
  rw [if_neg (by decide)] at e0 e1
  rw [if_pos rfl] at e2
  refine ⟨⟨e0, e1, e2⟩, ?_⟩
  rw [set_grid_jac_eq b surf f fd xp0 exchange_grid n0 n1 n2 harr i j k hown hex]
  unfold jac_value
  rw [e0, e1, e2]
  ring

theorem set_grid_jac_2d_witness :
    (grid_of block2 shear_map).2.jac (jidx block2 1 2 0)
      = xp_at block2 (tensor_of block2 shear_map) 1 2 0 0 0
          * xp_at block2 (tensor_of block2 shear_map) 1 2 0 1 1
        - xp_at block2 (tensor_of block2 shear_map) 1 2 0 0 1
          * xp_at block2 (tensor_of block2 shear_map) 1 2 0 1 0 :=
  (set_grid_jac_2d block2 (affine_faces shear_map (set_dx block2).dx) fields0 fd2 (fun _ => 0)
    id 4 4 1 (by decide) (by decide) (by decide) 1 2 0 (by decide) (fun _ => rfl)).2

/-- A loop nest over the owned points leaves the observed value equal to `v`
when the body of one owned point sets it and the body of every other owned
point sets it or keeps it. -/
theorem owned_loop_sets {σ β : Type} {I : σ → Prop} {obs : σ → β} {v : β} (b : block)
    (body : Int → Int → Int → σ → σ) (hp : ∀ i j k, Pres I (body i j k))
    (hm : ∀ i j k, owned b i j k → MaySet I (body i j k) obs v)
    (i j k : Int) (ho : owned b i j k) (hs : Sets I (body i j k) obs v) :
    Sets I (forRange (b.mlb 0) (b.prb 0) (fun i s =>
      forRange (b.mlb 1) (b.prb 1) (fun j s =>
        forRange (b.mlb 2) (b.prb 2) (fun k s => body i j k s) s) s)) obs v := by
  obtain ⟨hi, hj, hk⟩ := ho
  have p3 : ∀ i' j', Pres I (forRange (b.mlb 2) (b.prb 2) (fun k s => body i' j' k s)) :=
    fun i' j' => forRange_pres _ _ _ (fun k' _ _ => hp i' j' k')
  have p2 : ∀ i', Pres I (forRange (b.mlb 1) (b.prb 1) (fun j s =>
      forRange (b.mlb 2) (b.prb 2) (fun k s => body i' j k s) s)) :=
    fun i' => forRange_pres _ _ _ (fun j' _ _ => p3 i' j')
  exact forRange_sets _ _ _ (fun i' _ _ => p2 i')
    (fun i' hi0 hi1 => forRange_maySet _ _ _ (fun j' _ _ => p3 i' j')
      (fun j' hj0 hj1 => forRange_maySet _ _ _ (fun k' _ _ => hp i' j' k')
        (fun k' hk0 hk1 => hm i' j' k' ⟨⟨hi0, hi1⟩, ⟨hj0, hj1⟩, ⟨hk0, hk1⟩⟩)))
    i hi.1 hi.2
    (forRange_sets _ _ _ (fun j' _ _ => p3 i j')
      (fun j' hj0 hj1 => forRange_maySet _ _ _ (fun k' _ _ => hp i j' k')
        (fun k' hk0 hk1 => hm i j' k' ⟨hi, ⟨hj0, hj1⟩, ⟨hk0, hk1⟩⟩))
      j hj.1 hj.2
      (forRange_sets _ _ _ (fun k' _ _ => hp i j k')
        (fun k' hk0 hk1 => hm i j k' ⟨hi, hj, ⟨hk0, hk1⟩⟩) k hk.1 hk.2 hs))

/-- A loop nest over the owned points keeps what every body keeps. -/
theorem owned_loop_keeps {σ β : Type} {I : σ → Prop} {obs : σ → β} (b : block)
    (body : Int → Int → Int → σ → σ) (hp : ∀ i j k, Pres I (body i j k))
    (hk : ∀ i j k, owned b i j k → Keeps I (body i j k) obs) :
    Keeps I (forRange (b.mlb 0) (b.prb 0) (fun i s =>
      forRange (b.mlb 1) (b.prb 1) (fun j s =>
        forRange (b.mlb 2) (b.prb 2) (fun k s => body i j k s) s) s)) obs := by
  have p3 : ∀ i' j', Pres I (forRange (b.mlb 2) (b.prb 2) (fun k s => body i' j' k s)) :=
    fun i' j' => forRange_pres _ _ _ (fun k' _ _ => hp i' j' k')
  have p2 : ∀ i', Pres I (forRange (b.mlb 1) (b.prb 1) (fun j s =>
      forRange (b.mlb 2) (b.prb 2) (fun k s => body i' j k s) s)) :=
    fun i' => forRange_pres _ _ _ (fun j' _ _ => p3 i' j')
  exact forRange_keeps _ _ _ (fun i' _ _ => p2 i')
    (fun i' hi0 hi1 => forRange_keeps _ _ _ (fun j' _ _ => p3 i' j')
      (fun j' hj0 hj1 => forRange_keeps _ _ _ (fun k' _ _ => hp i' j' k')
        (fun k' hk0 hk1 => hk i' j' k' ⟨⟨hi0, hi1⟩, ⟨hj0, hj1⟩, ⟨hk0, hk1⟩⟩)))

/-- The state buffer after the body of `init_fields` at `(i,j,k)`: the entries
of components 2 and 8 at the point hold the value computed from the
coordinates. -/
theorem init_point_f (exp : ℚ → ℚ) (b : block) (i j k : Int) (s : fields) :
    (init_point exp b i j k s).f
      = store (store s.f (xidx b 2 i j k) (init_value exp b s i j k)) (xidx b 8 i j k)
          (init_value exp b s i j k) := rfl

/-- C39: `init_fields` writes exactly the state components 2 and 8 at every
owned grid point, whatever `ndim` and `mode` are.  For an owned point
`(i,j,k)` the entries `f.f[2*nxd[0]+P]` and `f.f[8*nxd[0]+P]` hold the value
computed from the coordinates; every entry that is not component 2 or 8 of an
owned point is unchanged, and so are the other buffers; and the entry of
component 8 lies at or beyond offset `5*nxd[0]`, the end of a state vector of
5 components (2D mode II) or fewer.  The block's window lies inside the
process array. -/
theorem init_fields_writes (exp : ℚ → ℚ) (b : block) (f : fields) (n0 n1 n2 : Int)
    (harr : in_array b n0 n1 n2) (i j k : Int) (hown : owned b i j k) :
    ((init_fields exp b f).f (xidx b 2 i j k) = init_value exp b f i j k ∧
      (init_fields exp b f).f (xidx b 8 i j k) = init_value exp b f i j k) ∧
    (∀ a : Int, (∀ i' j' k', owned b i' j' k' →
        a ≠ xidx b 2 i' j' k' ∧ a ≠ xidx b 8 i' j' k') →
      (init_fields exp b f).f a = f.f a) ∧
    ((init_fields exp b f).x = f.x ∧ (init_fields exp b f).metric = f.metric ∧
      (init_fields exp b f).jac = f.jac ∧ (init_fields exp b f).df = f.df) ∧
    5 * b.nxd 0 ≤ xidx b 8 i j k := by
  have hp : ∀ i' j' k', Pres (fun s : fields => s.x = f.x) (init_point exp b i' j' k') :=
    fun i' j' k' s hs => hs
  have hv : ∀ (s : fields) (i' j' k' : Int), s.x = f.x →
      init_value exp b s i' j' k' = init_value exp b f i' j' k' := by
    intro s i' j' k' hs
    unfold init_value
    rw [hs]
  have hw := fun i' j' k' (h : owned b i' j' k') => owned_in_window b n0 n1 n2 harr i' j' k' h
  have hne : ∀ (c c' : Int) (i' j' k' : Int), owned b i' j' k' → c ≠ c' →
      xidx b c i j k ≠ xidx b c' i' j' k' := by
    intro c c' i' j' k' ho' hc he
    exact hc (xidx_inj b n0 n1 n2 harr c i j k c' i' j' k' (hw i j k hown) (hw i' j' k' ho')
      he).1
  have hset : ∀ c : Int, c = 2 ∨ c = 8 →
      (init_fields exp b f).f (xidx b c i j k) = init_value exp b f i j k := by
    intro c hc
    have hm : ∀ i' j' k', owned b i' j' k' →
        MaySet (fun s : fields => s.x = f.x) (init_point exp b i' j' k')
          (fun s => s.f (xidx b c i j k)) (init_value exp b f i j k) := by
      intro i' j' k' ho' s hs
      show (init_point exp b i' j' k' s).f _ = _ ∨ (init_point exp b i' j' k' s).f _ = _
      rw [init_point_f]
      by_cases he : xidx b c i j k = xidx b c i' j' k'
      · obtain ⟨_, rfl, rfl, rfl⟩ := xidx_inj b n0 n1 n2 harr c i j k c i' j' k' (hw i j k hown)
          (hw i' j' k' ho') he
        left
        rcases hc with rfl | rfl
        · rw [store_ne _ _ _ _ (hne 2 8 i j k hown (by decide)), store_same, hv s i j k hs]
        · rw [store_same, hv s i j k hs]
      · right
        rcases hc with rfl | rfl
        · rw [store_ne _ _ _ _ (hne 2 8 i' j' k' ho' (by decide)), store_ne _ _ _ _ he]
        · rw [store_ne _ _ _ _ he, store_ne _ _ _ _ (hne 8 2 i' j' k' ho' (by decide))]
    have hs : Sets (fun s : fields => s.x = f.x) (init_point exp b i j k)
        (fun s => s.f (xidx b c i j k)) (init_value exp b f i j k) := by
      intro s hs
      show (init_point exp b i j k s).f _ = _
      rw [init_point_f]
      rcases hc with rfl | rfl
      · rw [store_ne _ _ _ _ (hne 2 8 i j k hown (by decide)), store_same, hv s i j k hs]
      · rw [store_same, hv s i j k hs]
    exact owned_loop_sets b (init_point exp b) hp hm i j k hown hs f rfl
  refine ⟨⟨hset 2 (Or.inl rfl), hset 8 (Or.inr rfl)⟩, ?_, ⟨?_, ?_, ?_, ?_⟩, ?_⟩
  · intro a ha
    have hk : ∀ i' j' k', owned b i' j' k' →
        Keeps (fun s : fields => s.x = f.x) (init_point exp b i' j' k')
          (fun s => s.f a) := by
      intro i' j' k' ho' s _
      show (init_point exp b i' j' k' s).f a = s.f a
      rw [init_point_f, store_ne _ _ _ _ (ha i' j' k' ho').2,
        store_ne _ _ _ _ (ha i' j' k' ho').1]
    exact owned_loop_keeps b (init_point exp b) hp hk f rfl
  · exact (owned_loop_keeps b (init_point exp b) (fun _ _ _ => pres_true _)
      (fun _ _ _ _ _ _ => rfl) :
        Keeps (fun _ : fields => True) _ (fun s : fields => s.x)) f trivial
  · exact (owned_loop_keeps b (init_point exp b) (fun _ _ _ => pres_true _)
      (fun _ _ _ _ _ _ => rfl) :
        Keeps (fun _ : fields => True) _ (fun s : fields => s.metric)) f trivial
  · exact (owned_loop_keeps b (init_point exp b) (fun _ _ _ => pres_true _)
      (fun _ _ _ _ _ _ => rfl) :
        Keeps (fun _ : fields => True) _ (fun s : fields => s.jac)) f trivial
  · exact (owned_loop_keeps b (init_point exp b) (fun _ _ _ => pres_true _)
      (fun _ _ _ _ _ _ => rfl) :
        Keeps (fun _ : fields => True) _ (fun s : fields => s.df)) f trivial
  · have hb := jidx_bounds b n0 n1 n2 harr i j k hown
    unfold jidx at hb
    unfold xidx
    omega

theorem init_fields_writes_witness :
    ((init_fields (fun _ => 1) block2 fields0).f (xidx block2 2 1 2 0)
        = init_value (fun _ => 1) block2 fields0 1 2 0 ∧
      (init_fields (fun _ => 1) block2 fields0).f (xidx block2 8 1 2 0)
        = init_value (fun _ => 1) block2 fields0 1 2 0) ∧
    5 * block2.nxd 0 ≤ xidx block2 8 1 2 0 :=
  ⟨(init_fields_writes (fun _ => 1) block2 fields0 4 4 1 (by decide) 1 2 0 (by decide)).1,
   (init_fields_writes (fun _ => 1) block2 fields0 4 4 1 (by decide) 1 2 0 (by decide)).2.2.2⟩

/-! ## The reference coordinate of the interpolation -/

theorem blockEast_dx : (set_dx blockEast).dx 0 = 1 / 3 := by
  rw [set_dx_dx blockEast 0 (by decide)]
  have h : blockEast.c.nx 0 = 4 := by decide
  rw [h]
  norm_num

theorem blockEast_ref_coord : ref_coord (set_dx blockEast) 0 4 = 4 / 3 := by
  unfold ref_coord
  have h : (set_dx blockEast).c.xm_loc 0 - (set_dx blockEast).c.xm 0 + 4
      - (set_dx blockEast).c.xm_ghost 0 = 4 := by decide
  rw [h, blockEast_dx]
  norm_num

theorem blockEast_ref_zero (d : Nat) (hd : d = 1 ∨ d = 2) :
    ref_coord (set_dx blockEast) d 0 = 0 := by
  unfold ref_coord
  have h : (set_dx blockEast).c.xm_loc d - (set_dx blockEast).c.xm d + 0
      - (set_dx blockEast).c.xm_ghost d = 0 := by
    rcases hd with rfl | rfl <;> decide
  rw [h]
  simp

/-- The coordinate that `set_grid` leaves at a window point is the value of the
interpolation body there. -/
theorem set_grid_x_eq (b : block) (surf : Nat → surface) (f : fields) (fd : fd_type)
    (xp0 : XP) (exchange_grid : fields → fields) (n0 n1 n2 : Int)
    (harr : in_array b n0 n1 n2) (i j k l : Int) (hi : 0 ≤ i ∧ i < b.ndim)
    (hw : in_window b j k l)
    (hex : ∀ g : fields, (exchange_grid g).x (xidx b i j k l) = g.x (xidx b i j k l)) :
    (set_grid b surf f fd xp0 exchange_grid).2.x (xidx b i j k l)
      = tfi_value (set_dx b) surf i j k l := by
  show (exchange_grid _).x _ = _
  rw [hex, metric_loop_x]
  exact interpolate_at (set_dx b) surf f.x n0 n1 n2 harr i j k l hi hw

/-- C31: the reference coordinate that `set_grid` uses at array index
`j = mlb[d] + t` is `(xm_loc - xm + t)*dx[d]` plus the shift
`(mlb[d] - xm_ghost[d])*dx[d]`, for every block; the shift is zero only when
the block starts at the origin of the process array.  For the block with x
range `[4, 8)` on a process whose array holds `8 × 4 × 4` points, `mlb[0] = 4`
and the ghost depth is 0: at the first owned layer (`t = 0`, `j = 4`) the
claimed coordinate is `(4 - 4 + 0)*dx = 0`, the coordinate used is `4/3 > 1`,
and for the faces of the unit cube `set_grid` writes the x coordinate `4/3`
at that point. -/
theorem set_grid_reference_coordinate_shifted :
    (∀ (b : block) (d : Nat) (t : Int),
      ref_coord (set_dx b) d (b.mlb d + t)
        = ((b.c.xm_loc d - b.c.xm d + t : Int) : ℚ) * (set_dx b).dx d
          + ((b.mlb d - b.c.xm_ghost d : Int) : ℚ) * (set_dx b).dx d) ∧
    (owned blockEast 4 0 0 ∧ blockEast.mlb 0 = 4 ∧ blockEast.c.nx_loc 0 = 4 ∧
      blockEast.c.xm_ghost 0 = 0 ∧ blockEast.c.xm_loc 0 - blockEast.c.xm 0 + 0 = 0) ∧
    ((blockEast.c.xm_loc 0 - blockEast.c.xm 0 + 0 : Int) : ℚ) * (set_dx blockEast).dx 0 = 0 ∧
    ref_coord (set_dx blockEast) 0 (blockEast.mlb 0 + 0) = 4 / 3 ∧
    (grid_of blockEast unit_map).2.x (xidx blockEast 0 4 0 0) = 4 / 3 := by
  refine ⟨?_, by decide, ?_, ?_, ?_⟩
  · intro b d t
    unfold ref_coord
    show (((b.c.xm_loc d - b.c.xm d + (b.mlb d + t) - b.c.xm_ghost d : Int) : ℚ)) * _ = _
    push_cast
    ring
  · have h : blockEast.c.xm_loc 0 - blockEast.c.xm 0 + 0 = 0 := by decide
    rw [h]
    simp
  · have h : blockEast.mlb 0 + 0 = 4 := by decide
    rw [h]
    exact blockEast_ref_coord
  · have hx : (grid_of blockEast unit_map).2.x (xidx blockEast 0 4 0 0)
        = tfi_value (set_dx blockEast) (affine_faces unit_map (set_dx blockEast).dx) 0 4 0 0 :=
      set_grid_x_eq blockEast _ fields0 fd2 _ id 8 4 4 (by decide) 0 4 0 0 (by decide)
        (by decide) (fun _ => rfl)
    rw [hx, tfi_value_affine (set_dx blockEast) _ (fun _ => 0) unit_map
      (affine_faces_affine (set_dx blockEast) unit_map)
      (set_dx_dx_mul blockEast 1 (by decide) (by decide))
      (fun _ => set_dx_dx_mul blockEast 2 (by decide) (by decide)) 0 4 0 0 (by decide),
      blockEast_ref_coord, blockEast_ref_zero 1 (Or.inl rfl), blockEast_ref_zero 2 (Or.inr rfl)]
    simp [unit_map]

end fdfault
